import Mathlib

/-!
# Movement, attack and walk-delay scheduling of `src/map/unit.cpp`

A shallow embedding of the per-entity scheduling core of `unit.cpp`.

* The world (`World`) holds every block (`map_id2bl`), the pending timers of
  the timer service, the clock (`gettick`) and an opaque token for the state
  of the collaborating subsystems.
* Collaborators that are not part of `unit.cpp` (pathfinder, cell lookup,
  status, battle, scripts) are fields of `Env`: read-only queries take the
  world, and procedures with side effects go through `Env.hook`, which takes
  a call descriptor and returns a result and the new world.
* Presentation-layer calls (`clif_*`, `map_foreachinmovearea` with
  `clif_insight`/`clif_outsight`) only emit packets and are left out.
* C functions become functions `World → Int × World` (result, new world);
  `void` functions return the new world.
-/

namespace Rathena

/-! ## Constants -/

/-- INVALID_TIMER of `common/timer.hpp`. -/
abbrev INVALID_TIMER : Int := -1

/-- CLIF_WALK_TIMER of `unit.hpp`: an arbitrary handle value that is not INVALID_TIMER. -/
abbrev CLIF_WALK_TIMER : Int := -2

/-- DIR_MAX of `map.hpp`: number of compass directions. -/
abbrev DIR_MAX : Nat := 8

/-- MOVE_COST of `path.hpp`. -/
abbrev MOVE_COST : Int := 10

/-- MOVE_DIAGONAL_COST of `path.hpp`. -/
abbrev MOVE_DIAGONAL_COST : Int := 14

/-- WALK_SKILL_INTERVAL of `mob.hpp`. -/
abbrev WALK_SKILL_INTERVAL : Int := 5

/-- MIN_MOBLINKTIME of `mob.hpp`. -/
abbrev MIN_MOBLINKTIME : Int := 1000

/-- ATK_NONE of `battle.hpp` (enum damage_lv). -/
abbrev ATK_NONE : Int := 0

/-- USW_FIXPOS of `unit.hpp`. -/
abbrev USW_FIXPOS : Int := 1

/-- USW_MOVE_ONCE of `unit.hpp`. -/
abbrev USW_MOVE_ONCE : Int := 2

/-- USW_MOVE_FULL_CELL of `unit.hpp`. -/
abbrev USW_MOVE_FULL_CELL : Int := 4

/-- USW_FORCE_STOP of `unit.hpp`. -/
abbrev USW_FORCE_STOP : Int := 8

/-- USW_ALL of `unit.hpp`. -/
abbrev USW_ALL : Int := 15

/-- Lookup `dirx` (line 45): x offset of a direction; directions are taken modulo
the table for indices the C code never reads (it checks `>= DIR_MAX` first). -/
def dirx (dir : Nat) : Int :=
  [0, -1, -1, -1, 0, 1, 1, 1].getD dir 0

/-- Lookup `diry` (line 46): y offset of a direction. -/
def diry (dir : Nat) : Int :=
  [1, 1, 0, -1, -1, -1, 0, 1].getD dir 0

/-- Macro `direction_diagonal` of `map.hpp`: north-west, south-west, south-east, north-east. -/
def direction_diagonal (dir : Nat) : Bool :=
  dir == 1 || dir == 3 || dir == 5 || dir == 7

/-- The C test `v & mask` used as a condition. -/
def flagset (v mask : Int) : Bool :=
  Int.land v mask != 0

/-- The C test `type & ~USW_ALL` of `unit_stop_walking`: a bit above the four mode bits
is set, that is, `type >> 4` is not 0. -/
def above_usw_all (type : Int) : Bool :=
  Int.shiftRight type 4 != 0

/-- A one-bit field as an integer. -/
def b2i (b : Bool) : Int :=
  if b then 1 else 0

/-! ## Data model -/

/-- Block types (`enum bl_type` of `map.hpp`). -/
inductive bl_type where
  | BL_NUL | BL_PC | BL_MOB | BL_PET | BL_HOM | BL_MER | BL_ITEM | BL_SKILL | BL_NPC | BL_CHAT | BL_ELEM
  deriving DecidableEq, Repr

/-- Bit value of a block type (`enum bl_type`). -/
def bl_type.mask : bl_type → Int
  | .BL_NUL => 0x000
  | .BL_PC => 0x001
  | .BL_MOB => 0x002
  | .BL_PET => 0x004
  | .BL_HOM => 0x008
  | .BL_MER => 0x010
  | .BL_ITEM => 0x020
  | .BL_SKILL => 0x040
  | .BL_NPC => 0x080
  | .BL_CHAT => 0x100
  | .BL_ELEM => 0x200

/-- Cell checks passed to `map_getcell` (`cell_chk` of `map.hpp`). -/
inductive cell_chk where
  | CELL_CHKWALL | CELL_CHKNOPASS | CELL_CHKNOREACH | CELL_CHKICEWALL | CELL_CHKNPC | CELL_CHKPASS
  deriving DecidableEq, Repr

/-- Monster modes tested by this file (`enum e_mode`). -/
inductive e_mode where
  | MD_CANMOVE | MD_STATUS_IMMUNE | MD_ASSIST | MD_CASTSENSOR_IDLE | MD_CASTSENSOR_CHASE | MD_ANGRY
  deriving DecidableEq, Repr

/-- Mob skill states (`enum MobSkillState`). -/
inductive MobSkillState where
  | MSS_ANY | MSS_IDLE | MSS_WALK | MSS_LOOT | MSS_DEAD | MSS_BERSERK | MSS_ANGRY | MSS_RUSH | MSS_FOLLOW | MSS_ANYTARGET
  deriving DecidableEq, Repr

/-- The struct `walkpath_data` of `path.hpp`. The array `path` is a list; an index past
its end reads 0, the content of a zero-initialised array. -/
structure walkpath_data where
  path_len : Nat := 0
  path_pos : Nat := 0
  path : List Nat := []
  deriving DecidableEq

/-- The element `path[i]` of the array. -/
def walkpath_data.at (wpd : walkpath_data) (i : Nat) : Nat :=
  wpd.path.getD i 0

/-- The bit-field `state` of `struct unit_data`. -/
structure unit_state where
  walk_easy : Bool := false
  change_walk_target : Bool := false
  attack_continue : Bool := false
  step_attack : Bool := false
  running : Bool := false
  skillcastcancel : Bool := false
  blockedmove : Bool := false
  walk_script : Bool := false
  blockedskill : Bool := false
  deriving DecidableEq

/-- The control block `struct unit_data` of `unit.hpp` (the members this file's
scheduling code reads or writes). -/
structure unit_data where
  to_x : Int := 0
  to_y : Int := 0
  target : Int := 0
  target_to : Int := 0
  chaserange : Int := 0
  walktimer : Int := INVALID_TIMER
  attacktimer : Int := INVALID_TIMER
  skilltimer : Int := INVALID_TIMER
  steptimer : Int := INVALID_TIMER
  attackabletime : Int := 0
  canact_tick : Int := 0
  canmove_tick : Int := 0
  walkpath : walkpath_data := {}
  stepaction : Bool := false
  stepskill_id : Int := 0
  stepskill_lv : Int := 0
  skill_id : Int := 0
  skill_lv : Int := 0
  skilltarget : Int := 0
  skillx : Int := 0
  skilly : Int := 0
  target_count : Int := 0
  dir : Nat := 0
  /-- An `unsigned char` in `unit.hpp`: the counter wraps from 255 to 0. -/
  walk_count : Int := 0
  attacktarget_lv : Int := 0
  walk_done_event : String := ""
  state : unit_state := {}
  deriving DecidableEq

/-- The members of `struct status_change` read by `unit_can_move`, `unit_walktoxy`,
`unit_can_attack` and `unit_run`; `run` and `wugdash` are the entries `data[SC_RUN]` and
`data[SC_WUGDASH]`, none when the entry is NULL, else its `val1` and `val2`. -/
structure status_change where
  cant_move : Bool := false
  spiderweb : Bool := false
  dancing : Option (Int × Int) := none
  longing : Bool := false
  confusion : Bool := false
  manhole : Bool := false
  opt1 : Int := 0
  option_hide : Bool := false
  run : Option (Int × Nat) := none
  wugdash : Option (Int × Nat) := none
  deriving DecidableEq

/-- The members of `struct map_session_data` used here. `md`, `ed`, `hd`, `pd` are the
ids of the player's mercenary, elemental, homunculus and pet. -/
structure pc_data where
  head_dir : Int := 0
  issit : Bool := false
  vending : Bool := false
  buyingstore : Bool := false
  block_move : Bool := false
  npc_ontouch_empty : Bool := true
  pet_id : Int := 0
  md : Option Int := none
  ed : Option Int := none
  hd : Option Int := none
  pd : Option Int := none
  idletime : Int := 0
  canlog_tick : Int := 0
  canequip_tick : Int := 0
  hom_id : Int := 0
  mer_id : Int := 0
  ele_id : Int := 0
  menuskill_id : Int := 0
  menuskill_val : Int := 0
  storage_flag : Int := 0
  npc_shopid : Int := 0
  adopt_invite : Int := 0
  pvp_timer : Int := INVALID_TIMER
  pvp_rank : Int := 0
  hpmeter_visible : Bool := false
  debug_remove_map : Bool := false
  debug_file : Option String := none
  debug_line : Int := 0
  debug_func : String := ""
  deriving DecidableEq

/-- The members of `struct mob_data` used here (`range2`, `range3` are those of `md->db`). -/
structure mob_data where
  walktoxy_fail_count : Int := 0
  min_chase : Int := 0
  range2 : Int := 0
  range3 : Int := 0
  areanpc_id : Int := 0
  skillstate : MobSkillState := .MSS_IDLE
  aggressive : Bool := false
  dmgtick : Int := 0
  last_linktime : Int := 0
  spawn : Bool := true
  target_id : Int := 0
  skill_idx : Int := -1
  attacked_id : Int := 0
  spawn_timer : Int := INVALID_TIMER
  deletetimer : Int := INVALID_TIMER
  deriving DecidableEq

/-- A block: `struct block_list` (type, map, cell, `prev != NULL`) together with the
data of the structure that embeds it; `bl->id` is the key under which the world holds
the block. `master` and `masterteleport_timer` belong to homunculus, elemental, pet and
mercenary. -/
structure Block where
  type : bl_type
  m : Int := 0
  x : Int := 0
  y : Int := 0
  prev : Bool := true
  ud : unit_data := {}
  sc : Option status_change := none
  sd : pc_data := {}
  md : mob_data := {}
  master : Option Int := none
  masterteleport_timer : Int := INVALID_TIMER
  deriving DecidableEq

/-- Timer callbacks registered with the timer service. -/
inductive timer_func where
  | unit_walktoxy_timer | unit_attack_timer | unit_step_timer | unit_teleport_timer
  | unit_delay_walktoxy_timer | unit_delay_walktobl_timer | unit_walktobl_sub
  | unit_resume_running | unit_autopilot_timer | unit_autopilot_homunculus_timer
  | skill_castend_id | skill_castend_pos
  | pc_calc_pvprank_timer | mob_delayspawn | mob_timer_delete
  deriving DecidableEq, Repr

/-- One pending timer (`struct TimerData` of `common/timer.hpp`) with its handle. -/
structure TimerData where
  tid : Int
  tick : Int
  func : timer_func
  id : Int
  data : Int
  deriving DecidableEq

/-- The world: blocks by id (`map_id2bl`), the pending timers, the next free timer
handle, the clock (`gettick`) and the state of the collaborating subsystems. -/
structure World where
  units : Int → Option Block
  timers : List TimerData := []
  next_tid : Nat := 0
  gettick : Int := 0
  xstate : Nat := 0

/-- Calls into collaborating subsystems that may change the world. One call leads back
into this file: `unit_free`, which the walk timer makes in its death check (line 437).
`unit_free` removes the block from its map with `unit_remove_map_`, which stops the walk
with `unit_stop_walking`, which may run the walk timer: the walk timer therefore takes
the call from the environment, and `Env.reentrant` is the environment in which the call
is the function `unit_free` embedded below. For `map_moveblock` the call stands for the
reaction of the spatial index after the block has been moved. `status_change_end` is
`status_change_end(bl, SC_RUN, INVALID_TIMER)`, or the same for SC_WUGDASH,
`status_change_end_sc` is `status_change_end(bl, sc, INVALID_TIMER)` for the status named,
`npc_remove_map` the bookkeeping of the NPC subsystem when an NPC leaves its map, and
`collab` the call of the procedure named on a block with one argument, used for the
collaborators of `unit_run_hit`, `unit_remove_map_` and `unit_free`. -/
inductive ext_call where
  | map_moveblock (id x y tick : Int)
  | npc_event_do_id (event : String) (id : Int)
  | unit_free (id : Int)
  | npc_touchnext_areanpc (id : Int)
  | npc_touch_areanpc (id m x y : Int)
  | pc_cell_basilica (id : Int)
  | npc_touch_areanpc2 (id : Int)
  | mobskill_use (id tick event : Int)
  | mob_unlocktarget (id tick : Int)
  | pet_unlocktarget (id : Int)
  | mob_warpchase (id target : Int)
  | npc_click (id target : Int)
  | status_change_end (id : Int) (wugdash : Bool)
  | mob_linksearch (id target tick : Int)
  | pet_attackskill (id target : Int)
  | battle_weapon_attack (src target tick flag : Int)
  | pet_target_check (pd target : Int)
  | skill_castbegin_pc (id target skill_id skill_lv : Int)
  | skill_castbegin_pos (id x y skill_id skill_lv : Int)
  | skill_casttime (id target skill_id skill_lv casttime : Int)
  | skill_castfix_sc (id skill_id skill_lv casttime : Int)
  | skill_toggle_magicpower (id skill_id : Int)
  | mobskill_event (md src tick flag : Int)
  | status_change_end_cloak (id : Int) (exceed : Bool)
  | status_calc_bl (id : Int)
  | skill_castend_id (tid tick id data : Int)
  | skill_castend_pos (tid tick id data : Int)
  | status_change_end_sc (id : Int) (sc : String)
  | npc_remove_map (id : Int)
  | collab (name : String) (id arg : Int)
  deriving DecidableEq

/-- The collaborators of `unit.cpp` and the configuration it reads. -/
structure Env where
  /-- Whether the build defines OFFICIAL_WALKPATH. -/
  OFFICIAL_WALKPATH : Bool
  /-- Fields of `battle_config`. -/
  max_walk_path : Int
  official_cell_stack_limit : Int
  boss_icewall_walk_block : Int
  mob_icewall_walk_block : Int
  sdelay_attack_enable : Bool
  attack_direction_change : Int
  attack_walk_delay : Int
  pet_attack_support : Bool
  idle_attack : Bool
  plt_attack : Bool
  area_size : Int
  /-- Pathfinder `path_search`: the directions of the found path, or none. -/
  path_search : World → Int → Int → Int → Int → Int → Bool → cell_chk → Option (List Nat)
  path_search_long : World → Int → Int → Int → Int → Int → cell_chk → Bool
  /-- The call `map_closest_freecell(m, &x, &y, BL_CHAR|BL_NPC, 1)`: the free cell found. -/
  map_closest_freecell : World → Int → Int → Int → Option (Int × Int)
  map_getcell : World → Int → Int → Int → cell_chk → Bool
  /-- The call `map_count_oncell(m, x, y, BL_CHAR|BL_NPC, 1)`. -/
  map_count_oncell : World → Int → Int → Int → Int
  map_users : World → Int → Int
  map_random_dir : World → Int → Int → Int → Int × Int
  map_calc_dir : World → Int → Int → Int → Nat
  check_distance : Int → Int → Int → Bool
  check_distance_client : Int → Int → Int → Bool
  distance : Int → Int → Int
  status_get_speed : World → Int → Int
  status_get_range : World → Int → Int
  /-- Fields `rhw.range`, `adelay`, `amotion` of `status_get_status_data(src)`. -/
  rhw_range : World → Int → Int
  adelay : World → Int → Int
  amotion : World → Int → Int
  status_has_mode : World → Int → e_mode → Bool
  status_isdead : World → Int → Bool
  status_check_visibility : World → Int → Int → Bool
  /-- The call `status_check_skilluse(src, target, 0, 0)`. -/
  status_check_skilluse : World → Int → Int → Bool
  /-- The call `battle_check_target(src, target, BCT_ENEMY)`. -/
  battle_check_target : World → Int → Int → Int
  battle_check_range : World → Int → Int → Int → Bool
  pc_checkskill : World → Int → Int → Int
  pc_can_attack : World → Int → Int → Bool
  /-- The global `last_tick`. -/
  last_tick : World → Int
  /-- The test `skill_get_inf2(skill_id) & INF2_GUILD_SKILL`. -/
  skill_is_guild : Int → Bool
  /-- Subsystem procedures with side effects: the result and the new world. -/
  hook : ext_call → World → Int × World
  /-- Fields `ksprotection`, `min_skill_delay_limit` and the bit PLT_SKILL of
  `prevent_logout_trigger` of `battle_config`. -/
  ksprotection : Bool := false
  min_skill_delay_limit : Int := 100
  plt_skill : Bool := false
  /-- The combo and auto-target rules of `unit_skilluse_id2` (lines 1577-1657), which
  depend on the skill database and on status data outside this file: none when the request
  is refused (`skill_isNotOk`, no partner, no master), else the target id, the flag `combo`
  and the cast time that the rules leave. The arguments are the world, the caster, the
  requested target, the skill id and level and the cast time. -/
  skill_select : World → Int → Int → Int → Int → Int → Option (Int × Bool × Int) :=
    fun _ _ target_id _ _ casttime => some (target_id, false, casttime)
  mob_ksprotected : World → Int → Int → Bool := fun _ _ _ => false
  /-- The test `skill_get_inf2(skill_id) & INF2_NO_TARGET_SELF`. -/
  skill_no_target_self : Int → Bool := fun _ => false
  /-- The call `status_check_skilluse(src, target, skill_id, 0)`; the target is none for a
  ground skill. -/
  status_check_skill : World → Int → Option Int → Int → Bool := fun _ _ _ _ => true
  /-- The test `skill_get_inf2(skill_id) & INF2_NO_NEARNPC && skill_isNotOk_npcRange(src,
  skill_id, skill_lv, x, y)`. -/
  skill_near_npc : World → Int → Int → Int → Int → Int → Bool := fun _ _ _ _ _ _ => false
  /-- The test of lines 1751-1760: the skill is one of the summoning skills or AL_TELEPORT
  and the monster is a slave with an AI of its own. -/
  mob_slave_skill : World → Int → Int → Bool := fun _ _ _ => false
  /-- The call `skill_get_range2(src, skill_id, skill_lv, true)`. -/
  skill_get_range2 : World → Int → Int → Int → Int := fun _ _ _ _ => 1
  /-- The test `skill_get_state(skill_id) == ST_MOVE_ENABLE`. -/
  skill_move_enable : Int → Bool := fun _ => false
  /-- The call `battle_get_master(src)`: the id of the master. -/
  battle_get_master : World → Int → Option Int := fun _ _ => none
  /-- The call `battle_check_range(src, &bl, range)` on a cell `(x, y)` of the map of `src`. -/
  battle_check_range_pos : World → Int → Int → Int → Int → Bool := fun _ _ _ _ _ => true
  /-- The test of lines 1803-1807: ALL_RESURRECTION on a target that is neither undead nor
  dead. -/
  skill_cast_refused : World → Int → Int → Int → Bool := fun _ _ _ _ => false
  /-- The skill id is one of the elemental skills of lines 1863-1871 (EL_WIND_SLASH to
  EL_TIDAL_WEAPON). -/
  skill_el_offensive : Int → Bool := fun _ => false
  /-- The member `sd->skillitem`. -/
  skillitem : World → Int → Int := fun _ _ => 0
  /-- The call `skill_get_cast(skill_id, skill_lv)`. -/
  skill_get_cast : Int → Int → Int := fun _ _ => 0
  /-- The status a cast start ends (lines 1947-1960, 2134-2147): none when `sc` is NULL or
  holds neither status (or the skill is that status' own), some false for SC_CLOAKING,
  some true for SC_CLOAKINGEXCEED. The arguments are the world, the caster and the skill id
  (none for a ground skill, where no skill is excepted). -/
  sc_cloak_ends : World → Int → Option Int → Option Bool := fun _ _ _ => none
  /-- The test `skill_get_inf(skill_id) & INF_GROUND_SKILL`. -/
  skill_ground : Int → Bool := fun _ => false
  /-- The call `skill_castfix(src, skill_id, skill_lv)`. -/
  skill_castfix : World → Int → Int → Int → Int := fun _ _ _ _ => 0
  /-- The call `skill_get_castcancel(skill_id)`. -/
  skill_get_castcancel : Int → Int := fun _ => 1
  /-- The width `map[m].xs` of a map. -/
  map_xs : Int → Int := fun _ => 512
  /-- The test of line 2059: the skill id is from SC_MANHOLE to SC_FEINTBOMB and the
  cell is in a maelstrom. -/
  skill_maelstrom : World → Int → Int → Int → Int → Bool := fun _ _ _ _ _ => false
  /-- The member `sd->skill_id_old`. -/
  skill_id_old : World → Int → Int := fun _ _ => 0
  /-- The test of lines 2782-2783 on a player: `no_castcancel2` is set, or SC_UNLIMITED-
  HUMMINGVOICE or `no_castcancel` is set outside GvG and battleground maps. -/
  no_castcancel : World → Int → Bool := fun _ _ => false
  /-- Fields `mob_slave_keep_target` and `dynamic_mobs` of `battle_config`. -/
  mob_slave_keep_target : Bool := false
  dynamic_mobs : Bool := false
  /-- A member of the structure of a block that `unit_remove_map_` and `unit_free` only
  read, or the value of a query on it (`sd->chatID`, `pd->pet.intimate`,
  `pc_isinvisible(sd)`, ...), by its name in the source; a test reads it as non-zero. -/
  member : String → World → Int → Int := fun _ _ _ => 0
  /-- The call `map_count_oncell(m, x, y, BL_PC|BL_MOB|BL_NPC, 0)` of `unit_run`. -/
  map_count_oncell_run : World → Int → Int → Int → Int := fun _ _ _ _ => 0

/-- Skill ids of `skill.hpp` used by this file. -/
abbrev NPC_SELFDESTRUCTION : Int := 173

/-- Skill id of `skill.hpp`. -/
abbrev RG_TUNNELDRIVE : Int := 213

/-- Skill id of `skill.hpp`. -/
abbrev SA_CASTCANCEL : Int := 275

/-- Skill id of `skill.hpp`. -/
abbrev SA_FREECAST : Int := 278

/-- Skill id of `skill.hpp`. -/
abbrev CG_ARROWVULCAN : Int := 394

/-- Skill id of `skill.hpp`. -/
abbrev SO_SPELLFIST : Int := 2445

/-- Skill id of `skill.hpp`. -/
abbrev MA_REMOVETRAP : Int := 8213

/-- SECURITY_CASTTIME of `skill.hpp`. -/
abbrev SECURITY_CASTTIME : Int := 100

/-- Skill id of `skill.hpp`. -/
abbrev CG_MOONLIT : Int := 395

/-- Skill id of `skill.hpp`. -/
abbrev CG_HERMODE : Int := 488

/-- Skill id of `skill.hpp`. -/
abbrev LG_EXEEDBREAK : Int := 2320

/-- OPT1_STONEWAIT of `status.hpp`. -/
abbrev OPT1_STONEWAIT : Int := 6

/-- OPT1_BURNING of `status.hpp`. -/
abbrev OPT1_BURNING : Int := 7

/-- MAX_ELEDISTANCE of `elemental.hpp`. -/
abbrev MAX_ELEDISTANCE : Int := 5

/-- MAX_MER_DISTANCE of `mercenary.hpp`. -/
abbrev MAX_MER_DISTANCE : Int := 15

/-! ## World access -/

/-- Function `unit_bl2ud` (lines 61-74): the control block of a block, for the types that have one. -/
def unit_bl2ud (bl : Block) : Option unit_data :=
  match bl.type with
  | .BL_PC | .BL_MOB | .BL_PET | .BL_NPC | .BL_HOM | .BL_MER | .BL_ELEM => some bl.ud
  | _ => none

/-- The control block of the block with this id (`unit_bl2ud(map_id2bl(id))`). -/
def World.ud (w : World) (id : Int) : Option unit_data :=
  (w.units id).bind unit_bl2ud

/-- Store a block under an id. -/
def World.setBlock (w : World) (id : Int) (bl : Block) : World :=
  { w with units := fun i => if i = id then some bl else w.units i }

/-- Update a block in place. -/
def World.modBlock (w : World) (id : Int) (f : Block → Block) : World :=
  match w.units id with
  | some bl => w.setBlock id (f bl)
  | none => w

/-- Update the control block of a block in place (a write through the `ud` pointer). -/
def World.modUd (w : World) (id : Int) (f : unit_data → unit_data) : World :=
  w.modBlock id (fun bl => { bl with ud := f bl.ud })

/-- Read through a `bl` pointer that was checked to be non-NULL. -/
def World.BL (w : World) (id : Int) : Block :=
  match w.units id with
  | some bl => bl
  | none => { type := .BL_NUL }

/-- Read through a `ud` pointer that was checked to be non-NULL. -/
def World.UD (w : World) (id : Int) : unit_data :=
  match w.units id with
  | some bl => bl.ud
  | none => {}

/-! ## Timer service

The timer service is `common/timer.cpp`, which is not under `src/`; `unit.cpp` uses
`add_timer`, `get_timer` and `delete_timer`. -/

/-- Modelled from the spec: `add_timer` of the timer service (missing: `common/timer.cpp`).
It schedules a one-shot callback and returns a fresh handle, never INVALID_TIMER. -/
def add_timer (w : World) (tick : Int) (func : timer_func) (id data : Int) : Int × World :=
  ((w.next_tid : Int),
   { w with timers := { tid := w.next_tid, tick := tick, func := func, id := id, data := data } :: w.timers,
            next_tid := w.next_tid + 1 })

/-- Modelled from the spec: `get_timer` of the timer service (missing: `common/timer.cpp`).
It reads the data of a pending timer. -/
def get_timer (w : World) (tid : Int) : Option TimerData :=
  w.timers.find? (fun t => t.tid == tid)

/-- Modelled from the spec: `delete_timer` of the timer service (missing:
`common/timer.cpp`). It cancels a pending timer whose callback matches: 0 on success,
-1 for an unknown handle, -2 for a callback mismatch. -/
def delete_timer (w : World) (tid : Int) (func : timer_func) : Int × World :=
  match get_timer w tid with
  | none => (-1, w)
  | some td =>
    if td.func = func then (0, { w with timers := w.timers.filter (fun t => t.tid != tid) })
    else (-2, w)

/-- Macro `check_distance_bl` of `map.hpp`. -/
def check_distance_bl (E : Env) (bl1 bl2 : Block) (distance : Int) : Bool :=
  E.check_distance (bl1.x - bl2.x) (bl1.y - bl2.y) distance

/-- Macro `check_distance_client_bl` of `map.hpp`. -/
def check_distance_client_bl (E : Env) (bl1 bl2 : Block) (distance : Int) : Bool :=
  E.check_distance_client (bl1.x - bl2.x) (bl1.y - bl2.y) distance

/-- Macro `distance_bl` of `map.hpp`. -/
def distance_bl (E : Env) (bl1 bl2 : Block) : Int :=
  E.distance (bl1.x - bl2.x) (bl1.y - bl2.y)

/-! ## Attack target bookkeeping -/

/-- Function `unit_set_target` (lines 2179-2197); `id` is the block that owns `ud`. -/
def unit_set_target (w : World) (id : Int) (target_id : Int) : Int × World :=
  match w.ud id with
  | none => (0, w)
  | some ud =>
    let w1 :=
      if ud.target ≠ target_id then
        let wa :=
          if ud.target ≠ 0 then
            match w.ud ud.target with
            | some ux =>
              if ux.target_count > 0 then
                w.modUd ud.target (fun u => { u with target_count := u.target_count - 1 })
              else w
            | none => w
          else w
        if target_id ≠ 0 then
          match wa.ud target_id with
          | some ux =>
            if ux.target_count < 255 then
              wa.modUd target_id (fun u => { u with target_count := u.target_count + 1 })
            else wa
          | none => wa
        else wa
      else w
    (0, w1.modUd id (fun u => { u with target := target_id }))

/-- Function `unit_stop_attack` (lines 2223-2239). -/
def unit_stop_attack (w : World) (id : Int) : World :=
  match w.ud id with
  | none => w
  | some _ =>
    let w1 := (unit_set_target w id 0).2
    if (w1.UD id).attacktimer = INVALID_TIMER then w1
    else
      let w2 := (delete_timer w1 (w1.UD id).attacktimer .unit_attack_timer).2
      w2.modUd id (fun u => { u with attacktimer := INVALID_TIMER })

/-- Function `unit_stop_stepaction` (lines 2245-2264). -/
def unit_stop_stepaction (w : World) (id : Int) : World :=
  match w.ud id with
  | none => w
  | some _ =>
    let w1 := w.modUd id (fun u =>
      { u with stepaction := false, target_to := 0, stepskill_id := 0, stepskill_lv := 0 })
    if (w1.UD id).steptimer = INVALID_TIMER then w1
    else
      let w2 := (delete_timer w1 (w1.UD id).steptimer .unit_step_timer).2
      w2.modUd id (fun u => { u with steptimer := INVALID_TIMER })

/-- Function `unit_unattackable` (lines 2271-2288). -/
def unit_unattackable (E : Env) (w : World) (id : Int) : Int × World :=
  match w.units id with
  | none => (0, w)
  | some bl =>
    let w1 :=
      match unit_bl2ud bl with
      | some _ =>
        let wa := w.modUd id (fun u =>
          { u with state := { u.state with attack_continue := false, step_attack := false },
                   target_to := 0 })
        (unit_set_target wa id 0).2
      | none => w
    if bl.type = .BL_MOB then (0, (E.hook (.mob_unlocktarget id w1.gettick) w1).2)
    else if bl.type = .BL_PET then (0, (E.hook (.pet_unlocktarget id) w1).2)
    else (0, w1)

/-- Function `unit_can_attack` (lines 2293-2305). -/
def unit_can_attack (E : Env) (w : World) (id : Int) (target_id : Int) : Bool :=
  match w.units id with
  | none => false
  | some src =>
    if (match src.sc with
        | some sc => sc.manhole
        | none => false) then false
    else if src.type = .BL_PC then E.pc_can_attack w id target_id
    else true

/-! ## Movement eligibility -/

/-- The status test of `unit_can_move` (lines 1421-1437) on a non-NULL `sc`. -/
def sc_blocks_move (E : Env) (w : World) (id : Int) (sd : Bool) (sc : status_change) : Bool :=
  if sc.cant_move || sc.spiderweb
      || (match sc.dancing with
          | some (val1, val4) =>
            val4 != 0 && (!sc.longing || Int.land val1 0xFFFF == CG_MOONLIT
              || Int.land val1 0xFFFF == CG_HERMODE)
          | none => false) then true
  else if decide (sc.opt1 > 0) && sc.opt1 != OPT1_STONEWAIT && sc.opt1 != OPT1_BURNING then true
  else if sc.option_hide && (!sd || decide (E.pc_checkskill w id RG_TUNNELDRIVE ≤ 0)) then true
  else false

/-- The test `if (sc) { ... }` of `unit_can_move` (lines 1421-1437). -/
def sc_opt_blocks_move (E : Env) (w : World) (id : Int) (sd : Bool) : Option status_change → Bool
  | some sc => sc_blocks_move E w id sd sc
  | none => false

/-- Function `unit_can_move` (lines 1397-1450). -/
def unit_can_move (E : Env) (w : World) (id : Int) : Int × World :=
  match w.units id with
  | none => (0, w)
  | some bl =>
    match unit_bl2ud bl with
    | none => (0, w)
    | some ud =>
      let sd := decide (bl.type = .BL_PC)
      if ud.skilltimer != INVALID_TIMER && ud.skill_id != LG_EXEEDBREAK
          && (!sd || E.pc_checkskill w id SA_FREECAST == 0 || E.skill_is_guild ud.skill_id) then
        (0, w)
      else if ud.canmove_tick - w.gettick > 0 then (0, w)
      else if (sd && (bl.sd.issit || bl.sd.vending || bl.sd.buyingstore || bl.sd.block_move))
          || ud.state.blockedmove then (0, w)
      else if sc_opt_blocks_move E w id sd bl.sc then (0, w)
      else if decide (bl.type = .BL_MOB)
          && ((E.status_has_mode w id .MD_STATUS_IMMUNE && E.boss_icewall_walk_block == 1
                && E.map_getcell w bl.m bl.x bl.y .CELL_CHKICEWALL)
              || (!E.status_has_mode w id .MD_STATUS_IMMUNE && E.mob_icewall_walk_block == 1
                && E.map_getcell w bl.m bl.x bl.y .CELL_CHKICEWALL)) then
        (0, w.modBlock id (fun b => { b with md := { b.md with walktoxy_fail_count := 1 } }))
      else (1, w)

/-! ## Recall timer of a slave -/

/-- Function `unit_get_master` (lines 144-154): the id of the master. -/
def unit_get_master (w : World) (id : Int) : Option Int :=
  match w.units id with
  | none => none
  | some bl =>
    match bl.type with
    | .BL_HOM | .BL_ELEM | .BL_PET | .BL_MER => bl.master
    | _ => none

/-- Function `unit_check_start_teleport_timer` (lines 207-245). -/
def unit_check_start_teleport_timer (E : Env) (w : World) (sid : Int) : Int × World :=
  match w.units sid with
  | none => (0, w)
  | some sbl =>
    match sbl.type with
    | .BL_HOM | .BL_ELEM | .BL_PET | .BL_MER =>
      let max_dist : Int :=
        match sbl.type with
        | .BL_HOM => E.area_size
        | .BL_ELEM => MAX_ELEDISTANCE
        | .BL_PET => E.area_size
        | .BL_MER => MAX_MER_DISTANCE
        | _ => 0
      match (unit_get_master w sid).bind w.units with
      | none => (0, w)
      | some msd =>
        if max_dist ≠ 0 then
          if !check_distance_bl E msd sbl max_dist then
            if sbl.masterteleport_timer = INVALID_TIMER ∨ sbl.masterteleport_timer = 0 then
              let r := add_timer w (w.gettick + 3000) .unit_teleport_timer sid max_dist
              (0, r.2.modBlock sid (fun b => { b with masterteleport_timer := r.1 }))
            else (0, w)
          else
            let w1 :=
              if sbl.masterteleport_timer ≠ 0 ∧ sbl.masterteleport_timer ≠ INVALID_TIMER then
                (delete_timer w sbl.masterteleport_timer .unit_teleport_timer).2
              else w
            (0, w1.modBlock sid (fun b => { b with masterteleport_timer := INVALID_TIMER }))
        else (0, w)
    | _ => (0, w)

/-! ## Walking: path set-up -/

/-- The trimming loop of `unit_walktoxy_sub` (lines 108-117) by recursion on `path_len`:
the arguments are `path_len`, the budget `i` and `to_x`, `to_y`; the result is the final
`path_len`, `to_x`, `to_y`. -/
def chase_trim (path : List Nat) : Nat → Int → Int → Int → Nat × Int × Int
  | 0, _, to_x, to_y => (0, to_x, to_y)
  | path_len + 1, i, to_x, to_y =>
    if i > 0 ∧ path_len + 1 > 1 then
      let dir := path.getD path_len 0
      chase_trim path path_len
        (if direction_diagonal dir then i - MOVE_COST * 20 else i - MOVE_COST)
        (to_x - dirx dir) (to_y - diry dir)
    else (path_len + 1, to_x, to_y)

/-- The delay until the step at `path_pos` (lines 128-133 and 520-525): -1 when the path
is exhausted, else the speed scaled for a diagonal step. -/
def step_delay (wpd : walkpath_data) (speed : Int) : Int :=
  if wpd.path_pos ≥ wpd.path_len then -1
  else if direction_diagonal (wpd.at wpd.path_pos) then speed * MOVE_DIAGONAL_COST / MOVE_COST
  else speed

/-- Part of `unit_walktoxy_sub`, lines 101-123: store the found path, trim it for a chase,
clear `change_walk_target` and, for a player, `head_dir`. -/
def path_store (w : World) (id : Int) (bl : Block) (ud : unit_data) (p : List Nat) : World :=
  let wpd : walkpath_data := { path_len := p.length, path_pos := 0, path := p }
  let w1 := w.modUd id (fun u => { u with walkpath := wpd })
  let w2 :=
    if ud.target_to ≠ 0 ∧ ud.chaserange > 1 then
      w1.modUd id (fun u =>
        let t := chase_trim u.walkpath.path u.walkpath.path_len
          (u.chaserange * 10 - 10) u.to_x u.to_y
        { u with walkpath := { u.walkpath with path_len := t.1 },
                 to_x := t.2.1, to_y := t.2.2 })
    else w1
  let w3 := w2.modUd id (fun u =>
    { u with state := { u.state with change_walk_target := false } })
  if bl.type = .BL_PC then
    w3.modBlock id (fun b => { b with sd := { b.sd with head_dir := 0 } })
  else w3

/-- Part of `unit_walktoxy_sub`, lines 125-136: schedule the step at `path_pos`, if the
path has one. -/
def walk_arm (E : Env) (w : World) (id : Int) : Int × World :=
  let i := step_delay (w.UD id).walkpath (E.status_get_speed w id)
  if i > 0 then
    let r := add_timer w (w.gettick + i) .unit_walktoxy_timer id i
    (1, r.2.modUd id (fun u => { u with walktimer := r.1 }))
  else (1, w)

/-- Function `unit_walktoxy_sub` (lines 81-137). The pathfinder's answer becomes the
`walkpath_data` it fills in: the path, its length and step index 0. -/
def unit_walktoxy_sub (E : Env) (w : World) (id : Int) : Int × World :=
  match w.units id with
  | none => (1, w)
  | some bl =>
    match unit_bl2ud bl with
    | none => (0, w)
    | some ud =>
      match E.path_search w bl.m bl.x bl.y ud.to_x ud.to_y ud.state.walk_easy .CELL_CHKNOPASS with
      | none => (0, w)
      | some p =>
        if E.OFFICIAL_WALKPATH
            && !E.path_search_long w bl.m bl.x bl.y ud.to_x ud.to_y .CELL_CHKNOPASS
            && decide (p.length > 14) && bl.type != .BL_NPC then (0, w)
        else walk_arm E (path_store w id bl ud p) id

/-- Function `unit_can_reach_bl` (lines 2436-2488): the verdict and the cell written
through `x`, `y` (none when the function returns before writing). -/
def unit_can_reach_bl (E : Env) (w : World) (bl tbl : Block) (range : Int) (easy : Bool) :
    Bool × Option (Int × Int) :=
  if bl.m ≠ tbl.m then (false, none)
  else if bl.x = tbl.x ∧ bl.y = tbl.y then (true, none)
  else if range > 0 ∧ !check_distance_bl E bl tbl range then (false, none)
  else
    let dx0 : Int := if tbl.x - bl.x > 0 then 1 else if tbl.x - bl.x < 0 then -1 else 0
    let dy0 : Int := if tbl.y - bl.y > 0 then 1 else if tbl.y - bl.y < 0 then -1 else 0
    let d : Option (Int × Int) :=
      if E.map_getcell w tbl.m (tbl.x - dx0) (tbl.y - dy0) .CELL_CHKNOPASS then
        match (List.range 8).find?
            (fun i => !E.map_getcell w tbl.m (tbl.x - dirx i) (tbl.y - diry i) .CELL_CHKNOPASS) with
        | some i => some (dirx i, diry i)
        | none => none
      else some (dx0, dy0)
    match d with
    | none => (false, none)
    | some (dx, dy) =>
      match E.path_search w bl.m bl.x bl.y (tbl.x - dx) (tbl.y - dy) easy .CELL_CHKNOREACH with
      | none => (false, some (tbl.x - dx, tbl.y - dy))
      | some p =>
        if E.OFFICIAL_WALKPATH
            && !E.path_search_long w bl.m bl.x bl.y (tbl.x - dx) (tbl.y - dy) .CELL_CHKNOPASS
            && decide (p.length > 14) && bl.type != .BL_NPC then
          (false, some (tbl.x - dx, tbl.y - dy))
        else (true, some (tbl.x - dx, tbl.y - dy))

/-! ## Walking: one firing of the walk timer -/

/-- Outcome of a part of a timer callback: it returned `r`, or control falls through. -/
inductive walk_result where
  | ret (r : Int) (w : World)
  | go (w : World)

/-- Continue with `f` on fall-through. -/
def walk_result.andThen (a : walk_result) (f : World → walk_result) : walk_result :=
  match a with
  | .ret r w => .ret r w
  | .go w => f w

/-- End with the early return, or with `rest` on fall-through. -/
def walk_result.finish (a : walk_result) (rest : World → Int × World) : Int × World :=
  match a with
  | .ret r w => (r, w)
  | .go w => rest w

/-- Part of `unit_walktoxy_timer`, lines 418-449: the walk-done event when the
destination is reached. -/
def walk_done_event_part (E : Env) (id : Int) (w : World) : walk_result :=
  let bl := w.BL id
  if bl.x = bl.ud.to_x ∧ bl.y = bl.ud.to_y then
    if bl.ud.walk_done_event ≠ "" then
      let walk_done_event := bl.ud.walk_done_event
      let w1 := w.modUd id (fun u => { u with state := { u.state with walk_script := true } })
      let w2 := (E.hook (.npc_event_do_id walk_done_event id) w1).2
      let w3 := w2.modUd id (fun u => { u with state := { u.state with walk_script := false } })
      if E.status_isdead w3 id then
        if (w3.BL id).type = .BL_MOB ∧ (w3.BL id).md.spawn = false then
          .ret 0 (E.hook (.unit_free id) w3).2
        else .ret 0 w3
      else if (w3.UD id).walk_done_event = walk_done_event then
        .go (w3.modUd id (fun u => { u with walk_done_event := "" }))
      else .go w3
    else .go w
  else .go w

/-- Part of `unit_walktoxy_timer`, lines 451-489: on-touch handling by block type at the
cell `(x, y)` just entered. -/
def walk_touch_part (E : Env) (tid tick id : Int) (x y : Int) (w : World) : walk_result :=
  match (w.BL id).type with
  | .BL_PC =>
    let w1 :=
      if !(w.BL id).sd.npc_ontouch_empty then (E.hook (.npc_touchnext_areanpc id) w).2 else w
    if E.map_getcell w1 (w1.BL id).m x y .CELL_CHKNPC then
      let w2 := (E.hook (.npc_touch_areanpc id (w1.BL id).m x y) w1).2
      if (w2.BL id).prev = false then .ret 0 w2
      else .go (E.hook (.pc_cell_basilica id) w2).2
    else .go (E.hook (.pc_cell_basilica id) w1).2
  | .BL_MOB =>
    let w1 := w.modBlock id (fun b => { b with md := { b.md with walktoxy_fail_count := 0 } })
    let a : walk_result :=
      if E.map_getcell w1 (w1.BL id).m x y .CELL_CHKNPC then
        let r := E.hook (.npc_touch_areanpc2 id) w1
        if r.1 ≠ 0 then .ret 0 r.2 else .go r.2
      else .go (w1.modBlock id (fun b => { b with md := { b.md with areanpc_id := 0 } }))
    a.andThen (fun w2 =>
      let w3 :=
        if (w2.BL id).md.min_chase > (w2.BL id).md.range3 then
          w2.modBlock id (fun b => { b with md := { b.md with min_chase := b.md.min_chase - 1 } })
        else w2
      if tid ≠ INVALID_TIMER ∧ (w3.UD id).walk_count % WALK_SKILL_INTERVAL = 0
          ∧ E.map_users w3 (w3.BL id).m > 0 then
        let r := E.hook (.mobskill_use id tick (-1)) w3
        if r.1 ≠ 0 then
          if ¬ ((r.2.UD id).skill_id = NPC_SELFDESTRUCTION ∧ (r.2.UD id).skilltimer ≠ INVALID_TIMER)
              ∧ (r.2.BL id).md.skillstate ≠ .MSS_WALK then .ret 0 r.2
          else .go r.2
        else .go r.2
      else .go w3)
  | _ => .go w

/-- Part of `unit_walktoxy_timer`, lines 399-489: move the block one cell from `(x, y)` by
`(dx, dy)` and run the arrival handling. `map_moveblock` puts the block on the new cell
and lets the spatial index react. -/
def walk_move_part (E : Env) (tid tick id : Int) (x y dx dy : Int) (w : World) : walk_result :=
  let x1 := x + dx
  let y1 := y + dy
  let w1 := (E.hook (.map_moveblock id x1 y1 tick) (w.modBlock id (fun b => { b with x := x1, y := y1 }))).2
  let w2 := w1.modUd id (fun u => { u with walk_count := (u.walk_count + 1) % 256 })
  if (w2.BL id).x ≠ x1 ∨ (w2.BL id).y ≠ y1 ∨ (w2.UD id).walktimer ≠ INVALID_TIMER then .ret 0 w2
  else
    let w3 := w2.modUd id (fun u => { u with walktimer := CLIF_WALK_TIMER })
    let w4 := w3.modUd id (fun u => { u with walktimer := INVALID_TIMER })
    let w5 :=
      if (w4.BL id).type = .BL_PC then (add_timer w4 (w4.gettick + 1) .unit_autopilot_timer id 0).2
      else if (w4.BL id).type = .BL_HOM then
        (add_timer w4 (w4.gettick + 1) .unit_autopilot_homunculus_timer id 0).2
      else w4
    (walk_done_event_part E id w5).andThen (walk_touch_part E tid tick id x1 y1)

/-- Part of `unit_walktoxy_timer`, lines 386-397: a monster that may not leave an
icewall yet. -/
def walk_icewall_part (E : Env) (tick id : Int) (w : World) : World :=
  let w1 := w.modBlock id (fun b =>
    { b with md := { b.md with walktoxy_fail_count := b.md.walktoxy_fail_count + 1 } })
  let w2 := w1.modUd id (fun u => { u with walk_count := (u.walk_count + 1) % 256 })
  let w3 :=
    if (w2.UD id).walk_count % WALK_SKILL_INTERVAL = 0 then (E.hook (.mobskill_use id tick (-1)) w2).2
    else w2
  let w4 := (E.hook (.mob_unlocktarget id tick) w3).2
  let w5 := w4.modUd id (fun u => { u with walk_count := (u.walk_count + 1) % 256 })
  if (w5.UD id).walk_count % WALK_SKILL_INTERVAL = 0 then (E.hook (.mobskill_use id tick (-1)) w5).2
  else w5

/-- Function `unit_walktoxy_timer`, lines 322-489: everything before the test
`tid == INVALID_TIMER` of line 491; `rest` is the remainder of the function (lines
491-577), given the cell `(x, y)` just entered. -/
def unit_walktoxy_timer_step (E : Env) (rest : Int → Int → World → Int × World)
    (tid tick id : Int) (w : World) : Int × World :=
  match w.units id with
  | none => (0, w)
  | some bl =>
    match unit_bl2ud bl with
    | none => (0, w)
    | some ud =>
      if ud.walktimer ≠ tid then (0, w)
      else
        let w1 := w.modUd id (fun u => { u with walktimer := INVALID_TIMER })
        if bl.prev = false then (0, w1)
        else if ud.walkpath.path_pos ≥ ud.walkpath.path_len then (0, w1)
        else if ud.walkpath.at ud.walkpath.path_pos ≥ DIR_MAX then (1, w1)
        else
          let x := bl.x
          let y := bl.y
          let dir := ud.walkpath.at ud.walkpath.path_pos
          let w2 := w1.modUd id (fun u => { u with dir := dir })
          let dx := dirx dir
          let dy := diry dir
          let md := decide (bl.type = .BL_MOB)
          let icewall_walk_block : Int :=
            if md && E.status_has_mode w2 id .MD_STATUS_IMMUNE then E.boss_icewall_walk_block
            else if md then E.mob_icewall_walk_block
            else 0
          if E.map_getcell w2 bl.m (x + dx) (y + dy) .CELL_CHKNOPASS
              && (icewall_walk_block == 0
                  || !E.map_getcell w2 bl.m (x + dx) (y + dy) .CELL_CHKICEWALL
                  || decide (dx < 0) || decide (dy < 0)) then
            unit_walktoxy_sub E w2 id
          else if md && decide (bl.md.walktoxy_fail_count < icewall_walk_block)
              && E.map_getcell w2 bl.m x y .CELL_CHKICEWALL
              && (decide (dx > 0) || decide (dy > 0)) then
            (0, walk_icewall_part E tick id w2)
          else
            (walk_move_part E tid tick id x y dx dy w2).finish (rest (x + dx) (y + dy))

/-- The direct call `unit_walktoxy_timer(INVALID_TIMER, ...)`: with `tid == INVALID_TIMER`
the function returns 0 at line 491-492 when control reaches it. -/
def unit_walktoxy_timer_direct (E : Env) (tick id : Int) (w : World) : Int × World :=
  unit_walktoxy_timer_step E (fun _ _ w1 => (0, w1)) INVALID_TIMER tick id w

/-! ## Stopping a walk -/

/-- Part of `unit_stop_walking`, lines 1312-1317: cancel the pending walk timer and clear
`change_walk_target`. -/
def stop_walking_cancel (w : World) (id : Int) (ud : unit_data) : World :=
  let w1 :=
    if ud.walktimer ≠ INVALID_TIMER then
      (delete_timer w ud.walktimer .unit_walktoxy_timer).2.modUd id
        (fun u => { u with walktimer := INVALID_TIMER })
    else w
  w1.modUd id (fun u => { u with state := { u.state with change_walk_target := false } })

/-- Part of `unit_stop_walking`, lines 1318-1325: the forced step to the next cell, by a
direct call of the walk timer callback; `td` is the data of the cancelled timer. -/
def stop_walking_step (E : Env) (w : World) (id type : Int) (ud : unit_data)
    (td : Option TimerData) : World :=
  let tick := w.gettick
  if (flagset type USW_MOVE_ONCE && ud.walkpath.path_pos == 0)
      || (flagset type USW_MOVE_FULL_CELL
          && (match td with
              | some t => decide (t.tick - tick ≤ t.data / 2)
              | none => false)) then
    let wa := w.modUd id (fun u =>
      { u with walkpath := { u.walkpath with path_len := u.walkpath.path_pos + 1 } })
    (unit_walktoxy_timer_direct E tick id wa).2
  else w

/-- Part of `unit_stop_walking`, lines 1330-1344: reset the path, put the destination on
the current cell, delay a pet, end the running states and return 1. -/
def stop_walking_reset (E : Env) (w : World) (id type : Int) : Int × World :=
  let w4 := w.modUd id (fun u =>
    { u with walkpath := { u.walkpath with path_len := 0, path_pos := 0 },
             to_x := (w.BL id).x, to_y := (w.BL id).y })
  let w5 :=
    if (w4.BL id).type = .BL_PET ∧ above_usw_all type then
      w4.modUd id (fun u => { u with canmove_tick := w4.gettick + Int.shiftRight type 8 })
    else w4
  if (w5.UD id).state.running then
    let w6 := (E.hook (.status_change_end id false) w5).2
    (1, (E.hook (.status_change_end id true) w6).2)
  else (1, w5)

/-- Function `unit_stop_walking` (lines 1296-1345). -/
def unit_stop_walking (E : Env) (w : World) (id : Int) (type : Int) : Int × World :=
  match w.units id with
  | none => (0, w)
  | some bl =>
    match unit_bl2ud bl with
    | none => (0, w)
    | some ud =>
      if !flagset type USW_FORCE_STOP && ud.walktimer == INVALID_TIMER then (0, w)
      else
        let td : Option TimerData :=
          if ud.walktimer ≠ INVALID_TIMER then get_timer w ud.walktimer else none
        stop_walking_reset E (stop_walking_step E (stop_walking_cancel w id ud) id type ud td) id type

/-! ## Walk requests -/

/-- Function `set_mobstate` (lines 733-739). -/
def set_mobstate (w : World) (id : Int) (flag : Bool) : World :=
  if (w.BL id).type = .BL_MOB ∧ flag then
    w.modBlock id (fun b =>
      { b with md := { b.md with skillstate := if b.md.aggressive then .MSS_FOLLOW else .MSS_RUSH } })
  else w

/-- The confusion step of `unit_walktoxy` and `unit_walktobl` (lines 703-705, 809-811). -/
def confuse_target (E : Env) (w : World) (id : Int) : World :=
  match (w.BL id).sc with
  | some sc =>
    if sc.confusion then
      let c := E.map_random_dir w id (w.UD id).to_x (w.UD id).to_y
      w.modUd id (fun u => { u with to_x := c.1, to_y := c.2 })
    else w
  | none => w

/-- The recall checks of `unit_walktoxy` (lines 715-722) for the player's mercenary,
elemental, homunculus and pet. -/
def start_teleport_timers (E : Env) (w : World) (id : Int) : World :=
  if (w.BL id).type = .BL_PC then
    let w1 := match (w.BL id).sd.md with
      | some s => (unit_check_start_teleport_timer E w s).2
      | none => w
    let w2 := match (w1.BL id).sd.ed with
      | some s => (unit_check_start_teleport_timer E w1 s).2
      | none => w1
    let w3 := match (w2.BL id).sd.hd with
      | some s => (unit_check_start_teleport_timer E w2 s).2
      | none => w2
    match (w3.BL id).sd.pd with
    | some s => (unit_check_start_teleport_timer E w3 s).2
    | none => w3
  else w

/-- Part of `unit_walktoxy`, lines 698-724: the request passed every check; store the
destination and either flag the running walk or start a new one. -/
def unit_walktoxy_accept (E : Env) (w : World) (id : Int) (x y : Int) (flag : Int) : Int × World :=
  let w1 := w.modUd id (fun u =>
    { u with state := { u.state with walk_easy := flagset flag 1 }, to_x := x, to_y := y })
  let w2 := unit_stop_attack w1 id
  let w3 := confuse_target E w2 id
  if (w3.UD id).walktimer ≠ INVALID_TIMER then
    (1, w3.modUd id (fun u => { u with state := { u.state with change_walk_target := true } }))
  else unit_walktoxy_sub E (start_teleport_timers E w3 id) id

/-- Part of `unit_walktoxy`, lines 685-688: with flag 4 the entity drops its target and
stops attacking before it walks. -/
def walk_unlock (E : Env) (w : World) (id : Int) (flag : Int) : World :=
  if flagset flag 4 then unit_stop_attack (unit_unattackable E w id).2 id else w

/-- Function `unit_walktoxy` (lines 652-725). -/
def unit_walktoxy (E : Env) (w : World) (id : Int) (x y : Int) (flag : Int) : Int × World :=
  match w.units id with
  | none => (0, w)
  | some bl =>
    match unit_bl2ud bl with
    | none => (0, w)
    | some _ =>
      match (if flagset flag 8 then E.map_closest_freecell w bl.m x y else some (x, y)) with
      | none => (0, w)
      | some (x, y) =>
        match E.path_search w bl.m bl.x bl.y x y (flagset flag 1) .CELL_CHKNOPASS with
        | none => (0, w)
        | some p =>
          if E.OFFICIAL_WALKPATH && !E.path_search_long w bl.m bl.x bl.y x y .CELL_CHKNOPASS
              && decide (p.length > 14) && bl.type != .BL_NPC then (0, w)
          else if decide ((p.length : Int) > E.max_walk_path) && bl.type != .BL_NPC then (0, w)
          else
            let w1 := walk_unlock E w id flag
            if flagset flag 4 && decide ((w1.UD id).canmove_tick - w1.gettick > 0)
                && decide ((w1.UD id).canmove_tick - w1.gettick < 2000) then
              (1, (add_timer w1 ((w1.UD id).canmove_tick + 1) .unit_delay_walktoxy_timer id
                    (Int.lor (x * 65536) (Int.land y 0xFFFF))).2)
            else if flagset flag 2 then unit_walktoxy_accept E w1 id x y flag
            else if !E.status_has_mode w1 id .MD_CANMOVE then (0, w1)
            else
              let c := unit_can_move E w1 id
              if c.1 = 0 then (0, c.2) else unit_walktoxy_accept E c.2 id x y flag

/-- Function `unit_run_hit` (lines 841-861): the runner has hit an obstacle. `sd` tells
whether the argument `sd` is not NULL; the level is `sc->data[type]->val1`, read as 0 for
an entry that is NULL (the C code dereferences it). `skill_blown(bl, bl,
skill_get_blewcount(TK_RUN, lv), unit_getdir(bl), BLOWN_NONE)` and
`skill_castend_damage_id(bl, &sd->bl, RA_WUGDASH, lv, gettick(), SD_LEVEL)` are calls of
the skill subsystem. -/
def unit_run_hit (E : Env) (w : World) (id : Int) (sd wugdash : Bool) : World :=
  let lv : Int :=
    match (w.BL id).sc.bind (fun sc => if wugdash then sc.wugdash else sc.run) with
    | some v => v.1
    | none => 0
  let w1 := w.modUd id (fun u => { u with state := { u.state with running := false } })
  let w2 := (E.hook (.status_change_end id wugdash) w1).2
  if !wugdash then (E.hook (.collab "skill_blown" id lv) w2).2
  else if sd then (E.hook (.collab "skill_castend_damage_id" id lv) w2).2
  else w2

/-- The loop of lines 893-903 of `unit_run`, with at most `n` rounds left: the cell the
runner reaches in a straight line over passable cells with nobody on them, and the loop
counter `i`, the number of cells up to it. The coordinates are `short` in C; they stay
within a map, far from the ends of that type. -/
def run_dest (E : Env) (w : World) (m dir_x dir_y : Int) : Nat → Int → Int → Int → Int × Int × Int
  | 0, to_x, to_y, i => (to_x, to_y, i)
  | n + 1, to_x, to_y, i =>
    if !E.map_getcell w m (to_x + dir_x) (to_y + dir_y) .CELL_CHKPASS then (to_x, to_y, i)
    else if E.map_count_oncell_run w m (to_x + dir_x) (to_y + dir_y) ≠ 0 then (to_x, to_y, i)
    else run_dest E w m dir_x dir_y n (to_x + dir_x) (to_y + dir_y) (i + 1)

/-- The loop of lines 915-918 of `unit_run`, `do { to_x -= dir_x; to_y -= dir_y; } while
(--i > 0 && !unit_walktoxy(bl, to_x, to_y, 1))`, with at most `n` rounds left: the counter
`i` after the loop and the world. The loop makes at most `max i 1` rounds. -/
def run_retry (E : Env) (id dir_x dir_y : Int) : Nat → World → Int → Int → Int → Int × World
  | 0, w, _, _, i => (i, w)
  | n + 1, w, to_x, to_y, i =>
    if i - 1 > 0 then
      let r := unit_walktoxy E w id (to_x - dir_x) (to_y - dir_y) 1
      if r.1 = 0 then run_retry E id dir_x dir_y n r.2 (to_x - dir_x) (to_y - dir_y) (i - 1)
      else (i - 1, r.2)
    else (i - 1, w)

/-- Function `unit_run` (lines 869-928): `wugdash` tells whether `type` is SC_WUGDASH
(else it is SC_RUN) and `sd` whether the argument `sd` is not NULL; the result is 1 for
true. AREA_SIZE is `battle_config.area_size`. -/
def unit_run (E : Env) (w : World) (id : Int) (sd wugdash : Bool) : Int × World :=
  match w.units id with
  | none => (0, w)
  | some bl =>
    match bl.sc.bind (fun sc => if wugdash then sc.wugdash else sc.run) with
    | none => (0, w)
    | some v =>
      let c := unit_can_move E w id
      if c.1 = 0 then (0, (E.hook (.status_change_end id wugdash) c.2).2)
      else
        let dir_x := dirx v.2
        let dir_y := diry v.2
        let d := run_dest E c.2 bl.m dir_x dir_y E.area_size.toNat bl.x bl.y 0
        if (d.1 = bl.x ∧ d.2.1 = bl.y) ∨ (d.1 = bl.x + 1 ∨ d.2.1 = bl.y + 1)
            ∨ (d.1 = bl.x - 1 ∨ d.2.1 = bl.y - 1) then
          (0, unit_run_hit E c.2 id sd wugdash)
        else
          let r := unit_walktoxy E c.2 id d.1 d.2.1 1
          if r.1 ≠ 0 then (1, r.2)
          else
            let q := run_retry E id dir_x dir_y (d.2.2.toNat + 1) r.2 d.1 d.2.1 d.2.2
            if q.1 = 0 then (0, unit_run_hit E q.2 id sd wugdash) else (1, q.2)

/-- Function `unit_walktobl` (lines 775-835): walk towards the block `tid`. -/
def unit_walktobl (E : Env) (w : World) (id tid : Int) (range : Int) (flag : Int) : Int × World :=
  match w.units id with
  | none => (0, w)
  | some bl =>
    match w.units tid with
    | none => (0, w)
    | some tbl =>
      match unit_bl2ud bl with
      | none => (0, w)
      | some _ =>
        if !E.status_has_mode w id .MD_CANMOVE then (0, w)
        else
          let r := unit_can_reach_bl E w bl tbl (distance_bl E bl tbl + 1) (flagset flag 1)
          let w1 := match r.2 with
            | some c => w.modUd id (fun u => { u with to_x := c.1, to_y := c.2 })
            | none => w
          if !r.1 then
            (0, w1.modUd id (fun u => { u with to_x := bl.x, to_y := bl.y, target_to := 0 }))
          else
            let w2 :=
              if range = 0 then w1.modUd id (fun u => { u with to_x := tbl.x, to_y := tbl.y })
              else w1
            let w3 := w2.modUd id (fun u =>
              { u with state := { u.state with walk_easy := flagset flag 1,
                                               attack_continue := flagset flag 2 },
                       target_to := tid, chaserange := range })
            let w4 := unit_stop_attack w3 id
            let w5 := confuse_target E w4 id
            if (w5.UD id).walktimer ≠ INVALID_TIMER then
              (1, set_mobstate
                    (w5.modUd id (fun u => { u with state := { u.state with change_walk_target := true } }))
                    id (flagset flag 2))
            else if (w5.UD id).canmove_tick - w5.gettick > 0 then
              (1, (add_timer w5 ((w5.UD id).canmove_tick + 1) .unit_walktobl_sub id (w5.UD id).target).2)
            else
              let c := unit_can_move E w5 id
              if c.1 = 0 then (0, c.2)
              else
                let s := unit_walktoxy_sub E c.2 id
                if s.1 ≠ 0 then (1, set_mobstate s.2 id (flagset flag 2)) else (0, s.2)

/-! ## Walk delay -/

/-- Part of `unit_set_walkdelay`, lines 1511-1529: store the lock and stop the walk. -/
def unit_set_walkdelay_apply (E : Env) (w : World) (id : Int) (tick delay : Int) : Int × World :=
  let w1 := w.modUd id (fun u => { u with canmove_tick := tick + delay })
  if (w1.UD id).walktimer ≠ INVALID_TIMER then
    if delay = 1 then (1, (unit_stop_walking E w1 id 0).2)
    else if (w1.UD id).state.running then
      (1, (add_timer w1 (w1.UD id).canmove_tick .unit_resume_running id id).2)
    else
      let w2 := (unit_stop_walking E w1 id 4).2
      if (w2.UD id).target ≠ 0 then
        (1, (add_timer w2 ((w2.UD id).canmove_tick + 1) .unit_walktobl_sub id (w2.UD id).target).2)
      else (1, w2)
  else (1, w1)

/-- Function `unit_set_walkdelay` (lines 1486-1530). The timer datum of
`unit_resume_running` is the `ud` pointer, kept here as the block id. -/
def unit_set_walkdelay (E : Env) (w : World) (id : Int) (tick delay : Int) (type : Int) :
    Int × World :=
  match w.ud id with
  | none => (0, w)
  | some ud =>
    if delay ≤ 0 then (0, w)
    else if type ≠ 0 then
      if (w.BL id).type = .BL_MOB ∧ E.status_has_mode w id .MD_STATUS_IMMUNE then (0, w)
      else if ud.canmove_tick - (tick + delay) > 0 then (0, w)
      else unit_set_walkdelay_apply E w id tick delay
    else
      let c := unit_can_move E w id
      if c.1 = 0 then (0, (unit_stop_walking E c.2 id 4).2)
      else if (c.2.UD id).canmove_tick - (tick - delay) > 0 then (0, c.2)
      else unit_set_walkdelay_apply E c.2 id tick delay

/-! ## Attack scheduling -/

/-- Function `unit_is_walking` (lines 1377-1387). -/
def unit_is_walking (w : World) (id : Int) : Bool :=
  match w.ud id with
  | some ud => ud.walktimer != INVALID_TIMER
  | none => false

/-- Part of `unit_attack_timer_sub`, lines 2724-2734: re-arm the timer of a continuous
attack. -/
def attack_rearm (E : Env) (w : World) (id : Int) : Int × World :=
  let w1 :=
    if (w.UD id).state.attack_continue then
      let wa :=
        if (w.BL id).type = .BL_PC ∧ E.idle_attack then
          w.modBlock id (fun b => { b with sd := { b.sd with idletime := E.last_tick w } })
        else w
      let r := add_timer wa (wa.UD id).attackabletime .unit_attack_timer id 0
      r.2.modUd id (fun u => { u with attacktimer := r.1 })
    else w
  if (w1.BL id).type = .BL_PC ∧ E.plt_attack then
    (1, w1.modBlock id (fun b => { b with sd := { b.sd with canlog_tick := w1.gettick } }))
  else (1, w1)

/-- Part of `unit_attack_timer_sub`, lines 2677-2681: face the target and stop walking. -/
def attack_prepare (E : Env) (w : World) (id target : Int) : World :=
  let w1 :=
    if E.attack_direction_change ≠ 0
        ∧ Int.land (w.BL id).type.mask E.attack_direction_change ≠ 0 then
      w.modUd id (fun u => { u with dir := E.map_calc_dir w id (w.BL target).x (w.BL target).y })
    else w
  if (w1.UD id).walktimer ≠ INVALID_TIMER then (unit_stop_walking E w1 id 1).2 else w1

/-- Part of `unit_attack_timer_sub`, lines 2683-2697: a monster may use a skill instead
(early return 1), else it enters the angry or berserk state and links its neighbours. -/
def attack_mob_part (E : Env) (w : World) (id target : Int) (tick : Int) (md : Bool) : walk_result :=
  if md then
    let b : walk_result :=
      if (w.BL id).md.skillstate = .MSS_ANGRY ∨ (w.BL id).md.skillstate = .MSS_BERSERK then
        let r := E.hook (.mobskill_use id tick (-1)) w
        if r.1 ≠ 0 then .ret 1 r.2 else .go r.2
      else .go w
    b.andThen (fun w3 =>
      let w4 := w3.modBlock id (fun bl =>
        { bl with md := { bl.md with skillstate := if bl.md.aggressive then .MSS_ANGRY else .MSS_BERSERK } })
      if E.status_has_mode w4 id .MD_ASSIST ∧ (w4.BL id).md.last_linktime - tick < MIN_MOBLINKTIME then
        let w5 := w4.modBlock id (fun bl => { bl with md := { bl.md with last_linktime := tick } })
        .go (E.hook (.mob_linksearch id target tick) w5).2
      else .go w4)
  else .go w

/-- Part of `unit_attack_timer_sub`, lines 2699-2700: a pet may use its attack skill
instead (early return 1). -/
def attack_pet_part (E : Env) (w : World) (id target : Int) : walk_result :=
  if (w.BL id).type = .BL_PET then
    let r := E.hook (.pet_attackskill id target) w
    if r.1 ≠ 0 then .ret 1 r.2 else .go r.2
  else .go w

/-- Part of `unit_attack_timer_sub`, lines 2702-2721: the weapon attack, the next
attackable time and the walk delay; early return 1 when the attack did nothing. -/
def attack_hit_part (E : Env) (w : World) (id target : Int) (tick : Int) (sd : Bool) : walk_result :=
  let r := E.hook (.battle_weapon_attack id target tick 0) w
  let w5 := r.2.modUd id (fun u => { u with attacktarget_lv := r.1 })
  let w6 :=
    if sd ∧ (w5.BL id).sd.pet_id > 0 ∧ E.pet_attack_support then
      match (w5.BL id).sd.pd with
      | some pd => (E.hook (.pet_target_check pd target) w5).2
      | none => w5
    else w5
  if (w6.UD id).attacktarget_lv = ATK_NONE then .ret 1 w6
  else
    let w7 := w6.modUd id (fun u => { u with attackabletime := tick + E.adelay w6 id })
    if Int.land (w7.BL id).type.mask E.attack_walk_delay ≠ 0 then
      .go (unit_set_walkdelay E w7 id tick (E.amotion w7 id) 1).2
    else .go w7

/-- Part of `unit_attack_timer_sub`, lines 2676-2722: the attack itself, when the
attacker is off cooldown. The result is `ret` for the early returns of lines 2687, 2700
and 2715. `sd`, `md` tell whether the attacker is a player or a monster. -/
def attack_execute (E : Env) (w : World) (id target : Int) (tick : Int) (sd md : Bool) : walk_result :=
  (attack_mob_part E (attack_prepare E w id target) id target tick md).andThen (fun w3 =>
    (attack_pet_part E w3 id target).andThen (fun w4 => attack_hit_part E w4 id target tick sd))

/-- The attack range of `unit_attack_timer_sub`, lines 2642-2647: one more cell while the
target walks or the attack comes from a step action, except on a monster locked in an
icewall. -/
def attack_range (E : Env) (w : World) (id tg : Int) (step_attack : Bool) : Int :=
  if (unit_is_walking w tg || step_attack)
      && ((w.BL tg).type == .BL_PC
          || !E.map_getcell w (w.BL tg).m (w.BL tg).x (w.BL tg).y .CELL_CHKICEWALL) then
    E.rhw_range w id + 1
  else E.rhw_range w id

/-- Function `unit_attack_timer_sub` (lines 2579-2735). -/
def unit_attack_timer_sub (E : Env) (w : World) (id : Int) (tid tick : Int) : Int × World :=
  match w.units id with
  | none => (0, w)
  | some src =>
    match unit_bl2ud src with
    | none => (0, w)
    | some ud =>
      if ud.attacktimer ≠ tid then (0, w)
      else
        let sd := decide (src.type = .BL_PC)
        let md := decide (src.type = .BL_MOB)
        let w1 := w.modUd id (fun u => { u with attacktimer := INVALID_TIMER })
        match w1.units ud.target with
        | none => (0, w1)
        | some target =>
          let tg := ud.target
          if src.prev = false ∨ target.prev = false then (0, w1)
          else if E.status_isdead w1 id || E.status_isdead w1 tg
              || decide (E.battle_check_target w1 id tg ≤ 0) || !E.status_check_skilluse w1 id tg
              || (E.OFFICIAL_WALKPATH
                  && !E.path_search_long w1 src.m src.x src.y target.x target.y .CELL_CHKWALL)
              || (sd && !E.pc_can_attack w1 id tg) then (0, w1)
          else if src.m ≠ target.m then
            if src.type = .BL_MOB then
              let r := E.hook (.mob_warpchase id tg) w1
              if r.1 ≠ 0 then (1, r.2) else (0, r.2)
            else (0, w1)
          else if ud.skilltimer ≠ INVALID_TIMER ∧ ¬ (sd ∧ E.pc_checkskill w1 id SA_FREECAST > 0) then
            (0, w1)
          else if ¬ E.sdelay_attack_enable ∧ ud.canact_tick - tick > 0
              ∧ ¬ (sd ∧ E.pc_checkskill w1 id SA_FREECAST > 0) then
            if tid = INVALID_TIMER then (0, w1)
            else if ud.state.attack_continue then
              let w2 :=
                if ud.canact_tick - ud.attackabletime > 0 then
                  w1.modUd id (fun u => { u with attackabletime := u.canact_tick })
                else w1
              let r := add_timer w2 (w2.UD id).attackabletime .unit_attack_timer id 0
              (1, r.2.modUd id (fun u => { u with attacktimer := r.1 }))
            else (1, w1)
          else
            let range := attack_range E w1 id tg ud.state.step_attack
            if sd && !check_distance_client_bl E src target range then (1, w1)
            else if md && !check_distance_bl E src target range then
              (1, (unit_walktobl E w1 id tg ud.chaserange (Int.lor (b2i ud.state.walk_easy) 2)).2)
            else if !E.battle_check_range w1 id tg range then
              if ud.state.attack_continue then
                let w2 :=
                  if ud.chaserange > 2 then w1.modUd id (fun u => { u with chaserange := u.chaserange - 2 })
                  else w1
                (1, (unit_walktobl E w2 id tg (w2.UD id).chaserange (Int.lor (b2i ud.state.walk_easy) 2)).2)
              else (1, w1)
            else if ud.attackabletime - tick ≤ 0 then
              (attack_execute E w1 id tg tick sd md).finish (fun w2 => attack_rearm E w2 id)
            else attack_rearm E w1 id

/-- Function `unit_attack_timer` (lines 2745-2754). -/
def unit_attack_timer (E : Env) (tid tick id _data : Int) (w : World) : Int × World :=
  match w.units id with
  | none => (0, w)
  | some _ =>
    let r := unit_attack_timer_sub E w id tid tick
    if r.1 = 0 then (0, (unit_unattackable E r.2 id).2) else (0, r.2)

/-- Part of `unit_attack`, lines 2347-2354: record the request in the control block (the
flags, the target and, for a continuous attack, the chase range). -/
def unit_attack_record (E : Env) (w : World) (id : Int) (target_id : Int) (continuous : Int) : World :=
  let w1 := w.modUd id (fun u =>
    { u with state := { u.state with attack_continue := flagset continuous 1,
                                     step_attack := flagset continuous 2 } })
  let w2 := (unit_set_target w1 id target_id).2
  let range := E.status_get_range w2 id
  if continuous ≠ 0 then w2.modUd id (fun u => { u with chaserange := range }) else w2

/-- The value `range` of `unit_attack` (line 2351). -/
def unit_attack_range (E : Env) (w : World) (id : Int) (target_id : Int) (continuous : Int) : Int :=
  let w1 := w.modUd id (fun u =>
    { u with state := { u.state with attack_continue := flagset continuous 1,
                                     step_attack := flagset continuous 2 } })
  E.status_get_range (unit_set_target w1 id target_id).2 id

/-- Function `unit_attack` (lines 2316-2378). -/
def unit_attack (E : Env) (w : World) (id : Int) (target_id : Int) (continuous : Int) : Int × World :=
  match w.units id with
  | none => (0, w)
  | some src =>
    match unit_bl2ud src with
    | none => (0, w)
    | some _ =>
      match w.units target_id with
      | none => (1, (unit_unattackable E w id).2)
      | some target =>
        if E.status_isdead w target_id then (1, (unit_unattackable E w id).2)
        else if src.type = .BL_PC ∧ target.type = .BL_NPC then
          (0, (E.hook (.npc_click id target_id) w).2)
        else if !unit_can_attack E w id target_id then (0, unit_stop_attack w id)
        else if E.battle_check_target w id target_id ≤ 0 ∨ !E.status_check_skilluse w id target_id then
          (1, (unit_unattackable E w id).2)
        else
          let w3 := unit_attack_record E w id target_id continuous
          let range := unit_attack_range E w id target_id continuous
          if (w3.UD id).attacktimer ≠ INVALID_TIMER then (0, w3)
          else
            let w4 :=
              if (w3.UD id).stepaction ∨ (w3.UD id).steptimer ≠ INVALID_TIMER then
                unit_stop_stepaction w3 id
              else w3
            if src.type = .BL_PC ∧ (w4.UD id).walktimer ≠ INVALID_TIMER
                ∧ !E.battle_check_range w4 id target_id (range - 1) then
              (0, w4.modUd id (fun u =>
                { u with stepaction := true, target_to := u.target, stepskill_id := 0, stepskill_lv := 0 }))
            else if (w4.UD id).attackabletime - w4.gettick > 0 then
              let r := add_timer w4 (w4.UD id).attackabletime .unit_attack_timer id 0
              (0, r.2.modUd id (fun u => { u with attacktimer := r.1 }))
            else (0, (unit_attack_timer E INVALID_TIMER w4.gettick id 0 w4).2)

/-! ## Walking: the remainder of the walk timer -/

/-- Part of `unit_walktoxy_timer`, lines 494-507: schedule the deferred action half a
step later. -/
def walk_stepaction_part (E : Env) (tick id : Int) (w : World) : World :=
  if (w.UD id).stepaction ∧ (w.UD id).target_to ≠ 0 then
    let w1 :=
      if (w.UD id).steptimer ≠ INVALID_TIMER then
        (delete_timer w (w.UD id).steptimer .unit_step_timer).2.modUd id
          (fun u => { u with steptimer := INVALID_TIMER })
      else w
    let i :=
      if direction_diagonal ((w1.UD id).walkpath.at (w1.UD id).walkpath.path_pos) then
        E.status_get_speed w1 id * MOVE_DIAGONAL_COST / MOVE_COST / 2
      else E.status_get_speed w1 id / 2
    let r := add_timer w1 (tick + i) .unit_step_timer id 0
    r.2.modUd id (fun u => { u with steptimer := r.1 })
  else w

/-- Part of `unit_walktoxy_timer`, lines 534-560: the path is exhausted while chasing. -/
def walk_chase_part (E : Env) (id : Int) (w : World) : Int × World :=
  let tg := (w.UD id).target_to
  let visible : Bool :=
    match w.units tg with
    | some _ => E.status_check_visibility w id tg
    | none => false
  if !visible then
    let w1 := w.modUd id (fun u => { u with to_x := (w.BL id).x, to_y := (w.BL id).y })
    if (w1.units tg).isSome ∧ (w1.BL id).type = .BL_MOB then
      let r := E.hook (.mob_warpchase id tg) w1
      if r.1 ≠ 0 then (0, r.2) else (0, r.2.modUd id (fun u => { u with target_to := 0 }))
    else (0, w1.modUd id (fun u => { u with target_to := 0 }))
  else if (w.BL tg).m = (w.BL id).m ∧ check_distance_bl E (w.BL id) (w.BL tg) (w.UD id).chaserange then
    if (w.UD id).state.attack_continue then
      let w1 := w.modUd id (fun u => { u with target_to := 0 })
      (0, (unit_attack E w1 id tg (b2i (w1.UD id).state.attack_continue)).2)
    else (0, w)
  else
    (0, (unit_walktobl E w id tg (w.UD id).chaserange
          (if (w.UD id).state.attack_continue then 2 else 0)).2)

/-- Function `unit_walktoxy_timer`, lines 491-577: the remainder after the block has
entered the cell `(x, y)`. -/
def unit_walktoxy_timer_rest (E : Env) (tid tick id : Int) (x y : Int) (w : World) : Int × World :=
  if tid = INVALID_TIMER then (0, w)
  else
    let w1 := walk_stepaction_part E tick id w
    if (w1.UD id).state.change_walk_target then
      let s := unit_walktoxy_sub E w1 id
      if s.1 ≠ 0 then (1, s.2) else (0, s.2)
    else
      let w2 := w1.modUd id (fun u =>
        { u with walkpath := { u.walkpath with path_pos := u.walkpath.path_pos + 1 } })
      let i := step_delay (w2.UD id).walkpath (E.status_get_speed w2 id)
      if i > 0 then
        let r := add_timer w2 (tick + i) .unit_walktoxy_timer id i
        (0, r.2.modUd id (fun u => { u with walktimer := r.1 }))
      else if (w2.UD id).state.running then
        let r1 := unit_run E w2 id false false
        if r1.1 ≠ 0 then (0, r1.2)
        else
          let r2 := unit_run E r1.2 id (decide ((w2.BL id).type = .BL_PC)) true
          if r2.1 ≠ 0 then (0, r2.2)
          else (0, r2.2.modUd id (fun u => { u with state := { u.state with running := false } }))
      else if !(w2.UD id).stepaction ∧ (w2.UD id).target_to ≠ 0 then walk_chase_part E id w2
      else
        let w3 := w2.modUd id (fun u => { u with to_x := (w2.BL id).x, to_y := (w2.BL id).y })
        if E.official_cell_stack_limit > 0
            ∧ E.map_count_oncell w3 (w3.BL id).m x y > E.official_cell_stack_limit then
          let w4 :=
            if (w3.UD id).steptimer ≠ INVALID_TIMER then
              (delete_timer w3 (w3.UD id).steptimer .unit_step_timer).2.modUd id
                (fun u => { u with steptimer := INVALID_TIMER })
            else w3
          unit_walktoxy E w4 id x y 8
        else (0, w3)

/-- Function `unit_walktoxy_timer` (lines 322-578); the timer datum is not read. -/
def unit_walktoxy_timer (E : Env) (tid tick id _data : Int) (w : World) : Int × World :=
  unit_walktoxy_timer_step E (unit_walktoxy_timer_rest E tid tick id) tid tick id w

/-! ## Firing of timers -/

/-- Modelled from the spec: the timer service (missing: `common/timer.cpp`) fires a
pending timer by removing it, advancing the clock to its tick and invoking its callback
with the handle, the tick, the id and the datum. This is the firing of the entity's walk
timer, the one whose handle is stored in `walktimer`; nothing fires when no such timer is
pending. -/
def fire_walktimer (E : Env) (w : World) (id : Int) : World :=
  match get_timer w (w.UD id).walktimer with
  | none => w
  | some td =>
    if td.func = .unit_walktoxy_timer then
      let w1 : World :=
        { w with timers := w.timers.filter (fun t => t.tid != td.tid), gettick := td.tick }
      (unit_walktoxy_timer E td.tid td.tick td.id td.data w1).2
    else w

/-- Modelled from the spec: the timer service (missing: `common/timer.cpp`) firing the
entity's pending attack timer, the one whose handle is stored in `attacktimer`. -/
def fire_attacktimer (E : Env) (w : World) (id : Int) : World :=
  match get_timer w (w.UD id).attacktimer with
  | none => w
  | some td =>
    if td.func = .unit_attack_timer then
      let w1 : World :=
        { w with timers := w.timers.filter (fun t => t.tid != td.tid), gettick := td.tick }
      (unit_attack_timer E td.tid td.tick td.id td.data w1).2
    else w

/-- The pending walk timers of an entity. -/
def pending_walktimers (w : World) (id : Int) : List TimerData :=
  w.timers.filter (fun t => t.func == .unit_walktoxy_timer && t.id == id)

/-- The pending attack timers of an entity. -/
def pending_attacktimers (w : World) (id : Int) : List TimerData :=
  w.timers.filter (fun t => t.func == .unit_attack_timer && t.id == id)

/-! ## Skill casts

The skill subsystem (`skill.cpp`) is a collaborator: its checks are fields of `Env`, its
procedures go through `Env.hook`. Skill ids, levels and coordinates are taken to be within
the range of their C types. -/

/-- The outcome of a cast request before the cast is scheduled: the request is refused
with a result, or the cast is ready: the state, the player `sd` points to and the adjusted
cast time. -/
inductive cast_start where
  | refused (r : Int) (w : World)
  | ready (w : World) (sd : Option Int) (casttime : Int)

/-- End with the early return, or go on with `rest` on fall-through. -/
def walk_result.start (a : walk_result) (rest : World → cast_start) : cast_start :=
  match a with
  | .ret r w => .refused r w
  | .go w => rest w

/-- Part of `unit_skilluse_id2`, lines 1662-1760: the checks on the chosen target, the
skill-specific checks and records for a player (lines 1689-1749, a collaborator's
procedure) and the check on a monster's slave. The result is `ret 0` when the request is
refused. -/
def skilluse_id_checks (E : Env) (w : World) (id : Int) (src target : Block) (ud : unit_data)
    (target_id skill_id skill_lv : Int) : walk_result :=
  let sd := decide (src.type = .BL_PC)
  if src.m ≠ target.m ∨ src.prev = false ∨ target.prev = false then .ret 0 w
  else if E.ksprotection ∧ sd ∧ E.mob_ksprotected w id target_id then .ret 0 w
  else if ud.skilltimer ≠ INVALID_TIMER ∧ skill_id ≠ SA_CASTCANCEL ∧ skill_id ≠ SO_SPELLFIST then
    .ret 0 w
  else if E.skill_no_target_self skill_id ∧ id = target_id then .ret 0 w
  else if !E.status_check_skill w id (some target_id) skill_id then .ret 0 w
  else if E.skill_near_npc w id skill_id skill_lv target.x target.y then .ret 0 w
  else
    let a : walk_result :=
      if sd then
        let r := E.hook (.skill_castbegin_pc id target_id skill_id skill_lv) w
        if r.1 = 0 then .ret 0 r.2 else .go r.2
      else .go w
    a.andThen (fun w1 =>
      if src.type = .BL_MOB ∧ E.mob_slave_skill w1 id skill_id then .ret 0 w1 else .go w1)

/-- Part of `unit_skilluse_id2`, lines 1767-1777, and of `unit_skilluse_pos2`, lines
2086-2098: a new request deletes the deferred one; while a player walks and the target is
not yet within `range - 1`, the request is deferred to the next cell and the result is
`ret 0`. `near` is the call `battle_check_range(src, target, range - 1)` and `target_to`
the value stored for the target (its id, or the cell as one number). -/
def skilluse_queue (w : World) (id : Int) (src : Block) (walkqueue : Bool) (near : World → Bool)
    (target_to skill_id skill_lv : Int) : walk_result :=
  let w1 :=
    if (w.UD id).stepaction ∨ (w.UD id).steptimer ≠ INVALID_TIMER then unit_stop_stepaction w id
    else w
  if walkqueue ∧ src.type = .BL_PC ∧ (w1.UD id).walktimer ≠ INVALID_TIMER ∧ !near w1 then
    .ret 0 (w1.modUd id (fun u =>
      { u with stepaction := true, target_to := target_to, stepskill_id := skill_id,
               stepskill_lv := skill_lv }))
  else .go w1

/-- Part of `unit_skilluse_id2`, lines 1781-1790: whether the range check refuses the
request. -/
def skilluse_id_range (E : Env) (w : World) (id : Int) (src : Block) (target_id skill_id : Int)
    (combo : Bool) (range : Int) : Bool :=
  if id ≠ target_id ∧ (combo = false ∨ (w.UD id).attacktimer = INVALID_TIMER) then
    if E.skill_move_enable (w.UD id).skill_id then
      !(unit_can_reach_bl E w (w.BL id) (w.BL target_id) (range + 1) true).1
    else if src.type = .BL_MER ∧ skill_id = MA_REMOVETRAP then
      match E.battle_get_master w id with
      | some m => !E.battle_check_range w m target_id (range + 1)
      | none => true
    else !E.battle_check_range w id target_id range
  else false

/-- Part of `unit_skilluse_id2`, lines 1792-1797: a skill that is no combo stops the
attack, a combo delays the pending attack; the one-bit flag `skillcastcancel` takes the
low bit of `castcancel`. -/
def skilluse_id_prepare (E : Env) (w : World) (id : Int) (combo : Bool) (castcancel tick : Int) :
    World :=
  let w1 :=
    if combo = false then unit_stop_attack w id
    else if (w.UD id).attacktimer ≠ INVALID_TIMER then
      w.modUd id (fun u => { u with attackabletime := tick + E.adelay w id })
    else w
  w1.modUd id (fun u =>
    { u with state := { u.state with skillcastcancel := decide (castcancel % 2 = 1) } })

/-- The player `sd` points to after the switch of lines 1802-1880: for an elemental that
uses one of its offensive skills `sd` is set to its master (line 1873), if that is a
player; else `sd` is the caster, if it is a player. -/
def skilluse_sd (E : Env) (w : World) (id : Int) (src : Block) (skill_id : Int) : Option Int :=
  if src.type = .BL_ELEM ∧ E.skill_el_offensive skill_id then
    match E.battle_get_master w id with
    | some m => if (w.BL m).type = .BL_PC then some m else none
    | none => none
  else if src.type = .BL_PC then some id
  else none

/-- Part of `unit_skilluse_id2`, lines 1903-1924: a monster with a cast sensor turns on
the caster. -/
def skill_cast_sensor (E : Env) (w : World) (id target_id : Int) : World :=
  if (E.status_has_mode w target_id .MD_CASTSENSOR_IDLE
        || E.status_has_mode w target_id .MD_CASTSENSOR_CHASE)
      && decide (E.battle_check_target w target_id id > 0) then
    let alert := w.modBlock target_id (fun b =>
      { b with md := { b.md with target_id := id,
                                 aggressive := E.status_has_mode w target_id .MD_ANGRY,
                                 min_chase := b.md.range3 } })
    match (w.BL target_id).md.skillstate with
    | .MSS_RUSH | .MSS_FOLLOW =>
      if !E.status_has_mode w target_id .MD_CASTSENSOR_CHASE then w else alert
    | .MSS_IDLE | .MSS_WALK =>
      if !E.status_has_mode w target_id .MD_CASTSENSOR_IDLE then w else alert
    | _ => w
  else w

/-- Part of `unit_skilluse_id2`, lines 1889-1925: the caster stops walking unless it
runs, and a monster targeted by a player learns of the cast. -/
def skilluse_id_begin (E : Env) (w : World) (id : Int) (sd : Option Int)
    (target_id skill_id tick : Int) : World :=
  let w1 := if (w.UD id).state.running = false then (unit_stop_walking E w id 1).2 else w
  let w2 := (E.hook (.skill_toggle_magicpower id skill_id) w1).2
  if sd.isSome ∧ (w2.BL target_id).type = .BL_MOB then
    skill_cast_sensor E (E.hook (.mobskill_event target_id id tick (-1)) w2).2 id target_id
  else w2

/-- Part of `unit_skilluse_id2`, lines 1930-1931, and of `unit_skilluse_pos2`, lines
2116-2117: the next time the entity may act. -/
def skilluse_canact (E : Env) (w : World) (id : Int) (sd : Option Int)
    (skill_id skill_lv casttime tick : Int) : World :=
  if (match sd with
      | some s => E.skillitem w s != skill_id
      | none => true) || E.skill_get_cast skill_id skill_lv != 0 then
    w.modUd id (fun u =>
      { u with canact_tick :=
          tick + max casttime (max (E.amotion w id) E.min_skill_delay_limit) + SECURITY_CASTTIME })
  else w

/-- Part of `unit_skilluse_id2`, lines 1927-1945: a cast without cast time cannot be
cancelled; the cast is recorded in the control block. -/
def skilluse_id_store (E : Env) (w : World) (id : Int) (sd : Option Int)
    (target_id skill_id skill_lv casttime tick : Int) : World :=
  let w1 :=
    if casttime ≤ 0 then
      w.modUd id (fun u => { u with state := { u.state with skillcastcancel := false } })
    else w
  let w2 := skilluse_canact E w1 id sd skill_id skill_lv casttime tick
  let w3 :=
    match sd with
    | some s =>
      if skill_id = CG_ARROWVULCAN then
        w2.modBlock s (fun b => { b with sd := { b.sd with canequip_tick := tick + casttime } })
      else w2
    | none => w2
  w3.modUd id (fun u =>
    { u with skilltarget := target_id, skillx := 0, skilly := 0, skill_id := skill_id,
             skill_lv := skill_lv })

/-- Part of `unit_skilluse_id2`, lines 1947-1960, and of `unit_skilluse_pos2`, lines
2134-2147: the cast ends a cloaking status; the result is `ret 0` when that takes the
caster off the map. -/
def skilluse_uncloak (E : Env) (w : World) (id : Int) (skill : Option Int) : walk_result :=
  match E.sc_cloak_ends w id skill with
  | none => .go w
  | some exceed =>
    let r := E.hook (.status_change_end_cloak id exceed) w
    if (r.2.BL id).prev = false then .ret 0 r.2 else .go r.2

/-- The end of `unit_skilluse_id2` and `unit_skilluse_pos2`, lines 1971-1974 and
2167-2170: the logout lock of the player. -/
def skilluse_canlog (E : Env) (w : World) (sd : Option Int) : Int × World :=
  match sd with
  | some s =>
    if E.plt_skill then
      (1, w.modBlock s (fun b => { b with sd := { b.sd with canlog_tick := w.gettick } }))
    else (1, w)
  | none => (1, w)

/-- Part of `unit_skilluse_id2`, lines 1963-1974: a cast with a cast time schedules the
cast timer and stores its handle; else the cast-end handler runs at once, with the handle
that is stored. -/
def skilluse_id_schedule (E : Env) (w : World) (id : Int) (sd : Option Int)
    (skill_id casttime tick : Int) : Int × World :=
  let w1 :=
    if casttime > 0 then
      let r := add_timer w (tick + casttime) .skill_castend_id id 0
      let wa := r.2.modUd id (fun u => { u with skilltimer := r.1 })
      match sd with
      | some s =>
        if E.pc_checkskill wa s SA_FREECAST > 0 ∨ skill_id = LG_EXEEDBREAK then
          (E.hook (.status_calc_bl s) wa).2
        else wa
      | none => wa
    else (E.hook (.skill_castend_id (w.UD id).skilltimer tick id 0) w).2
  skilluse_canlog E w1 sd

/-- Part of `unit_skilluse_id2`, lines 1792-1961: the cast begins. The skill-specific
cast time rules with `skill_castfix_sc` or `skill_vfcastfix` (lines 1802-1887) are a
collaborator's procedure, `skill_casttime`, whose result is the adjusted cast time; its
refusal of ALL_RESURRECTION on the living (lines 1803-1807) is `Env.skill_cast_refused`. -/
def skilluse_id_cast (E : Env) (w2 : World) (id : Int) (src : Block)
    (tid skill_id skill_lv ct castcancel tick : Int) (combo : Bool) : cast_start :=
  let w3 := skilluse_id_prepare E w2 id combo castcancel tick
  if E.skill_cast_refused w3 id tid skill_id then .refused 0 w3
  else
    let r := E.hook (.skill_casttime id tid skill_id skill_lv ct) w3
    let sd := skilluse_sd E r.2 id src skill_id
    let w4 := skilluse_id_begin E r.2 id sd tid skill_id tick
    let w5 := skilluse_id_store E w4 id sd tid skill_id skill_lv r.1 tick
    (skilluse_uncloak E w5 id (some skill_id)).start (fun w6 => .ready w6 sd r.1)

/-- Function `unit_skilluse_id2`, lines 1546-1961: everything before the cast is
scheduled. The combo and auto-target rules (lines 1577-1657) are a collaborator's,
`Env.skill_select`. -/
def skilluse_id_start (E : Env) (w : World) (id target_id skill_id skill_lv casttime castcancel : Int)
    (walkqueue : Bool) : cast_start :=
  match w.units id with
  | none => .refused 0 w
  | some src =>
    if E.status_isdead w id then .refused 0 w
    else
      match unit_bl2ud src with
      | none => .refused 0 w
      | some ud =>
        if ud.state.blockedskill then .refused 0 w
        else
          match E.skill_select w id target_id skill_id skill_lv casttime with
          | none => .refused 0 w
          | some (tid, combo, ct) =>
            match w.units tid with
            | none => .refused 0 w
            | some target =>
              let tick := w.gettick
              (skilluse_id_checks E w id src target ud tid skill_id skill_lv).start (fun w1 =>
                let range :=
                  if src.type = .BL_NPC then E.area_size else E.skill_get_range2 w1 id skill_id skill_lv
                (skilluse_queue w1 id src walkqueue
                    (fun v => E.battle_check_range v id tid (range - 1)) tid skill_id skill_lv).start
                  (fun w2 =>
                    if skilluse_id_range E w2 id src tid skill_id combo range then .refused 0 w2
                    else skilluse_id_cast E w2 id src tid skill_id skill_lv ct castcancel tick combo))

/-- Function `unit_skilluse_id2` (lines 1546-1975). -/
def unit_skilluse_id2 (E : Env) (w : World) (id target_id skill_id skill_lv casttime castcancel : Int)
    (walkqueue : Bool) : Int × World :=
  match skilluse_id_start E w id target_id skill_id skill_lv casttime castcancel walkqueue with
  | .refused r w1 => (r, w1)
  | .ready w6 sd c => skilluse_id_schedule E w6 id sd skill_id c w.gettick

/-- Function `unit_skilluse_id` (lines 1355-1362). -/
def unit_skilluse_id (E : Env) (w : World) (id target_id skill_id skill_lv : Int)
    (walkqueue : Bool) : Int × World :=
  unit_skilluse_id2 E w id target_id skill_id skill_lv (E.skill_castfix w id skill_id skill_lv)
    (E.skill_get_castcancel skill_id) walkqueue

/-- Part of `unit_skilluse_pos2`, lines 2052-2073: the checks of the skill subsystem; for a
player the first ones are a collaborator's procedure (lines 2052-2057). -/
def skilluse_pos_checks (E : Env) (w : World) (id : Int) (sd : Bool)
    (skill_x skill_y skill_id skill_lv : Int) : walk_result :=
  let a : walk_result :=
    if sd then
      let r := E.hook (.skill_castbegin_pos id skill_x skill_y skill_id skill_lv) w
      if r.1 = 0 then .ret 0 r.2 else .go r.2
    else .go w
  a.andThen (fun w1 =>
    if E.skill_maelstrom w1 id skill_x skill_y skill_id then .ret 0 w1
    else if !E.status_check_skill w1 id none skill_id then .ret 0 w1
    else if E.skill_near_npc w1 id skill_id skill_lv skill_x skill_y then .ret 0 w1
    else .go w1)

/-- Part of `unit_skilluse_pos2`, lines 2100-2104: whether the range check refuses the
request. -/
def skilluse_pos_range (E : Env) (w : World) (id : Int) (src : Block)
    (skill_x skill_y range : Int) : Bool :=
  if E.skill_move_enable (w.UD id).skill_id then
    !(unit_can_reach_bl E w (w.BL id) { type := .BL_NUL, m := src.m, x := skill_x, y := skill_y }
        (range + 1) true).1
  else !E.battle_check_range_pos w id skill_x skill_y range

/-- Part of `unit_skilluse_pos2`, lines 2115-2132: the cast is recorded in the control
block; it can be cancelled when `castcancel` is set and it has a cast time. -/
def skilluse_pos_store (E : Env) (w : World) (id : Int) (sd : Bool)
    (skill_x skill_y skill_id skill_lv castcancel casttime tick : Int) : World :=
  let w1 := w.modUd id (fun u =>
    { u with state := { u.state with skillcastcancel := decide (castcancel ≠ 0 ∧ casttime > 0) } })
  let w2 := skilluse_canact E w1 id (if sd then some id else none) skill_id skill_lv casttime tick
  w2.modUd id (fun u =>
    { u with skill_id := skill_id, skill_lv := skill_lv, skillx := skill_x, skilly := skill_y,
             skilltarget := 0 })

/-- Part of `unit_skilluse_pos2`, lines 2157-2170: a cast with a cast time schedules the
cast timer and stores its handle; else the handle is cleared and the cast-end handler runs
at once. `status_calc_bl` gets `&sd->bl`, a null pointer (here 0) when the caster is no
player. -/
def skilluse_pos_schedule (E : Env) (w : World) (id : Int) (sd : Option Int)
    (skill_id casttime tick : Int) : Int × World :=
  let w1 :=
    if casttime > 0 then
      let r := add_timer w (tick + casttime) .skill_castend_pos id 0
      let wa := r.2.modUd id (fun u => { u with skilltimer := r.1 })
      if (match sd with
          | some s => decide (E.pc_checkskill wa s SA_FREECAST > 0)
          | none => false) || decide (skill_id = LG_EXEEDBREAK) then
        (E.hook (.status_calc_bl (sd.getD 0)) wa).2
      else wa
    else
      let wa := w.modUd id (fun u => { u with skilltimer := INVALID_TIMER })
      (E.hook (.skill_castend_pos (wa.UD id).skilltimer tick id 0) wa).2
  skilluse_canlog E w1 sd

/-- Part of `unit_skilluse_pos2`, lines 2106-2155: the cast begins. The cast time
adjustment `skill_castfix_sc` or `skill_vfcastfix` (lines 2109-2113) is a collaborator's
procedure, whose result is the adjusted cast time. -/
def skilluse_pos_cast (E : Env) (w2 : World) (id : Int) (sd : Bool)
    (skill_x skill_y skill_id skill_lv casttime castcancel tick : Int) : cast_start :=
  let w3 := unit_stop_attack w2 id
  let r := E.hook (.skill_castfix_sc id skill_id skill_lv casttime) w3
  let w4 := skilluse_pos_store E r.2 id sd skill_x skill_y skill_id skill_lv castcancel r.1 tick
  (skilluse_uncloak E w4 id none).start (fun w5 =>
    let w6 := (unit_stop_walking E w5 id 1).2
    .ready (E.hook (.skill_toggle_magicpower id skill_id) w6).2 (if sd then some id else none) r.1)

/-- Function `unit_skilluse_pos2`, lines 2018-2155: everything before the cast is
scheduled. -/
def skilluse_pos_start (E : Env) (w : World)
    (id skill_x skill_y skill_id skill_lv casttime castcancel : Int) (walkqueue : Bool) :
    cast_start :=
  match w.units id with
  | none => .refused 0 w
  | some src =>
    if src.prev = false then .refused 0 w
    else if E.status_isdead w id then .refused 0 w
    else
      match unit_bl2ud src with
      | none => .refused 0 w
      | some ud =>
        if ud.state.blockedskill then .refused 0 w
        else if ud.skilltimer ≠ INVALID_TIMER then .refused 0 w
        else
          let sd := decide (src.type = .BL_PC)
          let tick := w.gettick
          (skilluse_pos_checks E w id sd skill_x skill_y skill_id skill_lv).start (fun w1 =>
            let range :=
              if src.type = .BL_NPC then E.area_size else E.skill_get_range2 w1 id skill_id skill_lv
            (skilluse_queue w1 id src walkqueue
                (fun v => E.battle_check_range_pos v id skill_x skill_y (range - 1))
                (skill_x + skill_y * E.map_xs src.m) skill_id skill_lv).start
              (fun w2 =>
                if skilluse_pos_range E w2 id src skill_x skill_y range then .refused 0 w2
                else
                  skilluse_pos_cast E w2 id sd skill_x skill_y skill_id skill_lv casttime castcancel
                    tick))

/-- Function `unit_skilluse_pos2` (lines 2018-2171). -/
def unit_skilluse_pos2 (E : Env) (w : World)
    (id skill_x skill_y skill_id skill_lv casttime castcancel : Int) (walkqueue : Bool) :
    Int × World :=
  match skilluse_pos_start E w id skill_x skill_y skill_id skill_lv casttime castcancel
      walkqueue with
  | .refused r w1 => (r, w1)
  | .ready w7 sd c => skilluse_pos_schedule E w7 id sd skill_id c w.gettick

/-- Function `unit_skilluse_pos` (lines 1986-1993). -/
def unit_skilluse_pos (E : Env) (w : World) (id skill_x skill_y skill_id skill_lv : Int)
    (walkqueue : Bool) : Int × World :=
  unit_skilluse_pos2 E w id skill_x skill_y skill_id skill_lv
    (E.skill_castfix w id skill_id skill_lv) (E.skill_get_castcancel skill_id) walkqueue

/-- Function `unit_step_timer` (lines 255-312); the tick and the timer datum are not
read. The cell of a ground skill is taken out of `target_to` by the C division and
remainder. -/
def unit_step_timer (E : Env) (tid _tick id _data : Int) (w : World) : Int × World :=
  match w.units id with
  | none => (0, w)
  | some bl =>
    if bl.prev = false then (0, w)
    else
      match unit_bl2ud bl with
      | none => (0, w)
      | some ud =>
        if ud.steptimer ≠ tid then (0, w)
        else
          let w1 := w.modUd id (fun u => { u with steptimer := INVALID_TIMER })
          if ud.stepaction = false then (0, w1)
          else
            let w2 := w1.modUd id (fun u => { u with stepaction := false })
            if ud.target_to = 0 then (0, w2)
            else
              let target_id := ud.target_to
              let w3 := w2.modUd id (fun u => { u with target_to := 0 })
              if ud.stepskill_id ≠ 0 ∧ E.skill_ground ud.stepskill_id then
                (1, (unit_skilluse_pos E w3 id (Int.tmod target_id (E.map_xs bl.m))
                      (Int.tdiv target_id (E.map_xs bl.m)) ud.stepskill_id ud.stepskill_lv true).2)
              else
                match w3.units target_id with
                | none => (0, w3)
                | some _ =>
                  if !E.status_check_visibility w3 id target_id then (0, w3)
                  else if ud.stepskill_id = 0 then
                    (1, (unit_attack E w3 id target_id (b2i ud.state.attack_continue + 2)).2)
                  else
                    (1, (unit_skilluse_id E w3 id target_id ud.stepskill_id ud.stepskill_lv true).2)

/-- Function `unit_skillcastcancel` (lines 2764-2821). The skill id and the next equip
time of a player, `sd->skill_id_old` and `sd->canequip_tick`, are the skill subsystem's. -/
def unit_skillcastcancel (E : Env) (w : World) (id : Int) (type : Int) : Int × World :=
  match w.units id with
  | none => (0, w)
  | some bl =>
    match unit_bl2ud bl with
    | none => (0, w)
    | some ud =>
      if ud.skilltimer = INVALID_TIMER then (0, w)
      else
        let sd := decide (bl.type = .BL_PC)
        if flagset type 2 ∧ (ud.state.skillcastcancel = false ∨ (sd ∧ E.no_castcancel w id)) then
          (0, w)
        else
          let tick := w.gettick
          let w1 := w.modUd id (fun u => { u with canact_tick := tick })
          let skill_id := if flagset type 1 ∧ sd then E.skill_id_old w1 id else ud.skill_id
          let r :=
            if E.skill_ground skill_id then delete_timer w1 ud.skilltimer .skill_castend_pos
            else delete_timer w1 ud.skilltimer .skill_castend_id
          let w2 := r.2.modUd id (fun u => { u with skilltimer := INVALID_TIMER })
          let w3 :=
            if sd ∧ (E.pc_checkskill w2 id SA_FREECAST > 0 ∨ skill_id = LG_EXEEDBREAK) then
              (E.hook (.status_calc_bl id) w2).2
            else w2
          let w4 :=
            if sd ∧ skill_id = CG_ARROWVULCAN then
              w3.modBlock id (fun b => { b with sd := { b.sd with canequip_tick := tick } })
            else w3
          if bl.type = .BL_MOB then
            (1, w4.modBlock id (fun b => { b with md := { b.md with skill_idx := -1 } }))
          else (1, w4)

/-- Function `unit_can_reach_pos` (lines 2416-2424). -/
def unit_can_reach_pos (E : Env) (w : World) (bl : Block) (x y : Int) (easy : Bool) : Bool :=
  if bl.x = x ∧ bl.y = y then true
  else (E.path_search w bl.m bl.x bl.y x y easy .CELL_CHKNOREACH).isSome

/-- The candidate one cell closer to the master on each axis (lines 2518-2526 and
2542-2550). -/
def calc_pos_closer (dx dy x y : Int) : Int × Int :=
  (if dx > 0 then x - 1 else if dx < 0 then x + 1 else x,
   if dy > 0 then y - 1 else if dy < 0 then y + 1 else y)

/-- The loop of `unit_calc_pos` (lines 2531-2555) from the iteration `i` on, with `n`
iterations left; `rnd i` is the value of the call `rnd()` in the iteration `i`. The result
is the value of `i` after the loop, 12 when no candidate was reachable, and the last
candidate `(x, y)`. -/
def calc_pos_search (E : Env) (w : World) (bl : Block) (tx ty : Int) (rnd : Nat → Nat) :
    Nat → Nat → Int → Int → Nat × Int × Int
  | 0, i, x, y => (i, x, y)
  | n + 1, i, _, _ =>
    let k := rnd i % 8
    let dx := -dirx k * 2
    let dy := -diry k * 2
    let x := tx + dx
    let y := ty + dy
    if unit_can_reach_pos E w bl x y false then (i, x, y)
    else
      let c := calc_pos_closer dx dy x y
      if unit_can_reach_pos E w bl c.1 c.2 false then (i, c.1, c.2)
      else calc_pos_search E w bl tx ty rnd n (i + 1) c.1 c.2

/-- Function `unit_calc_pos` (lines 2498-2570); `rnd i` is the value of the `i`-th call of
`rnd()`. -/
def unit_calc_pos (E : Env) (w : World) (id : Int) (tx ty : Int) (dir : Nat) (rnd : Nat → Nat) :
    Int × World :=
  match w.units id with
  | none => (0, w)
  | some bl =>
    match unit_bl2ud bl with
    | none => (0, w)
    | some _ =>
      if dir > 7 then (1, w)
      else
        let w1 := w.modUd id (fun u => { u with to_x := tx, to_y := ty })
        let dx := -dirx dir * 2
        let dy := -diry dir * 2
        let x := tx + dx
        let y := ty + dy
        if !unit_can_reach_pos E w1 bl x y false then
          let c := calc_pos_closer dx dy x y
          if !unit_can_reach_pos E w1 bl c.1 c.2 false then
            let s := calc_pos_search E w1 bl tx ty rnd 12 0 c.1 c.2
            if s.1 = 12 then
              if !unit_can_reach_pos E w1 bl tx tx false then (1, w1)
              else (0, w1.modUd id (fun u => { u with to_x := tx, to_y := tx }))
            else (0, w1.modUd id (fun u => { u with to_x := s.2.1, to_y := s.2.2 }))
          else (0, w1.modUd id (fun u => { u with to_x := c.1, to_y := c.2 }))
        else (0, w1.modUd id (fun u => { u with to_x := x, to_y := y }))


/-! ## The counter of targeters -/

/-- Function `unit_counttargeted` (lines 2849-2857). -/
def unit_counttargeted (w : World) (id : Int) : Int :=
  match w.ud id with
  | some ud => ud.target_count
  | none => 0

/-! ## Initialisation of a control block -/

/-- AL_TELEPORT of `skill.hpp`. -/
abbrev AL_TELEPORT : Int := 26

/-- PET_INTIMATE_NONE of `pet.hpp`. -/
abbrev PET_INTIMATE_NONE : Int := 0

/-- CLR_OUTSIGHT of `clif.hpp`. -/
abbrev CLR_OUTSIGHT : Int := 0

/-- BL_CHAR of `map.hpp`: BL_PC|BL_MOB|BL_HOM|BL_MER|BL_ELEM. -/
abbrev BL_CHAR : Int := 0x21B

/-- The world with the depth of the free-block lock (`block_free_lock` of `map.cpp`) and
the counters `users`, `users_pvp` and `hpmeter_visible` of every map (`map[m]`). -/
structure MapState where
  world : World
  block_free_lock : Int := 0
  users : Int → Int := fun _ => 0
  users_pvp : Int → Int := fun _ => 0
  hpmeter_visible : Int → Int := fun _ => 0

/-- A step that changes the world only. -/
def MapState.onWorld (s : MapState) (f : World → World) : MapState :=
  { s with world := f s.world }

/-- Modelled from the spec: `map_freeblock_lock` (missing: `map.cpp`). It opens a section
in which released blocks are kept: the lock depth grows by one. -/
def map_freeblock_lock (s : MapState) : MapState :=
  { s with block_free_lock := s.block_free_lock + 1 }

/-- Modelled from the spec: `map_freeblock_unlock` (missing: `map.cpp`). It closes a
section opened by `map_freeblock_lock`: the lock depth falls by one. -/
def map_freeblock_unlock (s : MapState) : MapState :=
  { s with block_free_lock := s.block_free_lock - 1 }

/-- Modelled from the spec: `map_delblock` (missing: `map.cpp`). It removes the block
from the spatial index: `bl->prev` is NULL afterwards. -/
def map_delblock (w : World) (id : Int) : World :=
  w.modBlock id (fun b => { b with prev := false })

/-- Modelled from the spec: `map_deliddb` (missing: `map.cpp`). It removes the block from
the id database: `map_id2bl` no longer finds it. -/
def map_deliddb (w : World) (id : Int) : World :=
  { w with units := fun i => if i = id then none else w.units i }

/-- Modelled from the spec: `npc_remove_map` (missing: `npc.cpp`), the removal of an NPC
from the spatial index (`already handled by npc_remove_map`, line 3165): the block leaves
the index, and the bookkeeping of the NPC subsystem reports a result, 0 on success. -/
def npc_remove_map (E : Env) (w : World) (id : Int) : Int × World :=
  let r := E.hook (.npc_remove_map id) w
  (r.1, map_delblock r.2 id)

/-- Statements executed one after the other, each on the world the one before left. -/
def run_steps (steps : List (World → World)) (w : World) : World :=
  steps.foldl (fun w1 f => f w1) w

/-- Collaborator calls made one after the other, their results dropped. -/
def run_calls (E : Env) (cs : List ext_call) (w : World) : World :=
  cs.foldl (fun w1 c => (E.hook c w1).2) w

/-- Lines 2914-2929 of `unit_remove_map_`: stop the walk, the cast, the attack and the
deferred action, and let the entity attack and move from now on. -/
def remove_map_stop (E : Env) (w : World) (id : Int) : World :=
  let w1 := if (w.UD id).walktimer ≠ INVALID_TIMER then (unit_stop_walking E w id 0).2 else w
  let w2 :=
    if (w1.UD id).skilltimer ≠ INVALID_TIMER then (unit_skillcastcancel E w1 id 0).2 else w1
  let w3 :=
    if (w2.UD id).target ≠ 0 ∨ (w2.UD id).attacktimer ≠ INVALID_TIMER then unit_stop_attack w2 id
    else w2
  let w4 :=
    if (w3.UD id).stepaction = true ∨ (w3.UD id).steptimer ≠ INVALID_TIMER then
      unit_stop_stepaction w3 id
    else w3
  w4.modUd id (fun u => { u with attackabletime := w4.gettick, canmove_tick := w4.gettick })

/-- Lines 2931-2969 of `unit_remove_map_`: the statuses that end on a map change or a
warp; `sc->count` is the number of active statuses of the block. -/
def remove_map_dispels (E : Env) (w : World) (id : Int) (type : bl_type) : World :=
  if E.member "sc->count" w id ≠ 0 then
    let w1 := run_calls E
      [.status_change_end_sc id "SC_BLADESTOP", .status_change_end_sc id "SC_BASILICA",
       .status_change_end_sc id "SC_ANKLE", .status_change_end_sc id "SC_TRICKDEAD",
       .status_change_end_sc id "SC_BLADESTOP_WAIT", .status_change_end id false,
       .status_change_end_sc id "SC_DANCING", .status_change_end_sc id "SC_WARM",
       .status_change_end_sc id "SC_DEVOTION", .status_change_end_sc id "SC_MARIONETTE",
       .status_change_end_sc id "SC_MARIONETTE2", .status_change_end_sc id "SC_CLOSECONFINE",
       .status_change_end_sc id "SC_CLOSECONFINE2", .status_change_end_sc id "SC_TINDER_BREAKER",
       .status_change_end_sc id "SC_TINDER_BREAKER2", .status_change_end_sc id "SC_HIDING"] w
    let w2 :=
      if type ≠ .BL_PC then
        run_calls E [.status_change_end_cloak id false, .status_change_end_cloak id true] w1
      else w1
    let w3 := (E.hook (.status_change_end_sc id "SC_CHASEWALK") w2).2
    let w4 :=
      if E.member "sc->data[SC_GOSPEL]->val4 == BCT_SELF" w3 id ≠ 0 then
        (E.hook (.status_change_end_sc id "SC_GOSPEL") w3).2
      else w3
    let w5 :=
      if E.member "sc->data[SC_PROVOKE]->timer == INVALID_TIMER" w4 id ≠ 0 then
        (E.hook (.status_change_end_sc id "SC_PROVOKE") w4).2
      else w4
    run_calls E
      [.status_change_end_sc id "SC_CHANGE", .status_change_end_sc id "SC_STOP",
       .status_change_end id true, .status_change_end_sc id "SC_CAMOUFLAGE",
       .status_change_end_sc id "SC_NEUTRALBARRIER_MASTER",
       .status_change_end_sc id "SC_STEALTHFIELD_MASTER",
       .status_change_end_sc id "SC__SHADOWFORM", .status_change_end_sc id "SC__MANHOLE",
       .status_change_end_sc id "SC_VACUUM_EXTREME",
       .status_change_end_sc id "SC_CURSEDCIRCLE_ATKER", .status_change_end_sc id "SC_SUHIDE"] w5
  else w

/-- Lines 2975-3012 of `unit_remove_map_`, a player: the shadow form of the target ends,
and the player leaves the chat, the trade, the store search and the storage and declines
every invitation. -/
def remove_map_pc_leave (E : Env) (w : World) (id : Int) : World :=
  run_steps
    [fun w =>
      if E.member "sd->shadowform_id" w id ≠ 0 then
        match w.units (E.member "sd->shadowform_id" w id) with
        | some _ =>
          (E.hook (.status_change_end_sc (E.member "sd->shadowform_id" w id) "SC__SHADOWFORM") w).2
        | none => w
      else w,
     fun w =>
      if E.member "sd->chatID" w id ≠ 0 then (E.hook (.collab "chat_leavechat" id 0) w).2 else w,
     fun w =>
      if E.member "sd->trade_partner" w id ≠ 0 then (E.hook (.collab "trade_tradecancel" id 0) w).2
      else w,
     fun w => (E.hook (.collab "searchstore_close" id 0) w).2,
     fun w =>
      if (w.BL id).sd.menuskill_id ≠ AL_TELEPORT then
        (if (w.BL id).sd.storage_flag = 1 then
          (E.hook (.collab "storage_storage_quit" id 0) w).2
        else if (w.BL id).sd.storage_flag = 2 then
          (E.hook (.collab "storage_guild_storage_quit" id 0) w).2
        else if (w.BL id).sd.storage_flag = 3 then
          (E.hook (.collab "storage_premiumStorage_quit" id 0) w).2
        else w).modBlock id (fun b => { b with sd := { b.sd with storage_flag := 0 } })
      else w,
     fun w =>
      if E.member "sd->party_invite" w id > 0 then
        (E.hook (.collab "party_reply_invite" id (E.member "sd->party_invite" w id)) w).2
      else w,
     fun w =>
      if E.member "sd->guild_invite" w id > 0 then
        (E.hook (.collab "guild_reply_invite" id (E.member "sd->guild_invite" w id)) w).2
      else w,
     fun w =>
      if E.member "sd->guild_alliance" w id > 0 then
        (E.hook (.collab "guild_reply_reqalliance" id
          (E.member "sd->guild_alliance_account" w id)) w).2
      else w,
     fun w =>
      if (w.BL id).sd.menuskill_id ≠ 0 then
        w.modBlock id (fun b => { b with sd := { b.sd with menuskill_id := 0, menuskill_val := 0 } })
      else w] w

/-- Lines 3014-3036 of `unit_remove_map_`, a player: the NPC areas are left, a warp on
the same map ends the cloaks, the shop and the adoption request are dropped, the PvP rank
timer is cancelled, the duel is left and a sitting player stands up. -/
def remove_map_pc_reset (E : Env) (w : World) (id : Int) : World :=
  run_steps
    [fun w =>
      if (w.BL id).sd.npc_ontouch_empty = false then
        (E.hook (.collab "npc_touchnext_areanpc" id 1) w).2
      else w,
     fun w =>
      if E.member "sd->state.warping" w id ≠ 0 ∧ E.member "sd->state.changemap" w id = 0 then
        run_calls E [.status_change_end_cloak id false, .status_change_end_cloak id true] w
      else w,
     fun w => w.modBlock id (fun b => { b with sd := { b.sd with npc_shopid := 0, adopt_invite := 0 } }),
     fun w =>
      if (w.BL id).sd.pvp_timer ≠ INVALID_TIMER then
        (delete_timer w (w.BL id).sd.pvp_timer .pc_calc_pvprank_timer).2.modBlock id
          (fun b => { b with sd := { b.sd with pvp_timer := INVALID_TIMER, pvp_rank := 0 } })
      else w,
     fun w =>
      if E.member "sd->duel_group" w id > 0 then
        (E.hook (.collab "duel_leave" id (E.member "sd->duel_group" w id)) w).2
      else w,
     fun w =>
      if (w.BL id).sd.issit then
        (if (E.hook (.collab "pc_setstand" id 0) w).1 ≠ 0 then
          (E.hook (.collab "skill_sit" id 0) (E.hook (.collab "pc_setstand" id 0) w).2).2
        else (E.hook (.collab "pc_setstand" id 0) w).2)
      else w] w

/-- Lines 3042-3062 of `unit_remove_map_`, a player: the map has one user less; when the
count is not positive or the player was removed before, the count stays and the debug
members are initialised for the message. -/
def remove_map_pc_users (E : Env) (s : MapState) (id : Int) : MapState :=
  let m := (s.world.BL id).m
  if s.users m ≤ 0 ∨ (s.world.BL id).sd.debug_remove_map = true then
    if (s.world.BL id).sd.debug_file = none ∨ (s.world.BL id).sd.debug_remove_map = false then
      s.onWorld (fun w => w.modBlock id (fun b =>
        { b with sd := { b.sd with debug_file := some "", debug_line := 0, debug_func := "" } }))
    else s
  else if s.users m - 1 = 0 ∧ E.dynamic_mobs = true then
    { s with users := fun i => if i = m then s.users m - 1 else s.users i,
             world := (E.hook (.collab "map_removemobs" m 0) s.world).2 }
  else { s with users := fun i => if i = m then s.users m - 1 else s.users i }

/-- Lines 3064-3065 of `unit_remove_map_`, a player: a visible player leaves the count of
PvP players of the map. -/
def remove_map_pc_pvp (E : Env) (s : MapState) (id : Int) : MapState :=
  let m := (s.world.BL id).m
  if E.member "pc_isinvisible" s.world id = 0 then
    { s with users_pvp := fun i => if i = m then s.users_pvp m - 1 else s.users_pvp i }
  else s

/-- Lines 3067-3070 of `unit_remove_map_`, a player: the HP meter. -/
def remove_map_pc_hpmeter (s : MapState) (id : Int) : MapState :=
  let m := (s.world.BL id).m
  if (s.world.BL id).sd.hpmeter_visible then
    { s with
      hpmeter_visible := fun i => if i = m then s.hpmeter_visible m - 1 else s.hpmeter_visible i,
      world := s.world.modBlock id (fun b => { b with sd := { b.sd with hpmeter_visible := false } }) }
  else s

/-- Lines 3072-3075 of `unit_remove_map_`, a player: the call is recorded in the debug
members. -/
def remove_map_pc_record (s : MapState) (id : Int) (file : String) (line : Int) (func : String) :
    MapState :=
  s.onWorld (fun w => w.modBlock id (fun b =>
    { b with sd := { b.sd with debug_remove_map := true, debug_file := some file,
                               debug_line := line, debug_func := func } }))

/-- Case BL_PC of `unit_remove_map_` (lines 2972-3077). -/
def remove_map_pc (E : Env) (s : MapState) (id : Int)
    (file : String) (line : Int) (func : String) : MapState :=
  remove_map_pc_record
    (remove_map_pc_hpmeter
      (remove_map_pc_pvp E
        (remove_map_pc_users E
          (s.onWorld (fun w => remove_map_pc_reset E (remove_map_pc_leave E w id) id)) id) id) id)
    id file line func

/-- Case BL_MOB of `unit_remove_map_` (lines 3078-3088). -/
def remove_map_mob (E : Env) (w : World) (id : Int) : World :=
  let w1 :=
    if E.mob_slave_keep_target = false then
      w.modBlock id (fun b => { b with md := { b.md with target_id := 0 } })
    else w
  w1.modBlock id (fun b => { b with md := { b.md with attacked_id := 0, skillstate := .MSS_IDLE } })

/-- The test `!(master && !master->state.active)` of lines 3092, 3108, 3125 and 3140: the
block has no master, or its master is an active player. -/
def master_active (E : Env) (w : World) (id : Int) : Bool :=
  match (w.BL id).master with
  | some mid => decide (E.member "sd->state.active" w mid ≠ 0)
  | none => true

/-- The test that sends a companion away for good when it leaves the map (lines 3092,
3108, 3125 and 3140): a pet without intimacy, a homunculus without intimacy, a
mercenary or an elemental whose contract has run out, of a master who is not logging out. -/
def remove_map_dismissed (E : Env) (w : World) (id : Int) : bl_type → Bool
  | .BL_PET => decide (E.member "pd->pet.intimate" w id ≤ PET_INTIMATE_NONE) && master_active E w id
  | .BL_HOM => decide (E.member "hd->homunculus.intimacy" w id = 0) && master_active E w id
  | .BL_MER => decide (E.member "mercenary_get_lifetime" w id ≤ 0) && master_active E w id
  | .BL_ELEM => decide (E.member "elemental_get_lifetime" w id ≤ 0) && master_active E w id
  | _ => false

/-- The statement `ud->canact_tick = ud->canmove_tick` of lines 3106, 3123 and 3138, for a
homunculus, a mercenary and an elemental. -/
def remove_map_canact (w : World) (id : Int) : bl_type → World
  | .BL_HOM | .BL_MER | .BL_ELEM => w.modUd id (fun u => { u with canact_tick := u.canmove_tick })
  | _ => w

/-- Lines 3158-3178 of `unit_remove_map_`: the skill units react to the block leaving
its cell, and every block but an NPC is taken off the spatial index (a monster by
`map_delblock` in either branch of its case, dead or not). -/
def remove_map_delblock (E : Env) (w : World) (id : Int) (type : bl_type) : World :=
  let w1 :=
    if flagset type.mask (BL_CHAR + bl_type.mask .BL_PET) then
      run_calls E [.collab "skill_unit_move" id 4, .collab "skill_cleartimerskill" id 0] w
    else w
  match type with
  | .BL_NPC => w1
  | _ => map_delblock w1 id

/-- Lines 3158-3182 of `unit_remove_map_`: the block leaves the spatial index, the lock
is released and the result is 1. -/
def remove_map_tail (E : Env) (s : MapState) (id : Int) (type : bl_type) :
    Option (Int × MapState) :=
  some (1, map_freeblock_unlock (s.onWorld (fun w => remove_map_delblock E w id type)))

/-- Function `unit_remove_map_` (lines 2902-3183), the call of `unit_free` for a dismissed
companion given as `free`; none when that call does not return. -/
def unit_remove_map_body (E : Env) (free : MapState → Int → Int → Option (Int × MapState))
    (s : MapState) (id : Int) (_clrtype : Int) (file : String) (line : Int) (func : String) :
    Option (Int × MapState) :=
  match s.world.units id with
  | none => some (0, s)
  | some bl =>
    match unit_bl2ud bl with
    | none => some (0, s)
    | some _ =>
      if bl.prev = false then some (0, s)
      else
        let s1 := map_freeblock_lock s
        let s2 := s1.onWorld (fun w => remove_map_dispels E (remove_map_stop E w id) id bl.type)
        match bl.type with
        | .BL_PC => remove_map_tail E (remove_map_pc E s2 id file line func) id bl.type
        | .BL_MOB => remove_map_tail E (s2.onWorld (fun w => remove_map_mob E w id)) id bl.type
        | .BL_NPC =>
          let r := npc_remove_map E s2.world id
          if r.1 ≠ 0 then some (0, { s2 with world := r.2 })
          else remove_map_tail E { s2 with world := r.2 } id bl.type
        | _ =>
          let s3 := s2.onWorld (fun w => remove_map_canact w id bl.type)
          if remove_map_dismissed E s3.world id bl.type then
            (free (s3.onWorld (fun w => map_delblock w id)) id CLR_OUTSIGHT).map
              (fun r => (0, map_freeblock_unlock r.2))
          else remove_map_tail E s3 id bl.type

/-- Case BL_PC of `unit_free` (lines 3255-3335): the timers, the invitations, the chat
channels, the rental items, the attached script and the achievements of the player are
released. -/
def unit_free_pc (E : Env) (w : World) (id : Int) : World :=
  let w1 := if E.status_isdead w id then (E.hook (.collab "pc_setrestartvalue" id 2) w).2 else w
  let w2 := run_calls E
    [.collab "pc_delinvincibletimer" id 0, .collab "pc_delautobonus" id 1,
     .collab "pc_delautobonus" id 2, .collab "pc_delautobonus" id 3] w1
  let w3 :=
    if E.member "sd->followtimer" w2 id ≠ INVALID_TIMER then
      (E.hook (.collab "pc_stop_following" id 0) w2).2
    else w2
  let w4 :=
    if E.member "sd->duel_invite" w3 id > 0 then
      (E.hook (.collab "duel_reject" id (E.member "sd->duel_invite" w3 id)) w3).2
    else w3
  let w5 := run_calls E
    [.collab "channel_pcquit" id 0xF, .collab "skill_blockpc_clear" id 0,
     .collab "party_send_logout" id 0, .collab "guild_send_memberinfoshort" id 0,
     .collab "pc_cleareventtimer" id 0, .collab "pc_inventory_rental_clear" id 0,
     .collab "pc_delspiritball" id 1, .collab "pc_delspiritcharm" id 0] w4
  let w6 :=
    if E.member "sd->st && sd->st->state != RUN" w5 id ≠ 0 then
      (E.hook (.collab "script_free_state" id 0) w5).2
    else w5
  let w7 :=
    if E.member "sd->achievement_data.achievements" w6 id ≠ 0 then
      (E.hook (.collab "achievement_free" id 0) w6).2
    else w6
  if E.member "sd->bonus_script.head" w7 id ≠ 0 then
    (E.hook (.collab "pc_bonus_script_clear" id 0) w7).2
  else w7

/-- Case BL_PET of `unit_free` (lines 3336-3356): the pet is saved or deleted and the
links between the pet and its master are cut. -/
def unit_free_pet (E : Env) (w : World) (id : Int) : World :=
  let sd := (w.BL id).master
  let w1 := run_calls E
    [.collab "pet_hungry_timer_delete" id 0, .collab "pet_clear_support_bonuses" id 0] w
  let w2 :=
    if E.member "pd->pet.intimate" w1 id > PET_INTIMATE_NONE then
      (E.hook (.collab "intif_save_petdata" id 0) w1).2
    else
      let w1a := (E.hook (.collab "intif_delete_petdata" id 0) w1).2
      match sd with
      | some mid => w1a.modBlock mid (fun b => { b with sd := { b.sd with pet_id := 0 } })
      | none => w1a
  let w3 :=
    match sd with
    | some mid => w2.modBlock mid (fun b => { b with sd := { b.sd with pd := none } })
    | none => w2
  w3.modBlock id (fun b => { b with master := none })

/-- Case BL_MOB of `unit_free` (lines 3357-3416): the spawn and delete timers are
cancelled and the guardian slot, the spawn entry, the clone and the tomb are released. -/
def unit_free_mob (E : Env) (w : World) (id : Int) : World :=
  let w1 := (E.hook (.collab "mob_free_dynamic_viewdata" id 0) w).2
  let w2 :=
    if (w1.BL id).md.spawn_timer ≠ INVALID_TIMER then
      (delete_timer w1 (w1.BL id).md.spawn_timer .mob_delayspawn).2.modBlock id
        (fun b => { b with md := { b.md with spawn_timer := INVALID_TIMER } })
    else w1
  let w3 :=
    if (w2.BL id).md.deletetimer ≠ INVALID_TIMER then
      (delete_timer w2 (w2.BL id).md.deletetimer .mob_timer_delete).2.modBlock id
        (fun b => { b with md := { b.md with deletetimer := INVALID_TIMER } })
    else w2
  let w4 :=
    if E.member "md->guardian_data" w3 id ≠ 0 then
      (E.hook (.collab "guardian_data" id 0) w3).2
    else w3
  let w5 :=
    if (w4.BL id).md.spawn then
      let w4a := (E.hook (.collab "md->spawn->active--" id 0) w4).2
      if E.member "md->spawn->state.dynamic" w4a id = 0 then
        let w4b := (E.hook (.collab "--md->spawn->num" id 0) w4a).2
        if E.member "md->spawn->num" w4b id = 0 then
          w4b.modBlock id (fun b => { b with md := { b.md with spawn := false } })
        else w4b
      else w4a
    else w4
  let w6 :=
    if E.member "mob_is_clone" w5 id ≠ 0 then (E.hook (.collab "mob_clone_delete" id 0) w5).2
    else w5
  if E.member "md->tomb_nid" w6 id ≠ 0 then (E.hook (.collab "mvptomb_destroy" id 0) w6).2
  else w6

/-- Case BL_HOM of `unit_free` (lines 3417-3437). -/
def unit_free_hom (E : Env) (w : World) (id : Int) : World :=
  let sd := (w.BL id).master
  let w1 := (E.hook (.collab "hom_hungry_timer_delete" id 0) w).2
  let w2 :=
    if E.member "hd->homunculus.intimacy" w1 id > 0 then (E.hook (.collab "hom_save" id 0) w1).2
    else
      let w1a := (E.hook (.collab "intif_homunculus_requestdelete" id 0) w1).2
      match sd with
      | some mid => w1a.modBlock mid (fun b => { b with sd := { b.sd with hom_id := 0 } })
      | none => w1a
  let w3 :=
    match sd with
    | some mid => w2.modBlock mid (fun b => { b with sd := { b.sd with hd := none } })
    | none => w2
  w3.modBlock id (fun b => { b with master := none })

/-- Case BL_MER of `unit_free` (lines 3438-3457). -/
def unit_free_mer (E : Env) (w : World) (id : Int) : World :=
  let sd := (w.BL id).master
  let w2 :=
    if E.member "mercenary_get_lifetime" w id > 0 then (E.hook (.collab "mercenary_save" id 0) w).2
    else
      let w1a := (E.hook (.collab "intif_mercenary_delete" id 0) w).2
      match sd with
      | some mid => w1a.modBlock mid (fun b => { b with sd := { b.sd with mer_id := 0 } })
      | none => w1a
  let w3 :=
    match sd with
    | some mid => w2.modBlock mid (fun b => { b with sd := { b.sd with md := none } })
    | none => w2
  let w4 := (E.hook (.collab "mercenary_contract_stop" id 0) w3).2
  w4.modBlock id (fun b => { b with master := none })

/-- Case BL_ELEM of `unit_free` (lines 3458-3477). -/
def unit_free_elem (E : Env) (w : World) (id : Int) : World :=
  let sd := (w.BL id).master
  let w2 :=
    if E.member "elemental_get_lifetime" w id > 0 then (E.hook (.collab "elemental_save" id 0) w).2
    else
      let w1a := (E.hook (.collab "intif_elemental_delete" id 0) w).2
      match sd with
      | some mid => w1a.modBlock mid (fun b => { b with sd := { b.sd with ele_id := 0 } })
      | none => w1a
  let w3 :=
    match sd with
    | some mid => w2.modBlock mid (fun b => { b with sd := { b.sd with ed := none } })
    | none => w2
  let w4 := (E.hook (.collab "elemental_summon_stop" id 0) w3).2
  w4.modBlock id (fun b => { b with master := none })

/-- The switch of `unit_free` (lines 3254-3478). -/
def unit_free_kind (E : Env) (w : World) (id : Int) : bl_type → World
  | .BL_PC => unit_free_pc E w id
  | .BL_PET => unit_free_pet E w id
  | .BL_MOB => unit_free_mob E w id
  | .BL_HOM => unit_free_hom E w id
  | .BL_MER => unit_free_mer E w id
  | .BL_ELEM => unit_free_elem E w id
  | _ => w

/-- Function `unit_free` (lines 3243-3490), the call of `unit_remove_map` given as
`remove`; none when that call does not return. -/
def unit_free_body (E : Env) (remove : MapState → Int → Int → Option (Int × MapState))
    (s : MapState) (id : Int) (clrtype : Int) : Option (Int × MapState) :=
  match s.world.units id with
  | none => some (0, s)
  | some bl =>
    match unit_bl2ud bl with
    | none => some (0, s)
    | some _ =>
      let s1 := map_freeblock_lock s
      (if bl.prev then (remove s1 id clrtype).map (fun r => r.2) else some s1).map
        (fun s2 =>
          (0, map_freeblock_unlock (s2.onWorld (fun w =>
            map_deliddb (run_calls E
              [.collab "skill_clear_unitgroup" id 0, .collab "status_change_clear" id 1]
              (unit_free_kind E w id bl.type)) id))))

/-- Function `unit_remove_map_` (lines 2902-3183) with a bound on the depth of the calls
between it and `unit_free`; none when the bound is reached. The nested call is the macro
`unit_remove_map(bl, clrtype)` of line 3252, which passes the place of the call. -/
def unit_remove_map_ (E : Env) :
    Nat → MapState → Int → Int → String → Int → String → Option (Int × MapState)
  | 0 => fun _ _ _ _ _ _ => none
  | n + 1 =>
    unit_remove_map_body E
      (unit_free_body E (fun s id clrtype => unit_remove_map_ E n s id clrtype "unit.cpp" 3252 "unit_free"))

/-- Function `unit_free` (lines 3243-3490) with a bound on the depth of the calls between
it and `unit_remove_map_`; none when the bound is reached. -/
def unit_free (E : Env) (n : Nat) (s : MapState) (id : Int) (clrtype : Int) :
    Option (Int × MapState) :=
  unit_free_body E (fun s1 i c => unit_remove_map_ E n s1 i c "unit.cpp" 3252 "unit_free") s id clrtype

/-- The call `unit_free(bl, CLR_OUTSIGHT)` of the walk timer (line 437) as a step on the
world: `unit_free` with the lock closed, the lock depth and the user counters of the maps
dropped from its result. One level of calls between `unit_free` and `unit_remove_map_`
is enough for every block (a dismissed companion is off the map when it is freed), so
the case none does not occur. -/
def unit_free_world (E : Env) (w : World) (id : Int) : World :=
  match unit_free E 1 { world := w } id CLR_OUTSIGHT with
  | some r => r.2.world
  | none => w

/-- The environment `E` with the call back into this file tied to the function it stands
for: the call `unit_free` of the walk timer is `unit_free_world`. `unit_free` stops the
walk in the mode 0, which makes no step, so the walk timer is not entered again within
the call and it does not matter which environment the call itself runs in. -/
def Env.reentrant (E : Env) : Env :=
  { E with
    hook := fun c w =>
      match c with
      | .unit_free id => (0, unit_free_world E w id)
      | _ => E.hook c w }

/-! ## Example environment

A concrete environment and world on which the definitions can be evaluated: a toy
pathfinder that walks east along a row, no obstacles, a walking speed of 200 ms per
cell, collaborators without side effects. -/

/-- A toy pathfinder: a straight walk east along the row, when the goal lies there. -/
def toy_path (x0 y0 x1 y1 : Int) : Option (List Nat) :=
  if y0 = y1 ∧ x0 ≤ x1 then some (List.replicate (x1 - x0).toNat 6) else none

/-- The example environment. -/
def exampleEnv : Env :=
  { OFFICIAL_WALKPATH := true, max_walk_path := 17, official_cell_stack_limit := 1,
    boss_icewall_walk_block := 0, mob_icewall_walk_block := 75, sdelay_attack_enable := false,
    attack_direction_change := 0, attack_walk_delay := 0, pet_attack_support := false,
    idle_attack := false, plt_attack := false, area_size := 14,
    path_search := fun _ _ x0 y0 x1 y1 _ _ => toy_path x0 y0 x1 y1,
    path_search_long := fun _ _ _ _ _ _ _ => true,
    map_closest_freecell := fun _ _ x y => some (x, y),
    map_getcell := fun _ _ _ _ _ => false,
    map_count_oncell := fun _ _ _ _ => 1,
    map_users := fun _ _ => 1,
    map_random_dir := fun _ _ x y => (x, y),
    map_calc_dir := fun _ _ _ _ => 0,
    check_distance := fun dx dy d => decide ((max dx.natAbs dy.natAbs : Int) ≤ d),
    check_distance_client := fun dx dy d => decide ((max dx.natAbs dy.natAbs : Int) ≤ d),
    distance := fun dx dy => max dx.natAbs dy.natAbs,
    status_get_speed := fun _ _ => 200,
    status_get_range := fun _ _ => 1,
    rhw_range := fun _ _ => 1,
    adelay := fun _ _ => 500,
    amotion := fun _ _ => 250,
    status_has_mode := fun _ _ m => m == .MD_CANMOVE,
    status_isdead := fun _ _ => false,
    status_check_visibility := fun _ _ _ => true,
    status_check_skilluse := fun _ _ _ => true,
    battle_check_target := fun _ _ _ => 1,
    battle_check_range := fun _ _ _ _ => true,
    pc_checkskill := fun _ _ _ => 0,
    pc_can_attack := fun _ _ _ => true,
    last_tick := fun _ => 0,
    skill_is_guild := fun _ => false,
    hook := fun c w =>
      (match c with
       | .battle_weapon_attack _ _ _ _ => 1
       | _ => 0, w) }

/-- The example world: one player, id 1, standing on the cell (10, 10). -/
def exampleWorld : World :=
  { units := fun i => if i = 1 then some { type := .BL_PC, x := 10, y := 10 } else none }

/-- The attacker of `attackWorld`: a player on (10, 10) in a continuous attack on block 2,
with the attack timer handle 0. -/
def attackerBlock : Block :=
  { type := .BL_PC, x := 10, y := 10,
    ud := { target := 2, attacktimer := 0, state := { attack_continue := true } } }

/-- The target of `attackWorld`: a monster on (11, 10), targeted once. -/
def targetBlock : Block :=
  { type := .BL_MOB, x := 11, y := 10, ud := { target_count := 1 } }

/-- A world in mid-attack: the player 1 attacks the monster 2 and its attack timer, handle
0, is pending for tick 500. -/
def attackWorld : World :=
  { units := fun i =>
      if i = 1 then some attackerBlock
      else if i = 2 then some targetBlock
      else none,
    timers := [{ tid := 0, tick := 500, func := .unit_attack_timer, id := 1, data := 0 }],
    next_tid := 1 }

/-- A player on (10, 10) that walks east to (13, 10): no step is made yet, and the walk
timer handle is 0. -/
def walkingBlock : Block :=
  { type := .BL_PC, x := 10, y := 10,
    ud := { to_x := 13, to_y := 10, walktimer := 0,
            walkpath := { path_len := 3, path_pos := 0, path := [6, 6, 6] } } }

/-- A world in mid-walk: at tick 150 the player 1 walks east from (10, 10) to (13, 10);
the first step of the path is due at tick 200 on the walk timer with handle 0. -/
def walkingWorld : World :=
  { units := fun i => if i = 1 then some walkingBlock else none,
    timers := [{ tid := 0, tick := 200, func := .unit_walktoxy_timer, id := 1, data := 200 }],
    next_tid := 1,
    gettick := 150 }

/-- The example environment after the cell (11, 10) has become impassable: the
pathfinder now leads from (10, 10) to (13, 10) around it, north-east, south-east, east. -/
def detourEnv : Env :=
  { exampleEnv with
    map_getcell := fun _ _ x y c => c == .CELL_CHKNOPASS && x == 11 && y == 10,
    path_search := fun _ _ x0 y0 x1 y1 _ _ =>
      if x0 = 10 ∧ y0 = 10 ∧ x1 = 13 ∧ y1 = 10 then some [7, 5, 6] else toy_path x0 y0 x1 y1 }

/-- A player on (10, 10) that has just attacked: it may attack again at tick 1000, and no
attack timer is pending. -/
def restingBlock : Block :=
  { type := .BL_PC, x := 10, y := 10, ud := { attackabletime := 1000 } }

/-- A world at tick 0 with the resting player 1 and the monster 2 next to it. -/
def restingWorld : World :=
  { units := fun i =>
      if i = 1 then some restingBlock
      else if i = 2 then some { targetBlock with ud := {} }
      else none }

/-- The attacker of `attackWorld` while it casts: the cast timer, handle 5, is live; no
attack timer is pending. -/
def casterBlock : Block :=
  { type := .BL_PC, x := 10, y := 10, ud := { skilltimer := 5 } }

/-- A world in mid-cast: the player 1 casts a skill, and the monster 2 stands next to it. -/
def castingWorld : World :=
  { units := fun i =>
      if i = 1 then some casterBlock
      else if i = 2 then some targetBlock
      else none,
    timers := [{ tid := 5, tick := 500, func := .skill_castend_id, id := 1, data := 0 }],
    next_tid := 6 }

/-- The example environment with the cell (13, 10) crowded: three entities stand on it,
over the stack limit of 1, and the closest free cell is (14, 10). -/
def crowdedEnv : Env :=
  { exampleEnv with
    map_count_oncell := fun _ _ x y => if x = 13 ∧ y = 10 then 3 else 1,
    map_closest_freecell := fun _ _ x y => if x = 13 ∧ y = 10 then some (14, 10) else some (x, y) }

/-- The example environment with a way north from (10, 10) only: the pathfinder leads
from (10, 10) straight north to (10, 13), and finds no path to (10, 13) from any other
cell of the row. -/
def cornerEnv : Env :=
  { exampleEnv with
    path_search := fun _ _ x0 y0 x1 y1 _ _ =>
      if x0 = 10 ∧ y0 = 10 ∧ x1 = 10 ∧ y1 = 13 then some [0, 0, 0] else toy_path x0 y0 x1 y1 }

/-! ## Notions used by the statements -/

/-- The cell reached from `(x, y)` by following the steps of a path. -/
def walk_pos : Int → Int → List Nat → Int × Int
  | x, y, [] => (x, y)
  | x, y, d :: p => walk_pos (x + dirx d) (y + diry d) p

/-- Every step of the path from `(x, y)` on the map `m` is a direction below DIR_MAX and
enters a cell that stays passable. -/
def path_clear (E : Env) (m : Int) : Int → Int → List Nat → Prop
  | _, _, [] => True
  | x, y, d :: p =>
    d < DIR_MAX ∧ (∀ w, E.map_getcell w m (x + dirx d) (y + diry d) .CELL_CHKNOPASS = false)
      ∧ path_clear E m (x + dirx d) (y + diry d) p

/-- The destination that `unit_walktoxy` stores for the cell `c` (lines 699-705): the cell
itself, or the cell that `map_random_dir` picks for it while the entity is confused. -/
def walk_dest (E : Env) (id : Int) (bl : Block) (c : Int × Int) (w : World) : Int × Int :=
  match bl.sc with
  | some sc => if sc.confusion then E.map_random_dir w id c.1 c.2 else c
  | none => c

/-- The state after `k` firings of the walk timer of the block `id`. -/
def walk_fired (E : Env) (id : Int) (k : Nat) (w : World) : World :=
  (fun v => fire_walktimer E v id)^[k] w

/-- The collaborators leave the state of the scheduling core alone: a hook changes
neither the blocks, the pending timers, the handle counter nor the clock (it may change
the state of its own subsystem and return any result). -/
def Env.hooks_frame (E : Env) : Prop :=
  ∀ c w, (E.hook c w).2.units = w.units ∧ (E.hook c w).2.timers = w.timers
    ∧ (E.hook c w).2.next_tid = w.next_tid ∧ (E.hook c w).2.gettick = w.gettick

/-- The world a part of a timer callback ends in. -/
def walk_result.world : walk_result → World
  | .ret _ w => w
  | .go w => w

/-- Whether a part of a timer callback fell through to the code after it. -/
def walk_result.isGo : walk_result → Bool
  | .ret _ _ => false
  | .go _ => true

/-- The fields of a block that an executed attack writes: those walking writes (the
attacker stops walking), `canmove_tick` (the walk delay), `attackabletime` and
`attacktarget_lv`. -/
abbrev Block.attack_write (b : Block) (x y walktimer : Int) (dir : Nat) (walk_count : Int)
    (walkpath : walkpath_data) (to_x to_y : Int) (change_walk_target walk_script : Bool)
    (walk_done_event : String) (sd : pc_data) (md : mob_data)
    (canmove_tick attackabletime attacktarget_lv : Int) : Block :=
  { b with x := x, y := y, sd := sd, md := md,
           ud := { b.ud with walktimer := walktimer, dir := dir, walk_count := walk_count,
                             walkpath := walkpath, to_x := to_x, to_y := to_y,
                             walk_done_event := walk_done_event,
                             canmove_tick := canmove_tick, attackabletime := attackabletime,
                             attacktarget_lv := attacktarget_lv,
                             state := { b.ud.state with change_walk_target := change_walk_target,
                                                        walk_script := walk_script } } }

/-- The fields of a block that the walking code writes: the cell, the walk timer handle,
the facing, the step counter, the path, the destination, the flags `change_walk_target`
and `walk_script`, the walk-done event, and the player and monster data. -/
abbrev Block.walk_write (b : Block) (x y walktimer : Int) (dir : Nat) (walk_count : Int)
    (walkpath : walkpath_data) (to_x to_y : Int) (change_walk_target walk_script : Bool)
    (walk_done_event : String) (sd : pc_data) (md : mob_data) : Block :=
  { b with x := x, y := y, sd := sd, md := md,
           ud := { b.ud with walktimer := walktimer, dir := dir, walk_count := walk_count,
                             walkpath := walkpath, to_x := to_x, to_y := to_y,
                             walk_done_event := walk_done_event,
                             state := { b.ud.state with change_walk_target := change_walk_target,
                                                        walk_script := walk_script } } }

/-- The fields of a block that a step writes besides the cell, the path and the walk
timer handle: the step counter, the flag `walk_script`, the walk-done event and the
monster data. -/
abbrev Block.step_write (b : Block) (walk_count : Int) (walk_script : Bool)
    (walk_done_event : String) (md : mob_data) : Block :=
  { b with md := md,
           ud := { b.ud with walk_count := walk_count, walk_done_event := walk_done_event,
                             state := { b.ud.state with walk_script := walk_script } } }

/-- The fields of a block written when the entity drops its target and stops attacking:
the target, the count of attackers, the attack timer handle, the chase target and the
flags `attack_continue` and `step_attack`. -/
abbrev Block.target_write (b : Block) (target target_count attacktimer target_to : Int)
    (attack_continue step_attack : Bool) : Block :=
  { b with ud := { b.ud with target := target, target_count := target_count,
                             attacktimer := attacktimer, target_to := target_to,
                             state := { b.ud.state with attack_continue := attack_continue,
                                                        step_attack := step_attack } } }

/-- The fields of a block that `unit_walktoxy_sub` writes: the path, the destination (when
the path is trimmed), the walk timer handle, the flag `change_walk_target` and the
player data. -/
abbrev Block.path_write (b : Block) (walkpath : walkpath_data) (to_x to_y walktimer : Int)
    (change_walk_target : Bool) (sd : pc_data) : Block :=
  { b with sd := sd,
           ud := { b.ud with walkpath := walkpath, to_x := to_x, to_y := to_y,
                             walktimer := walktimer,
                             state := { b.ud.state with change_walk_target := change_walk_target } } }

/-- The block `id` is in mid-walk on the path `p` it started at the cell of `bl`: `k` steps
are done, the step `k` is due on the one pending walk timer, whose handle `walktimer`
holds; the entity is on the map, chases nobody, does not run and its destination has not
been changed. -/
structure mid_walk (w : World) (id : Int) (bl : Block) (p : List Nat) (k : Nat) : Prop where
  present : (w.units id).isSome = true
  kind : (w.BL id).type = bl.type
  map : (w.BL id).m = bl.m
  on_map : (w.BL id).prev = true
  cell : ((w.BL id).x, (w.BL id).y) = walk_pos bl.x bl.y (p.take k)
  path : (w.UD id).walkpath = { path_len := p.length, path_pos := k, path := p }
  no_chase : (w.UD id).target_to = 0
  not_running : (w.UD id).state.running = false
  same_target : (w.UD id).state.change_walk_target = false
  live : (w.UD id).walktimer ≠ INVALID_TIMER
  timer : ∃ td, get_timer w (w.UD id).walktimer = some td ∧ td.func = .unit_walktoxy_timer
    ∧ td.id = id ∧ pending_walktimers w id = [td]

/-- The walk of the block `id` on the path `p`, started at the cell of `bl`, is over: the
entity stands on the end cell, which is its destination, no walk timer is pending and
the path is exhausted. -/
structure walk_over (w : World) (id : Int) (bl : Block) (p : List Nat) : Prop where
  present : (w.units id).isSome = true
  cell : ((w.BL id).x, (w.BL id).y) = walk_pos bl.x bl.y p
  dest : ((w.UD id).to_x, (w.UD id).to_y) = walk_pos bl.x bl.y p
  path : (w.UD id).walkpath = { path_len := p.length, path_pos := p.length, path := p }
  idle : (w.UD id).walktimer = INVALID_TIMER
  no_timer : pending_walktimers w id = []

/-- Nothing interrupts the walk of the block `id`: the collaborators leave the scheduling
state alone, the entity stays alive, no NPC area takes a monster off its way, no monster
skill is used on the way, no icewall holds a monster back, and no cell is stacked beyond
the limit. -/
structure undisturbed (E : Env) (id : Int) : Prop where
  frame : E.hooks_frame
  alive : ∀ w, E.status_isdead w id = false
  no_warp : ∀ w, (E.hook (.npc_touch_areanpc2 id) w).1 = 0
  no_skill : ∀ w tick, (E.hook (.mobskill_use id tick (-1)) w).1 = 0
  no_icewall : ∀ w m x y, E.map_getcell w m x y .CELL_CHKICEWALL = false
  no_stack : E.official_cell_stack_limit > 0 →
    ∀ w m x y, E.map_count_oncell w m x y ≤ E.official_cell_stack_limit

/-- The conditions under which `unit_walktoxy` accepts the request of the block `id`
(the block `bl`) for the cell `(x, y)`: the destination `c` is found (the cell itself or,
with flag 8, a free cell near it), the pathfinder finds a path `p` to it that passes the
OFFICIAL_WALKPATH check and is no longer than `max_walk_path`, no walk delay defers the
request, and the entity is allowed to move (or flag 2 waives that). -/
structure walk_accepted (E : Env) (w : World) (id x y flag : Int) (bl : Block) (c : Int × Int)
    (p : List Nat) : Prop where
  src_at : w.units id = some bl
  has_ud : (unit_bl2ud bl).isSome = true
  cell : (if flagset flag 8 then E.map_closest_freecell w bl.m x y else some (x, y)) = some c
  found : E.path_search w bl.m bl.x bl.y c.1 c.2 (flagset flag 1) .CELL_CHKNOPASS = some p
  direct : E.OFFICIAL_WALKPATH = false
    ∨ E.path_search_long w bl.m bl.x bl.y c.1 c.2 .CELL_CHKNOPASS = true
    ∨ p.length ≤ 14 ∨ bl.type = .BL_NPC
  short : (p.length : Int) ≤ E.max_walk_path ∨ bl.type = .BL_NPC
  no_delay : ¬ (flagset flag 4 = true
    ∧ 0 < ((walk_unlock E w id flag).UD id).canmove_tick - (walk_unlock E w id flag).gettick
    ∧ ((walk_unlock E w id flag).UD id).canmove_tick - (walk_unlock E w id flag).gettick < 2000)
  may_move : flagset flag 2 = true
    ∨ (E.status_has_mode (walk_unlock E w id flag) id .MD_CANMOVE = true
        ∧ (unit_can_move E (walk_unlock E w id flag) id).1 ≠ 0)

/-- The conditions under which a firing of the attack timer of `src` (block `id`) at
`tick` executes the attack on `target`: every guard of `unit_attack_timer_sub` passes
(the target is valid, on the same map, in range `rng` with a line of attack, no cast or
skill delay stands in the way, the attacker is off cooldown), no monster or pet skill
replaces the attack, and the combat result is not ATK_NONE. -/
structure attack_ready (E : Env) (w : World) (id tick : Int) (src target : Block) (rng : Int) :
    Prop where
  src_at : w.units id = some src
  has_ud : (unit_bl2ud src).isSome = true
  other : src.ud.target ≠ id
  target_at : w.units src.ud.target = some target
  on_map : src.prev = true ∧ target.prev = true
  alive : ∀ w1, E.status_isdead w1 id = false ∧ E.status_isdead w1 src.ud.target = false
  hostile : ∀ w1, E.battle_check_target w1 id src.ud.target > 0
  usable : ∀ w1, E.status_check_skilluse w1 id src.ud.target = true
  sight : E.OFFICIAL_WALKPATH = true →
    ∀ w1, E.path_search_long w1 src.m src.x src.y target.x target.y .CELL_CHKWALL = true
  allowed : src.type = .BL_PC → ∀ w1, E.pc_can_attack w1 id src.ud.target = true
  same_map : src.m = target.m
  not_casting : src.ud.skilltimer = INVALID_TIMER
    ∨ (src.type = .BL_PC ∧ ∀ w1, E.pc_checkskill w1 id SA_FREECAST > 0)
  no_delay : E.sdelay_attack_enable = true ∨ src.ud.canact_tick ≤ tick
    ∨ (src.type = .BL_PC ∧ ∀ w1, E.pc_checkskill w1 id SA_FREECAST > 0)
  range : ∀ w1, E.rhw_range w1 id = rng
  near_pc : src.type = .BL_PC → ∀ r, rng ≤ r → check_distance_client_bl E src target r = true
  near_mob : src.type = .BL_MOB → ∀ r, rng ≤ r → check_distance_bl E src target r = true
  line : ∀ w1 r, rng ≤ r → E.battle_check_range w1 id src.ud.target r = true
  off_cooldown : src.ud.attackabletime ≤ tick
  no_mob_skill : ∀ w1, (E.hook (.mobskill_use id tick (-1)) w1).1 = 0
  no_pet_skill : ∀ w1, (E.hook (.pet_attackskill id src.ud.target) w1).1 = 0
  hit : ∀ w1, (E.hook (.battle_weapon_attack id src.ud.target tick 0) w1).1 ≠ ATK_NONE

/-- Two worlds show the same view `g` of every block (and hold the same blocks). -/
def World.Same {α : Type} (g : Block → α) (w w1 : World) : Prop :=
  ∀ i, (w1.units i).map g = (w.units i).map g

/-! ## Notions used by the statements on attack and cast scheduling -/

/-- The environment `E` with the combat routine `battle_weapon_attack` replaced by `f`. A
call whose result is the same for every `f` does not invoke the combat routine. -/
def Env.with_attack (E : Env) (f : Int → Int → Int → Int → World → Int × World) : Env :=
  { E with hook := fun c w =>
      match c with
      | .battle_weapon_attack s t tick flag => f s t tick flag w
      | _ => E.hook c w }

/-- The state of `unit_attack_timer_sub` after line 2598: the attack timer handle of the
block `id` is cleared. -/
def attack_timer_cleared (w : World) (id : Int) : World :=
  w.modUd id (fun u => { u with attacktimer := INVALID_TIMER })

/-- The firing of the attack timer of the monster `src` (block `id`) ends in the map
check of `unit_attack_timer_sub` (lines 2599-2617): the target is valid and stands on
another map, so the monster may follow it through a warp (`mob_warpchase`). -/
def attack_off_map (E : Env) (w : World) (id : Int) (src : Block) : Bool :=
  match (attack_timer_cleared w id).units src.ud.target with
  | none => false
  | some target =>
    src.prev && target.prev
      && !(E.status_isdead (attack_timer_cleared w id) id
          || E.status_isdead (attack_timer_cleared w id) src.ud.target
          || decide (E.battle_check_target (attack_timer_cleared w id) id src.ud.target ≤ 0)
          || !E.status_check_skilluse (attack_timer_cleared w id) id src.ud.target
          || (E.OFFICIAL_WALKPATH
              && !E.path_search_long (attack_timer_cleared w id) src.m src.x src.y target.x target.y
                    .CELL_CHKWALL)
          || (decide (src.type = .BL_PC)
              && !E.pc_can_attack (attack_timer_cleared w id) id src.ud.target))
      && decide (src.m ≠ target.m) && decide (src.type = .BL_MOB)

/-- The state in which a casting entity's firing of the attack timer ends before the
teardown: the handle is cleared and, for a monster whose target is on another map, the
warp chase has been tried. -/
def attack_preempted (E : Env) (w : World) (id : Int) (src : Block) : World :=
  if attack_off_map E w id src then
    (E.hook (.mob_warpchase id src.ud.target) (attack_timer_cleared w id)).2
  else attack_timer_cleared w id

/-- The conditions under which a firing of the attack timer of `src` (block `id`) at
`tick` finds the target `target` of a continuous attack out of reach: the guards of
`unit_attack_timer_sub` before the range checks pass (the target is valid and on the same
map, no cast or skill delay stands in the way), the attacker is no player, and the target
is farther than the attack range: for a monster by the distance check of line 2653, for
the other entities by the range check of the combat subsystem (line 2659). -/
structure attack_far (E : Env) (w : World) (id tick : Int) (src target : Block) : Prop where
  src_at : w.units id = some src
  has_ud : (unit_bl2ud src).isSome = true
  other : src.ud.target ≠ id
  target_at : w.units src.ud.target = some target
  on_map : src.prev = true ∧ target.prev = true
  alive : ∀ w1, E.status_isdead w1 id = false ∧ E.status_isdead w1 src.ud.target = false
  hostile : ∀ w1, E.battle_check_target w1 id src.ud.target > 0
  usable : ∀ w1, E.status_check_skilluse w1 id src.ud.target = true
  sight : E.OFFICIAL_WALKPATH = true →
    ∀ w1, E.path_search_long w1 src.m src.x src.y target.x target.y .CELL_CHKWALL = true
  same_map : src.m = target.m
  not_casting : src.ud.skilltimer = INVALID_TIMER
  no_delay : E.sdelay_attack_enable = true ∨ src.ud.canact_tick ≤ tick
  continuous : src.ud.state.attack_continue = true
  no_player : src.type ≠ .BL_PC
  far : ∀ w1,
    if src.type = .BL_MOB then
      check_distance_bl E src target (attack_range E w1 id src.ud.target src.ud.state.step_attack)
        = false
    else
      E.battle_check_range w1 id src.ud.target
        (attack_range E w1 id src.ud.target src.ud.state.step_attack) = false

/-- The state in which `unit_attack_timer_sub` calls `unit_walktobl` for the attacker
`src` (lines 2653-2665): the attack timer handle is cleared and, for an entity that is no
monster, the chase range is lowered by 2 when it is above 2. -/
def attack_chase_state (w : World) (id : Int) (src : Block) : World :=
  if src.type ≠ .BL_MOB ∧ src.ud.chaserange > 2 then
    (attack_timer_cleared w id).modUd id (fun u => { u with chaserange := u.chaserange - 2 })
  else attack_timer_cleared w id

/-- A monster on (10, 10) in a continuous attack on the block 2, with the chase range 1;
its attack timer, handle 0, has just fired. -/
def chaserBlock : Block :=
  { type := .BL_MOB, x := 10, y := 10,
    ud := { target := 2, attacktimer := 0, chaserange := 1, state := { attack_continue := true } } }

/-- A world at tick 500 in which the target, the player 2, has moved on to (13, 10), out of
the range of the monster 1. -/
def chaserWorld : World :=
  { units := fun i =>
      if i = 1 then some chaserBlock
      else if i = 2 then some { type := .BL_PC, x := 13, y := 10, ud := { target_count := 1 } }
      else none,
    next_tid := 1,
    gettick := 500 }

/-- A world at tick 500 in which the monster 2 has moved on to (13, 10), out of the range
of the player 1 that attacks it; the attack timer of the player, handle 0, has just
fired. -/
def farWorld : World :=
  { units := fun i =>
      if i = 1 then some attackerBlock
      else if i = 2 then some { targetBlock with x := 13 }
      else none,
    next_tid := 1,
    gettick := 500 }

/-- A monster on the map 0 that casts a skill while its target, the block 2, stands on the
map 1. -/
def strandedBlock : Block :=
  { type := .BL_MOB, x := 10, y := 10,
    ud := { target := 2, attacktimer := 0, skilltimer := 5, state := { attack_continue := true } } }

/-- A world in which the casting monster 1 attacks the player 2, who is on another map. -/
def strandedWorld : World :=
  { units := fun i =>
      if i = 1 then some strandedBlock
      else if i = 2 then some { type := .BL_PC, m := 1, x := 11, y := 10, ud := { target_count := 1 } }
      else none,
    timers := [{ tid := 5, tick := 900, func := .skill_castend_id, id := 1, data := 0 }],
    next_tid := 6,
    gettick := 500 }

/-- The example environment in which a monster finds a warp to follow its target. -/
def warpEnv : Env :=
  { exampleEnv with
    hook := fun c w =>
      (match c with
       | .mob_warpchase _ _ => 1
       | _ => 0, w) }

/-- The cast-end callback of a skill: `skill_castend_pos` for a ground skill, else
`skill_castend_id`. -/
def castend_func (E : Env) (skill_id : Int) : timer_func :=
  if E.skill_ground skill_id then .skill_castend_pos else .skill_castend_id

/-- The skill whose cast `unit_skillcastcancel` takes to be in progress (lines 2789-2792):
for a player under Cast Cancel (`type & 1`) the skill recorded in `sd->skill_id_old`, else
the skill of the control block. -/
def castcancel_skill (E : Env) (w : World) (id type : Int) (bl : Block) : Int :=
  if flagset type 1 = true ∧ bl.type = .BL_PC then
    E.skill_id_old (w.modUd id (fun u => { u with canact_tick := w.gettick })) id
  else bl.ud.skill_id

/-- Among the timers that satisfy `P`, the world `w1` holds none that `w` does not hold:
no timer of that kind has been scheduled on the way from `w` to `w1`. -/
def World.TimersLe (P : TimerData → Prop) (w w1 : World) : Prop :=
  ∀ td ∈ w1.timers, P td → td ∈ w.timers

/-- The pending step timers of an entity. -/
def pending_steptimers (w : World) (id : Int) : List TimerData :=
  w.timers.filter (fun t => t.func == .unit_step_timer && t.id == id)

/-- The environment `E` with the cast-end handlers `skill_castend_id` and
`skill_castend_pos` replaced by `f`. A call whose result is the same for every `f` does not
invoke a cast-end handler. -/
def Env.with_castend (E : Env) (f : ext_call → World → Int × World) : Env :=
  { E with hook := fun c w =>
      match c with
      | .skill_castend_id tid tick id data => f (.skill_castend_id tid tick id data) w
      | .skill_castend_pos tid tick id data => f (.skill_castend_pos tid tick id data) w
      | _ => E.hook c w }

/-- The world in which the start of a cast ends. -/
def cast_start.world : cast_start → World
  | .refused _ w => w
  | .ready w _ _ => w

/-- The adjusted cast time of a cast that is ready; 0 for a refusal. -/
def cast_start.casttime : cast_start → Int
  | .refused _ _ => 0
  | .ready _ _ c => c

/-- An early return with the result 0. -/
def walk_result.zero (a : walk_result) : Prop := ∀ r w, a = .ret r w → r = 0

/-- A refusal with the result 0. -/
def cast_start.zero (s : cast_start) : Prop := ∀ r w, s = .refused r w → r = 0

/-- The example environment with a skill subsystem that lets every cast begin and leaves
the cast time as it is requested. -/
def skillEnv : Env :=
  { exampleEnv with
    hook := fun c w =>
      (match c with
       | .battle_weapon_attack _ _ _ _ => 1
       | .skill_castbegin_pc _ _ _ _ => 1
       | .skill_castbegin_pos _ _ _ _ _ => 1
       | .skill_casttime _ _ _ _ ct => ct
       | .skill_castfix_sc _ _ _ ct => ct
       | _ => 0, w) }

/-- A pending timer whose callback is `unit_step_timer`. -/
def is_step (td : TimerData) : Prop := td.func = .unit_step_timer

/-- The fields of a block that the attack code writes: those an executed attack writes,
those written when the target is dropped, and those a chase writes (the chase range and
the flag `walk_easy`). -/
abbrev Block.fight_write (b : Block) (x y walktimer : Int) (dir : Nat) (walk_count : Int)
    (walkpath : walkpath_data) (to_x to_y : Int) (change_walk_target walk_script : Bool)
    (walk_done_event : String) (sd : pc_data) (md : mob_data)
    (canmove_tick attackabletime attacktarget_lv target target_count attacktimer target_to : Int)
    (attack_continue step_attack : Bool) (chaserange : Int) (walk_easy : Bool) : Block :=
  { b with x := x, y := y, sd := sd, md := md,
           ud := { b.ud with walktimer := walktimer, dir := dir, walk_count := walk_count,
                             walkpath := walkpath, to_x := to_x, to_y := to_y,
                             walk_done_event := walk_done_event,
                             canmove_tick := canmove_tick, attackabletime := attackabletime,
                             attacktarget_lv := attacktarget_lv, target := target,
                             target_count := target_count, attacktimer := attacktimer,
                             target_to := target_to, chaserange := chaserange,
                             state := { b.ud.state with change_walk_target := change_walk_target,
                                                        walk_script := walk_script,
                                                        attack_continue := attack_continue,
                                                        step_attack := step_attack,
                                                        walk_easy := walk_easy } } }

/-- The chase target `target_to` of the entity `id` is `a`, `b` or cleared. -/
def chase_target_in (w : World) (id a b : Int) : Prop :=
  (w.UD id).target_to = a ∨ (w.UD id).target_to = 0 ∨ (w.UD id).target_to = b

/-- The deferred-action buffer of the entity `id`: the flag `stepaction`, the target
`target_to` and the skill `stepskill_id`, `stepskill_lv`. -/
def step_buffer (w : World) (id : Int) : Bool × Int × Int × Int :=
  ((w.UD id).stepaction, (w.UD id).target_to, (w.UD id).stepskill_id, (w.UD id).stepskill_lv)

/-- On the way from `w` to `w1` the step timer of the entity `id` is gone: the handle is
cleared and, when a step timer was pending under the stored handle, no pending step timer
has that handle. -/
def step_timer_gone (w w1 : World) (id : Int) : Prop :=
  (w1.UD id).steptimer = INVALID_TIMER
  ∧ ((w.UD id).steptimer ≠ INVALID_TIMER →
      ∀ td1, get_timer w (w.UD id).steptimer = some td1 → td1.func = .unit_step_timer →
        ∀ td ∈ w1.timers, is_step td → td.tid ≠ (w.UD id).steptimer)

/-- The walking player of `walkingWorld` with a deferred skill request: the skill 5 at
level 1 on the block 2, whose step timer, handle 7, is scheduled. -/
def queuedBlock : Block :=
  { type := .BL_PC, x := 10, y := 10,
    ud := { to_x := 13, to_y := 10, walktimer := 0,
            walkpath := { path_len := 3, path_pos := 0, path := [6, 6, 6] },
            stepaction := true, target_to := 2, stepskill_id := 5, stepskill_lv := 1,
            steptimer := 7 } }

/-- A world at tick 150 in which the walking player 1 holds a deferred skill request on the
monster 2; the monster 3 stands further east. The walk timer 0 and the step timer 7 are
pending. -/
def queuedWorld : World :=
  { units := fun i =>
      if i = 1 then some queuedBlock
      else if i = 2 then some { targetBlock with x := 14, ud := {} }
      else if i = 3 then some { targetBlock with x := 15, ud := {} }
      else none,
    timers := [{ tid := 7, tick := 300, func := .unit_step_timer, id := 1, data := 0 },
               { tid := 0, tick := 200, func := .unit_walktoxy_timer, id := 1, data := 200 }],
    next_tid := 8,
    gettick := 150 }

/-- The world `queuedWorld` with an attack of the player 1 on the monster 2 in progress:
the attack timer, handle 4, is pending. -/
def busyWorld : World :=
  { queuedWorld with
    units := fun i =>
      if i = 1 then
        some { queuedBlock with ud := { queuedBlock.ud with target := 2, attacktimer := 4 } }
      else queuedWorld.units i,
    timers := { tid := 4, tick := 400, func := .unit_attack_timer, id := 1, data := 0 }
      :: queuedWorld.timers }

/-- The environment `skillEnv` with a range check by distance: a block is in range when it
is within `range` cells. -/
def rangeEnv : Env :=
  { skillEnv with
    battle_check_range := fun w s t range =>
      exampleEnv.check_distance ((w.BL s).x - (w.BL t).x) ((w.BL s).y - (w.BL t).y) range }


/-- A monster on (10, 10) that chases the block 2 with a chase range of 3 and is headed
for (14, 10). -/
def huntBlock : Block :=
  { type := .BL_MOB, x := 10, y := 10,
    ud := { to_x := 14, to_y := 10, target_to := 2, chaserange := 3 } }

/-- A world at tick 150 with the chasing monster 1 and its target, the player 2, on
(15, 10). -/
def huntWorld : World :=
  { units := fun i =>
      if i = 1 then some huntBlock
      else if i = 2 then some { type := .BL_PC, x := 15, y := 10 }
      else none,
    gettick := 150 }

/-- Part of `unit_step_timer`, lines 275-288: the handle of the step timer is cleared and
the buffer of the deferred action is emptied before the request is issued again. -/
def step_cleared (w : World) (id : Int) : World :=
  ((w.modUd id (fun u => { u with steptimer := INVALID_TIMER })).modUd id
      (fun u => { u with stepaction := false })).modUd id
      (fun u => { u with target_to := 0 })

/-- The environment `skillEnv` in which no cell is within the cast range and the skill 9
is a ground skill. -/
def groundEnv : Env :=
  { skillEnv with
    battle_check_range_pos := fun _ _ _ _ _ => false,
    skill_ground := fun s => s == 9 }


/-- The maximum distance of a slave from its master by kind (lines 223-228);
`AREA_SIZE` is the configured `area_size`. -/
def slave_max_dist (E : Env) : bl_type → Int
  | .BL_HOM => E.area_size
  | .BL_ELEM => MAX_ELEDISTANCE
  | .BL_PET => E.area_size
  | .BL_MER => MAX_MER_DISTANCE
  | _ => 0

/-- The block is a slave: a homunculus, an elemental, a pet or a mercenary. -/
def is_slave (b : Block) : Prop :=
  b.type = .BL_HOM ∨ b.type = .BL_ELEM ∨ b.type = .BL_PET ∨ b.type = .BL_MER

/-- A world at tick 500 with the player 1 on (10, 10) and its homunculus 5 on (30, 10), no
recall timer pending. -/
def leashWorld : World :=
  { units := fun i =>
      if i = 1 then some { type := .BL_PC, x := 10, y := 10 }
      else if i = 5 then some { type := .BL_HOM, x := 30, y := 10, master := some 1 }
      else none,
    next_tid := 4,
    gettick := 500 }

/-- The world `leashWorld` after the homunculus has come back to (12, 10) while its
recall timer, handle 4, is pending for tick 3500. -/
def recallWorld : World :=
  { units := fun i =>
      if i = 1 then some { type := .BL_PC, x := 10, y := 10 }
      else if i = 5 then
        some { type := .BL_HOM, x := 12, y := 10, master := some 1, masterteleport_timer := 4 }
      else none,
    timers := [{ tid := 4, tick := 3500, func := .unit_teleport_timer, id := 5, data := 14 }],
    next_tid := 5,
    gettick := 600 }


/-- The example environment with a pathfinder that reaches one cell only. -/
def onlyEnv (x y : Int) : Env :=
  { exampleEnv with
    path_search := fun _ _ _ _ x1 y1 _ _ => if x1 = x ∧ y1 = y then some [] else none }

/-- A world with the player 1 on (20, 30) and its homunculus 5 on (10, 10). -/
def followWorld : World :=
  { units := fun i =>
      if i = 1 then some { type := .BL_PC, x := 20, y := 30 }
      else if i = 5 then some { type := .BL_HOM, x := 10, y := 10, master := some 1 }
      else none }


/-- A call of the target bookkeeping: `unit_set_target` on the control block of `src`, or
`unit_stop_attack` on the block `src`. -/
inductive target_call where
  | set (src target : Int)
  | stop (src : Int)
  deriving DecidableEq

/-- The world after a call of the target bookkeeping. -/
def target_call.run (w : World) : target_call → World
  | .set src target => (unit_set_target w src target).2
  | .stop src => unit_stop_attack w src

/-- The number of entities among `ids` whose control block has the target `i`. -/
def targeters (w : World) (ids : List Int) (i : Int) : Nat :=
  ids.countP (fun j => decide ((w.ud j).isSome = true ∧ (w.UD j).target = i))

/-- Along a run of calls no entity has more than 254 targeters: in the world before each
call and in the world at the end. -/
def targeters_bounded (ids : List Int) : World → List target_call → Prop
  | w, [] => ∀ i, targeters w ids i ≤ 254
  | w, c :: cs => (∀ i, targeters w ids i ≤ 254) ∧ targeters_bounded ids (c.run w) cs

/-- The world after a run of calls of the target bookkeeping. -/
def run_target_calls (w : World) (cs : List target_call) : World :=
  cs.foldl target_call.run w

/-- The counters are exact on the entities `ids`: for each of them `unit_counttargeted`
is the number of entities whose target it is. -/
def counts_exact (w : World) (ids : List Int) : Prop :=
  ∀ i ∈ ids, unit_counttargeted w i = targeters w ids i


/-- Part of `unit_set_target`, lines 2183-2192: the counters of the old target `old` and
of the new target `t` are adjusted when the target changes. -/
def target_recount (w : World) (old t : Int) : World :=
  if old ≠ t then
    let wa :=
      if old ≠ 0 then
        match w.ud old with
        | some ux =>
          if ux.target_count > 0 then
            w.modUd old (fun u => { u with target_count := u.target_count - 1 })
          else w
        | none => w
      else w
    if t ≠ 0 then
      match wa.ud t with
      | some ux =>
        if ux.target_count < 255 then
          wa.modUd t (fun u => { u with target_count := u.target_count + 1 })
        else wa
      | none => wa
    else wa
  else w


/-- A world with three freshly initialised entities: the player 1 and the monsters 2
and 3. -/
def trioWorld : World :=
  { units := fun i =>
      if i = 1 then some { type := .BL_PC, x := 10, y := 10 }
      else if i = 2 then some { type := .BL_MOB, x := 11, y := 10 }
      else if i = 3 then some { type := .BL_MOB, x := 12, y := 10 }
      else none }


/-- A monster on (10, 10) on the last step of its chase of the block 2: one step east is
left, due at tick 200 on the walk timer 0. -/
def trackBlock : Block :=
  { type := .BL_MOB, x := 10, y := 10,
    ud := { to_x := 11, to_y := 10, target_to := 2, chaserange := 1, walktimer := 0,
            walkpath := { path_len := 1, path_pos := 0, path := [6] } } }

/-- A world at tick 150 with the chasing monster 1 and its target, the player 2, on
(12, 10). -/
def trackWorld : World :=
  { units := fun i =>
      if i = 1 then some trackBlock
      else if i = 2 then some { type := .BL_PC, x := 12, y := 10 }
      else none,
    timers := [{ tid := 0, tick := 200, func := .unit_walktoxy_timer, id := 1, data := 200 }],
    next_tid := 1,
    gettick := 150 }

/-- The world `trackWorld` with the target on another map. -/
def strayWorld : World :=
  { trackWorld with
    units := fun i =>
      if i = 1 then some trackBlock
      else if i = 2 then some { type := .BL_PC, m := 1, x := 12, y := 10 }
      else none }

/-- The environment `warpEnv` in which nobody sees anybody. -/
def blindWarpEnv : Env :=
  { warpEnv with status_check_visibility := fun _ _ _ => false }

/-- The example environment in which nobody can move. -/
def rootedEnv : Env :=
  { exampleEnv with status_has_mode := fun _ _ _ => false }

/-! ## Removal from the map: states and examples -/

/-- The entity is off the map as `unit_remove_map_` sees it: its id is unknown, it has no
control block, or it is outside the spatial index (`bl->prev == NULL`). -/
def off_map (w : World) (id : Int) : Prop :=
  ∀ b, w.units id = some b → unit_bl2ud b = none ∨ b.prev = false

/-- The view of a block that `unit_remove_map_` settles before the dispels: the four timer
handles, the attack target, the deferred request and the times from which the entity may
attack and move. -/
def Block.settled (b : Block) :
    Int × Int × Int × Int × Int × Bool × Int × Int × Int × Int × Int :=
  (b.ud.walktimer, b.ud.attacktimer, b.ud.skilltimer, b.ud.steptimer, b.ud.target,
   b.ud.stepaction, b.ud.target_to, b.ud.stepskill_id, b.ud.stepskill_lv,
   b.ud.attackabletime, b.ud.canmove_tick)

/-- A player that has left the map: the block is outside the spatial index. -/
def leftBlock : Block :=
  { type := .BL_PC, x := 10, y := 10, prev := false }

/-- A world whose only block is the player 1, off the map. -/
def leftWorld : World :=
  { units := fun i => if i = 1 then some leftBlock else none }

/-- A world whose only block is the NPC 7, on the map at (5, 5). -/
def npcWorld : World :=
  { units := fun i => if i = 7 then some { type := .BL_NPC, x := 5, y := 5 } else none }

/-- The environment `exampleEnv` in which the NPC subsystem fails to find an NPC in the
list of its map: `npc_remove_map` reports 2. -/
def lostNpcEnv : Env :=
  { exampleEnv with
    hook := fun c w =>
      (match c with
       | .npc_remove_map _ => 2
       | _ => 0, w) }

/-- A world whose only block is the pet 4, on the map at (5, 5), without a master and
without intimacy (`exampleEnv` reads every member as 0). -/
def petWorld : World :=
  { units := fun i => if i = 4 then some { type := .BL_PET, x := 5, y := 5 } else none }

/-! ## The path invariant -/

/-- Whether a call of the environment leads back into `unit.cpp`: `unit_free` does, every
other call is a procedure of another file. -/
def ext_call.reenters : ext_call → Bool
  | .unit_free _ => true
  | _ => false

/-- The world `trackWorld` after the target has left the game: the block 2 no longer
exists. -/
def lostWorld : World :=
  { trackWorld with units := fun i => if i = 1 then some trackBlock else none }

/-- The world `lostWorld` with the flag `change_walk_target` of the chaser set: a new
destination has been requested during the step. -/
def veerWorld : World :=
  { trackWorld with
    units := fun i =>
      if i = 1 then
        some { trackBlock with
               ud := { trackBlock.ud with state := { change_walk_target := true } } }
      else none }

/-- The example environment with an NPC area on the cell (11, 10) that takes a monster off
its way: `npc_touch_areanpc2` returns 1 there. -/
def touchEnv : Env :=
  { exampleEnv with
    map_getcell := fun _ _ x y c => c == .CELL_CHKNPC && x == 11 && y == 10,
    hook := fun c w =>
      (match c with
       | .battle_weapon_attack _ _ _ _ => 1
       | .npc_touch_areanpc2 _ => 1
       | _ => 0, w) }

section world_lemmas
variable (w : World) (id : Int)

@[simp] theorem setBlock_units (b : Block) (i : Int) :
    (w.setBlock id b).units i = if i = id then some b else w.units i := rfl
@[simp] theorem setBlock_timers (b : Block) : (w.setBlock id b).timers = w.timers := rfl
@[simp] theorem setBlock_next_tid (b : Block) : (w.setBlock id b).next_tid = w.next_tid := rfl
@[simp] theorem setBlock_gettick (b : Block) : (w.setBlock id b).gettick = w.gettick := rfl
@[simp] theorem setBlock_xstate (b : Block) : (w.setBlock id b).xstate = w.xstate := rfl

@[simp] theorem modBlock_units (f : Block → Block) (i : Int) :
    (w.modBlock id f).units i = if i = id then (w.units id).map f else w.units i := by
  unfold World.modBlock
  cases h : w.units id with
  | none => by_cases hi : i = id <;> simp [hi, h]
  | some bl => simp
@[simp] theorem modBlock_timers (f : Block → Block) : (w.modBlock id f).timers = w.timers := by
  unfold World.modBlock; cases w.units id <;> rfl
@[simp] theorem modBlock_next_tid (f : Block → Block) : (w.modBlock id f).next_tid = w.next_tid := by
  unfold World.modBlock; cases w.units id <;> rfl
@[simp] theorem modBlock_gettick (f : Block → Block) : (w.modBlock id f).gettick = w.gettick := by
  unfold World.modBlock; cases w.units id <;> rfl
@[simp] theorem modBlock_xstate (f : Block → Block) : (w.modBlock id f).xstate = w.xstate := by
  unfold World.modBlock; cases w.units id <;> rfl

@[simp] theorem modUd_units (f : unit_data → unit_data) (i : Int) :
    (w.modUd id f).units i
      = if i = id then (w.units id).map (fun bl => { bl with ud := f bl.ud }) else w.units i := by
  unfold World.modUd; simp
@[simp] theorem modUd_timers (f : unit_data → unit_data) : (w.modUd id f).timers = w.timers := by
  unfold World.modUd; simp
@[simp] theorem modUd_next_tid (f : unit_data → unit_data) : (w.modUd id f).next_tid = w.next_tid := by
  unfold World.modUd; simp
@[simp] theorem modUd_gettick (f : unit_data → unit_data) : (w.modUd id f).gettick = w.gettick := by
  unfold World.modUd; simp
@[simp] theorem modUd_xstate (f : unit_data → unit_data) : (w.modUd id f).xstate = w.xstate := by
  unfold World.modUd; simp

@[simp] theorem add_timer_fst (tick : Int) (func : timer_func) (d : Int) :
    (add_timer w tick func id d).1 = (w.next_tid : Int) := rfl
@[simp] theorem add_timer_units (tick : Int) (func : timer_func) (d : Int) :
    (add_timer w tick func id d).2.units = w.units := rfl
@[simp] theorem add_timer_timers (tick : Int) (func : timer_func) (d : Int) :
    (add_timer w tick func id d).2.timers
      = { tid := w.next_tid, tick := tick, func := func, id := id, data := d } :: w.timers := rfl
@[simp] theorem add_timer_gettick (tick : Int) (func : timer_func) (d : Int) :
    (add_timer w tick func id d).2.gettick = w.gettick := rfl
@[simp] theorem add_timer_xstate (tick : Int) (func : timer_func) (d : Int) :
    (add_timer w tick func id d).2.xstate = w.xstate := rfl

@[simp] theorem delete_timer_units (tid : Int) (func : timer_func) :
    (delete_timer w tid func).2.units = w.units := by
  unfold delete_timer; split <;> [rfl; (split <;> rfl)]
@[simp] theorem delete_timer_next_tid (tid : Int) (func : timer_func) :
    (delete_timer w tid func).2.next_tid = w.next_tid := by
  unfold delete_timer; split <;> [rfl; (split <;> rfl)]
@[simp] theorem delete_timer_gettick (tid : Int) (func : timer_func) :
    (delete_timer w tid func).2.gettick = w.gettick := by
  unfold delete_timer; split <;> [rfl; (split <;> rfl)]
@[simp] theorem delete_timer_xstate (tid : Int) (func : timer_func) :
    (delete_timer w tid func).2.xstate = w.xstate := by
  unfold delete_timer; split <;> [rfl; (split <;> rfl)]

end world_lemmas

theorem UD_eq_BL (w : World) (id : Int) : w.UD id = (w.BL id).ud := by
  unfold World.UD World.BL
  cases w.units id <;> rfl

theorem BL_of_units {w : World} {id : Int} {bl : Block} (h : w.units id = some bl) :
    w.BL id = bl := by
  unfold World.BL; rw [h]

theorem BL_def (w : World) (i : Int) : w.BL i = (w.units i).getD { type := .BL_NUL } := by
  unfold World.BL; cases w.units i <;> rfl

theorem unit_bl2ud_eq {bl : Block} {ud : unit_data} (h : unit_bl2ud bl = some ud) : ud = bl.ud := by
  unfold unit_bl2ud at h
  split at h <;> simp_all

theorem unit_bl2ud_congr {bl bl2 : Block} (h : bl2.type = bl.type) :
    (unit_bl2ud bl2).isSome = (unit_bl2ud bl).isSome := by
  unfold unit_bl2ud
  rw [h]
  cases bl.type <;> rfl

theorem ud_some {w : World} {id : Int} {ud : unit_data} (h : w.ud id = some ud) :
    ∃ bl, w.units id = some bl ∧ unit_bl2ud bl = some bl.ud ∧ bl.ud = ud := by
  unfold World.ud at h
  cases hb : w.units id with
  | none => simp [hb] at h
  | some bl =>
    simp [hb] at h
    have := unit_bl2ud_eq h
    subst this
    exact ⟨bl, rfl, h, rfl⟩

theorem ud_of_units {w : World} {id : Int} {bl : Block} (h : w.units id = some bl) :
    w.ud id = unit_bl2ud bl := by
  unfold World.ud; rw [h]; rfl


theorem World.Same.refl {α : Type} (g : Block → α) (w : World) : World.Same g w w :=
  fun _ => rfl

theorem World.Same.trans {α : Type} {g : Block → α} {w w1 w2 : World}
    (h1 : World.Same g w w1) (h2 : World.Same g w1 w2) : World.Same g w w2 :=
  fun i => (h2 i).trans (h1 i)

theorem World.Same.of_units {α : Type} (g : Block → α) {w w1 : World} (h : w1.units = w.units) :
    World.Same g w w1 :=
  fun i => by rw [h]

theorem World.Same.modBlock {α : Type} {g : Block → α} {w w1 : World} (j : Int) (f : Block → Block)
    (h : World.Same g w w1) (hf : ∀ b, g (f b) = g b) : World.Same g w (w1.modBlock j f) := by
  intro i
  rw [modBlock_units, ← h i]
  by_cases hij : i = j
  · subst hij
    cases w1.units i <;> simp [hf]
  · simp [hij]

theorem World.Same.modUd {α : Type} {g : Block → α} {w w1 : World} (j : Int) (f : unit_data → unit_data)
    (h : World.Same g w w1) (hf : ∀ b, g { b with ud := f b.ud } = g b) :
    World.Same g w (w1.modUd j f) :=
  World.Same.modBlock j _ h hf

theorem World.Same.get {α : Type} {g : Block → α} {w w1 : World} (h : World.Same g w w1) {i : Int}
    {b : Block} (hb : w.units i = some b) : ∃ b1, w1.units i = some b1 ∧ g b1 = g b := by
  have := h i
  rw [hb] at this
  cases h1 : w1.units i with
  | none => simp [h1] at this
  | some b1 => exact ⟨b1, rfl, by simpa [h1] using this⟩

theorem World.Same.BL {α : Type} {g : Block → α} {w w1 : World} (h : World.Same g w w1) (i : Int) :
    g (w1.BL i) = g (w.BL i) := by
  have := h i
  unfold World.BL
  cases h1 : w1.units i <;> cases h0 : w.units i <;> simp_all

/-- What `unit_set_target` leaves alone: every view of a block that does not depend on
`target` and `target_count`. -/
theorem unit_set_target_same {α : Type} (g : Block → α)
    (hg : ∀ b t1 c, g { b with ud := { b.ud with target := t1, target_count := c } } = g b)
    (w : World) (id t : Int) : World.Same g w (unit_set_target w id t).2 := by
  unfold unit_set_target
  cases h : w.ud id with
  | none => exact World.Same.refl g w
  | some ud =>
    dsimp only
    refine World.Same.modUd _ _ ?_ (fun b => hg b _ _)
    split_ifs <;> (repeat' split) <;>
      first
        | exact World.Same.refl g w
        | exact World.Same.modUd _ _ (World.Same.refl g w) (fun b => hg b _ _)
        | exact World.Same.modUd _ _ (World.Same.modUd _ _ (World.Same.refl g w) (fun b => hg b _ _)) (fun b => hg b _ _)

theorem unit_set_target_timers (w : World) (id t : Int) :
    (unit_set_target w id t).2.timers = w.timers := by
  unfold unit_set_target
  cases h : w.ud id with
  | none => rfl
  | some ud =>
    simp only [modUd_timers]
    split_ifs <;> (repeat' split) <;> simp

theorem unit_set_target_target {w : World} {id : Int} (t : Int) (h : (w.ud id).isSome) :
    ((unit_set_target w id t).2.UD id).target = t := by
  unfold unit_set_target
  obtain ⟨ud, hu⟩ := Option.isSome_iff_exists.mp h
  rw [hu]
  dsimp only
  generalize hW : (if ud.target ≠ t then _ else w : World) = W
  have hs : World.Same (fun _ => ()) w W := by
    rw [← hW]
    split_ifs <;> (repeat' split) <;>
      first
        | exact World.Same.refl _ w
        | exact World.Same.modUd _ _ (World.Same.refl _ w) (fun b => rfl)
        | exact World.Same.modUd _ _ (World.Same.modUd _ _ (World.Same.refl _ w) (fun b => rfl)) (fun b => rfl)
  obtain ⟨bl, hb, -, -⟩ := ud_some hu
  obtain ⟨b1, hb1, -⟩ := hs.get hb
  rw [UD_eq_BL, BL_def]
  simp [hb1]

theorem find_filter_none (l : List TimerData) (tid : Int) :
    (l.filter (fun t => t.tid != tid)).find? (fun t => t.tid == tid) = none := by
  rw [List.find?_eq_none]
  intro t ht
  have := (List.mem_filter.mp ht).2
  simpa using this

theorem get_timer_delete {w : World} {tid : Int} {td : TimerData} {func : timer_func}
    (h : get_timer w tid = some td) (hf : td.func = func) :
    get_timer (delete_timer w tid func).2 tid = none := by
  unfold delete_timer
  rw [h]
  simp only [hf, if_true]
  exact find_filter_none _ _

theorem UD_modUd {w : World} {id : Int} (f : unit_data → unit_data) (h : (w.units id).isSome) :
    (w.modUd id f).UD id = f (w.UD id) := by
  obtain ⟨bl, hb⟩ := Option.isSome_iff_exists.mp h
  unfold World.UD
  simp [hb]

theorem ud_isSome_units {w : World} {id : Int} (h : (w.ud id).isSome) : (w.units id).isSome := by
  unfold World.ud at h
  cases hb : w.units id with
  | none => simp [hb] at h
  | some b => rfl

theorem unit_set_target_isSome (w : World) (id t i : Int) :
    ((unit_set_target w id t).2.units i).isSome = (w.units i).isSome := by
  have := unit_set_target_same (fun _ => ()) (fun _ _ _ => rfl) w id t i
  cases h1 : (unit_set_target w id t).2.units i <;> cases h0 : w.units i <;> simp_all

/-! ## Hooks that respect the frame -/

theorem hook_units {E : Env} (hf : E.hooks_frame) (c : ext_call) (w : World) :
    (E.hook c w).2.units = w.units := (hf c w).1

theorem hook_timers {E : Env} (hf : E.hooks_frame) (c : ext_call) (w : World) :
    (E.hook c w).2.timers = w.timers := (hf c w).2.1

theorem hook_next_tid {E : Env} (hf : E.hooks_frame) (c : ext_call) (w : World) :
    (E.hook c w).2.next_tid = w.next_tid := (hf c w).2.2.1

theorem hook_gettick {E : Env} (hf : E.hooks_frame) (c : ext_call) (w : World) :
    (E.hook c w).2.gettick = w.gettick := (hf c w).2.2.2

theorem World.Same.hook {α : Type} {g : Block → α} {E : Env} (hf : E.hooks_frame) {w w1 : World}
    (c : ext_call) (h : World.Same g w w1) : World.Same g w (E.hook c w1).2 :=
  h.trans (World.Same.of_units g (hook_units hf c w1))

theorem World.Same.add_timer {α : Type} {g : Block → α} {w w1 : World}
    (tick : Int) (func : timer_func) (id d : Int) (h : World.Same g w w1) :
    World.Same g w (Rathena.add_timer w1 tick func id d).2 :=
  h.trans (World.Same.of_units g rfl)

theorem World.Same.delete_timer {α : Type} {g : Block → α} {w w1 : World}
    (tid : Int) (func : timer_func) (h : World.Same g w w1) :
    World.Same g w (Rathena.delete_timer w1 tid func).2 :=
  h.trans (World.Same.of_units g (delete_timer_units w1 tid func))

/-! ## What the walking code leaves alone -/

theorem unit_walktoxy_sub_same {α : Type} (g : Block → α)
    (hg : ∀ b x y wt dir wc wp tx ty cwt ws wde sd md,
      g (b.walk_write x y wt dir wc wp tx ty cwt ws wde sd md) = g b)
    (E : Env) (w : World) (id : Int) : World.Same g w (unit_walktoxy_sub E w id).2 := by
  unfold unit_walktoxy_sub walk_arm path_store
  repeat' first
    | split
    | dsimp only
    | with_reducible exact World.Same.refl g w
    | with_reducible apply World.Same.add_timer
    | with_reducible refine World.Same.modUd _ _ ?_ (fun b => hg b _ _ _ _ _ _ _ _ _ _ _ _ _)
    | with_reducible refine World.Same.modBlock _ _ ?_ (fun b => hg b _ _ _ _ _ _ _ _ _ _ _ _ _)

@[simp] theorem world_ret (r : Int) (w : World) : (walk_result.ret r w).world = w := rfl

@[simp] theorem world_go (w : World) : (walk_result.go w).world = w := rfl

theorem World.Same.andThen {α : Type} {g : Block → α} {w : World} {a : walk_result}
    {f : World → walk_result} (ha : World.Same g w a.world)
    (hf : ∀ w1, World.Same g w w1 → World.Same g w (f w1).world) :
    World.Same g w (a.andThen f).world := by
  cases a with
  | ret r w1 => exact ha
  | go w1 => exact hf w1 ha

theorem walk_icewall_part_same {α : Type} (g : Block → α)
    (hg : ∀ b x y wt dir wc wp tx ty cwt ws wde sd md,
      g (b.walk_write x y wt dir wc wp tx ty cwt ws wde sd md) = g b)
    {E : Env} (hf : E.hooks_frame) (tick id : Int) {w0 w : World} (h : World.Same g w0 w) :
    World.Same g w0 (walk_icewall_part E tick id w) := by
  unfold walk_icewall_part
  repeat' first
    | split
    | dsimp only
    | with_reducible assumption
    | with_reducible apply World.Same.hook hf
    | with_reducible refine World.Same.modUd _ _ ?_ (fun b => hg b _ _ _ _ _ _ _ _ _ _ _ _ _)
    | with_reducible refine World.Same.modBlock _ _ ?_ (fun b => hg b _ _ _ _ _ _ _ _ _ _ _ _ _)

theorem walk_done_event_part_same {α : Type} (g : Block → α)
    (hg : ∀ b x y wt dir wc wp tx ty cwt ws wde sd md,
      g (b.walk_write x y wt dir wc wp tx ty cwt ws wde sd md) = g b)
    {E : Env} (hf : E.hooks_frame) (id : Int) {w0 w : World} (h : World.Same g w0 w) :
    World.Same g w0 (walk_done_event_part E id w).world := by
  unfold walk_done_event_part
  repeat' first
    | rw [apply_ite walk_result.world]
    | simp only [world_ret, world_go]
    | split
    | dsimp only
    | with_reducible assumption
    | with_reducible apply World.Same.hook hf
    | with_reducible refine World.Same.modUd _ _ ?_ (fun b => hg b _ _ _ _ _ _ _ _ _ _ _ _ _)

theorem walk_touch_part_same {α : Type} (g : Block → α)
    (hg : ∀ b x y wt dir wc wp tx ty cwt ws wde sd md,
      g (b.walk_write x y wt dir wc wp tx ty cwt ws wde sd md) = g b)
    {E : Env} (hf : E.hooks_frame) (tid tick id x y : Int) {w0 w : World} (h : World.Same g w0 w) :
    World.Same g w0 (walk_touch_part E tid tick id x y w).world := by
  unfold walk_touch_part
  repeat' first
    | rw [apply_ite walk_result.world]
    | simp only [world_ret, world_go]
    | split
    | dsimp only
    | with_reducible assumption
    | with_reducible apply World.Same.hook hf
    | with_reducible refine World.Same.modUd _ _ ?_ (fun b => hg b _ _ _ _ _ _ _ _ _ _ _ _ _)
    | with_reducible refine World.Same.modBlock _ _ ?_ (fun b => hg b _ _ _ _ _ _ _ _ _ _ _ _ _)
    | (refine World.Same.andThen ?_ ?_)
    | intro w1 h1

theorem World.Same.finish {α : Type} {g : Block → α} {w : World} {a : walk_result}
    {f : World → Int × World} (ha : World.Same g w a.world)
    (hf : ∀ w1, World.Same g w w1 → World.Same g w (f w1).2) :
    World.Same g w (a.finish f).2 := by
  cases a with
  | ret r w1 => exact ha
  | go w1 => exact hf w1 ha

theorem walk_move_part_same {α : Type} (g : Block → α)
    (hg : ∀ b x y wt dir wc wp tx ty cwt ws wde sd md,
      g (b.walk_write x y wt dir wc wp tx ty cwt ws wde sd md) = g b)
    {E : Env} (hf : E.hooks_frame) (tid tick id x y dx dy : Int) {w0 w : World}
    (h : World.Same g w0 w) :
    World.Same g w0 (walk_move_part E tid tick id x y dx dy w).world := by
  unfold walk_move_part
  repeat' first
    | rw [apply_ite walk_result.world]
    | simp only [world_ret, world_go]
    | split
    | dsimp only
    | with_reducible assumption
    | with_reducible apply World.Same.hook hf
    | with_reducible apply World.Same.add_timer
    | with_reducible refine World.Same.modUd _ _ ?_ (fun b => hg b _ _ _ _ _ _ _ _ _ _ _ _ _)
    | with_reducible refine World.Same.modBlock _ _ ?_ (fun b => hg b _ _ _ _ _ _ _ _ _ _ _ _ _)
    | (refine World.Same.andThen (walk_done_event_part_same g hg hf id ?_)
        (fun w1 h1 => walk_touch_part_same g hg hf tid tick id _ _ h1))

theorem unit_walktoxy_sub_same_of {α : Type} (g : Block → α)
    (hg : ∀ b x y wt dir wc wp tx ty cwt ws wde sd md,
      g (b.walk_write x y wt dir wc wp tx ty cwt ws wde sd md) = g b)
    (E : Env) (id : Int) {w0 w : World} (h : World.Same g w0 w) :
    World.Same g w0 (unit_walktoxy_sub E w id).2 :=
  h.trans (unit_walktoxy_sub_same g hg E w id)

theorem unit_walktoxy_timer_step_same {α : Type} (g : Block → α)
    (hg : ∀ b x y wt dir wc wp tx ty cwt ws wde sd md,
      g (b.walk_write x y wt dir wc wp tx ty cwt ws wde sd md) = g b)
    {E : Env} (hf : E.hooks_frame) (rest : Int → Int → World → Int × World) {w0 : World}
    (hrest : ∀ x y w1, World.Same g w0 w1 → World.Same g w0 (rest x y w1).2)
    (tid tick id : Int) {w : World} (h : World.Same g w0 w) :
    World.Same g w0 (unit_walktoxy_timer_step E rest tid tick id w).2 := by
  unfold unit_walktoxy_timer_step
  repeat' first
    | split
    | dsimp only
    | with_reducible assumption
    | with_reducible refine World.Same.modUd _ _ ?_ (fun b => hg b _ _ _ _ _ _ _ _ _ _ _ _ _)
    | with_reducible apply unit_walktoxy_sub_same_of g hg E id
    | with_reducible apply walk_icewall_part_same g hg hf
    | (refine World.Same.finish (walk_move_part_same g hg hf tid tick id _ _ _ _ ?_)
        (fun w1 h1 => hrest _ _ w1 h1))

theorem unit_walktoxy_timer_direct_same {α : Type} (g : Block → α)
    (hg : ∀ b x y wt dir wc wp tx ty cwt ws wde sd md,
      g (b.walk_write x y wt dir wc wp tx ty cwt ws wde sd md) = g b)
    {E : Env} (hf : E.hooks_frame) (tick id : Int) {w0 w : World} (h : World.Same g w0 w) :
    World.Same g w0 (unit_walktoxy_timer_direct E tick id w).2 :=
  unit_walktoxy_timer_step_same g hg hf _ (fun _ _ _ h1 => h1) _ tick id h

/-- What `unit_stop_walking` leaves alone: every view of a block that does not depend on
the fields walking writes nor, for a pet stopped with a delay in `type`, on
`canmove_tick`. -/
theorem unit_stop_walking_same {α : Type} (g : Block → α)
    (hg : ∀ b x y wt dir wc wp tx ty cwt ws wde sd md,
      g (b.walk_write x y wt dir wc wp tx ty cwt ws wde sd md) = g b)
    {E : Env} (hf : E.hooks_frame) (id type : Int)
    (hc : ∀ b c, above_usw_all type = true →
      g { b with ud := { b.ud with canmove_tick := c } } = g b)
    {w0 w : World} (h : World.Same g w0 w) :
    World.Same g w0 (unit_stop_walking E w id type).2 := by
  unfold unit_stop_walking stop_walking_reset stop_walking_step stop_walking_cancel
  repeat' first
    | split
    | dsimp only
    | with_reducible assumption
    | with_reducible apply World.Same.hook hf
    | with_reducible apply World.Same.delete_timer
    | with_reducible refine World.Same.modUd _ _ ?_ (fun b => hg b _ _ _ _ _ _ _ _ _ _ _ _ _)
    | with_reducible apply unit_walktoxy_timer_direct_same g hg hf
    | (refine World.Same.modUd _ _ ?_ (fun b => hc b _ (by tauto)))

theorem World.Same.isSome {α : Type} {g : Block → α} {w w1 : World} (h : World.Same g w w1)
    (i : Int) : (w1.units i).isSome = (w.units i).isSome := by
  have := h i
  cases h1 : w1.units i <;> cases h0 : w.units i <;> simp_all

theorem World.Same.UD {α : Type} {g : unit_data → α} {w w1 : World}
    (h : World.Same (fun b => g b.ud) w w1) (i : Int) : g (w1.UD i) = g (w.UD i) := by
  rw [UD_eq_BL, UD_eq_BL]
  exact h.BL i

/-- What `unit_can_move` leaves alone: every view of a block that does not depend on the
monster data. -/
theorem unit_can_move_same {α : Type} (g : Block → α)
    (hg : ∀ b md, g { b with md := md } = g b)
    (E : Env) (id : Int) {w0 w : World} (h : World.Same g w0 w) :
    World.Same g w0 (unit_can_move E w id).2 := by
  unfold unit_can_move
  repeat' first
    | split
    | dsimp only
    | with_reducible assumption
    | with_reducible refine World.Same.modBlock _ _ ?_ (fun b => hg b _)

/-- What `unit_set_walkdelay` leaves alone: every view of a block that depends neither on
the fields walking writes nor on `canmove_tick`. -/
theorem unit_set_walkdelay_same {α : Type} (g : Block → α)
    (hg : ∀ b x y wt dir wc wp tx ty cwt ws wde sd md,
      g (b.walk_write x y wt dir wc wp tx ty cwt ws wde sd md) = g b)
    (hc : ∀ b c, g { b with ud := { b.ud with canmove_tick := c } } = g b)
    {E : Env} (hf : E.hooks_frame) (id tick delay type : Int) {w0 w : World}
    (h : World.Same g w0 w) :
    World.Same g w0 (unit_set_walkdelay E w id tick delay type).2 := by
  have hmd : ∀ b md, g { b with md := md } = g b := fun b md =>
    hg b b.x b.y b.ud.walktimer b.ud.dir b.ud.walk_count b.ud.walkpath b.ud.to_x b.ud.to_y
      b.ud.state.change_walk_target b.ud.state.walk_script b.ud.walk_done_event b.sd md
  unfold unit_set_walkdelay unit_set_walkdelay_apply
  repeat' first
    | split
    | dsimp only
    | with_reducible assumption
    | with_reducible apply World.Same.add_timer
    | with_reducible apply unit_stop_walking_same g hg hf _ _ (fun b c _ => hc b c)
    | apply unit_can_move_same g hmd E id
    | with_reducible refine World.Same.modUd _ _ ?_ (fun b => hc b _)

theorem World.Same.ud_isSome {w w1 : World} (h : World.Same (fun b => b.type) w w1) (i : Int) :
    (w1.ud i).isSome = (w.ud i).isSome := by
  have := h i
  unfold World.ud
  cases h1 : w1.units i with
  | none => cases h0 : w.units i <;> simp_all
  | some b1 =>
    cases h0 : w.units i with
    | none => simp_all
    | some b0 =>
      rw [h1, h0] at this
      simp only [Option.map_some', Option.some.injEq] at this
      exact unit_bl2ud_congr this

/-! ## What an executed attack leaves alone -/

@[simp] theorem andThen_go (w : World) (f : World → walk_result) :
    (walk_result.go w).andThen f = f w := rfl

@[simp] theorem andThen_ret (r : Int) (w : World) (f : World → walk_result) :
    (walk_result.ret r w).andThen f = .ret r w := rfl

@[simp] theorem finish_go (w : World) (f : World → Int × World) :
    (walk_result.go w).finish f = f w := rfl

@[simp] theorem finish_ret (r : Int) (w : World) (f : World → Int × World) :
    (walk_result.ret r w).finish f = (r, w) := rfl

theorem eq_go_of_isGo {a : walk_result} (h : a.isGo = true) : a = .go a.world := by
  cases a with
  | ret r w => simp [walk_result.isGo] at h
  | go w => rfl

theorem attack_prepare_same {α : Type} (g : Block → α)
    (hg : ∀ b x y wt dir wc wp tx ty cwt ws wde sd md cm atk lv,
      g (b.attack_write x y wt dir wc wp tx ty cwt ws wde sd md cm atk lv) = g b)
    {E : Env} (hf : E.hooks_frame) (id target : Int) {w0 w : World} (h : World.Same g w0 w) :
    World.Same g w0 (attack_prepare E w id target) := by
  have hw : ∀ b x y wt dir wc wp tx ty cwt ws wde sd md,
      g (b.walk_write x y wt dir wc wp tx ty cwt ws wde sd md) = g b :=
    fun b x y wt dir wc wp tx ty cwt ws wde sd md =>
      hg b x y wt dir wc wp tx ty cwt ws wde sd md b.ud.canmove_tick b.ud.attackabletime
        b.ud.attacktarget_lv
  have hsw : ∀ W, World.Same g w0 W → World.Same g w0 (unit_stop_walking E W id 1).2 :=
    fun W hW => unit_stop_walking_same g hw hf _ 1 (fun _ _ h0 => absurd h0 (by decide)) hW
  unfold attack_prepare
  repeat' first
    | split
    | dsimp only
    | with_reducible assumption
    | with_reducible apply hsw
    | with_reducible refine World.Same.modUd _ _ ?_ (fun b => hw b _ _ _ _ _ _ _ _ _ _ _ _ _)

theorem attack_mob_part_same {α : Type} (g : Block → α)
    (hg : ∀ b x y wt dir wc wp tx ty cwt ws wde sd md cm atk lv,
      g (b.attack_write x y wt dir wc wp tx ty cwt ws wde sd md cm atk lv) = g b)
    {E : Env} (hf : E.hooks_frame) (id target tick : Int) (md : Bool) {w0 w : World}
    (h : World.Same g w0 w) :
    World.Same g w0 (attack_mob_part E w id target tick md).world := by
  have hw : ∀ b x y wt dir wc wp tx ty cwt ws wde sd md,
      g (b.walk_write x y wt dir wc wp tx ty cwt ws wde sd md) = g b :=
    fun b x y wt dir wc wp tx ty cwt ws wde sd md =>
      hg b x y wt dir wc wp tx ty cwt ws wde sd md b.ud.canmove_tick b.ud.attackabletime
        b.ud.attacktarget_lv
  unfold attack_mob_part
  repeat' first
    | rw [apply_ite walk_result.world]
    | simp only [world_ret, world_go]
    | split
    | dsimp only
    | with_reducible assumption
    | with_reducible apply World.Same.hook hf
    | with_reducible refine World.Same.modBlock _ _ ?_ (fun b => hw b _ _ _ _ _ _ _ _ _ _ _ _ _)
    | (refine World.Same.andThen ?_ ?_)
    | intro w1 h1

theorem attack_pet_part_same {α : Type} (g : Block → α)
    {E : Env} (hf : E.hooks_frame) (id target : Int) {w0 w : World}
    (h : World.Same g w0 w) :
    World.Same g w0 (attack_pet_part E w id target).world := by
  unfold attack_pet_part
  repeat' first
    | rw [apply_ite walk_result.world]
    | simp only [world_ret, world_go]
    | split
    | dsimp only
    | with_reducible assumption
    | with_reducible apply World.Same.hook hf

theorem attack_hit_part_same {α : Type} (g : Block → α)
    (hg : ∀ b x y wt dir wc wp tx ty cwt ws wde sd md cm atk lv,
      g (b.attack_write x y wt dir wc wp tx ty cwt ws wde sd md cm atk lv) = g b)
    {E : Env} (hf : E.hooks_frame) (id target tick : Int) (sd : Bool) {w0 w : World}
    (h : World.Same g w0 w) :
    World.Same g w0 (attack_hit_part E w id target tick sd).world := by
  have hw : ∀ b x y wt dir wc wp tx ty cwt ws wde sd md,
      g (b.walk_write x y wt dir wc wp tx ty cwt ws wde sd md) = g b :=
    fun b x y wt dir wc wp tx ty cwt ws wde sd md =>
      hg b x y wt dir wc wp tx ty cwt ws wde sd md b.ud.canmove_tick b.ud.attackabletime
        b.ud.attacktarget_lv
  have hc : ∀ b c, g { b with ud := { b.ud with canmove_tick := c } } = g b :=
    fun b c => hg b b.x b.y b.ud.walktimer b.ud.dir b.ud.walk_count b.ud.walkpath b.ud.to_x
      b.ud.to_y b.ud.state.change_walk_target b.ud.state.walk_script b.ud.walk_done_event b.sd b.md
      c b.ud.attackabletime b.ud.attacktarget_lv
  have hat : ∀ b c, g { b with ud := { b.ud with attackabletime := c } } = g b :=
    fun b c => hg b b.x b.y b.ud.walktimer b.ud.dir b.ud.walk_count b.ud.walkpath b.ud.to_x
      b.ud.to_y b.ud.state.change_walk_target b.ud.state.walk_script b.ud.walk_done_event b.sd b.md
      b.ud.canmove_tick c b.ud.attacktarget_lv
  have hlv : ∀ b c, g { b with ud := { b.ud with attacktarget_lv := c } } = g b :=
    fun b c => hg b b.x b.y b.ud.walktimer b.ud.dir b.ud.walk_count b.ud.walkpath b.ud.to_x
      b.ud.to_y b.ud.state.change_walk_target b.ud.state.walk_script b.ud.walk_done_event b.sd b.md
      b.ud.canmove_tick b.ud.attackabletime c
  have hwd : ∀ W a, World.Same g w0 W → World.Same g w0 (unit_set_walkdelay E W id tick a 1).2 :=
    fun W a hW => unit_set_walkdelay_same g hw hc hf _ _ _ _ hW
  unfold attack_hit_part
  repeat' first
    | rw [apply_ite walk_result.world]
    | simp only [world_ret, world_go]
    | split
    | dsimp only
    | with_reducible assumption
    | with_reducible apply World.Same.hook hf
    | with_reducible apply hwd
    | with_reducible refine World.Same.modUd _ _ ?_ (fun b => hat b _)
    | with_reducible refine World.Same.modUd _ _ ?_ (fun b => hlv b _)

theorem attack_execute_same {α : Type} (g : Block → α)
    (hg : ∀ b x y wt dir wc wp tx ty cwt ws wde sd md cm atk lv,
      g (b.attack_write x y wt dir wc wp tx ty cwt ws wde sd md cm atk lv) = g b)
    {E : Env} (hf : E.hooks_frame) (id target tick : Int) (sd md : Bool) {w0 w : World}
    (h : World.Same g w0 w) :
    World.Same g w0 (attack_execute E w id target tick sd md).world := by
  unfold attack_execute
  refine World.Same.andThen (attack_mob_part_same g hg hf id target tick md
    (attack_prepare_same g hg hf id target h)) (fun w3 h3 => ?_)
  exact World.Same.andThen (attack_pet_part_same g hf id target h3)
    (fun w4 h4 => attack_hit_part_same g hg hf id target tick sd h4)

theorem UD_hook {E : Env} (hf : E.hooks_frame) (c : ext_call) (w : World) (id : Int) :
    (E.hook c w).2.UD id = w.UD id := by
  unfold World.UD
  rw [hook_units hf]

theorem BL_hook {E : Env} (hf : E.hooks_frame) (c : ext_call) (w : World) (id : Int) :
    (E.hook c w).2.BL id = w.BL id := by
  unfold World.BL
  rw [hook_units hf]

theorem isGo_andThen (a : walk_result) (f : World → walk_result) :
    (a.andThen f).isGo = (a.isGo && (f a.world).isGo) := by
  cases a <;> rfl

theorem world_andThen (a : walk_result) (f : World → walk_result) (h : a.isGo = true) :
    (a.andThen f).world = (f a.world).world := by
  cases a with
  | ret r w => simp [walk_result.isGo] at h
  | go w => rfl

theorem attack_mob_part_isGo {E : Env} {id tick : Int} (w : World) (target : Int) (md : Bool)
    (h : ∀ w1, (E.hook (.mobskill_use id tick (-1)) w1).1 = 0) :
    (attack_mob_part E w id target tick md).isGo = true := by
  unfold attack_mob_part
  split
  · dsimp only
    have hb : ∃ W, (if (w.BL id).md.skillstate = .MSS_ANGRY ∨ (w.BL id).md.skillstate = .MSS_BERSERK
        then (if (E.hook (.mobskill_use id tick (-1)) w).1 ≠ 0
          then walk_result.ret 1 (E.hook (.mobskill_use id tick (-1)) w).2
          else walk_result.go (E.hook (.mobskill_use id tick (-1)) w).2)
        else walk_result.go w) = .go W := by
      split
      · exact ⟨_, by rw [if_neg (by simp [h])]⟩
      · exact ⟨_, rfl⟩
    obtain ⟨W, hW⟩ := hb
    rw [hW, andThen_go]
    split <;> rfl
  · rfl

theorem attack_pet_part_isGo {E : Env} {id target : Int} (w : World)
    (h : ∀ w1, (E.hook (.pet_attackskill id target) w1).1 = 0) :
    (attack_pet_part E w id target).isGo = true := by
  unfold attack_pet_part
  split
  · simp [h, walk_result.isGo]
  · rfl

theorem attack_hit_part_go {E : Env} (hf : E.hooks_frame) {id target tick : Int} {w : World}
    (sd : Bool) {ad : Int} (hs : (w.units id).isSome)
    (h : ∀ w1, (E.hook (.battle_weapon_attack id target tick 0) w1).1 ≠ ATK_NONE)
    (had : ∀ w1, E.adelay w1 id = ad) :
    (attack_hit_part E w id target tick sd).isGo = true
    ∧ ((attack_hit_part E w id target tick sd).world.UD id).attackabletime = tick + ad := by
  have hw : ∀ W, World.Same (fun b => b.ud.attackabletime) W
      (unit_set_walkdelay E W id tick (E.amotion W id) 1).2 := fun W =>
    unit_set_walkdelay_same (fun b => b.ud.attackabletime)
      (fun _ _ _ _ _ _ _ _ _ _ _ _ _ _ => rfl) (fun _ _ => rfl) hf _ _ _ _ (World.Same.refl _ _)
  unfold attack_hit_part
  dsimp only
  generalize hw5 : (E.hook (.battle_weapon_attack id target tick 0) w).2.modUd id
    (fun u => { u with attacktarget_lv := (E.hook (.battle_weapon_attack id target tick 0) w).1 })
    = w5
  have h5s : (w5.units id).isSome := by
    rw [← hw5, modUd_units, if_pos rfl, hook_units hf]
    simpa using hs
  have h5 : (w5.UD id).attacktarget_lv ≠ ATK_NONE := by
    rw [← hw5, UD_modUd _ (by rw [hook_units hf]; exact hs)]
    exact h w
  generalize hw6 : (if sd = true ∧ (w5.BL id).sd.pet_id > 0 ∧ E.pet_attack_support = true then
      match (w5.BL id).sd.pd with
      | some pd => (E.hook (.pet_target_check pd target) w5).2
      | none => w5
    else w5) = w6
  have h6u : w6.units = w5.units := by
    rw [← hw6]
    split
    · split
      · exact hook_units hf _ _
      · rfl
    · rfl
  have h6 : w6.UD id = w5.UD id := by
    unfold World.UD
    rw [h6u]
  have h6s : (w6.units id).isSome := by rw [h6u]; exact h5s
  rw [if_neg (by rw [h6]; exact h5)]
  have h7 : ((w6.modUd id (fun u => { u with attackabletime := tick + E.adelay w6 id })).UD
      id).attackabletime = tick + ad := by
    rw [UD_modUd _ h6s, had]
  split
  · refine ⟨rfl, ?_⟩
    rw [world_go, World.Same.UD (g := fun u => u.attackabletime) (hw _) id]
    exact h7
  · exact ⟨rfl, h7⟩

theorem BL_modBlock {w : World} {id : Int} (f : Block → Block) (h : (w.units id).isSome) :
    (w.modBlock id f).BL id = f (w.BL id) := by
  obtain ⟨bl, hb⟩ := Option.isSome_iff_exists.mp h
  unfold World.BL
  simp [hb]

theorem BL_modUd {w : World} {id : Int} (f : unit_data → unit_data) (h : (w.units id).isSome) :
    (w.modUd id f).BL id = { w.BL id with ud := f (w.BL id).ud } := by
  unfold World.modUd
  rw [BL_modBlock _ h]

@[simp] theorem BL_add_timer (w : World) (tick : Int) (func : timer_func) (i d id : Int) :
    (add_timer w tick func i d).2.BL id = w.BL id := rfl

@[simp] theorem BL_delete_timer (w : World) (tid : Int) (func : timer_func) (id : Int) :
    (delete_timer w tid func).2.BL id = w.BL id := by
  unfold World.BL
  rw [delete_timer_units]

@[simp] theorem isSome_modBlock (w : World) (j : Int) (f : Block → Block) (i : Int) :
    ((w.modBlock j f).units i).isSome = (w.units i).isSome := by
  rw [modBlock_units]
  by_cases h : i = j
  · subst h; simp
  · simp [h]

@[simp] theorem isSome_modUd (w : World) (j : Int) (f : unit_data → unit_data) (i : Int) :
    ((w.modUd j f).units i).isSome = (w.units i).isSome := by
  unfold World.modUd
  exact isSome_modBlock w j _ i

theorem attack_rearm_spec (E : Env) {w : World} {id : Int} (hs : (w.units id).isSome) :
    (attack_rearm E w id).1 = 1
    ∧ ((attack_rearm E w id).2.UD id).attackabletime = (w.UD id).attackabletime
    ∧ ((w.UD id).state.attack_continue = true →
        ((attack_rearm E w id).2.UD id).attacktimer = (w.next_tid : Int)
        ∧ (attack_rearm E w id).2.timers
            = { tid := w.next_tid, tick := (w.UD id).attackabletime, func := .unit_attack_timer,
                id := id, data := 0 } :: w.timers)
    ∧ ((w.UD id).state.attack_continue = false →
        ((attack_rearm E w id).2.UD id).attacktimer = (w.UD id).attacktimer
        ∧ (attack_rearm E w id).2.timers = w.timers) := by
  unfold attack_rearm
  simp only [UD_eq_BL]
  by_cases hc : (w.BL id).ud.state.attack_continue = true
  · by_cases hp : (w.BL id).type = .BL_PC <;> by_cases hi : E.idle_attack = true <;>
      by_cases hl : E.plt_attack = true <;>
      simp [hc, hp, hi, hl, BL_modUd, BL_modBlock, hs]
  · by_cases hp : (w.BL id).type = .BL_PC <;> by_cases hl : E.plt_attack = true <;>
      simp [hc, hp, hl, BL_modUd, BL_modBlock, hs]

/-! ## The arrival handling of a step -/

theorem walk_done_event_part_keeps {α : Type} (g : Block → α)
    (hg : ∀ b wc ws wde md, g (b.step_write wc ws wde md) = g b)
    {E : Env} (hf : E.hooks_frame) (id : Int) {w0 w : World} (h : World.Same g w0 w) :
    World.Same g w0 (walk_done_event_part E id w).world := by
  unfold walk_done_event_part
  repeat' first
    | rw [apply_ite walk_result.world]
    | simp only [world_ret, world_go]
    | split
    | dsimp only
    | with_reducible assumption
    | with_reducible apply World.Same.hook hf
    | with_reducible refine World.Same.modUd _ _ ?_ (fun b => hg b _ _ _ _)

theorem walk_touch_part_keeps {α : Type} (g : Block → α)
    (hg : ∀ b wc ws wde md, g (b.step_write wc ws wde md) = g b)
    {E : Env} (hf : E.hooks_frame) (tid tick id x y : Int) {w0 w : World} (h : World.Same g w0 w) :
    World.Same g w0 (walk_touch_part E tid tick id x y w).world := by
  unfold walk_touch_part
  repeat' first
    | rw [apply_ite walk_result.world]
    | simp only [world_ret, world_go]
    | split
    | dsimp only
    | with_reducible assumption
    | with_reducible apply World.Same.hook hf
    | with_reducible refine World.Same.modUd _ _ ?_ (fun b => hg b _ _ _ _)
    | with_reducible refine World.Same.modBlock _ _ ?_ (fun b => hg b _ _ _ _)
    | (refine World.Same.andThen ?_ ?_)
    | intro w1 h1

theorem walk_done_event_part_timers {E : Env} (hf : E.hooks_frame) (id : Int) (w : World) :
    (walk_done_event_part E id w).world.timers = w.timers := by
  unfold walk_done_event_part
  repeat' first
    | rw [apply_ite walk_result.world]
    | simp only [world_ret, world_go, modUd_timers, modBlock_timers, hook_timers hf]
    | split

theorem world_andThen_timers (a : walk_result) (f : World → walk_result)
    (h : ∀ w, (f w).world.timers = w.timers) : (a.andThen f).world.timers = a.world.timers := by
  cases a with
  | ret r w => rfl
  | go w => exact h w

theorem walk_touch_part_timers {E : Env} (hf : E.hooks_frame) (tid tick id x y : Int) (w : World) :
    (walk_touch_part E tid tick id x y w).world.timers = w.timers := by
  unfold walk_touch_part
  repeat' first
    | rw [apply_ite walk_result.world]
    | rw [world_andThen_timers]
    | simp only [world_ret, world_go, modUd_timers, modBlock_timers, hook_timers hf]
    | split
    | dsimp only
    | with_reducible rfl
    | intro w1

theorem walk_done_event_part_isGo {E : Env} {id : Int} (halive : ∀ w, E.status_isdead w id = false)
    (w : World) : (walk_done_event_part E id w).isGo = true := by
  unfold walk_done_event_part
  simp only [halive, Bool.false_eq_true, if_false]
  repeat' first
    | split
    | rfl

theorem isGo_andThen_of {a : walk_result} {f : World → walk_result} (ha : a.isGo = true)
    (hf : ∀ w, (f w).isGo = true) : (a.andThen f).isGo = true := by
  rw [isGo_andThen, ha, hf]; rfl

theorem walk_touch_part_isGo {E : Env} {id : Int} (hu : undisturbed E id) (tid tick x y : Int)
    {w : World} (hprev : (w.BL id).prev = true) :
    (walk_touch_part E tid tick id x y w).isGo = true := by
  unfold walk_touch_part
  split
  · dsimp only
    generalize hW : (if (!(w.BL id).sd.npc_ontouch_empty) = true then
      (E.hook (.npc_touchnext_areanpc id) w).2 else w) = W
    have hp : (W.BL id).prev = true := by
      rw [← hW]; split
      · rw [BL_hook hu.frame]; exact hprev
      · exact hprev
    split
    · rw [BL_hook hu.frame, hp]
      rfl
    · rfl
  · dsimp only
    apply isGo_andThen_of
    · split
      · rw [if_neg (by rw [hu.no_warp]; simp)]
        rfl
      · rfl
    · intro W2
      dsimp only
      generalize (if (W2.BL id).md.min_chase > (W2.BL id).md.range3 then
          W2.modBlock id (fun b => { b with md := { b.md with min_chase := b.md.min_chase - 1 } })
        else W2) = W3
      split
      · rw [if_neg (by rw [hu.no_skill]; simp)]
        rfl
      · rfl
  · rfl

theorem pending_walktimers_congr {w w1 : World} (id : Int) (h : w1.timers = w.timers) :
    pending_walktimers w1 id = pending_walktimers w id := by
  unfold pending_walktimers; rw [h]

theorem walk_move_part_go {E : Env} {id : Int} (hu : undisturbed E id) (tid tick x y dx dy : Int)
    {w : World} (hs : (w.units id).isSome = true) (hwt : (w.UD id).walktimer = INVALID_TIMER)
    (hprev : (w.BL id).prev = true) :
    (walk_move_part E tid tick id x y dx dy w).isGo = true
    ∧ pending_walktimers (walk_move_part E tid tick id x y dx dy w).world id = pending_walktimers w id
    ∧ ((walk_move_part E tid tick id x y dx dy w).world.units id).isSome = true
    ∧ ∀ (α : Type) (g : Block → α), (∀ b wc ws wde md, g (b.step_write wc ws wde md) = g b) →
        g ((walk_move_part E tid tick id x y dx dy w).world.BL id)
          = g { w.BL id with x := x + dx, y := y + dy } := by
  unfold walk_move_part
  dsimp only
  obtain ⟨W2, hW2⟩ : ∃ W2, W2 = (E.hook (.map_moveblock id (x + dx) (y + dy) tick)
      (w.modBlock id (fun b => { b with x := x + dx, y := y + dy }))).2.modUd id
        (fun u => { u with walk_count := (u.walk_count + 1) % 256 }) := ⟨_, rfl⟩
  have hs2 : (W2.units id).isSome = true := by
    rw [hW2, isSome_modUd, hook_units hu.frame, isSome_modBlock]; exact hs
  have hB2 : W2.BL id = { (w.BL id) with
      x := x + dx, y := y + dy,
      ud := { (w.BL id).ud with walk_count := ((w.BL id).ud.walk_count + 1) % 256 } } := by
    rw [hW2, BL_modUd _ (by rw [hook_units hu.frame, isSome_modBlock]; exact hs),
      BL_hook hu.frame, BL_modBlock _ hs]
  have ht2 : W2.timers = w.timers := by
    rw [hW2, modUd_timers, hook_timers hu.frame, modBlock_timers]
  rw [← hW2]
  have hwt1 : (w.BL id).ud.walktimer = INVALID_TIMER := by rw [← UD_eq_BL]; exact hwt
  rw [if_neg (by rw [UD_eq_BL, hB2]; simp [hwt1])]
  obtain ⟨W4, hW4⟩ : ∃ W4, W4 = (W2.modUd id (fun u => { u with walktimer := CLIF_WALK_TIMER })).modUd id
      (fun u => { u with walktimer := INVALID_TIMER }) := ⟨_, rfl⟩
  have hs4 : (W4.units id).isSome = true := by
    rw [hW4, isSome_modUd, isSome_modUd]; exact hs2
  have hB4 : W4.BL id = { (w.BL id) with
      x := x + dx, y := y + dy,
      ud := { (w.BL id).ud with walk_count := ((w.BL id).ud.walk_count + 1) % 256 } } := by
    rw [hW4, BL_modUd _ (by rw [isSome_modUd]; exact hs2), BL_modUd _ hs2, hB2]
    simp only [← hwt1]
  have ht4 : W4.timers = w.timers := by
    rw [hW4, modUd_timers, modUd_timers, ht2]
  rw [← hW4]
  generalize hW5 : (if (W4.BL id).type = .BL_PC then
      (add_timer W4 (W4.gettick + 1) .unit_autopilot_timer id 0).2
    else if (W4.BL id).type = .BL_HOM then
      (add_timer W4 (W4.gettick + 1) .unit_autopilot_homunculus_timer id 0).2
    else W4) = W5
  have hu5 : W5.units = W4.units := by
    rw [← hW5]; split_ifs <;> rfl
  have hp5 : pending_walktimers W5 id = pending_walktimers w id := by
    rw [← hW5]; unfold pending_walktimers; split_ifs <;> simp [ht4]
  have hB5 : W5.BL id = W4.BL id := by unfold World.BL; rw [hu5]
  have hs5 : (W5.units id).isSome = true := by rw [hu5]; exact hs4
  have hgo1 : (walk_done_event_part E id W5).isGo = true := walk_done_event_part_isGo hu.alive W5
  have hk1 : ∀ (α : Type) (g : Block → α), (∀ b wc ws wde md, g (b.step_write wc ws wde md) = g b) →
      World.Same g W5 (walk_done_event_part E id W5).world := fun α g hg =>
    walk_done_event_part_keeps g hg hu.frame id (World.Same.refl g W5)
  have hprev1 : ((walk_done_event_part E id W5).world.BL id).prev = true := by
    rw [(hk1 _ (fun b => b.prev) (fun _ _ _ _ _ => rfl)).BL id, hB5, hB4]; exact hprev
  rw [world_andThen _ _ hgo1]
  refine ⟨?_, ?_, ?_, ?_⟩
  · rw [isGo_andThen, hgo1]
    exact walk_touch_part_isGo hu tid tick _ _ hprev1
  · rw [pending_walktimers_congr id (walk_touch_part_timers hu.frame _ _ _ _ _ _),
      pending_walktimers_congr id (walk_done_event_part_timers hu.frame _ _), hp5]
  · rw [(walk_touch_part_keeps (fun _ => ()) (fun _ _ _ _ _ => rfl) hu.frame tid tick id _ _
      (hk1 _ _ (fun _ _ _ _ _ => rfl))).isSome id]
    exact hs5
  · intro α g hg
    rw [(walk_touch_part_keeps g hg hu.frame tid tick id _ _ (hk1 _ g hg)).BL id, hB5, hB4]
    exact hg { (w.BL id) with x := x + dx, y := y + dy } (((w.BL id).ud.walk_count + 1) % 256)
      (w.BL id).ud.state.walk_script (w.BL id).ud.walk_done_event (w.BL id).md

theorem walk_pos_take_succ : ∀ (p : List Nat) (x y : Int) (k : Nat), k < p.length →
    walk_pos x y (p.take (k + 1))
      = ((walk_pos x y (p.take k)).1 + dirx (p.getD k 0), (walk_pos x y (p.take k)).2 + diry (p.getD k 0))
  | [], _, _, _, h => by simp at h
  | d :: p, x, y, 0, _ => by simp [walk_pos]
  | d :: p, x, y, k + 1, h => by
    have := walk_pos_take_succ p (x + dirx d) (y + diry d) k (by simpa using h)
    simpa [walk_pos] using this

theorem path_clear_at {E : Env} {m : Int} : ∀ (p : List Nat) (x y : Int) (k : Nat),
    path_clear E m x y p → k < p.length →
    p.getD k 0 < DIR_MAX
      ∧ ∀ w, E.map_getcell w m ((walk_pos x y (p.take k)).1 + dirx (p.getD k 0))
          ((walk_pos x y (p.take k)).2 + diry (p.getD k 0)) .CELL_CHKNOPASS = false
  | [], _, _, _, _, h => by simp at h
  | d :: p, x, y, 0, hc, _ => by
    simp only [path_clear] at hc
    simpa [walk_pos] using ⟨hc.1, hc.2.1⟩
  | d :: p, x, y, k + 1, hc, h => by
    simp only [path_clear] at hc
    have := path_clear_at p (x + dirx d) (y + diry d) k hc.2.2 (by simpa using h)
    simpa [walk_pos] using this

theorem step_delay_pos {p : List Nat} {k : Nat} {speed : Int} (hk : k < p.length) (hpos : 0 < speed) :
    0 < step_delay { path_len := p.length, path_pos := k, path := p } speed := by
  unfold step_delay
  rw [if_neg (by simpa using hk)]
  split
  · show 0 < speed * 14 / 10
    omega
  · exact hpos

theorem step_delay_done (p : List Nat) (speed : Int) :
    step_delay { path_len := p.length, path_pos := p.length, path := p } speed = -1 := by
  unfold step_delay
  simp

theorem walk_stepaction_part_idle (E : Env) (tick id : Int) {w : World}
    (hchase : (w.UD id).target_to = 0) : walk_stepaction_part E tick id w = w := by
  unfold walk_stepaction_part
  rw [if_neg]
  rintro ⟨_, h⟩
  exact h hchase

theorem unit_walktoxy_timer_rest_next {E : Env} {id : Int} {speed : Int}
    (hspeed : ∀ w1, E.status_get_speed w1 id = speed) (hpos : 0 < speed)
    {tid : Int} (htid : tid ≠ INVALID_TIMER) (tick x y : Int) {w : World} {p : List Nat} {k : Nat}
    (hs : (w.units id).isSome = true)
    (hpath : (w.UD id).walkpath = { path_len := p.length, path_pos := k, path := p })
    (hchase : (w.UD id).target_to = 0) (hcwt : (w.UD id).state.change_walk_target = false)
    (hk : k + 1 < p.length) :
    unit_walktoxy_timer_rest E tid tick id x y w
      = (0, (add_timer (w.modUd id (fun u =>
                { u with walkpath := { u.walkpath with path_pos := u.walkpath.path_pos + 1 } }))
              (tick + step_delay { path_len := p.length, path_pos := k + 1, path := p } speed)
              .unit_walktoxy_timer id
              (step_delay { path_len := p.length, path_pos := k + 1, path := p } speed)).2.modUd id
            (fun u => { u with walktimer := (w.next_tid : Int) })) := by
  unfold unit_walktoxy_timer_rest
  rw [if_neg htid]
  dsimp only
  rw [walk_stepaction_part_idle E tick id hchase, hcwt]
  simp only [Bool.false_eq_true, if_false, hspeed, UD_modUd _ hs, hpath]
  rw [if_pos (step_delay_pos hk hpos)]
  simp

theorem unit_walktoxy_timer_rest_last {E : Env} {id : Int} (hu : undisturbed E id) {speed : Int}
    (hspeed : ∀ w1, E.status_get_speed w1 id = speed)
    {tid : Int} (htid : tid ≠ INVALID_TIMER) (tick x y : Int) {w : World} {p : List Nat} {k : Nat}
    (hs : (w.units id).isSome = true)
    (hpath : (w.UD id).walkpath = { path_len := p.length, path_pos := k, path := p })
    (hchase : (w.UD id).target_to = 0) (hcwt : (w.UD id).state.change_walk_target = false)
    (hrun : (w.UD id).state.running = false)
    (hk : k + 1 = p.length) :
    unit_walktoxy_timer_rest E tid tick id x y w
      = (0, (w.modUd id (fun u =>
                { u with walkpath := { u.walkpath with path_pos := u.walkpath.path_pos + 1 } })).modUd id
              (fun u => { u with to_x := (w.BL id).x, to_y := (w.BL id).y })) := by
  unfold unit_walktoxy_timer_rest
  rw [if_neg htid]
  dsimp only
  rw [walk_stepaction_part_idle E tick id hchase, hcwt]
  simp only [Bool.false_eq_true, if_false, hspeed, UD_modUd _ hs, hpath, hk, step_delay_done, hrun,
    hchase, BL_modUd _ hs]
  rw [if_neg (by decide), if_neg (by simp), if_neg]
  rintro ⟨h1, h2⟩
  exact absurd (hu.no_stack h1 _ _ _ _) (not_le.mpr h2)

theorem get_timer_tid {w : World} {tid : Int} {td : TimerData} (h : get_timer w tid = some td) :
    td.tid = tid := by
  unfold get_timer at h
  have := List.find?_some h
  simpa using this

theorem unit_bl2ud_of_isSome {b : Block} (h : (unit_bl2ud b).isSome = true) :
    unit_bl2ud b = some b.ud := by
  obtain ⟨u, hu⟩ := Option.isSome_iff_exists.mp h
  rw [hu, unit_bl2ud_eq hu]

theorem finish_of_isGo {a : walk_result} (f : World → Int × World) (h : a.isGo = true) :
    a.finish f = f a.world := by
  cases a with
  | ret r w => simp [walk_result.isGo] at h
  | go w => rfl

/-- One firing of the walk timer of a walking block whose next cell is free: the block is
moved one cell and the remainder of the callback runs on the world the step ends in. -/
theorem fire_walktimer_moves {E : Env} {id : Int} (hu : undisturbed E id) {w : World} {b : Block}
    {td : TimerData}
    (hb : w.units id = some b) (hud : (unit_bl2ud b).isSome = true) (hprev : b.prev = true)
    (hget : get_timer w b.ud.walktimer = some td) (hfunc : td.func = .unit_walktoxy_timer)
    (hid : td.id = id)
    (hpos : b.ud.walkpath.path_pos < b.ud.walkpath.path_len)
    (hdir : b.ud.walkpath.at b.ud.walkpath.path_pos < DIR_MAX)
    (hpass : ∀ w1, E.map_getcell w1 b.m (b.x + dirx (b.ud.walkpath.at b.ud.walkpath.path_pos))
      (b.y + diry (b.ud.walkpath.at b.ud.walkpath.path_pos)) .CELL_CHKNOPASS = false) :
    ∃ W, fire_walktimer E w id
        = (unit_walktoxy_timer_rest E td.tid td.tick id
            (b.x + dirx (b.ud.walkpath.at b.ud.walkpath.path_pos))
            (b.y + diry (b.ud.walkpath.at b.ud.walkpath.path_pos)) W).2
      ∧ (W.units id).isSome = true
      ∧ pending_walktimers W id = (pending_walktimers w id).filter (fun t => t.tid != td.tid)
      ∧ ∀ (α : Type) (g : Block → α), (∀ b wc ws wde md, g (b.step_write wc ws wde md) = g b) →
          g (W.BL id) = g { b with
            x := b.x + dirx (b.ud.walkpath.at b.ud.walkpath.path_pos),
            y := b.y + diry (b.ud.walkpath.at b.ud.walkpath.path_pos),
            ud := { b.ud with walktimer := INVALID_TIMER,
                              dir := b.ud.walkpath.at b.ud.walkpath.path_pos } } := by
  have htid : td.tid = b.ud.walktimer := get_timer_tid hget
  have hUD : w.UD id = b.ud := by rw [UD_eq_BL, BL_of_units hb]
  obtain ⟨W1, hW1⟩ : ∃ W1 : World, W1
      = { w with timers := w.timers.filter (fun t => t.tid != td.tid), gettick := td.tick } :=
    ⟨_, rfl⟩
  have hfire : fire_walktimer E w id = (unit_walktoxy_timer E td.tid td.tick id td.data W1).2 := by
    unfold fire_walktimer
    rw [hUD, hget]
    dsimp only
    rw [if_pos hfunc, hid, hW1]
  have hu1 : W1.units = w.units := by rw [hW1]
  have hb1 : W1.units id = some b := by rw [hu1]; exact hb
  have hs1 : (W1.units id).isSome = true := by rw [hb1]; rfl
  have hp1 : pending_walktimers W1 id
      = (pending_walktimers w id).filter (fun t => t.tid != td.tid) := by
    rw [hW1]
    unfold pending_walktimers
    dsimp only
    rw [List.filter_filter, List.filter_filter]
    congr 1
    funext t
    exact Bool.and_comm _ _
  obtain ⟨W2, hW2⟩ : ∃ W2, W2 = (W1.modUd id (fun u => { u with walktimer := INVALID_TIMER })).modUd id
      (fun u => { u with dir := b.ud.walkpath.at b.ud.walkpath.path_pos }) := ⟨_, rfl⟩
  have hs2 : (W2.units id).isSome = true := by
    rw [hW2, isSome_modUd, isSome_modUd]; exact hs1
  have hB2 : W2.BL id = { b with
      ud := { b.ud with
        walktimer := INVALID_TIMER,
        dir := b.ud.walkpath.at b.ud.walkpath.path_pos } } := by
    rw [hW2, BL_modUd _ (by rw [isSome_modUd]; exact hs1), BL_modUd _ hs1, BL_of_units hb1]
  have ht2 : W2.timers = W1.timers := by rw [hW2, modUd_timers, modUd_timers]
  have hstep : unit_walktoxy_timer E td.tid td.tick id td.data W1
      = (walk_move_part E td.tid td.tick id b.x b.y
          (dirx (b.ud.walkpath.at b.ud.walkpath.path_pos))
          (diry (b.ud.walkpath.at b.ud.walkpath.path_pos)) W2).finish
          (unit_walktoxy_timer_rest E td.tid td.tick id
            (b.x + dirx (b.ud.walkpath.at b.ud.walkpath.path_pos))
            (b.y + diry (b.ud.walkpath.at b.ud.walkpath.path_pos))) := by
    unfold unit_walktoxy_timer unit_walktoxy_timer_step
    rw [hb1]
    dsimp only
    rw [unit_bl2ud_of_isSome hud]
    dsimp only
    rw [if_neg (by rw [htid]; simp), if_neg (by rw [hprev]; simp), if_neg (by omega),
      if_neg (by omega)]
    simp only [hpass, hu.no_icewall, Bool.false_and, Bool.and_false, Bool.false_eq_true, if_false]
    rw [hW2]
  obtain ⟨hgo, hpend, hsome, hview⟩ := walk_move_part_go hu td.tid td.tick b.x b.y
    (dirx (b.ud.walkpath.at b.ud.walkpath.path_pos))
    (diry (b.ud.walkpath.at b.ud.walkpath.path_pos)) hs2
    (by rw [UD_eq_BL, hB2]) (by rw [hB2]; exact hprev)
  refine ⟨_, ?_, hsome, ?_, ?_⟩
  · rw [hfire, hstep, finish_of_isGo _ hgo]
  · rw [hpend, pending_walktimers_congr id ht2, hp1]
  · intro α g hg
    rw [hview α g hg, hB2]

/-- One firing of the walk timer in mid-walk makes the next step: the walk is then in
mid-walk one step further, or over after the last step. -/
theorem fire_walktimer_step {E : Env} {id : Int} (hu : undisturbed E id) {w : World} {bl : Block}
    {p : List Nat} {k : Nat} {speed : Int}
    (hm : mid_walk w id bl p k) (hk : k < p.length) (hty : (unit_bl2ud bl).isSome = true)
    (hclear : path_clear E bl.m bl.x bl.y p)
    (hspeed : ∀ w1, E.status_get_speed w1 id = speed) (hpos : 0 < speed) :
    (k + 1 < p.length → mid_walk (fire_walktimer E w id) id bl p (k + 1))
    ∧ (k + 1 = p.length → walk_over (fire_walktimer E w id) id bl p) := by
  obtain ⟨td, hget, hfunc, hid, hpend⟩ := hm.timer
  obtain ⟨b, hb⟩ := Option.isSome_iff_exists.mp hm.present
  have hBL : w.BL id = b := BL_of_units hb
  have hUD : w.UD id = b.ud := by rw [UD_eq_BL, hBL]
  have hkind := hm.kind
  have hmap := hm.map
  have honmap := hm.on_map
  have hcell := hm.cell
  have hpath := hm.path
  have hnc := hm.no_chase
  have hnr := hm.not_running
  have hst := hm.same_target
  have hlive := hm.live
  rw [hBL] at hkind hmap honmap hcell
  rw [hUD] at hpath hnc hnr hst hlive hget
  have hx : b.x = (walk_pos bl.x bl.y (p.take k)).1 := congrArg Prod.fst hcell
  have hy : b.y = (walk_pos bl.x bl.y (p.take k)).2 := congrArg Prod.snd hcell
  obtain ⟨hdir, hpass⟩ := path_clear_at p bl.x bl.y k hclear hk
  have hat : b.ud.walkpath.at b.ud.walkpath.path_pos = p.getD k 0 := by rw [hpath]; rfl
  have hud : (unit_bl2ud b).isSome = true := by rw [unit_bl2ud_congr hkind]; exact hty
  obtain ⟨W, hfire, hsW, hpW, hvW⟩ := fire_walktimer_moves hu hb hud honmap hget hfunc hid
    (by rw [hpath]; exact hk) (by rw [hat]; exact hdir)
    (by intro w1; rw [hat, hx, hy, hmap]; exact hpass w1)
  rw [hat] at hfire hvW
  have htid : td.tid ≠ INVALID_TIMER := by rw [get_timer_tid hget]; exact hlive
  have hpW0 : pending_walktimers W id = [] := by rw [hpW, hpend]; simp
  have hWpath : (W.UD id).walkpath = { path_len := p.length, path_pos := k, path := p } := by
    rw [UD_eq_BL, hvW _ (fun b => b.ud.walkpath) (fun _ _ _ _ _ => rfl)]; exact hpath
  have hWchase : (W.UD id).target_to = 0 := by
    rw [UD_eq_BL, hvW _ (fun b => b.ud.target_to) (fun _ _ _ _ _ => rfl)]; exact hnc
  have hWcwt : (W.UD id).state.change_walk_target = false := by
    rw [UD_eq_BL, hvW _ (fun b => b.ud.state.change_walk_target) (fun _ _ _ _ _ => rfl)]; exact hst
  have hWrun : (W.UD id).state.running = false := by
    rw [UD_eq_BL, hvW _ (fun b => b.ud.state.running) (fun _ _ _ _ _ => rfl)]; exact hnr
  have hWtype : (W.BL id).type = bl.type :=
    (hvW _ (fun b => b.type) (fun _ _ _ _ _ => rfl)).trans hkind
  have hWm : (W.BL id).m = bl.m := (hvW _ (fun b => b.m) (fun _ _ _ _ _ => rfl)).trans hmap
  have hWprev : (W.BL id).prev = true :=
    (hvW _ (fun b => b.prev) (fun _ _ _ _ _ => rfl)).trans honmap
  have hWcell : ((W.BL id).x, (W.BL id).y) = walk_pos bl.x bl.y (p.take (k + 1)) := by
    rw [walk_pos_take_succ p bl.x bl.y k hk, ← hx, ← hy]
    exact hvW _ (fun b => (b.x, b.y)) (fun _ _ _ _ _ => rfl)
  have hWtimer : (W.UD id).walktimer = INVALID_TIMER := by
    rw [UD_eq_BL]; exact hvW _ (fun b => b.ud.walktimer) (fun _ _ _ _ _ => rfl)
  constructor
  · intro hk1
    rw [hfire, unit_walktoxy_timer_rest_next hspeed hpos htid _ _ _ hsW hWpath hWchase hWcwt hk1]
    dsimp only
    have hs1 : ((W.modUd id (fun u =>
        { u with walkpath := { u.walkpath with path_pos := u.walkpath.path_pos + 1 } })).units id).isSome
          = true := by rw [isSome_modUd]; exact hsW
    refine ⟨?_, ?_, ?_, ?_, ?_, ?_, ?_, ?_, ?_, ?_, ?_⟩
    · rw [isSome_modUd, add_timer_units]; exact hs1
    · rw [BL_modUd _ (by rw [add_timer_units]; exact hs1), BL_add_timer, BL_modUd _ hsW]; exact hWtype
    · rw [BL_modUd _ (by rw [add_timer_units]; exact hs1), BL_add_timer, BL_modUd _ hsW]; exact hWm
    · rw [BL_modUd _ (by rw [add_timer_units]; exact hs1), BL_add_timer, BL_modUd _ hsW]; exact hWprev
    · rw [BL_modUd _ (by rw [add_timer_units]; exact hs1), BL_add_timer, BL_modUd _ hsW]; exact hWcell
    · rw [UD_eq_BL, BL_modUd _ (by rw [add_timer_units]; exact hs1), BL_add_timer, BL_modUd _ hsW]
      dsimp only
      rw [← UD_eq_BL, hWpath]
    · rw [UD_eq_BL, BL_modUd _ (by rw [add_timer_units]; exact hs1), BL_add_timer, BL_modUd _ hsW]
      dsimp only
      rw [← UD_eq_BL]; exact hWchase
    · rw [UD_eq_BL, BL_modUd _ (by rw [add_timer_units]; exact hs1), BL_add_timer, BL_modUd _ hsW]
      dsimp only
      rw [← UD_eq_BL]; exact hWrun
    · rw [UD_eq_BL, BL_modUd _ (by rw [add_timer_units]; exact hs1), BL_add_timer, BL_modUd _ hsW]
      dsimp only
      rw [← UD_eq_BL]; exact hWcwt
    · rw [UD_eq_BL, BL_modUd _ (by rw [add_timer_units]; exact hs1), BL_add_timer, BL_modUd _ hsW]
      dsimp only
      unfold INVALID_TIMER
      omega
    · rw [UD_eq_BL, BL_modUd _ (by rw [add_timer_units]; exact hs1), BL_add_timer, BL_modUd _ hsW]
      dsimp only
      refine ⟨{ tid := W.next_tid,
                tick := td.tick + step_delay { path_len := p.length, path_pos := k + 1, path := p } speed,
                func := .unit_walktoxy_timer, id := id,
                data := step_delay { path_len := p.length, path_pos := k + 1, path := p } speed },
        ?_, ?_, ?_, ?_⟩
      · unfold get_timer
        rw [modUd_timers, add_timer_timers, modUd_next_tid]
        exact List.find?_cons_of_pos _ (by simp)
      · rfl
      · rfl
      · unfold pending_walktimers at hpW0 ⊢
        rw [modUd_timers, add_timer_timers, modUd_timers, modUd_next_tid,
          List.filter_cons_of_pos (by simp), hpW0]
  · intro hk1
    rw [hfire, unit_walktoxy_timer_rest_last hu hspeed htid _ _ _ hsW hWpath hWchase hWcwt hWrun hk1]
    dsimp only
    have hs1 : ((W.modUd id (fun u =>
        { u with walkpath := { u.walkpath with path_pos := u.walkpath.path_pos + 1 } })).units id).isSome
          = true := by rw [isSome_modUd]; exact hsW
    have hlast : walk_pos bl.x bl.y p = walk_pos bl.x bl.y (p.take (k + 1)) := by
      rw [hk1, List.take_length]
    refine ⟨?_, ?_, ?_, ?_, ?_, ?_⟩
    · rw [isSome_modUd]; exact hs1
    · rw [BL_modUd _ hs1, BL_modUd _ hsW, hlast]; exact hWcell
    · rw [UD_eq_BL, BL_modUd _ hs1, BL_modUd _ hsW, hlast]; exact hWcell
    · rw [UD_eq_BL, BL_modUd _ hs1, BL_modUd _ hsW]
      dsimp only
      rw [← UD_eq_BL, hWpath, hk1]
    · rw [UD_eq_BL, BL_modUd _ hs1, BL_modUd _ hsW]
      dsimp only
      rw [← UD_eq_BL]; exact hWtimer
    · unfold pending_walktimers at hpW0 ⊢
      rw [modUd_timers, modUd_timers]; exact hpW0

/-! ## No walk timer pending -/

theorem pend_modBlock {w : World} {id : Int} (j : Int) (f : Block → Block)
    (h : pending_walktimers w id = []) : pending_walktimers (w.modBlock j f) id = [] := by
  rw [pending_walktimers_congr id (modBlock_timers w j f)]; exact h

theorem pend_modUd {w : World} {id : Int} (j : Int) (f : unit_data → unit_data)
    (h : pending_walktimers w id = []) : pending_walktimers (w.modUd j f) id = [] := by
  rw [pending_walktimers_congr id (modUd_timers w j f)]; exact h

theorem pend_hook {E : Env} (hf : E.hooks_frame) {w : World} {id : Int} (c : ext_call)
    (h : pending_walktimers w id = []) : pending_walktimers (E.hook c w).2 id = [] := by
  rw [pending_walktimers_congr id (hook_timers hf c w)]; exact h

theorem pend_add_timer {w : World} {id : Int} (tick : Int) {func : timer_func} (i d : Int)
    (hfunc : func ≠ .unit_walktoxy_timer)
    (h : pending_walktimers w id = []) : pending_walktimers (add_timer w tick func i d).2 id = [] := by
  unfold pending_walktimers at h ⊢
  rw [add_timer_timers, List.filter_cons_of_neg (by simp [hfunc])]
  exact h

theorem pend_delete_timer {w : World} {id : Int} (tid : Int) (func : timer_func)
    (h : pending_walktimers w id = []) : pending_walktimers (delete_timer w tid func).2 id = [] := by
  unfold delete_timer
  split
  · exact h
  · split
    · unfold pending_walktimers at h ⊢
      dsimp only
      rw [List.filter_filter, List.filter_eq_nil_iff] at *
      intro a ha
      have := h a ha
      simp only [Bool.and_eq_true, not_and] at this ⊢
      intro h1
      exact absurd h1.2 (this h1.1)
    · exact h

theorem pend_unit_set_target {w : World} {id : Int} (j t : Int)
    (h : pending_walktimers w id = []) : pending_walktimers (unit_set_target w j t).2 id = [] := by
  rw [pending_walktimers_congr id (unit_set_target_timers w j t)]; exact h

/-! ## Dropping the target before a walk -/

theorem unit_set_target_keeps {α : Type} (g : Block → α)
    (hg : ∀ b t c a tt ac sa, g (b.target_write t c a tt ac sa) = g b)
    (j t : Int) {w0 w : World} (h : World.Same g w0 w) :
    World.Same g w0 (unit_set_target w j t).2 :=
  h.trans (unit_set_target_same g (fun b t1 c =>
    hg b t1 c b.ud.attacktimer b.ud.target_to b.ud.state.attack_continue b.ud.state.step_attack) w j t)

/-- What `unit_stop_attack` leaves alone: every view of a block that does not depend on
the target, the count of attackers and the attack timer handle. -/
theorem unit_stop_attack_same {α : Type} (g : Block → α)
    (hg : ∀ b t c a, g { b with ud := { b.ud with target := t, target_count := c,
                                                  attacktimer := a } } = g b)
    (id : Int) {w0 w : World} (h : World.Same g w0 w) :
    World.Same g w0 (unit_stop_attack w id) := by
  unfold unit_stop_attack
  repeat' first
    | split
    | dsimp only
    | with_reducible assumption
    | with_reducible apply World.Same.delete_timer
    | with_reducible refine World.Same.modUd _ _ ?_ (fun b => hg b _ _ _)
    | exact h.trans (unit_set_target_same g (fun b t1 c => hg b t1 c b.ud.attacktimer) w id 0)

theorem unit_stop_attack_keeps {α : Type} (g : Block → α)
    (hg : ∀ b t c a tt ac sa, g (b.target_write t c a tt ac sa) = g b)
    (id : Int) {w0 w : World} (h : World.Same g w0 w) :
    World.Same g w0 (unit_stop_attack w id) :=
  unit_stop_attack_same g (fun b t c a =>
    hg b t c a b.ud.target_to b.ud.state.attack_continue b.ud.state.step_attack) id h

theorem unit_unattackable_keeps {α : Type} (g : Block → α)
    (hg : ∀ b t c a tt ac sa, g (b.target_write t c a tt ac sa) = g b)
    {E : Env} (hf : E.hooks_frame) (id : Int) {w0 w : World} (h : World.Same g w0 w) :
    World.Same g w0 (unit_unattackable E w id).2 := by
  unfold unit_unattackable
  repeat' first
    | split
    | dsimp only
    | with_reducible assumption
    | with_reducible apply World.Same.hook hf
    | with_reducible refine World.Same.modUd _ _ ?_ (fun b => hg b _ _ _ _ _ _)
    | apply unit_set_target_keeps g hg

theorem walk_unlock_keeps {α : Type} (g : Block → α)
    (hg : ∀ b t c a tt ac sa, g (b.target_write t c a tt ac sa) = g b)
    {E : Env} (hf : E.hooks_frame) (id flag : Int) {w0 w : World} (h : World.Same g w0 w) :
    World.Same g w0 (walk_unlock E w id flag) := by
  unfold walk_unlock
  split
  · exact unit_stop_attack_keeps g hg id (unit_unattackable_keeps g hg hf id h)
  · exact h

theorem pend_unit_stop_attack {w : World} {id : Int} (j : Int)
    (h : pending_walktimers w id = []) : pending_walktimers (unit_stop_attack w j) id = [] := by
  unfold unit_stop_attack
  repeat' first
    | split
    | dsimp only
    | with_reducible assumption
    | with_reducible apply pend_delete_timer
    | with_reducible apply pend_modUd
    | with_reducible apply pend_unit_set_target

theorem pend_unit_unattackable {E : Env} (hf : E.hooks_frame) {w : World} {id : Int} (j : Int)
    (h : pending_walktimers w id = []) : pending_walktimers (unit_unattackable E w j).2 id = [] := by
  unfold unit_unattackable
  repeat' first
    | split
    | dsimp only
    | with_reducible assumption
    | with_reducible apply pend_hook hf
    | with_reducible apply pend_modUd
    | with_reducible apply pend_unit_set_target

theorem pend_walk_unlock {E : Env} (hf : E.hooks_frame) {w : World} {id : Int} (j flag : Int)
    (h : pending_walktimers w id = []) : pending_walktimers (walk_unlock E w j flag) id = [] := by
  unfold walk_unlock
  split
  · exact pend_unit_stop_attack j (pend_unit_unattackable hf j h)
  · exact h

theorem unit_unattackable_target_to {E : Env} (hf : E.hooks_frame) {w : World} {id : Int}
    (h0 : (w.UD id).target_to = 0) : ((unit_unattackable E w id).2.UD id).target_to = 0 := by
  unfold unit_unattackable
  cases hb : w.units id with
  | none => exact h0
  | some bl =>
    dsimp only
    have key : ∀ W : World, (W.UD id).target_to = 0 →
        ((if bl.type = .BL_MOB then (0, (E.hook (.mob_unlocktarget id W.gettick) W).2)
          else if bl.type = .BL_PET then (0, (E.hook (.pet_unlocktarget id) W).2)
          else ((0 : Int), W)).2.UD id).target_to = 0 := by
      intro W hW
      split_ifs
      · dsimp only; rw [UD_hook hf]; exact hW
      · dsimp only; rw [UD_hook hf]; exact hW
      · exact hW
    apply key
    cases unit_bl2ud bl with
    | none => exact h0
    | some u =>
      dsimp only
      rw [World.Same.UD (g := fun u => u.target_to)
        (unit_set_target_same (fun b => b.ud.target_to) (fun _ _ _ => rfl) _ id 0) id,
        UD_modUd _ (by rw [hb]; rfl)]

theorem walk_unlock_target_to {E : Env} (hf : E.hooks_frame) {w : World} {id : Int} (flag : Int)
    (h0 : (w.UD id).target_to = 0) : ((walk_unlock E w id flag).UD id).target_to = 0 := by
  unfold walk_unlock
  split
  · rw [World.Same.UD (g := fun u => u.target_to)
      (unit_stop_attack_same (fun b => b.ud.target_to) (fun _ _ _ _ => rfl) id (World.Same.refl _ _)) id]
    exact unit_unattackable_target_to hf h0
  · exact h0

theorem unit_can_move_cases (E : Env) (w : World) (id : Int) :
    (unit_can_move E w id).1 = 0 ∨ unit_can_move E w id = (1, w) := by
  suffices h : ∀ Q : Int × World → Prop, (∀ W, Q (0, W)) → Q (1, w) → Q (unit_can_move E w id) from
    h (fun r => r.1 = 0 ∨ r = (1, w)) (fun W => Or.inl rfl) (Or.inr rfl)
  intro Q h0 h1
  unfold unit_can_move
  repeat' first
    | split
    | dsimp only
    | with_reducible exact h0 _
    | with_reducible exact h1

theorem unit_can_move_ok {E : Env} {w : World} {id : Int} (h : (unit_can_move E w id).1 ≠ 0) :
    (unit_can_move E w id).2 = w := by
  rcases unit_can_move_cases E w id with h0 | h1
  · exact absurd h0 h
  · rw [h1]

/-- An accepted request passes every check of `unit_walktoxy` and reaches the part that
stores the destination. -/
theorem unit_walktoxy_accepted {E : Env} {w : World} {id x y flag : Int} {bl : Block}
    {c : Int × Int} {p : List Nat} (ha : walk_accepted E w id x y flag bl c p) :
    unit_walktoxy E w id x y flag
      = unit_walktoxy_accept E (walk_unlock E w id flag) id c.1 c.2 flag := by
  obtain ⟨cx, cy⟩ := c
  unfold unit_walktoxy
  rw [ha.src_at]
  dsimp only
  rw [unit_bl2ud_of_isSome ha.has_ud]
  dsimp only
  rw [ha.cell]
  dsimp only
  rw [ha.found]
  dsimp only
  rw [if_neg, if_neg, if_neg]
  · rcases ha.may_move with h2 | ⟨hm, hc⟩
    · rw [if_pos h2]
    · by_cases h2 : flagset flag 2 = true
      · rw [if_pos h2]
      · rw [if_neg h2, if_neg (by rw [hm]; simp), if_neg hc, unit_can_move_ok hc]
  · have := ha.no_delay
    simpa using this
  · have := ha.short
    simp only [Bool.and_eq_true, decide_eq_true_eq, bne_iff_ne, ne_eq, not_and, not_not]
    intro h
    rcases this with h1 | h1
    · omega
    · exact h1
  · have := ha.direct
    simp only [Bool.and_eq_true, decide_eq_true_eq, bne_iff_ne, ne_eq, not_and, not_not,
      Bool.not_eq_true']
    rintro ⟨⟨h1, h2⟩, h3⟩
    rcases this with h | h | h | h
    · rw [h] at h1; simp at h1
    · rw [h] at h2; simp at h2
    · omega
    · exact h

/-! ## Storing the destination -/

theorem confuse_target_calm (E : Env) {w : World} {id : Int}
    (h : ∀ sc, (w.BL id).sc = some sc → sc.confusion = false) : confuse_target E w id = w := by
  unfold confuse_target
  split
  · rename_i sc hsc
    rw [if_neg (by rw [h sc hsc]; simp)]
  · rfl

theorem confuse_target_same {α : Type} (g : Block → α)
    (hg : ∀ b tx ty, g { b with ud := { b.ud with to_x := tx, to_y := ty } } = g b)
    (E : Env) (id : Int) {w0 w : World} (h : World.Same g w0 w) :
    World.Same g w0 (confuse_target E w id) := by
  unfold confuse_target
  repeat' first
    | split
    | dsimp only
    | with_reducible assumption
    | with_reducible refine World.Same.modUd _ _ ?_ (fun b => hg b _ _)

theorem confuse_target_timers (E : Env) (w : World) (id : Int) :
    (confuse_target E w id).timers = w.timers := by
  unfold confuse_target
  repeat' first
    | split
    | dsimp only
    | rw [modUd_timers]

theorem unit_check_start_teleport_timer_keeps {α : Type} (g : Block → α)
    (hg : ∀ b t, g { b with masterteleport_timer := t } = g b)
    (E : Env) (sid : Int) {w0 w : World} (h : World.Same g w0 w) :
    World.Same g w0 (unit_check_start_teleport_timer E w sid).2 := by
  unfold unit_check_start_teleport_timer
  repeat' first
    | split
    | dsimp only
    | with_reducible assumption
    | with_reducible apply World.Same.add_timer
    | with_reducible apply World.Same.delete_timer
    | with_reducible refine World.Same.modBlock _ _ ?_ (fun b => hg b _)

theorem start_teleport_timers_keeps {α : Type} (g : Block → α)
    (hg : ∀ b t, g { b with masterteleport_timer := t } = g b)
    (E : Env) (id : Int) {w0 w : World} (h : World.Same g w0 w) :
    World.Same g w0 (start_teleport_timers E w id) := by
  unfold start_teleport_timers
  repeat' first
    | split
    | dsimp only
    | with_reducible assumption
    | apply unit_check_start_teleport_timer_keeps g hg

theorem pend_unit_check_start_teleport_timer (E : Env) {w : World} {id : Int} (sid : Int)
    (h : pending_walktimers w id = []) :
    pending_walktimers (unit_check_start_teleport_timer E w sid).2 id = [] := by
  unfold unit_check_start_teleport_timer
  repeat' first
    | split
    | dsimp only
    | with_reducible assumption
    | with_reducible apply pend_modBlock
    | with_reducible apply pend_delete_timer
    | with_reducible apply pend_add_timer _ _ _ (by decide)

theorem pend_start_teleport_timers (E : Env) {w : World} {id : Int} (j : Int)
    (h : pending_walktimers w id = []) :
    pending_walktimers (start_teleport_timers E w j) id = [] := by
  unfold start_teleport_timers
  repeat' first
    | split
    | dsimp only
    | with_reducible assumption
    | apply pend_unit_check_start_teleport_timer

/-! ## Storing the path and arming the walk timer -/

theorem path_store_keeps {α : Type} (g : Block → α)
    (hg : ∀ b wp tx ty wt cwt sd, g (b.path_write wp tx ty wt cwt sd) = g b)
    (id : Int) (bl : Block) (ud : unit_data) (p : List Nat) {w0 w : World} (h : World.Same g w0 w) :
    World.Same g w0 (path_store w id bl ud p) := by
  unfold path_store
  repeat' first
    | split
    | dsimp only
    | with_reducible assumption
    | with_reducible refine World.Same.modUd _ _ ?_ (fun b => hg b _ _ _ _ _ _)
    | with_reducible refine World.Same.modBlock _ _ ?_ (fun b => hg b _ _ _ _ _ _)

/-- What arming the walk timer leaves alone: every view of a block that does not depend on
the walk timer handle. -/
theorem walk_arm_same {α : Type} (g : Block → α)
    (hg : ∀ b wt, g { b with ud := { b.ud with walktimer := wt } } = g b)
    (E : Env) (id : Int) {w0 w : World} (h : World.Same g w0 w) :
    World.Same g w0 (walk_arm E w id).2 := by
  unfold walk_arm
  repeat' first
    | split
    | dsimp only
    | with_reducible assumption
    | with_reducible apply World.Same.add_timer
    | with_reducible refine World.Same.modUd _ _ ?_ (fun b => hg b _)

theorem walk_arm_keeps {α : Type} (g : Block → α)
    (hg : ∀ b wp tx ty wt cwt sd, g (b.path_write wp tx ty wt cwt sd) = g b)
    (E : Env) (id : Int) {w0 w : World} (h : World.Same g w0 w) :
    World.Same g w0 (walk_arm E w id).2 :=
  walk_arm_same g (fun b wt =>
    hg b b.ud.walkpath b.ud.to_x b.ud.to_y wt b.ud.state.change_walk_target b.sd) E id h

theorem path_store_timers (w : World) (id : Int) (bl : Block) (ud : unit_data) (p : List Nat) :
    (path_store w id bl ud p).timers = w.timers := by
  unfold path_store
  repeat' first
    | split
    | dsimp only
    | rw [modUd_timers]
    | rw [modBlock_timers]

theorem path_store_path {w : World} {id : Int} (bl : Block) (ud : unit_data) (p : List Nat)
    (hs : (w.units id).isSome = true) :
    ((path_store w id bl ud p).UD id).state.change_walk_target = false
    ∧ ((path_store w id bl ud p).UD id).walkpath.path = p
    ∧ ((path_store w id bl ud p).UD id).walkpath.path_pos = 0
    ∧ (ud.target_to = 0 → ((path_store w id bl ud p).UD id).walkpath
        = { path_len := p.length, path_pos := 0, path := p }) := by
  unfold path_store
  simp only [UD_eq_BL]
  by_cases h1 : ud.target_to ≠ 0 ∧ ud.chaserange > 1 <;> by_cases hp : bl.type = .BL_PC <;>
    simp [h1, hp, BL_modUd, BL_modBlock, hs]

theorem walk_arm_fst (E : Env) (w : World) (id : Int) : (walk_arm E w id).1 = 1 := by
  unfold walk_arm
  dsimp only
  split <;> rfl

/-- Arming the walk timer for a path that has a step left: one walk timer more is
pending, and its handle is stored. -/
theorem walk_arm_armed {E : Env} {id : Int} {speed : Int}
    (hspeed : ∀ w1, E.status_get_speed w1 id = speed) (hpos : 0 < speed)
    {w : World} {p : List Nat} {k : Nat} (hs : (w.units id).isSome = true)
    (hpath : (w.UD id).walkpath = { path_len := p.length, path_pos := k, path := p })
    (hk : k < p.length) :
    ((walk_arm E w id).2.units id).isSome = true
    ∧ (walk_arm E w id).2.BL id = { (w.BL id) with ud := { (w.BL id).ud with walktimer := w.next_tid } }
    ∧ ∃ td, get_timer (walk_arm E w id).2 (w.next_tid : Int) = some td
        ∧ td.func = .unit_walktoxy_timer ∧ td.id = id
        ∧ pending_walktimers (walk_arm E w id).2 id = td :: pending_walktimers w id := by
  unfold walk_arm
  dsimp only
  rw [hpath, hspeed, if_pos (step_delay_pos hk hpos)]
  dsimp only
  refine ⟨?_, ?_, ?_⟩
  · rw [isSome_modUd, add_timer_units]; exact hs
  · rw [BL_modUd _ (by rw [add_timer_units]; exact hs), BL_add_timer]
    rfl
  · refine ⟨{ tid := w.next_tid,
              tick := w.gettick + step_delay { path_len := p.length, path_pos := k, path := p } speed,
              func := .unit_walktoxy_timer, id := id,
              data := step_delay { path_len := p.length, path_pos := k, path := p } speed },
      ?_, rfl, rfl, ?_⟩
    · unfold get_timer
      rw [modUd_timers, add_timer_timers]
      exact List.find?_cons_of_pos _ (by simp)
    · unfold pending_walktimers
      rw [modUd_timers, add_timer_timers, List.filter_cons_of_pos (by simp)]

theorem unit_walktoxy_sub_none {E : Env} {w : World} {id : Int} {b : Block}
    (hb : w.units id = some b)
    (hnone : E.path_search w b.m b.x b.y b.ud.to_x b.ud.to_y b.ud.state.walk_easy .CELL_CHKNOPASS
      = none) :
    unit_walktoxy_sub E w id = (0, w) := by
  unfold unit_walktoxy_sub
  rw [hb]
  dsimp only
  cases hud : unit_bl2ud b with
  | none => rfl
  | some ud =>
    dsimp only
    rw [unit_bl2ud_eq hud, hnone]

theorem unit_walktoxy_sub_found {E : Env} {w : World} {id : Int} {b : Block} {p : List Nat}
    (hb : w.units id = some b) (hud : (unit_bl2ud b).isSome = true)
    (hfound : E.path_search w b.m b.x b.y b.ud.to_x b.ud.to_y b.ud.state.walk_easy .CELL_CHKNOPASS
      = some p)
    (hdirect : E.OFFICIAL_WALKPATH = false
      ∨ E.path_search_long w b.m b.x b.y b.ud.to_x b.ud.to_y .CELL_CHKNOPASS = true
      ∨ p.length ≤ 14 ∨ b.type = .BL_NPC) :
    unit_walktoxy_sub E w id = walk_arm E (path_store w id b b.ud p) id := by
  unfold unit_walktoxy_sub
  rw [hb]
  dsimp only
  rw [unit_bl2ud_of_isSome hud]
  dsimp only
  rw [hfound]
  dsimp only
  rw [if_neg]
  simp only [Bool.and_eq_true, decide_eq_true_eq, bne_iff_ne, ne_eq, not_and, not_not,
    Bool.not_eq_true']
  rintro ⟨⟨h1, h2⟩, h3⟩
  rcases hdirect with h | h | h | h
  · rw [h] at h1; simp at h1
  · rw [h] at h2; simp at h2
  · omega
  · exact h

theorem walk_dest_congr (E : Env) (id : Int) {b1 b2 : Block} (h : b1.sc = b2.sc) (c : Int × Int)
    (w : World) : walk_dest E id b1 c w = walk_dest E id b2 c w := by
  unfold walk_dest; rw [h]

/-- The destination after the confusion step is the one `walk_dest` describes. -/
theorem confuse_target_dest (E : Env) {w : World} {id : Int} (hs : (w.units id).isSome = true) :
    (((confuse_target E w id).UD id).to_x, ((confuse_target E w id).UD id).to_y)
      = walk_dest E id (w.BL id) ((w.UD id).to_x, (w.UD id).to_y) w := by
  unfold confuse_target walk_dest
  cases (w.BL id).sc with
  | none => rfl
  | some sc =>
    dsimp only
    by_cases hc : sc.confusion = true
    · rw [if_pos hc, if_pos hc, UD_modUd _ hs]
    · rw [if_neg hc, if_neg hc]

theorem pend_confuse_target (E : Env) {w : World} {id : Int} (j : Int)
    (h : pending_walktimers w id = []) : pending_walktimers (confuse_target E w j) id = [] := by
  rw [pending_walktimers_congr id (confuse_target_timers E w j)]; exact h

/-- An accepted request of an idle entity with no chase target starts the walk: the path
is stored, the first step is due on the one pending walk timer. -/
theorem walk_starts {E : Env} {id : Int} (hf : E.hooks_frame) {w : World} {x y flag : Int}
    {bl : Block} {c dst : Int × Int} {p0 p : List Nat} {speed : Int}
    (ha : walk_accepted E w id x y flag bl c p0)
    (hidle : bl.ud.walktimer = INVALID_TIMER) (hnone : pending_walktimers w id = [])
    (honmap : bl.prev = true) (hchase : bl.ud.target_to = 0)
    (hrun : bl.ud.state.running = false)
    (hdst : ∀ w1, walk_dest E id bl c w1 = dst)
    (hspeed : ∀ w1, E.status_get_speed w1 id = speed) (hpos : 0 < speed)
    (hpath : ∀ w1, E.path_search w1 bl.m bl.x bl.y dst.1 dst.2 (flagset flag 1) .CELL_CHKNOPASS
      = some p)
    (hdirect : ∀ w1, E.OFFICIAL_WALKPATH = false
      ∨ E.path_search_long w1 bl.m bl.x bl.y dst.1 dst.2 .CELL_CHKNOPASS = true
      ∨ p.length ≤ 14 ∨ bl.type = .BL_NPC)
    (hn : 1 ≤ p.length) :
    (unit_walktoxy E w id x y flag).1 = 1 ∧ mid_walk (unit_walktoxy E w id x y flag).2 id bl p 0 := by
  rw [unit_walktoxy_accepted ha]
  unfold unit_walktoxy_accept
  dsimp only
  have hBLw : w.BL id = bl := BL_of_units ha.src_at
  obtain ⟨W0, hW0⟩ : ∃ W0, W0 = walk_unlock E w id flag := ⟨_, rfl⟩
  rw [← hW0]
  have hk0 : ∀ (α : Type) (g : Block → α), (∀ b t c a tt ac sa, g (b.target_write t c a tt ac sa) = g b) →
      g (W0.BL id) = g bl := fun α g hg => by
    rw [hW0, (walk_unlock_keeps g hg hf id flag (World.Same.refl g w)).BL id, hBLw]
  have hs0 : (W0.units id).isSome = true := by
    rw [hW0, (walk_unlock_keeps (fun _ => ()) (fun _ _ _ _ _ _ _ => rfl) hf id flag
      (World.Same.refl _ w)).isSome id, ha.src_at]; rfl
  have ht0 : (W0.UD id).target_to = 0 := by
    rw [hW0]; exact walk_unlock_target_to hf flag (by rw [UD_eq_BL, hBLw]; exact hchase)
  have hp0 : pending_walktimers W0 id = [] := by rw [hW0]; exact pend_walk_unlock hf id flag hnone
  obtain ⟨W1, hW1⟩ : ∃ W1, W1 = W0.modUd id (fun u =>
      { u with state := { u.state with walk_easy := flagset flag 1 }, to_x := c.1, to_y := c.2 }) :=
    ⟨_, rfl⟩
  rw [← hW1]
  have hs1 : (W1.units id).isSome = true := by rw [hW1, isSome_modUd]; exact hs0
  have hB1 : W1.BL id = { (W0.BL id) with
      ud := { (W0.BL id).ud with
        state := { (W0.BL id).ud.state with walk_easy := flagset flag 1 },
        to_x := c.1, to_y := c.2 } } := by
    rw [hW1, BL_modUd _ hs0]
  obtain ⟨W2, hW2⟩ : ∃ W2, W2 = unit_stop_attack W1 id := ⟨_, rfl⟩
  rw [← hW2]
  have hk2 : ∀ (α : Type) (g : Block → α),
      (∀ b t c a, g { b with ud := { b.ud with target := t, target_count := c, attacktimer := a } }
        = g b) → g (W2.BL id) = g (W1.BL id) := fun α g hg => by
    rw [hW2, (unit_stop_attack_same g hg id (World.Same.refl g W1)).BL id]
  have hs2 : (W2.units id).isSome = true := by
    rw [hW2, (unit_stop_attack_same (fun _ => ()) (fun _ _ _ _ => rfl) id
      (World.Same.refl _ W1)).isSome id]; exact hs1
  have hp2 : pending_walktimers W2 id = [] := by
    rw [hW2]; exact pend_unit_stop_attack id (by rw [hW1]; exact pend_modUd id _ hp0)
  obtain ⟨W3, hW3⟩ : ∃ W3, W3 = confuse_target E W2 id := ⟨_, rfl⟩
  rw [← hW3]
  have hk3 : ∀ (α : Type) (g : Block → α),
      (∀ b tx ty, g { b with ud := { b.ud with to_x := tx, to_y := ty } } = g b) →
      g (W3.BL id) = g (W2.BL id) := fun α g hg => by
    rw [hW3, (confuse_target_same g hg E id (World.Same.refl g W2)).BL id]
  have hs3 : (W3.units id).isSome = true := by
    rw [hW3, (confuse_target_same (fun _ => ()) (fun _ _ _ => rfl) E id
      (World.Same.refl _ W2)).isSome id]; exact hs2
  have hp3 : pending_walktimers W3 id = [] := by rw [hW3]; exact pend_confuse_target E id hp2
  have hd3 : ((W3.UD id).to_x, (W3.UD id).to_y) = dst := by
    rw [hW3, confuse_target_dest E hs2, ← hdst W2]
    have e1 : (W2.UD id).to_x = c.1 := by
      rw [UD_eq_BL, hk2 _ (fun b => b.ud.to_x) (fun _ _ _ _ => rfl), hB1]
    have e2 : (W2.UD id).to_y = c.2 := by
      rw [UD_eq_BL, hk2 _ (fun b => b.ud.to_y) (fun _ _ _ _ => rfl), hB1]
    rw [e1, e2]
    apply walk_dest_congr
    rw [hk2 _ (fun b => b.sc) (fun _ _ _ _ => rfl), hB1]
    exact hk0 _ (fun b => b.sc) (fun _ _ _ _ _ _ _ => rfl)
  have hwt3 : (W3.UD id).walktimer = INVALID_TIMER := by
    rw [UD_eq_BL, hk3 _ (fun b => b.ud.walktimer) (fun _ _ _ => rfl),
      hk2 _ (fun b => b.ud.walktimer) (fun _ _ _ _ => rfl), hB1]
    dsimp only
    rw [hk0 _ (fun b => b.ud.walktimer) (fun _ _ _ _ _ _ _ => rfl)]
    exact hidle
  rw [if_neg (not_not.mpr hwt3)]
  obtain ⟨W4, hW4⟩ : ∃ W4, W4 = start_teleport_timers E W3 id := ⟨_, rfl⟩
  rw [← hW4]
  have hk4 : ∀ (α : Type) (g : Block → α), (∀ b t, g { b with masterteleport_timer := t } = g b) →
      g (W4.BL id) = g (W3.BL id) := fun α g hg => by
    rw [hW4, (start_teleport_timers_keeps g hg E id (World.Same.refl g W3)).BL id]
  have hs4 : (W4.units id).isSome = true := by
    rw [hW4, (start_teleport_timers_keeps (fun _ => ()) (fun _ _ => rfl) E id
      (World.Same.refl _ W3)).isSome id]; exact hs3
  have hp4 : pending_walktimers W4 id = [] := by
    rw [hW4]; exact pend_start_teleport_timers E id hp3
  obtain ⟨b4, hb4⟩ := Option.isSome_iff_exists.mp hs4
  have hB4 : W4.BL id = b4 := BL_of_units hb4
  have hv : ∀ (α : Type) (g : Block → α), (∀ b t, g { b with masterteleport_timer := t } = g b) →
      (∀ b tx ty, g { b with ud := { b.ud with to_x := tx, to_y := ty } } = g b) →
      (∀ b t c a, g { b with ud := { b.ud with target := t, target_count := c, attacktimer := a } }
        = g b) →
      g b4 = g { (W0.BL id) with
        ud := { (W0.BL id).ud with
          state := { (W0.BL id).ud.state with walk_easy := flagset flag 1 },
          to_x := c.1, to_y := c.2 } } := fun α g h1 h3 h2 => by
    rw [← hB4, hk4 α g h1, hk3 α g h3, hk2 α g h2, hB1]
  have e_type : b4.type = bl.type :=
    (hv _ (fun b => b.type) (fun _ _ => rfl) (fun _ _ _ => rfl) (fun _ _ _ _ => rfl)).trans
      (hk0 _ (fun b => b.type) (fun _ _ _ _ _ _ _ => rfl))
  have e_m : b4.m = bl.m :=
    (hv _ (fun b => b.m) (fun _ _ => rfl) (fun _ _ _ => rfl) (fun _ _ _ _ => rfl)).trans
      (hk0 _ (fun b => b.m) (fun _ _ _ _ _ _ _ => rfl))
  have e_x : b4.x = bl.x :=
    (hv _ (fun b => b.x) (fun _ _ => rfl) (fun _ _ _ => rfl) (fun _ _ _ _ => rfl)).trans
      (hk0 _ (fun b => b.x) (fun _ _ _ _ _ _ _ => rfl))
  have e_y : b4.y = bl.y :=
    (hv _ (fun b => b.y) (fun _ _ => rfl) (fun _ _ _ => rfl) (fun _ _ _ _ => rfl)).trans
      (hk0 _ (fun b => b.y) (fun _ _ _ _ _ _ _ => rfl))
  have e_prev : b4.prev = true :=
    ((hv _ (fun b => b.prev) (fun _ _ => rfl) (fun _ _ _ => rfl) (fun _ _ _ _ => rfl)).trans
      (hk0 _ (fun b => b.prev) (fun _ _ _ _ _ _ _ => rfl))).trans honmap
  have e_run : b4.ud.state.running = false :=
    ((hv _ (fun b => b.ud.state.running) (fun _ _ => rfl) (fun _ _ _ => rfl) (fun _ _ _ _ => rfl)).trans
      (hk0 _ (fun b => b.ud.state.running) (fun _ _ _ _ _ _ _ => rfl))).trans hrun
  have e_to : (b4.ud.to_x, b4.ud.to_y) = dst := by
    rw [← hB4, hk4 _ (fun b => (b.ud.to_x, b.ud.to_y)) (fun _ _ => rfl), ← UD_eq_BL]
    exact hd3
  have e_tox : b4.ud.to_x = dst.1 := congrArg Prod.fst e_to
  have e_toy : b4.ud.to_y = dst.2 := congrArg Prod.snd e_to
  have e_easy : b4.ud.state.walk_easy = flagset flag 1 :=
    hv _ (fun b => b.ud.state.walk_easy) (fun _ _ => rfl) (fun _ _ _ => rfl) (fun _ _ _ _ => rfl)
  have e_tt : b4.ud.target_to = 0 := by
    rw [hv _ (fun b => b.ud.target_to) (fun _ _ => rfl) (fun _ _ _ => rfl) (fun _ _ _ _ => rfl)]
    dsimp only
    rw [← UD_eq_BL]; exact ht0
  have hud4 : (unit_bl2ud b4).isSome = true := by rw [unit_bl2ud_congr e_type]; exact ha.has_ud
  rw [unit_walktoxy_sub_found hb4 hud4
    (by rw [e_m, e_x, e_y, e_tox, e_toy, e_easy]; exact hpath W4)
    (by rw [e_m, e_x, e_y, e_tox, e_toy, e_type]; exact hdirect W4)]
  obtain ⟨S, hS⟩ : ∃ S, S = path_store W4 id b4 b4.ud p := ⟨_, rfl⟩
  rw [← hS]
  have hkS : ∀ (α : Type) (g : Block → α),
      (∀ b wp tx ty wt cwt sd, g (b.path_write wp tx ty wt cwt sd) = g b) →
      g (S.BL id) = g b4 := fun α g hg => by
    rw [hS, (path_store_keeps g hg id b4 b4.ud p (World.Same.refl g W4)).BL id, hB4]
  have hsS : (S.units id).isSome = true := by
    rw [hS, (path_store_keeps (fun _ => ()) (fun _ _ _ _ _ _ _ => rfl) id b4 b4.ud p
      (World.Same.refl _ W4)).isSome id]; exact hs4
  have hpS : pending_walktimers S id = [] := by
    rw [hS, pending_walktimers_congr id (path_store_timers W4 id b4 b4.ud p)]; exact hp4
  obtain ⟨hcwt, -, -, hwp⟩ := path_store_path b4 b4.ud p hs4
  rw [← hS] at hcwt hwp
  have hwp1 := hwp e_tt
  obtain ⟨hsA, hBA, td, hget, hfn, hid, hpend⟩ := walk_arm_armed hspeed hpos hsS hwp1
    (by omega : 0 < p.length)
  refine ⟨walk_arm_fst _ _ _, hsA, ?_, ?_, ?_, ?_, ?_, ?_, ?_, ?_, ?_, ?_⟩
  · rw [hBA]
    exact (hkS _ (fun b => b.type) (fun _ _ _ _ _ _ _ => rfl)).trans e_type
  · rw [hBA]
    exact (hkS _ (fun b => b.m) (fun _ _ _ _ _ _ _ => rfl)).trans e_m
  · rw [hBA]
    exact (hkS _ (fun b => b.prev) (fun _ _ _ _ _ _ _ => rfl)).trans e_prev
  · rw [hBA]
    have := hkS _ (fun b => (b.x, b.y)) (fun _ _ _ _ _ _ _ => rfl)
    dsimp only at this ⊢
    rw [this, e_x, e_y]
    rfl
  · rw [UD_eq_BL, hBA]
    dsimp only
    rw [← UD_eq_BL]; exact hwp1
  · rw [UD_eq_BL, hBA]
    exact (hkS _ (fun b => b.ud.target_to) (fun _ _ _ _ _ _ _ => rfl)).trans e_tt
  · rw [UD_eq_BL, hBA]
    exact (hkS _ (fun b => b.ud.state.running) (fun _ _ _ _ _ _ _ => rfl)).trans e_run
  · rw [UD_eq_BL, hBA]
    dsimp only
    rw [← UD_eq_BL]; exact hcwt
  · rw [UD_eq_BL, hBA]
    dsimp only
    unfold INVALID_TIMER
    omega
  · refine ⟨td, ?_, hfn, hid, ?_⟩
    · rw [UD_eq_BL, hBA]; exact hget
    · rw [hpend, hpS]

/-! ## The example environment -/

theorem exampleEnv_frame : exampleEnv.hooks_frame :=
  fun _ _ => ⟨rfl, rfl, rfl, rfl⟩

theorem exampleEnv_undisturbed (id : Int) : undisturbed exampleEnv id where
  frame := exampleEnv_frame
  alive := fun _ => rfl
  no_warp := fun _ => rfl
  no_skill := fun _ _ => rfl
  no_icewall := fun _ _ _ _ => rfl
  no_stack := fun _ _ _ _ _ => by simp [exampleEnv]

theorem walk_fired_succ (E : Env) (id : Int) (k : Nat) (w : World) :
    walk_fired E id (k + 1) w = fire_walktimer E (walk_fired E id k w) id := by
  unfold walk_fired
  exact Function.iterate_succ_apply' _ _ _

/-- A walk in its first step runs to its end: before each of the `n` firings the walk is
in mid-walk, and after the last one it is over. -/
theorem walk_runs {E : Env} {id : Int} (hu : undisturbed E id) {w0 : World} {bl : Block}
    {p : List Nat} {speed : Int}
    (h0 : mid_walk w0 id bl p 0) (hty : (unit_bl2ud bl).isSome = true)
    (hclear : path_clear E bl.m bl.x bl.y p)
    (hspeed : ∀ w1, E.status_get_speed w1 id = speed) (hpos : 0 < speed) :
    (∀ k, k < p.length → mid_walk (walk_fired E id k w0) id bl p k)
    ∧ (1 ≤ p.length → walk_over (walk_fired E id p.length w0) id bl p) := by
  have hmid : ∀ k, k < p.length → mid_walk (walk_fired E id k w0) id bl p k := by
    intro k
    induction k with
    | zero => intro _; exact h0
    | succ k ih =>
      intro hk
      rw [walk_fired_succ]
      exact (fire_walktimer_step hu (ih (by omega)) (by omega) hty hclear hspeed hpos).1 hk
  refine ⟨hmid, fun hn => ?_⟩
  obtain ⟨n, hn1⟩ : ∃ n, p.length = n + 1 := ⟨p.length - 1, by omega⟩
  rw [hn1, walk_fired_succ]
  exact (fire_walktimer_step hu (hmid n (by omega)) (by omega) hty hclear hspeed hpos).2 hn1.symm

theorem exampleWorld_accepted :
    walk_accepted exampleEnv exampleWorld 1 13 10 0 { type := .BL_PC, x := 10, y := 10 } (13, 10)
      [6, 6, 6] where
  src_at := rfl
  has_ud := rfl
  cell := rfl
  found := rfl
  direct := Or.inr (Or.inl rfl)
  short := Or.inl (by decide)
  no_delay := by decide
  may_move := Or.inr ⟨rfl, by decide⟩

theorem exampleWorld_clear : path_clear exampleEnv 0 10 10 [6, 6, 6] :=
  ⟨by decide, fun _ => rfl, by decide, fun _ => rfl, by decide, fun _ => rfl, trivial⟩

/-! ## The pending walk timer survives a new request -/

theorem find_filter_keep {α : Type} (p q : α → Bool) {a : α} :
    ∀ (l : List α), l.find? p = some a → q a = true → (l.filter q).find? p = some a
  | [], h, _ => by simp at h
  | b :: l, h, hq => by
    by_cases hb : p b = true
    · rw [List.find?_cons_of_pos _ hb] at h
      cases h
      rw [List.filter_cons_of_pos hq, List.find?_cons_of_pos _ hb]
    · rw [List.find?_cons_of_neg _ hb] at h
      by_cases hqb : q b = true
      · rw [List.filter_cons_of_pos hqb, List.find?_cons_of_neg _ hb]
        exact find_filter_keep p q l h hq
      · rw [List.filter_cons_of_neg hqb]
        exact find_filter_keep p q l h hq

theorem get_timer_congr {w w1 : World} (t : Int) (h : w1.timers = w.timers) :
    get_timer w1 t = get_timer w t := by
  unfold get_timer; rw [h]

theorem gt_delete_timer {w : World} {t : Int} {td : TimerData} (t2 : Int) {func : timer_func}
    (hfunc : td.func ≠ func) (h : get_timer w t = some td) :
    get_timer (delete_timer w t2 func).2 t = some td := by
  unfold delete_timer
  split
  · exact h
  · rename_i td2 h2
    split
    · rename_i hf2
      have hne : t ≠ t2 := by
        rintro rfl
        rw [h] at h2
        cases h2
        exact hfunc hf2
      unfold get_timer at h ⊢
      dsimp only
      refine find_filter_keep _ _ _ h ?_
      have := get_timer_tid (w := w) h
      simp [this, hne]
    · exact h

theorem gt_modUd {w : World} {t : Int} {td : TimerData} (j : Int) (f : unit_data → unit_data)
    (h : get_timer w t = some td) : get_timer (w.modUd j f) t = some td := by
  rw [get_timer_congr t (modUd_timers w j f)]; exact h

theorem gt_hook {E : Env} (hf : E.hooks_frame) {w : World} {t : Int} {td : TimerData} (c : ext_call)
    (h : get_timer w t = some td) : get_timer (E.hook c w).2 t = some td := by
  rw [get_timer_congr t (hook_timers hf c w)]; exact h

theorem gt_unit_set_target {w : World} {t : Int} {td : TimerData} (j a : Int)
    (h : get_timer w t = some td) : get_timer (unit_set_target w j a).2 t = some td := by
  rw [get_timer_congr t (unit_set_target_timers w j a)]; exact h

theorem gt_unit_stop_attack {w : World} {t : Int} {td : TimerData} (j : Int)
    (hfunc : td.func = .unit_walktoxy_timer)
    (h : get_timer w t = some td) : get_timer (unit_stop_attack w j) t = some td := by
  unfold unit_stop_attack
  repeat' first
    | split
    | dsimp only
    | with_reducible assumption
    | with_reducible apply gt_modUd
    | with_reducible apply gt_delete_timer _ (by rw [hfunc]; decide)
    | with_reducible apply gt_unit_set_target

theorem gt_unit_unattackable {E : Env} (hf : E.hooks_frame) {w : World} {t : Int} {td : TimerData}
    (j : Int) (h : get_timer w t = some td) :
    get_timer (unit_unattackable E w j).2 t = some td := by
  unfold unit_unattackable
  repeat' first
    | split
    | dsimp only
    | with_reducible assumption
    | with_reducible apply gt_hook hf
    | with_reducible apply gt_modUd
    | with_reducible apply gt_unit_set_target

theorem gt_walk_unlock {E : Env} (hf : E.hooks_frame) {w : World} {t : Int} {td : TimerData}
    (j flag : Int) (hfunc : td.func = .unit_walktoxy_timer) (h : get_timer w t = some td) :
    get_timer (walk_unlock E w j flag) t = some td := by
  unfold walk_unlock
  split
  · exact gt_unit_stop_attack j hfunc (gt_unit_unattackable hf j h)
  · exact h

theorem gt_confuse_target (E : Env) {w : World} {t : Int} {td : TimerData} (j : Int)
    (h : get_timer w t = some td) : get_timer (confuse_target E w j) t = some td := by
  rw [get_timer_congr t (confuse_target_timers E w j)]; exact h

theorem walk_stepaction_part_keeps {α : Type} (g : Block → α)
    (hg : ∀ b st, g { b with ud := { b.ud with steptimer := st } } = g b)
    (E : Env) (tick id : Int) {w0 w : World} (h : World.Same g w0 w) :
    World.Same g w0 (walk_stepaction_part E tick id w) := by
  unfold walk_stepaction_part
  repeat' first
    | split
    | dsimp only
    | with_reducible assumption
    | with_reducible apply World.Same.add_timer
    | with_reducible apply World.Same.delete_timer
    | with_reducible refine World.Same.modUd _ _ ?_ (fun b => hg b _)

/-- An accepted request of a walking entity stores the destination and flags the change;
the pending walk timer stays. -/
theorem unit_walktoxy_retarget {E : Env} {id : Int} (hf : E.hooks_frame) {w : World}
    {x y flag : Int} {bl : Block} {c dst : Int × Int} {p : List Nat} {td : TimerData}
    (ha : walk_accepted E w id x y flag bl c p)
    (hlive : bl.ud.walktimer ≠ INVALID_TIMER)
    (htimer : get_timer w bl.ud.walktimer = some td) (hfunc : td.func = .unit_walktoxy_timer)
    (hdst : ∀ w1, walk_dest E id bl c w1 = dst) :
    (unit_walktoxy E w id x y flag).1 = 1
    ∧ ((unit_walktoxy E w id x y flag).2.units id).isSome = true
    ∧ get_timer (unit_walktoxy E w id x y flag).2 bl.ud.walktimer = some td
    ∧ (((unit_walktoxy E w id x y flag).2.UD id).to_x,
        ((unit_walktoxy E w id x y flag).2.UD id).to_y) = dst
    ∧ ∀ (α : Type) (g : Block → α),
        (∀ b t c a tt ac sa, g (b.target_write t c a tt ac sa) = g b) →
        (∀ b tx ty, g { b with ud := { b.ud with to_x := tx, to_y := ty } } = g b) →
        g ((unit_walktoxy E w id x y flag).2.BL id)
          = g { bl with
              ud := { bl.ud with
                state := { bl.ud.state with walk_easy := flagset flag 1,
                                            change_walk_target := true } } } := by
  rw [unit_walktoxy_accepted ha]
  unfold unit_walktoxy_accept
  dsimp only
  have hBLw : w.BL id = bl := BL_of_units ha.src_at
  obtain ⟨W0, hW0⟩ : ∃ W0, W0 = walk_unlock E w id flag := ⟨_, rfl⟩
  rw [← hW0]
  have hk0 : ∀ (α : Type) (g : Block → α), (∀ b t c a tt ac sa, g (b.target_write t c a tt ac sa) = g b) →
      g (W0.BL id) = g bl := fun α g hg => by
    rw [hW0, (walk_unlock_keeps g hg hf id flag (World.Same.refl g w)).BL id, hBLw]
  have hs0 : (W0.units id).isSome = true := by
    rw [hW0, (walk_unlock_keeps (fun _ => ()) (fun _ _ _ _ _ _ _ => rfl) hf id flag
      (World.Same.refl _ w)).isSome id, ha.src_at]; rfl
  have hg0 : get_timer W0 bl.ud.walktimer = some td := by
    rw [hW0]; exact gt_walk_unlock hf id flag hfunc htimer
  obtain ⟨W1, hW1⟩ : ∃ W1, W1 = W0.modUd id (fun u =>
      { u with state := { u.state with walk_easy := flagset flag 1 }, to_x := c.1, to_y := c.2 }) :=
    ⟨_, rfl⟩
  rw [← hW1]
  have hs1 : (W1.units id).isSome = true := by rw [hW1, isSome_modUd]; exact hs0
  have hB1 : W1.BL id = { (W0.BL id) with
      ud := { (W0.BL id).ud with
        state := { (W0.BL id).ud.state with walk_easy := flagset flag 1 },
        to_x := c.1, to_y := c.2 } } := by
    rw [hW1, BL_modUd _ hs0]
  obtain ⟨W2, hW2⟩ : ∃ W2, W2 = unit_stop_attack W1 id := ⟨_, rfl⟩
  rw [← hW2]
  have hk2 : ∀ (α : Type) (g : Block → α),
      (∀ b t c a, g { b with ud := { b.ud with target := t, target_count := c, attacktimer := a } }
        = g b) → g (W2.BL id) = g (W1.BL id) := fun α g hg => by
    rw [hW2, (unit_stop_attack_same g hg id (World.Same.refl g W1)).BL id]
  have hs2 : (W2.units id).isSome = true := by
    rw [hW2, (unit_stop_attack_same (fun _ => ()) (fun _ _ _ _ => rfl) id
      (World.Same.refl _ W1)).isSome id]; exact hs1
  have hg2 : get_timer W2 bl.ud.walktimer = some td := by
    rw [hW2]; exact gt_unit_stop_attack id hfunc (by rw [hW1]; exact gt_modUd id _ hg0)
  obtain ⟨W3, hW3⟩ : ∃ W3, W3 = confuse_target E W2 id := ⟨_, rfl⟩
  rw [← hW3]
  have hk3 : ∀ (α : Type) (g : Block → α),
      (∀ b tx ty, g { b with ud := { b.ud with to_x := tx, to_y := ty } } = g b) →
      g (W3.BL id) = g (W2.BL id) := fun α g hg => by
    rw [hW3, (confuse_target_same g hg E id (World.Same.refl g W2)).BL id]
  have hs3 : (W3.units id).isSome = true := by
    rw [hW3, (confuse_target_same (fun _ => ()) (fun _ _ _ => rfl) E id
      (World.Same.refl _ W2)).isSome id]; exact hs2
  have hg3 : get_timer W3 bl.ud.walktimer = some td := by
    rw [hW3]; exact gt_confuse_target E id hg2
  have hd3 : ((W3.UD id).to_x, (W3.UD id).to_y) = dst := by
    rw [hW3, confuse_target_dest E hs2, ← hdst W2]
    have e1 : (W2.UD id).to_x = c.1 := by
      rw [UD_eq_BL, hk2 _ (fun b => b.ud.to_x) (fun _ _ _ _ => rfl), hB1]
    have e2 : (W2.UD id).to_y = c.2 := by
      rw [UD_eq_BL, hk2 _ (fun b => b.ud.to_y) (fun _ _ _ _ => rfl), hB1]
    rw [e1, e2]
    apply walk_dest_congr
    rw [hk2 _ (fun b => b.sc) (fun _ _ _ _ => rfl), hB1]
    exact hk0 _ (fun b => b.sc) (fun _ _ _ _ _ _ _ => rfl)
  have hwt3 : (W3.UD id).walktimer ≠ INVALID_TIMER := by
    rw [UD_eq_BL, hk3 _ (fun b => b.ud.walktimer) (fun _ _ _ => rfl),
      hk2 _ (fun b => b.ud.walktimer) (fun _ _ _ _ => rfl), hB1]
    dsimp only
    rw [hk0 _ (fun b => b.ud.walktimer) (fun _ _ _ _ _ _ _ => rfl)]
    exact hlive
  rw [if_pos hwt3]
  dsimp only
  refine ⟨rfl, ?_, ?_, ?_, ?_⟩
  · rw [isSome_modUd]; exact hs3
  · exact gt_modUd id _ hg3
  · rw [UD_eq_BL, BL_modUd _ hs3]
    dsimp only
    rw [← UD_eq_BL]; exact hd3
  · intro α g hg hgt
    rw [BL_modUd _ hs3]
    rw [hk3 α (fun b => g { b with ud := { b.ud with
        state := { b.ud.state with change_walk_target := true } } })
      (fun b tx ty => hgt { b with ud := { b.ud with
        state := { b.ud.state with change_walk_target := true } } } tx ty)]
    rw [hk2 α (fun b => g { b with ud := { b.ud with
        state := { b.ud.state with change_walk_target := true } } })
      (fun b t c a => hg { b with ud := { b.ud with
        state := { b.ud.state with change_walk_target := true } } } t c a b.ud.target_to
          b.ud.state.attack_continue b.ud.state.step_attack), hB1]
    have e := hk0 α (fun b => g { b with
        ud := { b.ud with
          state := { b.ud.state with walk_easy := flagset flag 1, change_walk_target := true } } })
      (fun b t c1 a tt ac sa => hg { b with
        ud := { b.ud with
          state := { b.ud.state with walk_easy := flagset flag 1, change_walk_target := true } } }
            t c1 a tt ac sa)
    dsimp only at e ⊢
    rw [← e]
    exact hgt { (W0.BL id) with
        ud := { (W0.BL id).ud with
          state := { (W0.BL id).ud.state with walk_easy := flagset flag 1,
                                              change_walk_target := true } } } c.1 c.2

/-- One firing of the walk timer after the destination has changed: the step is made and
the path is recomputed on the world the step ends in. -/
theorem fire_walktimer_recomputes {E : Env} {id : Int} (hu : undisturbed E id) {w : World}
    {b : Block} {td : TimerData}
    (hb : w.units id = some b) (hud : (unit_bl2ud b).isSome = true) (hprev : b.prev = true)
    (hlive : b.ud.walktimer ≠ INVALID_TIMER)
    (hget : get_timer w b.ud.walktimer = some td) (hfunc : td.func = .unit_walktoxy_timer)
    (hid : td.id = id)
    (hpos : b.ud.walkpath.path_pos < b.ud.walkpath.path_len)
    (hdir : b.ud.walkpath.at b.ud.walkpath.path_pos < DIR_MAX)
    (hpass : ∀ w1, E.map_getcell w1 b.m (b.x + dirx (b.ud.walkpath.at b.ud.walkpath.path_pos))
      (b.y + diry (b.ud.walkpath.at b.ud.walkpath.path_pos)) .CELL_CHKNOPASS = false)
    (hcwt : b.ud.state.change_walk_target = true) :
    ∃ W, fire_walktimer E w id = (unit_walktoxy_sub E W id).2
      ∧ (W.units id).isSome = true
      ∧ ∀ (α : Type) (g : Block → α), (∀ b wc ws wde md, g (b.step_write wc ws wde md) = g b) →
          (∀ b st, g { b with ud := { b.ud with steptimer := st } } = g b) →
          g (W.BL id) = g { b with
            x := b.x + dirx (b.ud.walkpath.at b.ud.walkpath.path_pos),
            y := b.y + diry (b.ud.walkpath.at b.ud.walkpath.path_pos),
            ud := { b.ud with walktimer := INVALID_TIMER,
                              dir := b.ud.walkpath.at b.ud.walkpath.path_pos } } := by
  obtain ⟨W, hfire, hsW, -, hvW⟩ := fire_walktimer_moves hu hb hud hprev hget hfunc hid hpos hdir hpass
  have htid : td.tid ≠ INVALID_TIMER := by rw [get_timer_tid hget]; exact hlive
  have hk : ∀ (α : Type) (g : Block → α), (∀ b st, g { b with ud := { b.ud with steptimer := st } } = g b) →
      g ((walk_stepaction_part E td.tick id W).BL id) = g (W.BL id) := fun α g hg =>
    (walk_stepaction_part_keeps g hg E td.tick id (World.Same.refl g W)).BL id
  refine ⟨walk_stepaction_part E td.tick id W, ?_, ?_, ?_⟩
  · rw [hfire]
    unfold unit_walktoxy_timer_rest
    rw [if_neg htid]
    dsimp only
    rw [if_pos (by
      rw [UD_eq_BL, hk _ (fun b => b.ud.state.change_walk_target) (fun _ _ => rfl),
        hvW _ (fun b => b.ud.state.change_walk_target) (fun _ _ _ _ _ => rfl)]
      exact hcwt)]
    split <;> rfl
  · rw [(walk_stepaction_part_keeps (fun _ => ()) (fun _ _ => rfl) E td.tick id
      (World.Same.refl _ W)).isSome id]
    exact hsW
  · intro α g hg1 hg2
    rw [hk α g hg2, hvW α g hg1]

/-! ## Teardown of an attack -/

theorem unit_set_target_next_tid (w : World) (id t : Int) :
    (unit_set_target w id t).2.next_tid = w.next_tid := by
  unfold unit_set_target
  cases h : w.ud id with
  | none => rfl
  | some ud =>
    simp only [modUd_next_tid]
    split_ifs <;> (repeat' split) <;> simp

theorem unit_set_target_gettick (w : World) (id t : Int) :
    (unit_set_target w id t).2.gettick = w.gettick := by
  unfold unit_set_target
  cases h : w.ud id with
  | none => rfl
  | some ud =>
    simp only [modUd_gettick]
    split_ifs <;> (repeat' split) <;> simp

theorem unit_unattackable_same {α : Type} (g : Block → α)
    (hg : ∀ b t c tt ac sa, g (b.target_write t c b.ud.attacktimer tt ac sa) = g b)
    {E : Env} (hf : E.hooks_frame) (id : Int) {w0 w : World} (h : World.Same g w0 w) :
    World.Same g w0 (unit_unattackable E w id).2 := by
  unfold unit_unattackable
  repeat' first
    | split
    | dsimp only
    | with_reducible assumption
    | with_reducible apply World.Same.hook hf
    | exact (World.Same.modUd _ _ h (fun b => hg b b.ud.target b.ud.target_count _ _ _)).trans
        (unit_set_target_same g (fun b t c =>
          hg b t c b.ud.target_to b.ud.state.attack_continue b.ud.state.step_attack) _ id 0)

theorem unit_unattackable_clock {E : Env} (hf : E.hooks_frame) (w : World) (id : Int) :
    (unit_unattackable E w id).2.timers = w.timers
    ∧ (unit_unattackable E w id).2.next_tid = w.next_tid
    ∧ (unit_unattackable E w id).2.gettick = w.gettick := by
  unfold unit_unattackable
  repeat' first
    | split
    | dsimp only
    | simp only [hook_timers hf, hook_next_tid hf, hook_gettick hf, unit_set_target_timers,
        unit_set_target_next_tid, unit_set_target_gettick, modUd_timers, modUd_next_tid,
        modUd_gettick, and_self]

theorem unit_unattackable_fst (E : Env) (w : World) (id : Int) :
    (unit_unattackable E w id).1 = 0 := by
  unfold unit_unattackable
  repeat' first
    | split
    | rfl

/-- After `unit_unattackable` the attack request of the entity is reset. -/
theorem unit_unattackable_resets {E : Env} (hf : E.hooks_frame) {w : World} {id : Int}
    (h : (w.ud id).isSome) :
    ((unit_unattackable E w id).2.UD id).target = 0
    ∧ ((unit_unattackable E w id).2.UD id).target_to = 0
    ∧ ((unit_unattackable E w id).2.UD id).state.attack_continue = false
    ∧ ((unit_unattackable E w id).2.UD id).state.step_attack = false := by
  have hs : (w.units id).isSome := ud_isSome_units h
  obtain ⟨bl, hb⟩ := Option.isSome_iff_exists.mp hs
  have hu : (unit_bl2ud bl).isSome := by rw [ud_of_units hb] at h; exact h
  obtain ⟨ud, hud⟩ := Option.isSome_iff_exists.mp hu
  obtain ⟨wa, hwa⟩ : ∃ wa, wa = w.modUd id (fun u =>
      { u with state := { u.state with attack_continue := false, step_attack := false },
               target_to := 0 }) := ⟨_, rfl⟩
  have hsa : (wa.units id).isSome := by rw [hwa, isSome_modUd]; exact hs
  have huda : (wa.ud id).isSome := by
    rw [World.Same.ud_isSome (w := w)]
    · exact h
    · rw [hwa]; exact World.Same.modUd _ _ (World.Same.refl _ w) (fun _ => rfl)
  have h1 : ((unit_set_target wa id 0).2.UD id).target = 0 := unit_set_target_target 0 huda
  have h2 := World.Same.UD (g := fun u => (u.target_to, u.state.attack_continue, u.state.step_attack))
    (unit_set_target_same (fun b => (b.ud.target_to, b.ud.state.attack_continue, b.ud.state.step_attack))
      (fun _ _ _ => rfl) wa id 0) id
  have h3 : ((wa.UD id).target_to, (wa.UD id).state.attack_continue, (wa.UD id).state.step_attack)
      = (0, false, false) := by
    rw [hwa, UD_modUd _ hs]
  rw [h3] at h2
  simp only [Prod.mk.injEq] at h2
  have key : ∀ W : World, (W.UD id).target = 0 ∧ (W.UD id).target_to = 0
      ∧ (W.UD id).state.attack_continue = false ∧ (W.UD id).state.step_attack = false →
      (((if bl.type = .BL_MOB then (0, (E.hook (.mob_unlocktarget id W.gettick) W).2)
          else if bl.type = .BL_PET then (0, (E.hook (.pet_unlocktarget id) W).2)
          else ((0 : Int), W)).2.UD id).target = 0
       ∧ ((if bl.type = .BL_MOB then (0, (E.hook (.mob_unlocktarget id W.gettick) W).2)
          else if bl.type = .BL_PET then (0, (E.hook (.pet_unlocktarget id) W).2)
          else ((0 : Int), W)).2.UD id).target_to = 0
       ∧ ((if bl.type = .BL_MOB then (0, (E.hook (.mob_unlocktarget id W.gettick) W).2)
          else if bl.type = .BL_PET then (0, (E.hook (.pet_unlocktarget id) W).2)
          else ((0 : Int), W)).2.UD id).state.attack_continue = false
       ∧ ((if bl.type = .BL_MOB then (0, (E.hook (.mob_unlocktarget id W.gettick) W).2)
          else if bl.type = .BL_PET then (0, (E.hook (.pet_unlocktarget id) W).2)
          else ((0 : Int), W)).2.UD id).state.step_attack = false) := by
    intro W hW
    split_ifs
    · simp only [UD_hook hf]; exact hW
    · simp only [UD_hook hf]; exact hW
    · exact hW
  unfold unit_unattackable
  rw [hb]
  dsimp only
  rw [hud]
  dsimp only
  rw [← hwa]
  exact key _ ⟨h1, h2.1, h2.2.1, h2.2.2⟩

/-! ## The record of an attack request -/

theorem unit_attack_record_same {α : Type} (g : Block → α)
    (hg : ∀ b t c ac sa cr,
      g { b with ud := { b.ud with target := t, target_count := c, chaserange := cr,
                                   state := { b.ud.state with attack_continue := ac,
                                                              step_attack := sa } } } = g b)
    (E : Env) (w : World) (id target_id continuous : Int) :
    World.Same g w (unit_attack_record E w id target_id continuous) := by
  have h1 : World.Same g w (w.modUd id (fun u =>
      { u with state := { u.state with attack_continue := flagset continuous 1,
                                       step_attack := flagset continuous 2 } })) :=
    World.Same.modUd _ _ (World.Same.refl g w)
      (fun b => hg b b.ud.target b.ud.target_count _ _ b.ud.chaserange)
  have h2 := h1.trans (unit_set_target_same g
    (fun b t c => hg b t c b.ud.state.attack_continue b.ud.state.step_attack b.ud.chaserange)
    _ id target_id)
  unfold unit_attack_record
  dsimp only
  split
  · exact World.Same.modUd _ _ h2
      (fun b => hg b b.ud.target b.ud.target_count b.ud.state.attack_continue
        b.ud.state.step_attack _)
  · exact h2

theorem unit_attack_record_target (E : Env) {w : World} {id : Int} (target_id continuous : Int)
    (h : (w.ud id).isSome) :
    ((unit_attack_record E w id target_id continuous).UD id).target = target_id
    ∧ ((unit_attack_record E w id target_id continuous).UD id).state.attack_continue
        = flagset continuous 1 := by
  have hs : (w.units id).isSome := ud_isSome_units h
  have hud1 : ((w.modUd id (fun u =>
      { u with state := { u.state with attack_continue := flagset continuous 1,
                                       step_attack := flagset continuous 2 } })).ud id).isSome := by
    rw [World.Same.ud_isSome (World.Same.modUd _ _ (World.Same.refl _ w) (fun _ => rfl))]
    exact h
  have ht := unit_set_target_target target_id hud1
  have hac := World.Same.UD (g := fun u => u.state.attack_continue)
    (unit_set_target_same (fun b => b.ud.state.attack_continue) (fun _ _ _ => rfl)
      (w.modUd id (fun u =>
        { u with state := { u.state with attack_continue := flagset continuous 1,
                                         step_attack := flagset continuous 2 } })) id target_id) id
  rw [UD_modUd _ hs] at hac
  have hs2 : ((unit_set_target (w.modUd id (fun u =>
      { u with state := { u.state with attack_continue := flagset continuous 1,
                                       step_attack := flagset continuous 2 } })) id
        target_id).2.units id).isSome := by
    rw [unit_set_target_isSome, isSome_modUd]
    exact hs
  unfold unit_attack_record
  dsimp only
  split
  · rw [UD_modUd _ hs2]
    exact ⟨ht, hac⟩
  · exact ⟨ht, hac⟩

theorem unit_attack_record_clock (E : Env) (w : World) (id target_id continuous : Int) :
    (unit_attack_record E w id target_id continuous).timers = w.timers
    ∧ (unit_attack_record E w id target_id continuous).next_tid = w.next_tid
    ∧ (unit_attack_record E w id target_id continuous).gettick = w.gettick := by
  unfold unit_attack_record
  dsimp only
  split <;>
    simp [unit_set_target_timers, unit_set_target_next_tid, unit_set_target_gettick]

/-! ## Timers that are not scheduled -/

theorem World.TimersLe.tl_refl (P : TimerData → Prop) (w : World) : World.TimersLe P w w :=
  fun _ h _ => h

theorem World.TimersLe.tl_trans {P : TimerData → Prop} {w w1 w2 : World}
    (h1 : World.TimersLe P w w1) (h2 : World.TimersLe P w1 w2) : World.TimersLe P w w2 :=
  fun td h hp => h1 td (h2 td h hp) hp

theorem World.TimersLe.of_timers {P : TimerData → Prop} {w w1 w2 : World}
    (h : World.TimersLe P w w1) (ht : w2.timers = w1.timers) : World.TimersLe P w w2 :=
  fun td h2 hp => h td (ht ▸ h2) hp

theorem World.TimersLe.tl_modUd {P : TimerData → Prop} {w w1 : World} (j : Int)
    (f : unit_data → unit_data) (h : World.TimersLe P w w1) : World.TimersLe P w (w1.modUd j f) :=
  h.of_timers (modUd_timers _ _ _)

theorem World.TimersLe.tl_modBlock {P : TimerData → Prop} {w w1 : World} (j : Int)
    (f : Block → Block) (h : World.TimersLe P w w1) : World.TimersLe P w (w1.modBlock j f) :=
  h.of_timers (modBlock_timers _ _ _)

theorem World.TimersLe.tl_hook {P : TimerData → Prop} {E : Env} (hf : E.hooks_frame) {w w1 : World}
    (c : ext_call) (h : World.TimersLe P w w1) : World.TimersLe P w (E.hook c w1).2 :=
  h.of_timers (hook_timers hf c w1)

theorem World.TimersLe.tl_delete_timer {P : TimerData → Prop} {w w1 : World} (tid : Int)
    (func : timer_func) (h : World.TimersLe P w w1) :
    World.TimersLe P w (Rathena.delete_timer w1 tid func).2 := by
  unfold Rathena.delete_timer
  split
  · exact h
  · split
    · intro td htd hp
      exact h td (List.mem_filter.mp htd).1 hp
    · exact h

theorem World.TimersLe.tl_add_timer {P : TimerData → Prop} {w w1 : World} (tick : Int)
    {func : timer_func} (id d : Int) (hP : ∀ td, P td → td.func ≠ func)
    (h : World.TimersLe P w w1) : World.TimersLe P w (Rathena.add_timer w1 tick func id d).2 := by
  intro td htd hp
  rw [add_timer_timers, List.mem_cons] at htd
  rcases htd with htd | htd
  · exact absurd (by rw [htd]) (hP td hp)
  · exact h td htd hp

theorem World.TimersLe.tl_andThen {P : TimerData → Prop} {w : World} {a : walk_result}
    {f : World → walk_result} (ha : World.TimersLe P w a.world)
    (hf : ∀ w1, World.TimersLe P w w1 → World.TimersLe P w (f w1).world) :
    World.TimersLe P w (a.andThen f).world := by
  cases a with
  | ret r w1 => exact ha
  | go w1 => exact hf w1 ha

theorem World.TimersLe.tl_finish {P : TimerData → Prop} {w : World} {a : walk_result}
    {f : World → Int × World} (ha : World.TimersLe P w a.world)
    (hf : ∀ w1, World.TimersLe P w w1 → World.TimersLe P w (f w1).2) :
    World.TimersLe P w (a.finish f).2 := by
  cases a with
  | ret r w1 => exact ha
  | go w1 => exact hf w1 ha

theorem unit_set_target_timersLe {P : TimerData → Prop} (j t : Int) {w0 w : World}
    (h : World.TimersLe P w0 w) : World.TimersLe P w0 (unit_set_target w j t).2 :=
  h.of_timers (unit_set_target_timers w j t)

theorem unit_stop_attack_timersLe {P : TimerData → Prop} (id : Int) {w0 w : World}
    (h : World.TimersLe P w0 w) : World.TimersLe P w0 (unit_stop_attack w id) := by
  unfold unit_stop_attack
  repeat' first
    | split
    | dsimp only
    | with_reducible assumption
    | with_reducible apply World.TimersLe.tl_modUd
    | with_reducible apply World.TimersLe.tl_delete_timer
    | apply unit_set_target_timersLe

theorem unit_stop_stepaction_timersLe {P : TimerData → Prop} (id : Int) {w0 w : World}
    (h : World.TimersLe P w0 w) : World.TimersLe P w0 (unit_stop_stepaction w id) := by
  unfold unit_stop_stepaction
  repeat' first
    | split
    | dsimp only
    | with_reducible assumption
    | with_reducible apply World.TimersLe.tl_modUd
    | with_reducible apply World.TimersLe.tl_delete_timer

theorem unit_unattackable_timersLe {P : TimerData → Prop} {E : Env} (hf : E.hooks_frame)
    (id : Int) {w0 w : World} (h : World.TimersLe P w0 w) :
    World.TimersLe P w0 (unit_unattackable E w id).2 :=
  h.of_timers (unit_unattackable_clock hf w id).1

/-- What `unit_stop_stepaction` leaves alone: every view of a block that does not depend
on the deferred request and the step timer handle. -/
theorem unit_stop_stepaction_same {α : Type} (g : Block → α)
    (hg : ∀ b sa tt si sl st,
      g { b with ud := { b.ud with stepaction := sa, target_to := tt, stepskill_id := si,
                                   stepskill_lv := sl, steptimer := st } } = g b)
    (id : Int) {w0 w : World} (h : World.Same g w0 w) :
    World.Same g w0 (unit_stop_stepaction w id) := by
  have h1 : World.Same g w0 (w.modUd id (fun u =>
      { u with stepaction := false, target_to := 0, stepskill_id := 0, stepskill_lv := 0 })) :=
    World.Same.modUd _ _ h (fun b => hg b _ _ _ _ b.ud.steptimer)
  unfold unit_stop_stepaction
  split
  · exact h
  · dsimp only
    split
    · exact h1
    · exact World.Same.modUd _ _ (World.Same.delete_timer _ _ h1)
        (fun b => hg b b.ud.stepaction b.ud.target_to b.ud.stepskill_id b.ud.stepskill_lv _)

/-- After `unit_stop_stepaction` the deferred request is gone: the buffer is cleared, the
handle is INVALID_TIMER, and a step timer that was pending under the handle is deleted: no
pending timer has that handle. -/
theorem unit_stop_stepaction_spec {w : World} {id : Int} (h : (w.ud id).isSome) :
    ((unit_stop_stepaction w id).UD id).stepaction = false
    ∧ ((unit_stop_stepaction w id).UD id).target_to = 0
    ∧ ((unit_stop_stepaction w id).UD id).stepskill_id = 0
    ∧ ((unit_stop_stepaction w id).UD id).stepskill_lv = 0
    ∧ ((unit_stop_stepaction w id).UD id).steptimer = INVALID_TIMER
    ∧ ((w.UD id).steptimer ≠ INVALID_TIMER →
        ∀ td1, get_timer w (w.UD id).steptimer = some td1 → td1.func = .unit_step_timer →
          ∀ td ∈ (unit_stop_stepaction w id).timers, td.tid ≠ (w.UD id).steptimer) := by
  have hs : (w.units id).isSome := ud_isSome_units h
  obtain ⟨ud, hud⟩ := Option.isSome_iff_exists.mp h
  obtain ⟨w1, hw1⟩ : ∃ w1, w1 = w.modUd id (fun u =>
      { u with stepaction := false, target_to := 0, stepskill_id := 0, stepskill_lv := 0 }) :=
    ⟨_, rfl⟩
  have hs1 : (w1.units id).isSome := by rw [hw1, isSome_modUd]; exact hs
  have p1 : (w1.UD id).stepaction = false := by rw [hw1, UD_modUd _ hs]
  have p2 : (w1.UD id).target_to = 0 := by rw [hw1, UD_modUd _ hs]
  have p3 : (w1.UD id).stepskill_id = 0 := by rw [hw1, UD_modUd _ hs]
  have p4 : (w1.UD id).stepskill_lv = 0 := by rw [hw1, UD_modUd _ hs]
  have hst : (w1.UD id).steptimer = (w.UD id).steptimer := by rw [hw1, UD_modUd _ hs]
  have ht1 : w1.timers = w.timers := by rw [hw1, modUd_timers]
  unfold unit_stop_stepaction
  rw [hud]
  dsimp only
  rw [← hw1]
  split
  · rename_i hinv
    refine ⟨p1, p2, p3, p4, hinv, ?_⟩
    intro hlive
    rw [hst] at hinv
    exact absurd hinv hlive
  · have hs2 : ((delete_timer w1 (w1.UD id).steptimer .unit_step_timer).2.units id).isSome := by
      rw [delete_timer_units]; exact hs1
    have hu2 : (delete_timer w1 (w1.UD id).steptimer .unit_step_timer).2.UD id = w1.UD id := by
      rw [UD_eq_BL, BL_def, delete_timer_units, ← BL_def, ← UD_eq_BL]
    rw [UD_modUd _ hs2, hu2]
    refine ⟨p1, p2, p3, p4, rfl, ?_⟩
    intro _ td1 htd1 hfn td htd
    rw [modUd_timers, hst] at htd
    have hg1 : get_timer w1 (w.UD id).steptimer = some td1 := by
      rw [get_timer_congr _ ht1]; exact htd1
    unfold delete_timer at htd
    rw [hg1] at htd
    dsimp only at htd
    rw [if_pos hfn] at htd
    have := (List.mem_filter.mp htd).2
    simpa using this

/-- After `unit_stop_attack` the target and the attack timer handle are cleared. -/
theorem unit_stop_attack_spec {w : World} {id : Int} (h : (w.ud id).isSome) :
    ((unit_stop_attack w id).UD id).target = 0
    ∧ ((unit_stop_attack w id).UD id).attacktimer = INVALID_TIMER := by
  have hun : (w.units id).isSome := ud_isSome_units h
  obtain ⟨ud, hud⟩ := Option.isSome_iff_exists.mp h
  have ht : ((unit_set_target w id 0).2.UD id).target = 0 := unit_set_target_target 0 h
  have hu1 : ((unit_set_target w id 0).2.units id).isSome := by
    rw [unit_set_target_isSome]; exact hun
  unfold unit_stop_attack
  rw [hud]
  dsimp only
  split
  · rename_i hinv
    exact ⟨ht, hinv⟩
  · have hu2 : ((delete_timer (unit_set_target w id 0).2
        ((unit_set_target w id 0).2.UD id).attacktimer .unit_attack_timer).2.units id).isSome := by
      rw [delete_timer_units]; exact hu1
    rw [UD_modUd _ hu2]
    refine ⟨?_, rfl⟩
    show ((delete_timer _ _ _).2.UD id).target = 0
    rw [UD_eq_BL, BL_def, delete_timer_units, ← BL_def, ← UD_eq_BL]
    exact ht

/-! ## Stopping a walk with USW_FIXPOS -/

theorem stop_walking_step_fixpos (E : Env) (w : World) (id : Int) (ud : unit_data)
    (td : Option TimerData) : stop_walking_step E w id 1 ud td = w := by
  unfold stop_walking_step
  have h1 : flagset 1 USW_MOVE_ONCE = false := by decide
  have h2 : flagset 1 USW_MOVE_FULL_CELL = false := by decide
  simp only [h1, h2, Bool.false_and, Bool.or_self, Bool.false_eq_true, if_false]

theorem unit_stop_walking_fixpos_timersLe {P : TimerData → Prop} {E : Env} (hf : E.hooks_frame)
    (id : Int) {w0 w : World} (h : World.TimersLe P w0 w) :
    World.TimersLe P w0 (unit_stop_walking E w id 1).2 := by
  unfold unit_stop_walking
  simp only [stop_walking_step_fixpos]
  unfold stop_walking_reset stop_walking_cancel
  repeat' first
    | split
    | dsimp only
    | with_reducible assumption
    | with_reducible apply World.TimersLe.tl_hook hf
    | with_reducible apply World.TimersLe.tl_modUd
    | with_reducible apply World.TimersLe.tl_delete_timer

/-- After `unit_stop_walking(bl, USW_FIXPOS)` no walk timer handle is stored. -/
theorem unit_stop_walking_fixpos_idle {E : Env} (hf : E.hooks_frame) {w : World} {id : Int}
    (h : (w.ud id).isSome) : ((unit_stop_walking E w id 1).2.UD id).walktimer = INVALID_TIMER := by
  have hs : (w.units id).isSome := ud_isSome_units h
  obtain ⟨bl, hb⟩ := Option.isSome_iff_exists.mp hs
  have hu : (unit_bl2ud bl).isSome := by rw [ud_of_units hb] at h; exact h
  obtain ⟨ud, hud⟩ := Option.isSome_iff_exists.mp hu
  have hude := unit_bl2ud_eq hud
  subst hude
  unfold unit_stop_walking
  rw [hb]
  dsimp only
  rw [hud]
  dsimp only
  simp only [stop_walking_step_fixpos]
  split
  · rename_i h0
    simp only [Bool.and_eq_true, beq_iff_eq] at h0
    rw [UD_eq_BL, BL_of_units hb]
    exact h0.2
  · have hc : ((stop_walking_cancel w id bl.ud).UD id).walktimer = INVALID_TIMER := by
      unfold stop_walking_cancel
      dsimp only
      split
      · rename_i hl
        rw [UD_modUd _ (by rw [isSome_modUd, delete_timer_units]; exact hs),
          UD_modUd _ (by rw [delete_timer_units]; exact hs)]
      · rename_i hl
        rw [UD_modUd _ hs, UD_eq_BL, BL_of_units hb]
        simpa using hl
    have hr : World.Same (fun b => b.ud.walktimer) (stop_walking_cancel w id bl.ud)
        (stop_walking_reset E (stop_walking_cancel w id bl.ud) id 1).2 := by
      unfold stop_walking_reset
      repeat' first
        | split
        | dsimp only
        | with_reducible exact World.Same.refl _ _
        | with_reducible apply World.Same.hook hf
        | with_reducible refine World.Same.modUd _ _ ?_ (fun b => rfl)
    have := World.Same.UD (g := fun u => u.walktimer) hr id
    exact this.trans hc

/-! ## What the parts of a cast request leave alone -/

theorem skilluse_id_checks_same {α : Type} (g : Block → α) {E : Env} (hf : E.hooks_frame)
    (id : Int) (src target : Block) (ud : unit_data) (target_id skill_id skill_lv : Int)
    {w0 w : World} (h : World.Same g w0 w) :
    World.Same g w0 (skilluse_id_checks E w id src target ud target_id skill_id skill_lv).world := by
  unfold skilluse_id_checks
  repeat' first
    | rw [apply_ite walk_result.world]
    | simp only [world_ret, world_go]
    | split
    | dsimp only
    | with_reducible assumption
    | with_reducible apply World.Same.hook hf
    | (refine World.Same.andThen ?_ ?_)
    | intro w1 h1

theorem skilluse_id_checks_timersLe {P : TimerData → Prop} {E : Env} (hf : E.hooks_frame)
    (id : Int) (src target : Block) (ud : unit_data) (target_id skill_id skill_lv : Int)
    {w0 w : World} (h : World.TimersLe P w0 w) :
    World.TimersLe P w0
      (skilluse_id_checks E w id src target ud target_id skill_id skill_lv).world := by
  unfold skilluse_id_checks
  repeat' first
    | rw [apply_ite walk_result.world]
    | simp only [world_ret, world_go]
    | split
    | dsimp only
    | with_reducible assumption
    | with_reducible apply World.TimersLe.tl_hook hf
    | (refine World.TimersLe.tl_andThen ?_ ?_)
    | intro w1 h1

theorem skilluse_pos_checks_same {α : Type} (g : Block → α) {E : Env} (hf : E.hooks_frame)
    (id : Int) (sd : Bool) (x y skill_id skill_lv : Int)
    {w0 w : World} (h : World.Same g w0 w) :
    World.Same g w0 (skilluse_pos_checks E w id sd x y skill_id skill_lv).world := by
  unfold skilluse_pos_checks
  repeat' first
    | rw [apply_ite walk_result.world]
    | simp only [world_ret, world_go]
    | split
    | dsimp only
    | with_reducible assumption
    | with_reducible apply World.Same.hook hf
    | (refine World.Same.andThen ?_ ?_)
    | intro w1 h1

theorem skilluse_pos_checks_timersLe {P : TimerData → Prop} {E : Env} (hf : E.hooks_frame)
    (id : Int) (sd : Bool) (x y skill_id skill_lv : Int)
    {w0 w : World} (h : World.TimersLe P w0 w) :
    World.TimersLe P w0 (skilluse_pos_checks E w id sd x y skill_id skill_lv).world := by
  unfold skilluse_pos_checks
  repeat' first
    | rw [apply_ite walk_result.world]
    | simp only [world_ret, world_go]
    | split
    | dsimp only
    | with_reducible assumption
    | with_reducible apply World.TimersLe.tl_hook hf
    | (refine World.TimersLe.tl_andThen ?_ ?_)
    | intro w1 h1

theorem skilluse_queue_same {α : Type} (g : Block → α)
    (hg : ∀ b sa tt si sl st,
      g { b with ud := { b.ud with stepaction := sa, target_to := tt, stepskill_id := si,
                                   stepskill_lv := sl, steptimer := st } } = g b)
    (id : Int) (src : Block) (walkqueue : Bool) (near : World → Bool)
    (target_to skill_id skill_lv : Int) {w0 w : World} (h : World.Same g w0 w) :
    World.Same g w0 (skilluse_queue w id src walkqueue near target_to skill_id skill_lv).world := by
  unfold skilluse_queue
  repeat' first
    | rw [apply_ite walk_result.world]
    | simp only [world_ret, world_go]
    | split
    | dsimp only
    | with_reducible assumption
    | apply unit_stop_stepaction_same g hg
    | refine World.Same.modUd _ _ ?_ (fun b => hg b _ _ _ _ b.ud.steptimer)

theorem skilluse_queue_timersLe {P : TimerData → Prop}
    (id : Int) (src : Block) (walkqueue : Bool) (near : World → Bool)
    (target_to skill_id skill_lv : Int) {w0 w : World} (h : World.TimersLe P w0 w) :
    World.TimersLe P w0
      (skilluse_queue w id src walkqueue near target_to skill_id skill_lv).world := by
  unfold skilluse_queue
  repeat' first
    | rw [apply_ite walk_result.world]
    | simp only [world_ret, world_go]
    | split
    | dsimp only
    | with_reducible assumption
    | apply unit_stop_stepaction_timersLe
    | with_reducible apply World.TimersLe.tl_modUd

/-- What `skilluse_id_prepare` leaves alone: every view of a block that does not depend on
the target, the count of attackers, the attack timer handle, `attackabletime` and the flag
`skillcastcancel`. -/
theorem skilluse_id_prepare_same {α : Type} (g : Block → α)
    (hg : ∀ b t c a atk scc,
      g { b with ud := { b.ud with target := t, target_count := c, attacktimer := a,
                                   attackabletime := atk,
                                   state := { b.ud.state with skillcastcancel := scc } } } = g b)
    (E : Env) (id : Int) (combo : Bool) (castcancel tick : Int) {w0 w : World}
    (h : World.Same g w0 w) :
    World.Same g w0 (skilluse_id_prepare E w id combo castcancel tick) := by
  have hsa : ∀ W, World.Same g w0 W → World.Same g w0 (unit_stop_attack W id) :=
    fun W hW => unit_stop_attack_same g
      (fun b t c a => hg b t c a b.ud.attackabletime b.ud.state.skillcastcancel) id hW
  unfold skilluse_id_prepare
  repeat' first
    | split
    | dsimp only
    | with_reducible assumption
    | with_reducible apply hsa
    | refine World.Same.modUd _ _ ?_
        (fun b => hg b b.ud.target b.ud.target_count b.ud.attacktimer _ _)

theorem skilluse_id_prepare_timersLe {P : TimerData → Prop}
    (E : Env) (id : Int) (combo : Bool) (castcancel tick : Int) {w0 w : World}
    (h : World.TimersLe P w0 w) :
    World.TimersLe P w0 (skilluse_id_prepare E w id combo castcancel tick) := by
  unfold skilluse_id_prepare
  repeat' first
    | split
    | dsimp only
    | with_reducible assumption
    | apply unit_stop_attack_timersLe
    | with_reducible apply World.TimersLe.tl_modUd

theorem skill_cast_sensor_same {α : Type} (g : Block → α)
    (hg : ∀ b md, g { b with md := md } = g b)
    (E : Env) (id target_id : Int) {w0 w : World} (h : World.Same g w0 w) :
    World.Same g w0 (skill_cast_sensor E w id target_id) := by
  unfold skill_cast_sensor
  repeat' first
    | split
    | dsimp only
    | with_reducible assumption
    | refine World.Same.modBlock _ _ ?_ (fun b => hg b _)

theorem skill_cast_sensor_timersLe {P : TimerData → Prop}
    (E : Env) (id target_id : Int) {w0 w : World} (h : World.TimersLe P w0 w) :
    World.TimersLe P w0 (skill_cast_sensor E w id target_id) := by
  unfold skill_cast_sensor
  repeat' first
    | split
    | dsimp only
    | with_reducible assumption
    | with_reducible apply World.TimersLe.tl_modBlock

/-- What `skilluse_id_begin` leaves alone: every view of a block that does not depend on
the fields walking writes. -/
theorem skilluse_id_begin_same {α : Type} (g : Block → α)
    (hg : ∀ b x y wt dir wc wp tx ty cwt ws wde sd md,
      g (b.walk_write x y wt dir wc wp tx ty cwt ws wde sd md) = g b)
    {E : Env} (hf : E.hooks_frame) (id : Int) (sd : Option Int) (target_id skill_id tick : Int)
    {w0 w : World} (h : World.Same g w0 w) :
    World.Same g w0 (skilluse_id_begin E w id sd target_id skill_id tick) := by
  have hmd : ∀ b md, g { b with md := md } = g b := fun b md =>
    hg b b.x b.y b.ud.walktimer b.ud.dir b.ud.walk_count b.ud.walkpath b.ud.to_x b.ud.to_y
      b.ud.state.change_walk_target b.ud.state.walk_script b.ud.walk_done_event b.sd md
  have hsw : ∀ W, World.Same g w0 W → World.Same g w0 (unit_stop_walking E W id 1).2 :=
    fun W hW => unit_stop_walking_same g hg hf _ 1 (fun _ _ h0 => absurd h0 (by decide)) hW
  unfold skilluse_id_begin
  repeat' first
    | split
    | dsimp only
    | with_reducible assumption
    | with_reducible apply hsw
    | with_reducible apply World.Same.hook hf
    | apply skill_cast_sensor_same g hmd

theorem skilluse_id_begin_timersLe {P : TimerData → Prop}
    {E : Env} (hf : E.hooks_frame) (id : Int) (sd : Option Int) (target_id skill_id tick : Int)
    {w0 w : World} (h : World.TimersLe P w0 w) :
    World.TimersLe P w0 (skilluse_id_begin E w id sd target_id skill_id tick) := by
  unfold skilluse_id_begin
  repeat' first
    | split
    | dsimp only
    | with_reducible assumption
    | with_reducible apply unit_stop_walking_fixpos_timersLe hf
    | with_reducible apply World.TimersLe.tl_hook hf
    | apply skill_cast_sensor_timersLe

theorem skilluse_canact_same {α : Type} (g : Block → α)
    (hg : ∀ b ca, g { b with ud := { b.ud with canact_tick := ca } } = g b)
    (E : Env) (id : Int) (sd : Option Int) (skill_id skill_lv casttime tick : Int)
    {w0 w : World} (h : World.Same g w0 w) :
    World.Same g w0 (skilluse_canact E w id sd skill_id skill_lv casttime tick) := by
  unfold skilluse_canact
  repeat' first
    | split
    | dsimp only
    | with_reducible assumption
    | refine World.Same.modUd _ _ ?_ (fun b => hg b _)

theorem skilluse_canact_timersLe {P : TimerData → Prop}
    (E : Env) (id : Int) (sd : Option Int) (skill_id skill_lv casttime tick : Int)
    {w0 w : World} (h : World.TimersLe P w0 w) :
    World.TimersLe P w0 (skilluse_canact E w id sd skill_id skill_lv casttime tick) := by
  unfold skilluse_canact
  repeat' first
    | split
    | dsimp only
    | with_reducible assumption
    | with_reducible apply World.TimersLe.tl_modUd

/-- What `skilluse_id_store` leaves alone: every view of a block that does not depend on
the player data, `canact_tick`, the recorded skill and the flag `skillcastcancel`. -/
theorem skilluse_id_store_same {α : Type} (g : Block → α)
    (hg : ∀ b sd ca st sx sy si sl scc,
      g { b with sd := sd,
                 ud := { b.ud with canact_tick := ca, skilltarget := st, skillx := sx,
                                   skilly := sy, skill_id := si, skill_lv := sl,
                                   state := { b.ud.state with skillcastcancel := scc } } } = g b)
    (E : Env) (id : Int) (sd : Option Int) (target_id skill_id skill_lv casttime tick : Int)
    {w0 w : World} (h : World.Same g w0 w) :
    World.Same g w0 (skilluse_id_store E w id sd target_id skill_id skill_lv casttime tick) := by
  have hca : ∀ W, World.Same g w0 W →
      World.Same g w0 (skilluse_canact E W id sd skill_id skill_lv casttime tick) :=
    fun W hW => skilluse_canact_same g
      (fun b ca => hg b b.sd ca b.ud.skilltarget b.ud.skillx b.ud.skilly b.ud.skill_id
        b.ud.skill_lv b.ud.state.skillcastcancel) E id sd _ _ _ _ hW
  unfold skilluse_id_store
  repeat' first
    | split
    | dsimp only
    | with_reducible assumption
    | with_reducible apply hca
    | refine World.Same.modUd _ _ ?_
        (fun b => hg b b.sd b.ud.canact_tick _ _ _ _ _ b.ud.state.skillcastcancel)
    | refine World.Same.modUd _ _ ?_
        (fun b => hg b b.sd b.ud.canact_tick b.ud.skilltarget b.ud.skillx b.ud.skilly
          b.ud.skill_id b.ud.skill_lv _)
    | refine World.Same.modBlock _ _ ?_
        (fun b => hg b _ b.ud.canact_tick b.ud.skilltarget b.ud.skillx b.ud.skilly
          b.ud.skill_id b.ud.skill_lv b.ud.state.skillcastcancel)

theorem skilluse_id_store_timersLe {P : TimerData → Prop}
    (E : Env) (id : Int) (sd : Option Int) (target_id skill_id skill_lv casttime tick : Int)
    {w0 w : World} (h : World.TimersLe P w0 w) :
    World.TimersLe P w0
      (skilluse_id_store E w id sd target_id skill_id skill_lv casttime tick) := by
  unfold skilluse_id_store
  repeat' first
    | split
    | dsimp only
    | with_reducible assumption
    | apply skilluse_canact_timersLe
    | with_reducible apply World.TimersLe.tl_modUd
    | with_reducible apply World.TimersLe.tl_modBlock

theorem skilluse_pos_store_same {α : Type} (g : Block → α)
    (hg : ∀ b sd ca st sx sy si sl scc,
      g { b with sd := sd,
                 ud := { b.ud with canact_tick := ca, skilltarget := st, skillx := sx,
                                   skilly := sy, skill_id := si, skill_lv := sl,
                                   state := { b.ud.state with skillcastcancel := scc } } } = g b)
    (E : Env) (id : Int) (sd : Bool) (x y skill_id skill_lv castcancel casttime tick : Int)
    {w0 w : World} (h : World.Same g w0 w) :
    World.Same g w0
      (skilluse_pos_store E w id sd x y skill_id skill_lv castcancel casttime tick) := by
  have hca : ∀ W, World.Same g w0 W → World.Same g w0
      (skilluse_canact E W id (if sd = true then some id else none) skill_id skill_lv casttime
        tick) :=
    fun W hW => skilluse_canact_same g
      (fun b ca => hg b b.sd ca b.ud.skilltarget b.ud.skillx b.ud.skilly b.ud.skill_id
        b.ud.skill_lv b.ud.state.skillcastcancel) E id _ _ _ _ _ hW
  unfold skilluse_pos_store
  dsimp only
  refine World.Same.modUd _ _ (hca _ (World.Same.modUd _ _ h ?_)) ?_
  · exact fun b => hg b b.sd b.ud.canact_tick b.ud.skilltarget b.ud.skillx b.ud.skilly
      b.ud.skill_id b.ud.skill_lv _
  · exact fun b => hg b b.sd b.ud.canact_tick _ _ _ _ _ b.ud.state.skillcastcancel

theorem skilluse_pos_store_timersLe {P : TimerData → Prop}
    (E : Env) (id : Int) (sd : Bool) (x y skill_id skill_lv castcancel casttime tick : Int)
    {w0 w : World} (h : World.TimersLe P w0 w) :
    World.TimersLe P w0
      (skilluse_pos_store E w id sd x y skill_id skill_lv castcancel casttime tick) := by
  unfold skilluse_pos_store
  dsimp only
  exact World.TimersLe.tl_modUd _ _ (skilluse_canact_timersLe E id _ _ _ _ _
    (World.TimersLe.tl_modUd _ _ h))

theorem skilluse_uncloak_same {α : Type} (g : Block → α) {E : Env} (hf : E.hooks_frame)
    (id : Int) (skill : Option Int) {w0 w : World} (h : World.Same g w0 w) :
    World.Same g w0 (skilluse_uncloak E w id skill).world := by
  unfold skilluse_uncloak
  repeat' first
    | rw [apply_ite walk_result.world]
    | simp only [world_ret, world_go]
    | split
    | dsimp only
    | with_reducible assumption
    | with_reducible apply World.Same.hook hf

theorem skilluse_uncloak_timersLe {P : TimerData → Prop} {E : Env} (hf : E.hooks_frame)
    (id : Int) (skill : Option Int) {w0 w : World} (h : World.TimersLe P w0 w) :
    World.TimersLe P w0 (skilluse_uncloak E w id skill).world := by
  unfold skilluse_uncloak
  repeat' first
    | rw [apply_ite walk_result.world]
    | simp only [world_ret, world_go]
    | split
    | dsimp only
    | with_reducible assumption
    | with_reducible apply World.TimersLe.tl_hook hf

theorem skilluse_canlog_same {α : Type} (g : Block → α)
    (hg : ∀ b sd, g { b with sd := sd } = g b)
    (E : Env) (sd : Option Int) {w0 w : World} (h : World.Same g w0 w) :
    World.Same g w0 (skilluse_canlog E w sd).2 := by
  unfold skilluse_canlog
  repeat' first
    | split
    | dsimp only
    | with_reducible assumption
    | refine World.Same.modBlock _ _ ?_ (fun b => hg b _)

theorem skilluse_canlog_spec (E : Env) (w : World) (sd : Option Int) :
    (skilluse_canlog E w sd).1 = 1 ∧ (skilluse_canlog E w sd).2.timers = w.timers := by
  unfold skilluse_canlog
  repeat' first
    | split
    | dsimp only
    | simp only [modBlock_timers, and_self]

/-! ## The start of a cast -/

theorem start_ready {a : walk_result} {f : World → cast_start} {W : World} {sd : Option Int}
    {c : Int} (h : a.start f = .ready W sd c) : a.isGo = true ∧ f a.world = .ready W sd c := by
  cases a with
  | ret r w => cases h
  | go w => exact ⟨rfl, h⟩

theorem ud_isSome_of_same {w w1 : World} (h : World.Same (fun b => b.type) w w1) {i : Int}
    (hs : (w.ud i).isSome) : (w1.ud i).isSome := by
  rw [World.Same.ud_isSome h]; exact hs

theorem World.Same.mono {α β : Type} {g : Block → α} (k : α → β) {w w1 : World}
    (h : World.Same g w w1) : World.Same (fun b => k (g b)) w w1 := by
  intro i
  have := h i
  cases h1 : w1.units i <;> cases h0 : w.units i <;> simp_all

theorem skilluse_id_store_flag (E : Env) {w : World} {id : Int} (sd : Option Int)
    (target_id skill_id skill_lv tick : Int) {casttime : Int} (hs : (w.units id).isSome)
    (hle : casttime ≤ 0) :
    ((skilluse_id_store E w id sd target_id skill_id skill_lv casttime tick).UD id).state.skillcastcancel
      = false := by
  obtain ⟨w1, hw1⟩ : ∃ w1, w1 = w.modUd id (fun u =>
      { u with state := { u.state with skillcastcancel := false } }) := ⟨_, rfl⟩
  have h1 : (w1.UD id).state.skillcastcancel = false := by rw [hw1, UD_modUd _ hs]
  have hs1 : (w1.units id).isSome := by rw [hw1, isSome_modUd]; exact hs
  obtain ⟨w2, hw2⟩ : ∃ w2, w2 = skilluse_canact E w1 id sd skill_id skill_lv casttime tick :=
    ⟨_, rfl⟩
  have hv2 : World.Same (fun b => (b.type, b.ud.state.skillcastcancel)) w1 w2 := by
    rw [hw2]
    exact skilluse_canact_same (fun b => (b.type, b.ud.state.skillcastcancel)) (fun _ _ => rfl)
      E id sd _ _ _ _ (World.Same.refl _ w1)
  have key : ∀ V : World, World.Same (fun b => (b.type, b.ud.state.skillcastcancel)) w1 V →
      ((V.modUd id (fun u =>
          { u with skilltarget := target_id, skillx := 0, skilly := 0, skill_id := skill_id,
                   skill_lv := skill_lv })).UD id).state.skillcastcancel = false := by
    intro V hV
    rw [UD_modUd _ (by rw [World.Same.isSome hV]; exact hs1)]
    have := World.Same.UD (g := fun u => u.state.skillcastcancel)
      (World.Same.mono (fun p => p.2) hV) id
    exact this.trans h1
  unfold skilluse_id_store
  rw [if_pos hle]
  dsimp only
  rw [← hw1, ← hw2]
  cases sd with
  | none => exact key _ hv2
  | some s =>
    dsimp only
    split
    · exact key _ (World.Same.modBlock _ _ hv2 (fun b => rfl))
    · exact key _ hv2

/-- The state in which a targeted cast is ready to be scheduled, seen from the state `w2`
after its range check: the adjusted cast time is the result of the collaborator, no timer
is scheduled, the cast timer handle, the deferred request and the flag `running` are as
before; a skill that is no combo has stopped the attack, an entity that does not run has
stopped walking, and a cast without cast time cannot be cancelled. -/
theorem skilluse_id_cast_ready {E : Env} (hf : E.hooks_frame) {w2 W : World} {id : Int}
    {src : Block} {tid skill_id skill_lv ct castcancel tick : Int} {combo : Bool}
    {sd : Option Int} {c : Int} (hs : (w2.ud id).isSome)
    (h : skilluse_id_cast E w2 id src tid skill_id skill_lv ct castcancel tick combo
      = .ready W sd c) :
    (∃ w3, c = (E.hook (.skill_casttime id tid skill_id skill_lv ct) w3).1)
    ∧ World.Same (fun b => (b.type, b.ud.skilltimer, b.ud.stepaction, b.ud.target_to,
        b.ud.stepskill_id, b.ud.stepskill_lv, b.ud.steptimer, b.ud.state.running)) w2 W
    ∧ (∀ P, World.TimersLe P w2 W)
    ∧ (combo = false → (W.UD id).attacktimer = INVALID_TIMER ∧ (W.UD id).target = 0)
    ∧ ((w2.UD id).state.running = false → (W.UD id).walktimer = INVALID_TIMER)
    ∧ (c ≤ 0 → (W.UD id).state.skillcastcancel = false) := by
  unfold skilluse_id_cast at h
  dsimp only at h
  obtain ⟨w3, hw3⟩ : ∃ w3, w3 = skilluse_id_prepare E w2 id combo castcancel tick := ⟨_, rfl⟩
  rw [← hw3] at h
  split at h
  · cases h
  obtain ⟨r, hr⟩ : ∃ r, r = E.hook (.skill_casttime id tid skill_id skill_lv ct) w3 := ⟨_, rfl⟩
  rw [← hr] at h
  obtain ⟨sd0, hsd0⟩ : ∃ s, s = skilluse_sd E r.2 id src skill_id := ⟨_, rfl⟩
  rw [← hsd0] at h
  obtain ⟨w4, hw4⟩ : ∃ w4, w4 = skilluse_id_begin E r.2 id sd0 tid skill_id tick := ⟨_, rfl⟩
  rw [← hw4] at h
  obtain ⟨w5, hw5⟩ : ∃ w5, w5 = skilluse_id_store E w4 id sd0 tid skill_id skill_lv r.1 tick :=
    ⟨_, rfl⟩
  rw [← hw5] at h
  obtain ⟨-, h6⟩ := start_ready h
  simp only [cast_start.ready.injEq] at h6
  obtain ⟨hW, hsd, hc⟩ := h6
  subst hsd
  -- views kept by every stage
  have v3 : ∀ {α : Type} (g : Block → α), (∀ b t c a atk scc,
      g { b with ud := { b.ud with target := t, target_count := c, attacktimer := a,
                                   attackabletime := atk,
                                   state := { b.ud.state with skillcastcancel := scc } } } = g b) →
      World.Same g w2 w3 := fun g hg => by
    rw [hw3]; exact skilluse_id_prepare_same g hg E id combo castcancel tick (World.Same.refl g w2)
  have vr : ∀ {α : Type} (g : Block → α), World.Same g w3 r.2 := fun g => by
    rw [hr]; exact World.Same.hook hf _ (World.Same.refl g w3)
  have v4 : ∀ {α : Type} (g : Block → α), (∀ b x y wt dir wc wp tx ty cwt ws wde sd md,
      g (b.walk_write x y wt dir wc wp tx ty cwt ws wde sd md) = g b) → World.Same g r.2 w4 :=
    fun g hg => by
      rw [hw4]; exact skilluse_id_begin_same g hg hf id sd0 tid skill_id tick (World.Same.refl g r.2)
  have v5 : ∀ {α : Type} (g : Block → α), (∀ b sd ca st sx sy si sl scc,
      g { b with sd := sd,
                 ud := { b.ud with canact_tick := ca, skilltarget := st, skillx := sx,
                                   skilly := sy, skill_id := si, skill_lv := sl,
                                   state := { b.ud.state with skillcastcancel := scc } } } = g b) →
      World.Same g w4 w5 := fun g hg => by
    rw [hw5]
    exact skilluse_id_store_same g hg E id sd0 tid skill_id skill_lv r.1 tick (World.Same.refl g w4)
  have v6 : ∀ {α : Type} (g : Block → α), World.Same g w5 W := fun g => by
    rw [← hW]; exact skilluse_uncloak_same g hf id _ (World.Same.refl g w5)
  have hty : World.Same (fun b => b.type) w2 w3 := v3 (fun b => b.type) (fun _ _ _ _ _ _ => rfl)
  have hs3 : (w3.ud id).isSome := ud_isSome_of_same hty hs
  have hsr : (r.2.ud id).isSome := ud_isSome_of_same (vr _) hs3
  have hs4 : (w4.ud id).isSome :=
    ud_isSome_of_same (v4 (fun b => b.type) (fun _ _ _ _ _ _ _ _ _ _ _ _ _ _ => rfl)) hsr
  refine ⟨⟨w3, by rw [← hc, hr]⟩, ?_, fun P => ?_, fun hcombo => ?_, fun hrun => ?_, fun hle => ?_⟩
  · have a3 := v3 (fun b => (b.type, b.ud.skilltimer, b.ud.stepaction, b.ud.target_to,
      b.ud.stepskill_id, b.ud.stepskill_lv, b.ud.steptimer, b.ud.state.running))
      (fun _ _ _ _ _ _ => rfl)
    have a4 := v4 (fun b => (b.type, b.ud.skilltimer, b.ud.stepaction, b.ud.target_to,
      b.ud.stepskill_id, b.ud.stepskill_lv, b.ud.steptimer, b.ud.state.running))
      (fun _ _ _ _ _ _ _ _ _ _ _ _ _ _ => rfl)
    have a5 := v5 (fun b => (b.type, b.ud.skilltimer, b.ud.stepaction, b.ud.target_to,
      b.ud.stepskill_id, b.ud.stepskill_lv, b.ud.steptimer, b.ud.state.running))
      (fun _ _ _ _ _ _ _ _ _ => rfl)
    exact ((a3.trans (vr _)).trans a4).trans (a5.trans (v6 _))
  · rw [← hW, hw5, hw4, hr, hw3]
    exact skilluse_uncloak_timersLe hf id _ (skilluse_id_store_timersLe E id _ _ _ _ _ _
      (skilluse_id_begin_timersLe hf id _ _ _ _ (World.TimersLe.tl_hook hf _
        (skilluse_id_prepare_timersLe E id _ _ _ (World.TimersLe.tl_refl P w2)))))
  · -- the attack is stopped by the preparation and left alone afterwards
    have ha3 : (w3.UD id).attacktimer = INVALID_TIMER ∧ (w3.UD id).target = 0 := by
      rw [hw3]
      unfold skilluse_id_prepare
      rw [if_pos hcombo]
      dsimp only
      have hsa : ((unit_stop_attack w2 id).units id).isSome := by
        rw [World.Same.isSome (unit_stop_attack_same (fun b => b.type) (fun _ _ _ _ => rfl) id
          (World.Same.refl _ w2))]
        exact ud_isSome_units hs
      rw [UD_modUd _ hsa]
      exact ⟨(unit_stop_attack_spec hs).2, (unit_stop_attack_spec hs).1⟩
    have hview := World.Same.UD (g := fun u => (u.attacktimer, u.target))
      (((vr (fun b => (b.ud.attacktimer, b.ud.target))).trans
        (v4 (fun b => (b.ud.attacktimer, b.ud.target))
          (fun _ _ _ _ _ _ _ _ _ _ _ _ _ _ => rfl))).trans
        ((v5 (fun b => (b.ud.attacktimer, b.ud.target)) (fun _ _ _ _ _ _ _ _ _ => rfl)).trans
          (v6 _))) id
    simp only [Prod.mk.injEq] at hview
    exact ⟨hview.1.trans ha3.1, hview.2.trans ha3.2⟩
  · -- the walk is stopped when the cast begins
    have hrun3 := World.Same.UD (g := fun u => u.state.running)
      ((v3 (fun b => b.ud.state.running) (fun _ _ _ _ _ _ => rfl)).trans (vr _)) id
    have hrr : (r.2.UD id).state.running = false := hrun3.trans hrun
    have hw4i : (w4.UD id).walktimer = INVALID_TIMER := by
      rw [hw4]
      unfold skilluse_id_begin
      rw [if_pos hrr]
      dsimp only
      have hidle := unit_stop_walking_fixpos_idle hf hsr
      have key : ∀ V : World, (V.UD id).walktimer = INVALID_TIMER →
          ((if sd0.isSome = true ∧ (V.BL tid).type = .BL_MOB then
              skill_cast_sensor E (E.hook (.mobskill_event tid id tick (-1)) V).2 id tid
            else V).UD id).walktimer = INVALID_TIMER := by
        intro V hV
        split
        · have := World.Same.UD (g := fun u => u.walktimer)
            (skill_cast_sensor_same (fun b => b.ud.walktimer) (fun _ _ => rfl) E id tid
              (World.Same.hook hf (.mobskill_event tid id tick (-1)) (World.Same.refl _ V))) id
          exact this.trans hV
        · exact hV
      exact key _ (by rw [UD_hook hf]; exact hidle)
    have hview := World.Same.UD (g := fun u => u.walktimer)
      ((v5 (fun b => b.ud.walktimer) (fun _ _ _ _ _ _ _ _ _ => rfl)).trans (v6 _)) id
    exact hview.trans hw4i
  · -- a cast without cast time cannot be cancelled
    have h5 : (w5.UD id).state.skillcastcancel = false := by
      rw [hw5]
      exact skilluse_id_store_flag E sd0 tid skill_id skill_lv tick (ud_isSome_units hs4)
        (by rw [hc]; exact hle)
    have hview := World.Same.UD (g := fun u => u.state.skillcastcancel) (v6 _) id
    exact hview.trans h5

theorem skilluse_pos_store_flag (E : Env) {w : World} {id : Int} (sd : Bool)
    (x y skill_id skill_lv castcancel tick : Int) {casttime : Int} (hs : (w.units id).isSome)
    (hle : casttime ≤ 0) :
    ((skilluse_pos_store E w id sd x y skill_id skill_lv castcancel casttime tick).UD
      id).state.skillcastcancel = false := by
  obtain ⟨w1, hw1⟩ : ∃ w1, w1 = w.modUd id (fun u =>
      { u with state := { u.state with
          skillcastcancel := decide (castcancel ≠ 0 ∧ casttime > 0) } }) := ⟨_, rfl⟩
  have h1 : (w1.UD id).state.skillcastcancel = false := by
    rw [hw1, UD_modUd _ hs]
    show decide (castcancel ≠ 0 ∧ casttime > 0) = false
    rw [decide_eq_false_iff_not]
    intro ⟨_, h2⟩
    omega
  have hs1 : (w1.units id).isSome := by rw [hw1, isSome_modUd]; exact hs
  have hv2 : World.Same (fun b => (b.type, b.ud.state.skillcastcancel)) w1
      (skilluse_canact E w1 id (if sd = true then some id else none) skill_id skill_lv casttime
        tick) :=
    skilluse_canact_same (fun b => (b.type, b.ud.state.skillcastcancel)) (fun _ _ => rfl)
      E id _ _ _ _ _ (World.Same.refl _ w1)
  unfold skilluse_pos_store
  dsimp only
  rw [← hw1, UD_modUd _ (by rw [World.Same.isSome hv2]; exact hs1)]
  have := World.Same.UD (g := fun u => u.state.skillcastcancel)
    (World.Same.mono (fun p => p.2) hv2) id
  exact this.trans h1

/-- The state in which a ground cast is ready to be scheduled, seen from the state `w2`
after its range check: the adjusted cast time is the result of the collaborator, no timer
is scheduled, the cast timer handle, the deferred request and the flag `running` are as
before; the attack and the walk are stopped, and a cast without cast time cannot be
cancelled. -/
theorem skilluse_pos_cast_ready {E : Env} (hf : E.hooks_frame) {w2 W : World} {id : Int}
    {sd : Bool} {x y skill_id skill_lv casttime castcancel tick : Int}
    {sdo : Option Int} {c : Int} (hs : (w2.ud id).isSome)
    (h : skilluse_pos_cast E w2 id sd x y skill_id skill_lv casttime castcancel tick
      = .ready W sdo c) :
    (∃ w3, c = (E.hook (.skill_castfix_sc id skill_id skill_lv casttime) w3).1)
    ∧ World.Same (fun b => (b.type, b.ud.skilltimer, b.ud.stepaction, b.ud.target_to,
        b.ud.stepskill_id, b.ud.stepskill_lv, b.ud.steptimer, b.ud.state.running)) w2 W
    ∧ (∀ P, World.TimersLe P w2 W)
    ∧ ((W.UD id).attacktimer = INVALID_TIMER ∧ (W.UD id).target = 0)
    ∧ (W.UD id).walktimer = INVALID_TIMER
    ∧ (c ≤ 0 → (W.UD id).state.skillcastcancel = false) := by
  unfold skilluse_pos_cast at h
  dsimp only at h
  obtain ⟨w3, hw3⟩ : ∃ w3, w3 = unit_stop_attack w2 id := ⟨_, rfl⟩
  rw [← hw3] at h
  obtain ⟨r, hr⟩ : ∃ r, r = E.hook (.skill_castfix_sc id skill_id skill_lv casttime) w3 :=
    ⟨_, rfl⟩
  rw [← hr] at h
  obtain ⟨w4, hw4⟩ : ∃ w4, w4 = skilluse_pos_store E r.2 id sd x y skill_id skill_lv castcancel
      r.1 tick := ⟨_, rfl⟩
  rw [← hw4] at h
  obtain ⟨-, h6⟩ := start_ready h
  obtain ⟨w5, hw5⟩ : ∃ w5, w5 = (skilluse_uncloak E w4 id none).world := ⟨_, rfl⟩
  rw [← hw5] at h6
  obtain ⟨w6, hw6⟩ : ∃ w6, w6 = (unit_stop_walking E w5 id 1).2 := ⟨_, rfl⟩
  rw [← hw6] at h6
  simp only [cast_start.ready.injEq] at h6
  obtain ⟨hW, -, hc⟩ := h6
  have v3 : ∀ {α : Type} (g : Block → α), (∀ b t c a,
      g { b with ud := { b.ud with target := t, target_count := c, attacktimer := a } } = g b) →
      World.Same g w2 w3 := fun g hg => by
    rw [hw3]; exact unit_stop_attack_same g hg id (World.Same.refl g w2)
  have vr : ∀ {α : Type} (g : Block → α), World.Same g w3 r.2 := fun g => by
    rw [hr]; exact World.Same.hook hf _ (World.Same.refl g w3)
  have v4 : ∀ {α : Type} (g : Block → α), (∀ b sd ca st sx sy si sl scc,
      g { b with sd := sd,
                 ud := { b.ud with canact_tick := ca, skilltarget := st, skillx := sx,
                                   skilly := sy, skill_id := si, skill_lv := sl,
                                   state := { b.ud.state with skillcastcancel := scc } } } = g b) →
      World.Same g r.2 w4 := fun g hg => by
    rw [hw4]
    exact skilluse_pos_store_same g hg E id sd x y skill_id skill_lv castcancel r.1 tick
      (World.Same.refl g r.2)
  have v5 : ∀ {α : Type} (g : Block → α), World.Same g w4 w5 := fun g => by
    rw [hw5]; exact skilluse_uncloak_same g hf id _ (World.Same.refl g w4)
  have v6 : ∀ {α : Type} (g : Block → α), (∀ b x y wt dir wc wp tx ty cwt ws wde sd md,
      g (b.walk_write x y wt dir wc wp tx ty cwt ws wde sd md) = g b) → World.Same g w5 w6 :=
    fun g hg => by
      rw [hw6]
      exact unit_stop_walking_same g hg hf _ 1 (fun _ _ h0 => absurd h0 (by decide))
        (World.Same.refl g w5)
  have v7 : ∀ {α : Type} (g : Block → α), World.Same g w6 W := fun g => by
    rw [← hW]; exact World.Same.hook hf _ (World.Same.refl g w6)
  have hs3 : (w3.ud id).isSome :=
    ud_isSome_of_same (v3 (fun b => b.type) (fun _ _ _ _ => rfl)) hs
  have hsr : (r.2.ud id).isSome := ud_isSome_of_same (vr _) hs3
  have hs4 : (w4.ud id).isSome :=
    ud_isSome_of_same (v4 (fun b => b.type) (fun _ _ _ _ _ _ _ _ _ => rfl)) hsr
  have hs5 : (w5.ud id).isSome := ud_isSome_of_same (v5 _) hs4
  refine ⟨⟨w3, by rw [← hc, hr]⟩, ?_, fun P => ?_, ?_, ?_, fun hle => ?_⟩
  · have a3 := v3 (fun b => (b.type, b.ud.skilltimer, b.ud.stepaction, b.ud.target_to,
      b.ud.stepskill_id, b.ud.stepskill_lv, b.ud.steptimer, b.ud.state.running))
      (fun _ _ _ _ => rfl)
    have a4 := v4 (fun b => (b.type, b.ud.skilltimer, b.ud.stepaction, b.ud.target_to,
      b.ud.stepskill_id, b.ud.stepskill_lv, b.ud.steptimer, b.ud.state.running))
      (fun _ _ _ _ _ _ _ _ _ => rfl)
    have a6 := v6 (fun b => (b.type, b.ud.skilltimer, b.ud.stepaction, b.ud.target_to,
      b.ud.stepskill_id, b.ud.stepskill_lv, b.ud.steptimer, b.ud.state.running))
      (fun _ _ _ _ _ _ _ _ _ _ _ _ _ _ => rfl)
    exact ((a3.trans (vr _)).trans a4).trans (((v5 _).trans a6).trans (v7 _))
  · rw [← hW, hw6, hw5, hw4, hr, hw3]
    exact World.TimersLe.tl_hook hf _ (unit_stop_walking_fixpos_timersLe hf id
      (skilluse_uncloak_timersLe hf id _ (skilluse_pos_store_timersLe E id _ _ _ _ _ _ _ _
        (World.TimersLe.tl_hook hf _ (unit_stop_attack_timersLe id (World.TimersLe.tl_refl P w2))))))
  · have ha3 : (w3.UD id).attacktimer = INVALID_TIMER ∧ (w3.UD id).target = 0 := by
      rw [hw3]
      exact ⟨(unit_stop_attack_spec hs).2, (unit_stop_attack_spec hs).1⟩
    have hview := World.Same.UD (g := fun u => (u.attacktimer, u.target))
      (((vr (fun b => (b.ud.attacktimer, b.ud.target))).trans
        (v4 (fun b => (b.ud.attacktimer, b.ud.target)) (fun _ _ _ _ _ _ _ _ _ => rfl))).trans
        (((v5 _).trans (v6 (fun b => (b.ud.attacktimer, b.ud.target))
          (fun _ _ _ _ _ _ _ _ _ _ _ _ _ _ => rfl))).trans (v7 _))) id
    simp only [Prod.mk.injEq] at hview
    exact ⟨hview.1.trans ha3.1, hview.2.trans ha3.2⟩
  · have h6i : (w6.UD id).walktimer = INVALID_TIMER := by
      rw [hw6]; exact unit_stop_walking_fixpos_idle hf hs5
    have hview := World.Same.UD (g := fun u => u.walktimer) (v7 (fun b => b.ud.walktimer)) id
    exact hview.trans h6i
  · have h4 : (w4.UD id).state.skillcastcancel = false := by
      rw [hw4]
      exact skilluse_pos_store_flag E sd x y skill_id skill_lv castcancel tick
        (ud_isSome_units hsr) (by rw [hc]; exact hle)
    have hview := World.Same.UD (g := fun u => u.state.skillcastcancel)
      (((v5 (fun b => b.ud.state.skillcastcancel)).trans
        (v6 (fun b => b.ud.state.skillcastcancel) (fun _ _ _ _ _ _ _ _ _ _ _ _ _ _ => rfl))).trans
        (v7 _)) id
    exact hview.trans h4

@[simp] theorem cast_world_refused (r : Int) (w : World) : (cast_start.refused r w).world = w := rfl

@[simp] theorem cast_world_ready (w : World) (sd : Option Int) (c : Int) :
    (cast_start.ready w sd c).world = w := rfl

theorem World.Same.start {α : Type} {g : Block → α} {w : World} {a : walk_result}
    {f : World → cast_start} (ha : World.Same g w a.world)
    (hf : ∀ w1, World.Same g w w1 → World.Same g w (f w1).world) :
    World.Same g w (a.start f).world := by
  cases a with
  | ret r w1 => exact ha
  | go w1 => exact hf w1 ha

theorem World.TimersLe.tl_start {P : TimerData → Prop} {w : World} {a : walk_result}
    {f : World → cast_start} (ha : World.TimersLe P w a.world)
    (hf : ∀ w1, World.TimersLe P w w1 → World.TimersLe P w (f w1).world) :
    World.TimersLe P w (a.start f).world := by
  cases a with
  | ret r w1 => exact ha
  | go w1 => exact hf w1 ha

/-- What the cast of a targeted skill leaves alone, whatever its outcome: every view of a
block that does not depend on the fields walking writes, the target, the count of
attackers, the attack timer handle, `attackabletime`, `canact_tick`, the recorded skill
and the flag `skillcastcancel`. -/
theorem skilluse_id_cast_same {α : Type} (g : Block → α)
    (hw : ∀ b x y wt dir wc wp tx ty cwt ws wde sd md,
      g (b.walk_write x y wt dir wc wp tx ty cwt ws wde sd md) = g b)
    (ha : ∀ b t c a atk scc,
      g { b with ud := { b.ud with target := t, target_count := c, attacktimer := a,
                                   attackabletime := atk,
                                   state := { b.ud.state with skillcastcancel := scc } } } = g b)
    (hc : ∀ b sd ca st sx sy si sl scc,
      g { b with sd := sd,
                 ud := { b.ud with canact_tick := ca, skilltarget := st, skillx := sx,
                                   skilly := sy, skill_id := si, skill_lv := sl,
                                   state := { b.ud.state with skillcastcancel := scc } } } = g b)
    {E : Env} (hf : E.hooks_frame) (id : Int) (src : Block)
    (tid skill_id skill_lv ct castcancel tick : Int) (combo : Bool) {w0 w : World}
    (h : World.Same g w0 w) :
    World.Same g w0
      (skilluse_id_cast E w id src tid skill_id skill_lv ct castcancel tick combo).world := by
  unfold skilluse_id_cast
  dsimp only
  have h3 := skilluse_id_prepare_same g ha E id combo castcancel tick h
  split
  · exact h3
  · refine World.Same.start (skilluse_uncloak_same g hf id _
      (skilluse_id_store_same g hc E id _ _ _ _ _ _
        (skilluse_id_begin_same g hw hf id _ _ _ _ (World.Same.hook hf _ h3)))) ?_
    intro w1 h1
    exact h1

theorem skilluse_id_cast_timersLe {P : TimerData → Prop}
    {E : Env} (hf : E.hooks_frame) (id : Int) (src : Block)
    (tid skill_id skill_lv ct castcancel tick : Int) (combo : Bool) {w0 w : World}
    (h : World.TimersLe P w0 w) :
    World.TimersLe P w0
      (skilluse_id_cast E w id src tid skill_id skill_lv ct castcancel tick combo).world := by
  unfold skilluse_id_cast
  dsimp only
  have h3 := skilluse_id_prepare_timersLe (P := P) E id combo castcancel tick h
  split
  · exact h3
  · refine World.TimersLe.tl_start (skilluse_uncloak_timersLe hf id _
      (skilluse_id_store_timersLe E id _ _ _ _ _ _
        (skilluse_id_begin_timersLe hf id _ _ _ _ (World.TimersLe.tl_hook hf _ h3)))) ?_
    intro w1 h1
    exact h1

/-- What the cast of a ground skill leaves alone, whatever its outcome. -/
theorem skilluse_pos_cast_same {α : Type} (g : Block → α)
    (hw : ∀ b x y wt dir wc wp tx ty cwt ws wde sd md,
      g (b.walk_write x y wt dir wc wp tx ty cwt ws wde sd md) = g b)
    (ha : ∀ b t c a,
      g { b with ud := { b.ud with target := t, target_count := c, attacktimer := a } } = g b)
    (hc : ∀ b sd ca st sx sy si sl scc,
      g { b with sd := sd,
                 ud := { b.ud with canact_tick := ca, skilltarget := st, skillx := sx,
                                   skilly := sy, skill_id := si, skill_lv := sl,
                                   state := { b.ud.state with skillcastcancel := scc } } } = g b)
    {E : Env} (hf : E.hooks_frame) (id : Int) (sd : Bool)
    (x y skill_id skill_lv casttime castcancel tick : Int) {w0 w : World}
    (h : World.Same g w0 w) :
    World.Same g w0
      (skilluse_pos_cast E w id sd x y skill_id skill_lv casttime castcancel tick).world := by
  unfold skilluse_pos_cast
  dsimp only
  refine World.Same.start (skilluse_uncloak_same g hf id _
    (skilluse_pos_store_same g hc E id _ _ _ _ _ _ _ _
      (World.Same.hook hf _ (unit_stop_attack_same g ha id h)))) ?_
  intro w1 h1
  exact World.Same.hook hf _
    (unit_stop_walking_same g hw hf _ 1 (fun _ _ h0 => absurd h0 (by decide)) h1)

theorem skilluse_pos_cast_timersLe {P : TimerData → Prop}
    {E : Env} (hf : E.hooks_frame) (id : Int) (sd : Bool)
    (x y skill_id skill_lv casttime castcancel tick : Int) {w0 w : World}
    (h : World.TimersLe P w0 w) :
    World.TimersLe P w0
      (skilluse_pos_cast E w id sd x y skill_id skill_lv casttime castcancel tick).world := by
  unfold skilluse_pos_cast
  dsimp only
  refine World.TimersLe.tl_start (skilluse_uncloak_timersLe hf id _
    (skilluse_pos_store_timersLe E id _ _ _ _ _ _ _ _
      (World.TimersLe.tl_hook hf _ (unit_stop_attack_timersLe id h)))) ?_
  intro w1 h1
  exact World.TimersLe.tl_hook hf _ (unit_stop_walking_fixpos_timersLe hf id h1)

/-- What the start of a targeted cast leaves alone, whatever its outcome. -/
theorem skilluse_id_start_same {α : Type} (g : Block → α)
    (hw : ∀ b x y wt dir wc wp tx ty cwt ws wde sd md,
      g (b.walk_write x y wt dir wc wp tx ty cwt ws wde sd md) = g b)
    (ha : ∀ b t c a atk scc,
      g { b with ud := { b.ud with target := t, target_count := c, attacktimer := a,
                                   attackabletime := atk,
                                   state := { b.ud.state with skillcastcancel := scc } } } = g b)
    (hc : ∀ b sd ca st sx sy si sl scc,
      g { b with sd := sd,
                 ud := { b.ud with canact_tick := ca, skilltarget := st, skillx := sx,
                                   skilly := sy, skill_id := si, skill_lv := sl,
                                   state := { b.ud.state with skillcastcancel := scc } } } = g b)
    (hq : ∀ b sa tt si sl st,
      g { b with ud := { b.ud with stepaction := sa, target_to := tt, stepskill_id := si,
                                   stepskill_lv := sl, steptimer := st } } = g b)
    {E : Env} (hf : E.hooks_frame) (w : World)
    (id target_id skill_id skill_lv casttime castcancel : Int) (walkqueue : Bool) :
    World.Same g w
      (skilluse_id_start E w id target_id skill_id skill_lv casttime castcancel walkqueue).world := by
  unfold skilluse_id_start
  repeat' first
    | split
    | dsimp only
    | exact World.Same.refl g w
    | exact h1
    | exact h2
    | with_reducible assumption
    | (refine World.Same.start (skilluse_id_checks_same g hf id _ _ _ _ _ _
        (World.Same.refl g w)) (fun w1 h1 => ?_))
    | (refine World.Same.start (skilluse_queue_same g hq id _ _ _ _ _ _ h1) (fun w2 h2 => ?_))
    | apply skilluse_id_cast_same g hw ha hc hf

theorem skilluse_id_start_timersLe {P : TimerData → Prop}
    {E : Env} (hf : E.hooks_frame) (w : World)
    (id target_id skill_id skill_lv casttime castcancel : Int) (walkqueue : Bool) :
    World.TimersLe P w
      (skilluse_id_start E w id target_id skill_id skill_lv casttime castcancel walkqueue).world := by
  unfold skilluse_id_start
  repeat' first
    | split
    | dsimp only
    | exact World.TimersLe.tl_refl P w
    | exact h1
    | exact h2
    | with_reducible assumption
    | (refine World.TimersLe.tl_start (skilluse_id_checks_timersLe hf id _ _ _ _ _ _
        (World.TimersLe.tl_refl P w)) (fun w1 h1 => ?_))
    | (refine World.TimersLe.tl_start (skilluse_queue_timersLe id _ _ _ _ _ _ h1) (fun w2 h2 => ?_))
    | apply skilluse_id_cast_timersLe hf

/-- What the start of a ground cast leaves alone, whatever its outcome. -/
theorem skilluse_pos_start_same {α : Type} (g : Block → α)
    (hw : ∀ b x y wt dir wc wp tx ty cwt ws wde sd md,
      g (b.walk_write x y wt dir wc wp tx ty cwt ws wde sd md) = g b)
    (ha : ∀ b t c a,
      g { b with ud := { b.ud with target := t, target_count := c, attacktimer := a } } = g b)
    (hc : ∀ b sd ca st sx sy si sl scc,
      g { b with sd := sd,
                 ud := { b.ud with canact_tick := ca, skilltarget := st, skillx := sx,
                                   skilly := sy, skill_id := si, skill_lv := sl,
                                   state := { b.ud.state with skillcastcancel := scc } } } = g b)
    (hq : ∀ b sa tt si sl st,
      g { b with ud := { b.ud with stepaction := sa, target_to := tt, stepskill_id := si,
                                   stepskill_lv := sl, steptimer := st } } = g b)
    {E : Env} (hf : E.hooks_frame) (w : World)
    (id x y skill_id skill_lv casttime castcancel : Int) (walkqueue : Bool) :
    World.Same g w
      (skilluse_pos_start E w id x y skill_id skill_lv casttime castcancel walkqueue).world := by
  unfold skilluse_pos_start
  repeat' first
    | split
    | dsimp only
    | exact World.Same.refl g w
    | exact h1
    | exact h2
    | with_reducible assumption
    | (refine World.Same.start (skilluse_pos_checks_same g hf id _ _ _ _ _
        (World.Same.refl g w)) (fun w1 h1 => ?_))
    | (refine World.Same.start (skilluse_queue_same g hq id _ _ _ _ _ _ h1) (fun w2 h2 => ?_))
    | apply skilluse_pos_cast_same g hw ha hc hf

theorem skilluse_pos_start_timersLe {P : TimerData → Prop}
    {E : Env} (hf : E.hooks_frame) (w : World)
    (id x y skill_id skill_lv casttime castcancel : Int) (walkqueue : Bool) :
    World.TimersLe P w
      (skilluse_pos_start E w id x y skill_id skill_lv casttime castcancel walkqueue).world := by
  unfold skilluse_pos_start
  repeat' first
    | split
    | dsimp only
    | exact World.TimersLe.tl_refl P w
    | exact h1
    | exact h2
    | with_reducible assumption
    | (refine World.TimersLe.tl_start (skilluse_pos_checks_timersLe hf id _ _ _ _ _
        (World.TimersLe.tl_refl P w)) (fun w1 h1 => ?_))
    | (refine World.TimersLe.tl_start (skilluse_queue_timersLe id _ _ _ _ _ _ h1) (fun w2 h2 => ?_))
    | apply skilluse_pos_cast_timersLe hf

/-- A targeted cast that is ready went through every part of the start. -/
theorem skilluse_id_start_inv {E : Env} {w W : World}
    {id target_id skill_id skill_lv casttime castcancel : Int} {walkqueue : Bool}
    {sd : Option Int} {c : Int}
    (h : skilluse_id_start E w id target_id skill_id skill_lv casttime castcancel walkqueue
      = .ready W sd c) :
    ∃ src ud tid combo ct target w1 w2 near,
      w.units id = some src ∧ unit_bl2ud src = some ud
      ∧ E.skill_select w id target_id skill_id skill_lv casttime = some (tid, combo, ct)
      ∧ w.units tid = some target
      ∧ skilluse_id_checks E w id src target ud tid skill_id skill_lv = .go w1
      ∧ skilluse_queue w1 id src walkqueue near tid skill_id skill_lv = .go w2
      ∧ skilluse_id_cast E w2 id src tid skill_id skill_lv ct castcancel w.gettick combo
          = .ready W sd c := by
  unfold skilluse_id_start at h
  split at h
  · cases h
  · rename_i src hsrc
    split at h
    · cases h
    · split at h
      · cases h
      · rename_i ud hud
        split at h
        · cases h
        · split at h
          · cases h
          · rename_i tid combo ct hsel
            split at h
            · cases h
            · rename_i target htg
              dsimp only at h
              obtain ⟨g1, h1⟩ := start_ready h
              obtain ⟨range, hrange⟩ : ∃ range, range = (if src.type = .BL_NPC then E.area_size
                else E.skill_get_range2
                  (skilluse_id_checks E w id src target ud tid skill_id skill_lv).world id
                  skill_id skill_lv) := ⟨_, rfl⟩
              rw [← hrange] at h1
              obtain ⟨g2, h2⟩ := start_ready h1
              split at h2
              · cases h2
              · exact ⟨src, ud, tid, combo, ct, target, _, _,
                  (fun v => E.battle_check_range v id tid (range - 1)),
                  hsrc, hud, hsel, htg, eq_go_of_isGo g1, eq_go_of_isGo g2, h2⟩

/-- A ground cast that is ready went through every part of the start. -/
theorem skilluse_pos_start_inv {E : Env} {w W : World}
    {id x y skill_id skill_lv casttime castcancel : Int} {walkqueue : Bool}
    {sd : Option Int} {c : Int}
    (h : skilluse_pos_start E w id x y skill_id skill_lv casttime castcancel walkqueue
      = .ready W sd c) :
    ∃ src ud w1 w2 near tt,
      w.units id = some src ∧ unit_bl2ud src = some ud ∧ ud.skilltimer = INVALID_TIMER
      ∧ skilluse_pos_checks E w id (decide (src.type = .BL_PC)) x y skill_id skill_lv = .go w1
      ∧ skilluse_queue w1 id src walkqueue near tt skill_id skill_lv = .go w2
      ∧ skilluse_pos_cast E w2 id (decide (src.type = .BL_PC)) x y skill_id skill_lv casttime
          castcancel w.gettick = .ready W sd c := by
  unfold skilluse_pos_start at h
  split at h
  · cases h
  · rename_i src hsrc
    split at h
    · cases h
    · split at h
      · cases h
      · split at h
        · cases h
        · rename_i ud hud
          split at h
          · cases h
          · split at h
            · cases h
            · rename_i hst
              dsimp only at h
              obtain ⟨g1, h1⟩ := start_ready h
              obtain ⟨range, hrange⟩ : ∃ range, range = (if src.type = .BL_NPC then E.area_size
                else E.skill_get_range2
                  (skilluse_pos_checks E w id (decide (src.type = .BL_PC)) x y skill_id
                    skill_lv).world id skill_id skill_lv) := ⟨_, rfl⟩
              rw [← hrange] at h1
              obtain ⟨g2, h2⟩ := start_ready h1
              split at h2
              · cases h2
              · exact ⟨src, ud, _, _,
                  (fun v => E.battle_check_range_pos v id x y (range - 1)),
                  x + y * E.map_xs src.m,
                  hsrc, hud, not_not.mp hst, eq_go_of_isGo g1, eq_go_of_isGo g2, h2⟩

/-- The checks on the target let a request pass during a cast only for the skills
`SA_CASTCANCEL` and `SO_SPELLFIST`. -/
theorem skilluse_id_checks_go {E : Env} {w w1 : World} {id : Int} {src target : Block}
    {ud : unit_data} {tid skill_id skill_lv : Int}
    (h : skilluse_id_checks E w id src target ud tid skill_id skill_lv = .go w1) :
    ud.skilltimer ≠ INVALID_TIMER → skill_id = SA_CASTCANCEL ∨ skill_id = SO_SPELLFIST := by
  intro hst
  by_contra hne
  rw [not_or] at hne
  unfold skilluse_id_checks at h
  dsimp only at h
  split at h
  · cases h
  · split at h
    · cases h
    · rw [if_pos ⟨hst, hne.1, hne.2⟩] at h
      cases h

/-- During a cast a request for any other skill than `SA_CASTCANCEL` and `SO_SPELLFIST`
is refused by the checks on the target, with the state unchanged. -/
theorem skilluse_id_checks_casting {E : Env} {w : World} {id : Int} {src target : Block}
    {ud : unit_data} {tid skill_id skill_lv : Int}
    (hst : ud.skilltimer ≠ INVALID_TIMER) (h1 : skill_id ≠ SA_CASTCANCEL)
    (h2 : skill_id ≠ SO_SPELLFIST) :
    skilluse_id_checks E w id src target ud tid skill_id skill_lv = .ret 0 w := by
  unfold skilluse_id_checks
  dsimp only
  split
  · rfl
  · split
    · rfl
    · rw [if_pos ⟨hst, h1, h2⟩]

theorem UD_of_bl2ud {w : World} {id : Int} {src : Block} {ud : unit_data}
    (hsrc : w.units id = some src) (hud : unit_bl2ud src = some ud) : w.UD id = ud := by
  rw [unit_bl2ud_eq hud]
  unfold World.UD
  rw [hsrc]

theorem ud_isSome_of_bl2ud {w : World} {id : Int} {src : Block} {ud : unit_data}
    (hsrc : w.units id = some src) (hud : unit_bl2ud src = some ud) : (w.ud id).isSome := by
  unfold World.ud
  rw [hsrc]
  simp [hud]

/-- A request for a targeted skill other than `SA_CASTCANCEL` and `SO_SPELLFIST` during a
cast is refused before anything is written. -/
theorem skilluse_id_start_casting (E : Env) (w : World)
    (id target_id skill_id skill_lv casttime castcancel : Int) (walkqueue : Bool)
    (hst : (w.UD id).skilltimer ≠ INVALID_TIMER) (h1 : skill_id ≠ SA_CASTCANCEL)
    (h2 : skill_id ≠ SO_SPELLFIST) :
    skilluse_id_start E w id target_id skill_id skill_lv casttime castcancel walkqueue
      = .refused 0 w := by
  unfold skilluse_id_start
  split
  · rfl
  · rename_i src hsrc
    split
    · rfl
    · split
      · rfl
      · rename_i ud hud
        split
        · rfl
        · split
          · rfl
          · split
            · rfl
            · dsimp only
              rw [UD_of_bl2ud hsrc hud] at hst
              rw [skilluse_id_checks_casting hst h1 h2]
              rfl

/-- A request for a ground skill during a cast is refused before anything is written. -/
theorem skilluse_pos_start_casting (E : Env) (w : World)
    (id x y skill_id skill_lv casttime castcancel : Int) (walkqueue : Bool)
    (hst : (w.UD id).skilltimer ≠ INVALID_TIMER) :
    skilluse_pos_start E w id x y skill_id skill_lv casttime castcancel walkqueue
      = .refused 0 w := by
  unfold skilluse_pos_start
  split
  · rfl
  · rename_i src hsrc
    split
    · rfl
    · split
      · rfl
      · split
        · rfl
        · rename_i ud hud
          split
          · rfl
          · rw [UD_of_bl2ud hsrc hud] at hst
            rw [if_pos hst]

/-- What the checks and the deferral point of a cast leave alone: every view of a block
that does not depend on the buffer of the deferred request. -/
theorem skilluse_queue_go_same {α : Type} (g : Block → α)
    (hq : ∀ b sa tt si sl st,
      g { b with ud := { b.ud with stepaction := sa, target_to := tt, stepskill_id := si,
                                   stepskill_lv := sl, steptimer := st } } = g b)
    {w0 w1 w2 : World} {id : Int} {src : Block} {walkqueue : Bool} {near : World → Bool}
    {tt skill_id skill_lv : Int} (h0 : World.Same g w0 w1)
    (h : skilluse_queue w1 id src walkqueue near tt skill_id skill_lv = .go w2) :
    World.Same g w0 w2 := by
  have := skilluse_queue_same g hq id src walkqueue near tt skill_id skill_lv h0
  rw [h] at this
  exact this

theorem skilluse_id_checks_go_same {α : Type} (g : Block → α) {E : Env} (hf : E.hooks_frame)
    {w w1 : World} {id : Int} {src target : Block} {ud : unit_data}
    {tid skill_id skill_lv : Int}
    (h : skilluse_id_checks E w id src target ud tid skill_id skill_lv = .go w1) :
    World.Same g w w1 := by
  have := skilluse_id_checks_same g hf id src target ud tid skill_id skill_lv
    (World.Same.refl g w)
  rw [h] at this
  exact this

theorem skilluse_pos_checks_go_same {α : Type} (g : Block → α) {E : Env} (hf : E.hooks_frame)
    {w w1 : World} {id : Int} {sd : Bool} {x y skill_id skill_lv : Int}
    (h : skilluse_pos_checks E w id sd x y skill_id skill_lv = .go w1) :
    World.Same g w w1 := by
  have := skilluse_pos_checks_same g hf id sd x y skill_id skill_lv (World.Same.refl g w)
  rw [h] at this
  exact this

/-- The state in which a targeted cast is ready to be scheduled. -/
theorem skilluse_id_start_facts {E : Env} (hf : E.hooks_frame) {w W : World}
    {id target_id skill_id skill_lv casttime castcancel : Int} {walkqueue : Bool}
    {sd : Option Int} {c : Int}
    (h : skilluse_id_start E w id target_id skill_id skill_lv casttime castcancel walkqueue
      = .ready W sd c) :
    (w.ud id).isSome
    ∧ (∃ tid combo ct,
        E.skill_select w id target_id skill_id skill_lv casttime = some (tid, combo, ct)
        ∧ (∃ w3, c = (E.hook (.skill_casttime id tid skill_id skill_lv ct) w3).1)
        ∧ (combo = false → (W.UD id).attacktimer = INVALID_TIMER ∧ (W.UD id).target = 0))
    ∧ ((w.UD id).state.running = false → (W.UD id).walktimer = INVALID_TIMER)
    ∧ (c ≤ 0 → (W.UD id).state.skillcastcancel = false)
    ∧ ((w.UD id).skilltimer ≠ INVALID_TIMER → skill_id = SA_CASTCANCEL ∨ skill_id = SO_SPELLFIST) := by
  obtain ⟨src, ud, tid, combo, ct, target, w1, w2, near, hsrc, hud, hsel, htg, hck, hq, hcast⟩ :=
    skilluse_id_start_inv h
  have hs : (w.ud id).isSome := ud_isSome_of_bl2ud hsrc hud
  have v2 : ∀ {α : Type} (g : Block → α), (∀ b sa tt si sl st,
      g { b with ud := { b.ud with stepaction := sa, target_to := tt, stepskill_id := si,
                                   stepskill_lv := sl, steptimer := st } } = g b) →
      World.Same g w w2 :=
    fun g hg => skilluse_queue_go_same g hg (skilluse_id_checks_go_same g hf hck) hq
  have hs2 : (w2.ud id).isSome :=
    ud_isSome_of_same (v2 (fun b => b.type) (fun _ _ _ _ _ _ => rfl)) hs
  have hrun := World.Same.UD (g := fun u => u.state.running)
    (v2 (fun b => b.ud.state.running) (fun _ _ _ _ _ _ => rfl)) id
  obtain ⟨f1, -, -, f4, f5, f6⟩ := skilluse_id_cast_ready hf hs2 hcast
  refine ⟨hs, ⟨tid, combo, ct, hsel, f1, f4⟩, ?_, f6, ?_⟩
  · intro hr
    apply f5
    rw [hrun]
    exact hr
  · rw [UD_of_bl2ud hsrc hud]
    exact skilluse_id_checks_go hck

/-- The state in which a ground cast is ready to be scheduled. -/
theorem skilluse_pos_start_facts {E : Env} (hf : E.hooks_frame) {w W : World}
    {id x y skill_id skill_lv casttime castcancel : Int} {walkqueue : Bool}
    {sd : Option Int} {c : Int}
    (h : skilluse_pos_start E w id x y skill_id skill_lv casttime castcancel walkqueue
      = .ready W sd c) :
    (w.ud id).isSome
    ∧ (∃ w3, c = (E.hook (.skill_castfix_sc id skill_id skill_lv casttime) w3).1)
    ∧ ((W.UD id).attacktimer = INVALID_TIMER ∧ (W.UD id).target = 0)
    ∧ (W.UD id).walktimer = INVALID_TIMER
    ∧ (c ≤ 0 → (W.UD id).state.skillcastcancel = false)
    ∧ (w.UD id).skilltimer = INVALID_TIMER := by
  obtain ⟨src, ud, w1, w2, near, tt, hsrc, hud, hst, hck, hq, hcast⟩ :=
    skilluse_pos_start_inv h
  have hs : (w.ud id).isSome := ud_isSome_of_bl2ud hsrc hud
  have v2 : ∀ {α : Type} (g : Block → α), (∀ b sa tt si sl st,
      g { b with ud := { b.ud with stepaction := sa, target_to := tt, stepskill_id := si,
                                   stepskill_lv := sl, steptimer := st } } = g b) →
      World.Same g w w2 :=
    fun g hg => skilluse_queue_go_same g hg (skilluse_pos_checks_go_same g hf hck) hq
  have hs2 : (w2.ud id).isSome :=
    ud_isSome_of_same (v2 (fun b => b.type) (fun _ _ _ _ _ _ => rfl)) hs
  obtain ⟨f1, -, -, f4, f5, f6⟩ := skilluse_pos_cast_ready hf hs2 hcast
  refine ⟨hs, f1, f4, f5, f6, ?_⟩
  rw [UD_of_bl2ud hsrc hud]
  exact hst

/-! ## The cast timer -/

/-- What scheduling a targeted cast leaves alone: every view of a block that does not
depend on the cast timer handle and on the player data. -/
theorem skilluse_id_schedule_same {α : Type} (g : Block → α)
    (hg : ∀ b st sd, g { b with sd := sd, ud := { b.ud with skilltimer := st } } = g b)
    {E : Env} (hf : E.hooks_frame) (id : Int) (sd : Option Int) (skill_id c tick : Int)
    {w0 w : World} (h : World.Same g w0 w) :
    World.Same g w0 (skilluse_id_schedule E w id sd skill_id c tick).2 := by
  unfold skilluse_id_schedule
  apply skilluse_canlog_same g (fun b s => hg b b.ud.skilltimer s)
  cases sd <;> repeat' first
    | dsimp only
    | split
    | with_reducible assumption
    | with_reducible apply World.Same.hook hf
    | with_reducible apply World.Same.add_timer
    | with_reducible refine World.Same.modUd _ _ ?_ (fun b => hg b _ b.sd)

/-- What scheduling a ground cast leaves alone. -/
theorem skilluse_pos_schedule_same {α : Type} (g : Block → α)
    (hg : ∀ b st sd, g { b with sd := sd, ud := { b.ud with skilltimer := st } } = g b)
    {E : Env} (hf : E.hooks_frame) (id : Int) (sd : Option Int) (skill_id c tick : Int)
    {w0 w : World} (h : World.Same g w0 w) :
    World.Same g w0 (skilluse_pos_schedule E w id sd skill_id c tick).2 := by
  unfold skilluse_pos_schedule
  apply skilluse_canlog_same g (fun b s => hg b b.ud.skilltimer s)
  cases sd <;> repeat' first
    | dsimp only
    | split
    | with_reducible assumption
    | with_reducible apply World.Same.hook hf
    | with_reducible apply World.Same.add_timer
    | with_reducible refine World.Same.modUd _ _ ?_ (fun b => hg b _ b.sd)

theorem skilluse_canlog_timersLe {P : TimerData → Prop} (E : Env) (sd : Option Int)
    {w0 w : World} (h : World.TimersLe P w0 w) :
    World.TimersLe P w0 (skilluse_canlog E w sd).2 :=
  h.of_timers (skilluse_canlog_spec E w sd).2

/-- Scheduling a targeted cast schedules no timer but the cast timer
`skill_castend_id`. -/
theorem skilluse_id_schedule_timersLe {P : TimerData → Prop}
    (hP : ∀ td, P td → td.func ≠ .skill_castend_id)
    {E : Env} (hf : E.hooks_frame) (id : Int) (sd : Option Int) (skill_id c tick : Int)
    {w0 w : World} (h : World.TimersLe P w0 w) :
    World.TimersLe P w0 (skilluse_id_schedule E w id sd skill_id c tick).2 := by
  unfold skilluse_id_schedule
  apply skilluse_canlog_timersLe
  cases sd <;> repeat' first
    | dsimp only
    | split
    | with_reducible assumption
    | with_reducible apply World.TimersLe.tl_hook hf
    | with_reducible apply World.TimersLe.tl_add_timer _ _ _ hP
    | with_reducible apply World.TimersLe.tl_modUd

/-- Scheduling a ground cast schedules no timer but the cast timer `skill_castend_pos`. -/
theorem skilluse_pos_schedule_timersLe {P : TimerData → Prop}
    (hP : ∀ td, P td → td.func ≠ .skill_castend_pos)
    {E : Env} (hf : E.hooks_frame) (id : Int) (sd : Option Int) (skill_id c tick : Int)
    {w0 w : World} (h : World.TimersLe P w0 w) :
    World.TimersLe P w0 (skilluse_pos_schedule E w id sd skill_id c tick).2 := by
  unfold skilluse_pos_schedule
  apply skilluse_canlog_timersLe
  cases sd <;> repeat' first
    | dsimp only
    | split
    | with_reducible assumption
    | with_reducible apply World.TimersLe.tl_hook hf
    | with_reducible apply World.TimersLe.tl_add_timer _ _ _ hP
    | with_reducible apply World.TimersLe.tl_modUd

theorem skilluse_id_schedule_fst (E : Env) (w : World) (id : Int) (sd : Option Int)
    (skill_id c tick : Int) : (skilluse_id_schedule E w id sd skill_id c tick).1 = 1 := by
  unfold skilluse_id_schedule
  exact (skilluse_canlog_spec E _ sd).1

theorem skilluse_pos_schedule_fst (E : Env) (w : World) (id : Int) (sd : Option Int)
    (skill_id c tick : Int) : (skilluse_pos_schedule E w id sd skill_id c tick).1 = 1 := by
  unfold skilluse_pos_schedule
  exact (skilluse_canlog_spec E _ sd).1

theorem skilluse_id_schedule_timed_eq (E : Env) (w : World) (id : Int) (sd : Option Int)
    (skill_id : Int) {c : Int} (tick : Int) (hc : 0 < c) :
    ∃ wb, skilluse_id_schedule E w id sd skill_id c tick = skilluse_canlog E wb sd
      ∧ (wb = (add_timer w (tick + c) .skill_castend_id id 0).2.modUd id
            (fun u => { u with skilltimer := (add_timer w (tick + c) .skill_castend_id id 0).1 })
         ∨ ∃ s, wb = (E.hook (.status_calc_bl s)
            ((add_timer w (tick + c) .skill_castend_id id 0).2.modUd id
              (fun u => { u with
                skilltimer := (add_timer w (tick + c) .skill_castend_id id 0).1 }))).2) := by
  unfold skilluse_id_schedule
  dsimp only
  rw [if_pos hc]
  cases sd with
  | none => exact ⟨_, rfl, Or.inl rfl⟩
  | some s =>
    dsimp only
    split
    · exact ⟨_, rfl, Or.inr ⟨s, rfl⟩⟩
    · exact ⟨_, rfl, Or.inl rfl⟩

/-- A targeted cast with a cast time: the cast timer `skill_castend_id` is scheduled for
the tick plus the cast time, its handle is stored, and no cast-end handler is invoked. -/
theorem skilluse_id_schedule_timed {E : Env} (hf : E.hooks_frame) {w : World} {id : Int}
    (sd : Option Int) (skill_id : Int) {c : Int} (tick : Int) (hs : (w.ud id).isSome)
    (hc : 0 < c) :
    (skilluse_id_schedule E w id sd skill_id c tick).2.timers
        = ⟨w.next_tid, tick + c, .skill_castend_id, id, 0⟩ :: w.timers
    ∧ ((skilluse_id_schedule E w id sd skill_id c tick).2.UD id).skilltimer = w.next_tid
    ∧ ∀ f, skilluse_id_schedule (E.with_castend f) w id sd skill_id c tick
        = skilluse_id_schedule E w id sd skill_id c tick := by
  have hsu : (w.units id).isSome := ud_isSome_units hs
  obtain ⟨wb, key, hwb⟩ := skilluse_id_schedule_timed_eq E w id sd skill_id tick hc
  obtain ⟨wa, hwa⟩ : ∃ wa, wa = (add_timer w (tick + c) .skill_castend_id id 0).2.modUd id
      (fun u => { u with skilltimer := (add_timer w (tick + c) .skill_castend_id id 0).1 }) :=
    ⟨_, rfl⟩
  rw [← hwa] at hwb
  have hwt : wa.timers = ⟨w.next_tid, tick + c, .skill_castend_id, id, 0⟩ :: w.timers := by
    rw [hwa, modUd_timers, add_timer_timers]
  have hwst : (wa.UD id).skilltimer = w.next_tid := by
    rw [hwa, UD_modUd _ (by rw [add_timer_units]; exact hsu), add_timer_fst]
  have hbt : wb.timers = wa.timers := by
    rcases hwb with hwb | ⟨s, hwb⟩
    · rw [hwb]
    · rw [hwb, hook_timers hf]
  have hbs : World.Same (fun b => b.ud.skilltimer) wa wb := by
    rcases hwb with hwb | ⟨s, hwb⟩
    · rw [hwb]; exact World.Same.refl _ wa
    · rw [hwb]; exact World.Same.hook hf _ (World.Same.refl _ wa)
  refine ⟨?_, ?_, ?_⟩
  · rw [key, (skilluse_canlog_spec E wb sd).2, hbt, hwt]
  · rw [key]
    have := World.Same.UD (g := fun u => u.skilltimer)
      (skilluse_canlog_same (fun b => b.ud.skilltimer) (fun _ _ => rfl) E sd hbs) id
    rw [this, hwst]
  · intro f
    unfold skilluse_id_schedule
    dsimp only
    rw [if_pos hc, if_pos hc]
    rfl

/-- A targeted cast without cast time: no timer is scheduled, and the state is what the
cast-end handler `skill_castend_id`, invoked once, leaves, up to the logout lock. -/
theorem skilluse_id_schedule_instant {E : Env} (hf : E.hooks_frame) {w : World} {id : Int}
    (sd : Option Int) (skill_id : Int) {c : Int} (tick : Int) (hc : c ≤ 0) :
    (skilluse_id_schedule E w id sd skill_id c tick).2.timers = w.timers
    ∧ ∀ f, skilluse_id_schedule (E.with_castend f) w id sd skill_id c tick
        = skilluse_canlog E (f (.skill_castend_id (w.UD id).skilltimer tick id 0) w).2 sd := by
  have hn : ¬ c > 0 := not_lt.mpr hc
  refine ⟨?_, ?_⟩
  · unfold skilluse_id_schedule
    dsimp only
    rw [if_neg hn, (skilluse_canlog_spec E _ sd).2, hook_timers hf]
  · intro f
    unfold skilluse_id_schedule
    dsimp only
    rw [if_neg hn]
    rfl

theorem skilluse_pos_schedule_timed_eq (E : Env) (w : World) (id : Int) (sd : Option Int)
    (skill_id : Int) {c : Int} (tick : Int) (hc : 0 < c) :
    ∃ wb, skilluse_pos_schedule E w id sd skill_id c tick = skilluse_canlog E wb sd
      ∧ (wb = (add_timer w (tick + c) .skill_castend_pos id 0).2.modUd id
            (fun u => { u with skilltimer := (add_timer w (tick + c) .skill_castend_pos id 0).1 })
         ∨ ∃ s, wb = (E.hook (.status_calc_bl s)
            ((add_timer w (tick + c) .skill_castend_pos id 0).2.modUd id
              (fun u => { u with
                skilltimer := (add_timer w (tick + c) .skill_castend_pos id 0).1 }))).2) := by
  unfold skilluse_pos_schedule
  dsimp only
  rw [if_pos hc]
  split
  · exact ⟨_, rfl, Or.inr ⟨_, rfl⟩⟩
  · exact ⟨_, rfl, Or.inl rfl⟩

/-- A ground cast with a cast time: the cast timer `skill_castend_pos` is scheduled for
the tick plus the cast time, its handle is stored, and no cast-end handler is invoked. -/
theorem skilluse_pos_schedule_timed {E : Env} (hf : E.hooks_frame) {w : World} {id : Int}
    (sd : Option Int) (skill_id : Int) {c : Int} (tick : Int) (hs : (w.ud id).isSome)
    (hc : 0 < c) :
    (skilluse_pos_schedule E w id sd skill_id c tick).2.timers
        = ⟨w.next_tid, tick + c, .skill_castend_pos, id, 0⟩ :: w.timers
    ∧ ((skilluse_pos_schedule E w id sd skill_id c tick).2.UD id).skilltimer = w.next_tid
    ∧ ∀ f, skilluse_pos_schedule (E.with_castend f) w id sd skill_id c tick
        = skilluse_pos_schedule E w id sd skill_id c tick := by
  have hsu : (w.units id).isSome := ud_isSome_units hs
  obtain ⟨wb, key, hwb⟩ := skilluse_pos_schedule_timed_eq E w id sd skill_id tick hc
  obtain ⟨wa, hwa⟩ : ∃ wa, wa = (add_timer w (tick + c) .skill_castend_pos id 0).2.modUd id
      (fun u => { u with skilltimer := (add_timer w (tick + c) .skill_castend_pos id 0).1 }) :=
    ⟨_, rfl⟩
  rw [← hwa] at hwb
  have hwt : wa.timers = ⟨w.next_tid, tick + c, .skill_castend_pos, id, 0⟩ :: w.timers := by
    rw [hwa, modUd_timers, add_timer_timers]
  have hwst : (wa.UD id).skilltimer = w.next_tid := by
    rw [hwa, UD_modUd _ (by rw [add_timer_units]; exact hsu), add_timer_fst]
  have hbt : wb.timers = wa.timers := by
    rcases hwb with hwb | ⟨s, hwb⟩
    · rw [hwb]
    · rw [hwb, hook_timers hf]
  have hbs : World.Same (fun b => b.ud.skilltimer) wa wb := by
    rcases hwb with hwb | ⟨s, hwb⟩
    · rw [hwb]; exact World.Same.refl _ wa
    · rw [hwb]; exact World.Same.hook hf _ (World.Same.refl _ wa)
  refine ⟨?_, ?_, ?_⟩
  · rw [key, (skilluse_canlog_spec E wb sd).2, hbt, hwt]
  · rw [key]
    have := World.Same.UD (g := fun u => u.skilltimer)
      (skilluse_canlog_same (fun b => b.ud.skilltimer) (fun _ _ => rfl) E sd hbs) id
    rw [this, hwst]
  · intro f
    unfold skilluse_pos_schedule
    dsimp only
    rw [if_pos hc, if_pos hc]
    rfl

/-- A ground cast without cast time: no timer is scheduled, the handle is cleared, and the
state is what the cast-end handler `skill_castend_pos`, invoked once, leaves, up to the
logout lock. -/
theorem skilluse_pos_schedule_instant {E : Env} (hf : E.hooks_frame) {w : World} {id : Int}
    (sd : Option Int) (skill_id : Int) {c : Int} (tick : Int) (hc : c ≤ 0) :
    (skilluse_pos_schedule E w id sd skill_id c tick).2.timers = w.timers
    ∧ ∀ f, skilluse_pos_schedule (E.with_castend f) w id sd skill_id c tick
        = skilluse_canlog E (f (.skill_castend_pos
            ((w.modUd id (fun u => { u with skilltimer := INVALID_TIMER })).UD id).skilltimer
            tick id 0)
            (w.modUd id (fun u => { u with skilltimer := INVALID_TIMER }))).2 sd := by
  have hn : ¬ c > 0 := not_lt.mpr hc
  refine ⟨?_, ?_⟩
  · unfold skilluse_pos_schedule
    dsimp only
    rw [if_neg hn, (skilluse_canlog_spec E _ sd).2, hook_timers hf, modUd_timers]
  · intro f
    unfold skilluse_pos_schedule
    dsimp only
    rw [if_neg hn]
    rfl

/-! ## Refusals return 0 -/

theorem zero_ret (w : World) : (walk_result.ret 0 w).zero := by
  intro r w1 h
  cases h
  rfl

theorem zero_go (w : World) : (walk_result.go w).zero := by
  intro r w1 h
  cases h

theorem zero_andThen {a : walk_result} {f : World → walk_result} (ha : a.zero)
    (hf : ∀ w, (f w).zero) : (a.andThen f).zero := by
  cases a with
  | ret r w => exact ha
  | go w => exact hf w

theorem zero_refused (w : World) : (cast_start.refused 0 w).zero := by
  intro r w1 h
  cases h
  rfl

theorem zero_ready (w : World) (sd : Option Int) (c : Int) : (cast_start.ready w sd c).zero := by
  intro r w1 h
  cases h

theorem zero_start {a : walk_result} {f : World → cast_start} (ha : a.zero)
    (hf : ∀ w, (f w).zero) : (a.start f).zero := by
  cases a with
  | ret r w =>
    intro r1 w1 h
    cases h
    exact ha _ _ rfl
  | go w => exact hf w

theorem skilluse_id_checks_zero (E : Env) (w : World) (id : Int) (src target : Block)
    (ud : unit_data) (tid skill_id skill_lv : Int) :
    (skilluse_id_checks E w id src target ud tid skill_id skill_lv).zero := by
  unfold skilluse_id_checks
  repeat' first
    | dsimp only
    | with_reducible exact zero_ret _
    | with_reducible exact zero_go _
    | with_reducible refine zero_andThen ?_ (fun w1 => ?_)
    | split

theorem skilluse_pos_checks_zero (E : Env) (w : World) (id : Int) (sd : Bool)
    (x y skill_id skill_lv : Int) :
    (skilluse_pos_checks E w id sd x y skill_id skill_lv).zero := by
  unfold skilluse_pos_checks
  repeat' first
    | dsimp only
    | with_reducible exact zero_ret _
    | with_reducible exact zero_go _
    | with_reducible refine zero_andThen ?_ (fun w1 => ?_)
    | split

theorem skilluse_queue_zero (w : World) (id : Int) (src : Block) (walkqueue : Bool)
    (near : World → Bool) (tt skill_id skill_lv : Int) :
    (skilluse_queue w id src walkqueue near tt skill_id skill_lv).zero := by
  unfold skilluse_queue
  repeat' first
    | dsimp only
    | with_reducible exact zero_ret _
    | with_reducible exact zero_go _
    | split

theorem skilluse_uncloak_zero (E : Env) (w : World) (id : Int) (skill : Option Int) :
    (skilluse_uncloak E w id skill).zero := by
  unfold skilluse_uncloak
  repeat' first
    | dsimp only
    | with_reducible exact zero_ret _
    | with_reducible exact zero_go _
    | split

theorem skilluse_id_start_zero (E : Env) (w : World)
    (id target_id skill_id skill_lv casttime castcancel : Int) (walkqueue : Bool) :
    (skilluse_id_start E w id target_id skill_id skill_lv casttime castcancel walkqueue).zero := by
  unfold skilluse_id_start skilluse_id_cast
  repeat' first
    | dsimp only
    | with_reducible exact zero_refused _
    | with_reducible exact zero_ready _ _ _
    | with_reducible exact skilluse_id_checks_zero _ _ _ _ _ _ _ _ _
    | with_reducible exact skilluse_queue_zero _ _ _ _ _ _ _ _
    | with_reducible exact skilluse_uncloak_zero _ _ _ _
    | with_reducible refine zero_start ?_ (fun w1 => ?_)
    | split

theorem skilluse_pos_start_zero (E : Env) (w : World)
    (id x y skill_id skill_lv casttime castcancel : Int) (walkqueue : Bool) :
    (skilluse_pos_start E w id x y skill_id skill_lv casttime castcancel walkqueue).zero := by
  unfold skilluse_pos_start skilluse_pos_cast
  repeat' first
    | dsimp only
    | with_reducible exact zero_refused _
    | with_reducible exact zero_ready _ _ _
    | with_reducible exact skilluse_pos_checks_zero _ _ _ _ _ _ _ _
    | with_reducible exact skilluse_queue_zero _ _ _ _ _ _ _ _
    | with_reducible exact skilluse_uncloak_zero _ _ _ _
    | with_reducible refine zero_start ?_ (fun w1 => ?_)
    | split

/-- A targeted cast request is accepted, with the result 1, exactly when its start ends
ready. -/
theorem unit_skilluse_id2_accepted (E : Env) (w : World)
    (id target_id skill_id skill_lv casttime castcancel : Int) (walkqueue : Bool) :
    (unit_skilluse_id2 E w id target_id skill_id skill_lv casttime castcancel walkqueue).1 = 1
      ↔ ∃ W sd c, skilluse_id_start E w id target_id skill_id skill_lv casttime castcancel
          walkqueue = .ready W sd c := by
  have hz := skilluse_id_start_zero E w id target_id skill_id skill_lv casttime castcancel
    walkqueue
  unfold unit_skilluse_id2
  cases hst : skilluse_id_start E w id target_id skill_id skill_lv casttime castcancel
      walkqueue with
  | refused r W =>
    rw [hst] at hz
    have := hz r W rfl
    subst this
    simp
  | ready W sd c =>
    simp [skilluse_id_schedule_fst]

/-- A ground cast request is accepted, with the result 1, exactly when its start ends
ready. -/
theorem unit_skilluse_pos2_accepted (E : Env) (w : World)
    (id x y skill_id skill_lv casttime castcancel : Int) (walkqueue : Bool) :
    (unit_skilluse_pos2 E w id x y skill_id skill_lv casttime castcancel walkqueue).1 = 1
      ↔ ∃ W sd c, skilluse_pos_start E w id x y skill_id skill_lv casttime castcancel
          walkqueue = .ready W sd c := by
  have hz := skilluse_pos_start_zero E w id x y skill_id skill_lv casttime castcancel
    walkqueue
  unfold unit_skilluse_pos2
  cases hst : skilluse_pos_start E w id x y skill_id skill_lv casttime castcancel
      walkqueue with
  | refused r W =>
    rw [hst] at hz
    have := hz r W rfl
    subst this
    simp
  | ready W sd c =>
    simp [skilluse_pos_schedule_fst]

/-! ## The state in which a cast is ready -/

theorem skilluse_id_start_ready_world {E : Env} (hf : E.hooks_frame) {w W : World}
    {id target_id skill_id skill_lv casttime castcancel : Int} {walkqueue : Bool}
    {sd : Option Int} {c : Int}
    (h : skilluse_id_start E w id target_id skill_id skill_lv casttime castcancel walkqueue
      = .ready W sd c) :
    (W.ud id).isSome = (w.ud id).isSome ∧ World.TimersLe (fun _ => True) w W
    ∧ (W.UD id).skilltimer = (w.UD id).skilltimer := by
  have h1 := skilluse_id_start_same (fun b => (b.type, b.ud.skilltimer))
    (fun _ _ _ _ _ _ _ _ _ _ _ _ _ _ => rfl) (fun _ _ _ _ _ _ => rfl)
    (fun _ _ _ _ _ _ _ _ _ => rfl) (fun _ _ _ _ _ _ => rfl) hf w id target_id skill_id skill_lv
    casttime castcancel walkqueue
  have h2 := skilluse_id_start_timersLe (P := fun _ => True) hf w id target_id skill_id skill_lv
    casttime castcancel walkqueue
  rw [h] at h1 h2
  exact ⟨World.Same.ud_isSome (World.Same.mono Prod.fst h1) id, h2,
    World.Same.UD (g := fun u => u.skilltimer) (World.Same.mono Prod.snd h1) id⟩

theorem skilluse_pos_start_ready_world {E : Env} (hf : E.hooks_frame) {w W : World}
    {id x y skill_id skill_lv casttime castcancel : Int} {walkqueue : Bool}
    {sd : Option Int} {c : Int}
    (h : skilluse_pos_start E w id x y skill_id skill_lv casttime castcancel walkqueue
      = .ready W sd c) :
    (W.ud id).isSome = (w.ud id).isSome ∧ World.TimersLe (fun _ => True) w W
    ∧ (W.UD id).skilltimer = (w.UD id).skilltimer := by
  have h1 := skilluse_pos_start_same (fun b => (b.type, b.ud.skilltimer))
    (fun _ _ _ _ _ _ _ _ _ _ _ _ _ _ => rfl) (fun _ _ _ _ => rfl)
    (fun _ _ _ _ _ _ _ _ _ => rfl) (fun _ _ _ _ _ _ => rfl) hf w id x y skill_id skill_lv
    casttime castcancel walkqueue
  have h2 := skilluse_pos_start_timersLe (P := fun _ => True) hf w id x y skill_id skill_lv
    casttime castcancel walkqueue
  rw [h] at h1 h2
  exact ⟨World.Same.ud_isSome (World.Same.mono Prod.fst h1) id, h2,
    World.Same.UD (g := fun u => u.skilltimer) (World.Same.mono Prod.snd h1) id⟩

/-- Scheduling a cast leaves the flag `skillcastcancel` alone. -/
theorem skilluse_schedule_flag {E : Env} (hf : E.hooks_frame) (W : World) (id : Int)
    (sd : Option Int) (skill_id c tick : Int) :
    ((skilluse_id_schedule E W id sd skill_id c tick).2.UD id).state.skillcastcancel
        = (W.UD id).state.skillcastcancel
    ∧ ((skilluse_pos_schedule E W id sd skill_id c tick).2.UD id).state.skillcastcancel
        = (W.UD id).state.skillcastcancel :=
  ⟨World.Same.UD (g := fun u => u.state.skillcastcancel)
      (skilluse_id_schedule_same (fun b => b.ud.state.skillcastcancel)
        (fun _ _ _ => rfl) hf id sd skill_id c tick (World.Same.refl _ W)) id,
   World.Same.UD (g := fun u => u.state.skillcastcancel)
      (skilluse_pos_schedule_same (fun b => b.ud.state.skillcastcancel)
        (fun _ _ _ => rfl) hf id sd skill_id c tick (World.Same.refl _ W)) id⟩

/-! ## The start of a cast invokes no cast-end handler -/

theorem skilluse_id_start_castend (E : Env) (f : ext_call → World → Int × World) (w : World)
    (id target_id skill_id skill_lv casttime castcancel : Int) (walkqueue : Bool) :
    skilluse_id_start (E.with_castend f) w id target_id skill_id skill_lv casttime castcancel
        walkqueue
      = skilluse_id_start E w id target_id skill_id skill_lv casttime castcancel walkqueue :=
  rfl

theorem skilluse_pos_start_castend (E : Env) (f : ext_call → World → Int × World) (w : World)
    (id x y skill_id skill_lv casttime castcancel : Int) (walkqueue : Bool) :
    skilluse_pos_start (E.with_castend f) w id x y skill_id skill_lv casttime castcancel
        walkqueue
      = skilluse_pos_start E w id x y skill_id skill_lv casttime castcancel walkqueue :=
  rfl

theorem skillEnv_frame : skillEnv.hooks_frame :=
  fun _ _ => ⟨rfl, rfl, rfl, rfl⟩
/-! ## The attack code schedules no step timer -/

theorem World.TimersLe.tl_add_other {w w1 : World} (tick : Int) (func : timer_func) (id d : Int)
    (hne : func ≠ .unit_step_timer) (h : World.TimersLe is_step w w1) :
    World.TimersLe is_step w (Rathena.add_timer w1 tick func id d).2 :=
  World.TimersLe.tl_add_timer tick id d (fun _ hp hfn => hne (hfn.symm.trans hp)) h

theorem unit_can_move_timersLe {P : TimerData → Prop} (E : Env) (id : Int) {w0 w : World}
    (h : World.TimersLe P w0 w) : World.TimersLe P w0 (unit_can_move E w id).2 := by
  unfold unit_can_move
  repeat' first
    | split
    | dsimp only
    | with_reducible assumption
    | with_reducible apply World.TimersLe.tl_modBlock

theorem unit_walktoxy_sub_stepLe (E : Env) (id : Int) {w0 w : World}
    (h : World.TimersLe is_step w0 w) :
    World.TimersLe is_step w0 (unit_walktoxy_sub E w id).2 := by
  unfold unit_walktoxy_sub walk_arm path_store
  repeat' first
    | split
    | dsimp only
    | with_reducible assumption
    | with_reducible apply World.TimersLe.tl_add_other _ _ _ _ (by decide)
    | with_reducible apply World.TimersLe.tl_modUd
    | with_reducible apply World.TimersLe.tl_modBlock

theorem walk_icewall_part_timersLe {P : TimerData → Prop} {E : Env} (hf : E.hooks_frame)
    (tick id : Int) {w0 w : World} (h : World.TimersLe P w0 w) :
    World.TimersLe P w0 (walk_icewall_part E tick id w) := by
  unfold walk_icewall_part
  repeat' first
    | split
    | dsimp only
    | with_reducible assumption
    | with_reducible apply World.TimersLe.tl_hook hf
    | with_reducible apply World.TimersLe.tl_modUd
    | with_reducible apply World.TimersLe.tl_modBlock

theorem walk_done_event_part_timersLe {P : TimerData → Prop} {E : Env} (hf : E.hooks_frame)
    (id : Int) {w0 w : World} (h : World.TimersLe P w0 w) :
    World.TimersLe P w0 (walk_done_event_part E id w).world := by
  unfold walk_done_event_part
  repeat' first
    | rw [apply_ite walk_result.world]
    | simp only [world_ret, world_go]
    | split
    | dsimp only
    | with_reducible assumption
    | with_reducible apply World.TimersLe.tl_hook hf
    | with_reducible apply World.TimersLe.tl_modUd

theorem walk_touch_part_timersLe {P : TimerData → Prop} {E : Env} (hf : E.hooks_frame)
    (tid tick id x y : Int) {w0 w : World} (h : World.TimersLe P w0 w) :
    World.TimersLe P w0 (walk_touch_part E tid tick id x y w).world := by
  unfold walk_touch_part
  repeat' first
    | rw [apply_ite walk_result.world]
    | simp only [world_ret, world_go]
    | split
    | dsimp only
    | with_reducible assumption
    | with_reducible apply World.TimersLe.tl_hook hf
    | with_reducible apply World.TimersLe.tl_modUd
    | with_reducible apply World.TimersLe.tl_modBlock
    | (refine World.TimersLe.tl_andThen ?_ ?_)
    | intro w1 h1

theorem walk_move_part_stepLe {E : Env} (hf : E.hooks_frame)
    (tid tick id x y dx dy : Int) {w0 w : World} (h : World.TimersLe is_step w0 w) :
    World.TimersLe is_step w0 (walk_move_part E tid tick id x y dx dy w).world := by
  unfold walk_move_part
  repeat' first
    | rw [apply_ite walk_result.world]
    | simp only [world_ret, world_go]
    | split
    | dsimp only
    | with_reducible assumption
    | with_reducible apply World.TimersLe.tl_hook hf
    | with_reducible apply World.TimersLe.tl_add_other _ _ _ _ (by decide)
    | with_reducible apply World.TimersLe.tl_modUd
    | with_reducible apply World.TimersLe.tl_modBlock
    | (refine World.TimersLe.tl_andThen (walk_done_event_part_timersLe hf id ?_)
        (fun w1 h1 => walk_touch_part_timersLe hf tid tick id _ _ h1))

theorem unit_walktoxy_timer_step_stepLe {E : Env} (hf : E.hooks_frame)
    (rest : Int → Int → World → Int × World) {w0 : World}
    (hrest : ∀ x y w1, World.TimersLe is_step w0 w1 → World.TimersLe is_step w0 (rest x y w1).2)
    (tid tick id : Int) {w : World} (h : World.TimersLe is_step w0 w) :
    World.TimersLe is_step w0 (unit_walktoxy_timer_step E rest tid tick id w).2 := by
  unfold unit_walktoxy_timer_step
  repeat' first
    | split
    | dsimp only
    | with_reducible assumption
    | with_reducible apply World.TimersLe.tl_modUd
    | with_reducible apply unit_walktoxy_sub_stepLe E id
    | with_reducible apply walk_icewall_part_timersLe hf
    | (refine World.TimersLe.tl_finish (walk_move_part_stepLe hf tid tick id _ _ _ _ ?_)
        (fun w1 h1 => hrest _ _ w1 h1))

theorem unit_walktoxy_timer_direct_stepLe {E : Env} (hf : E.hooks_frame) (tick id : Int)
    {w0 w : World} (h : World.TimersLe is_step w0 w) :
    World.TimersLe is_step w0 (unit_walktoxy_timer_direct E tick id w).2 :=
  unit_walktoxy_timer_step_stepLe hf _ (fun _ _ _ h1 => h1) _ tick id h

theorem unit_stop_walking_stepLe {E : Env} (hf : E.hooks_frame) (id type : Int)
    {w0 w : World} (h : World.TimersLe is_step w0 w) :
    World.TimersLe is_step w0 (unit_stop_walking E w id type).2 := by
  unfold unit_stop_walking stop_walking_reset stop_walking_step stop_walking_cancel
  repeat' first
    | split
    | dsimp only
    | with_reducible assumption
    | with_reducible apply World.TimersLe.tl_hook hf
    | with_reducible apply World.TimersLe.tl_delete_timer
    | with_reducible apply World.TimersLe.tl_modUd
    | with_reducible apply unit_walktoxy_timer_direct_stepLe hf

theorem unit_set_walkdelay_stepLe {E : Env} (hf : E.hooks_frame) (id tick delay type : Int)
    {w0 w : World} (h : World.TimersLe is_step w0 w) :
    World.TimersLe is_step w0 (unit_set_walkdelay E w id tick delay type).2 := by
  unfold unit_set_walkdelay unit_set_walkdelay_apply
  repeat' first
    | split
    | dsimp only
    | with_reducible assumption
    | with_reducible apply World.TimersLe.tl_add_other _ _ _ _ (by decide)
    | with_reducible apply unit_stop_walking_stepLe hf
    | apply unit_can_move_timersLe E id
    | with_reducible apply World.TimersLe.tl_modUd

theorem set_mobstate_timersLe {P : TimerData → Prop} (id : Int) (flag : Bool) {w0 w : World}
    (h : World.TimersLe P w0 w) : World.TimersLe P w0 (set_mobstate w id flag) := by
  unfold set_mobstate
  repeat' first
    | split
    | dsimp only
    | with_reducible assumption
    | with_reducible apply World.TimersLe.tl_modBlock

theorem confuse_target_timersLe {P : TimerData → Prop} (E : Env) (id : Int) {w0 w : World}
    (h : World.TimersLe P w0 w) : World.TimersLe P w0 (confuse_target E w id) := by
  unfold confuse_target
  repeat' first
    | split
    | dsimp only
    | with_reducible assumption
    | with_reducible apply World.TimersLe.tl_modUd

theorem unit_walktobl_stepLe (E : Env) (id tid range flag : Int) {w0 w : World}
    (h : World.TimersLe is_step w0 w) :
    World.TimersLe is_step w0 (unit_walktobl E w id tid range flag).2 := by
  unfold unit_walktobl
  repeat' first
    | split
    | dsimp only
    | with_reducible assumption
    | with_reducible apply World.TimersLe.tl_add_other _ _ _ _ (by decide)
    | with_reducible apply set_mobstate_timersLe
    | with_reducible apply unit_walktoxy_sub_stepLe
    | with_reducible apply unit_can_move_timersLe
    | with_reducible apply confuse_target_timersLe
    | with_reducible apply unit_stop_attack_timersLe
    | with_reducible apply World.TimersLe.tl_modUd

theorem set_mobstate_same {α : Type} (g : Block → α) (hg : ∀ b md, g { b with md := md } = g b)
    (id : Int) (flag : Bool) {w0 w : World} (h : World.Same g w0 w) :
    World.Same g w0 (set_mobstate w id flag) := by
  unfold set_mobstate
  repeat' first
    | split
    | dsimp only
    | with_reducible assumption
    | with_reducible refine World.Same.modBlock _ _ ?_ (fun b => hg b _)

/-- What `unit_walktobl` leaves alone: every view of a block that does not depend on the
fields the attack code writes. -/
theorem unit_walktobl_same {α : Type} (g : Block → α)
    (hg : ∀ b x y wt dir wc wp tx ty cwt ws wde sd md cm atk lv t c a tt ac sa cr we,
      g (b.fight_write x y wt dir wc wp tx ty cwt ws wde sd md cm atk lv t c a tt ac sa cr we)
        = g b)
    (E : Env) (id tid range flag : Int) {w0 w : World} (h : World.Same g w0 w) :
    World.Same g w0 (unit_walktobl E w id tid range flag).2 := by
  have hw : ∀ b x y wt dir wc wp tx ty cwt ws wde sd md,
      g (b.walk_write x y wt dir wc wp tx ty cwt ws wde sd md) = g b :=
    fun b x y wt dir wc wp tx ty cwt ws wde sd md =>
      hg b x y wt dir wc wp tx ty cwt ws wde sd md b.ud.canmove_tick b.ud.attackabletime
        b.ud.attacktarget_lv b.ud.target b.ud.target_count b.ud.attacktimer b.ud.target_to
        b.ud.state.attack_continue b.ud.state.step_attack b.ud.chaserange b.ud.state.walk_easy
  have hmd : ∀ b md, g { b with md := md } = g b := fun b md =>
    hw b b.x b.y b.ud.walktimer b.ud.dir b.ud.walk_count b.ud.walkpath b.ud.to_x b.ud.to_y
      b.ud.state.change_walk_target b.ud.state.walk_script b.ud.walk_done_event b.sd md
  have ha : ∀ b t c a,
      g { b with ud := { b.ud with target := t, target_count := c, attacktimer := a } } = g b :=
    fun b t c a =>
      hg b b.x b.y b.ud.walktimer b.ud.dir b.ud.walk_count b.ud.walkpath b.ud.to_x b.ud.to_y
        b.ud.state.change_walk_target b.ud.state.walk_script b.ud.walk_done_event b.sd b.md
        b.ud.canmove_tick b.ud.attackabletime b.ud.attacktarget_lv t c a b.ud.target_to
        b.ud.state.attack_continue b.ud.state.step_attack b.ud.chaserange b.ud.state.walk_easy
  have hxy : ∀ b tx ty, g { b with ud := { b.ud with to_x := tx, to_y := ty } } = g b :=
    fun b tx ty =>
      hw b b.x b.y b.ud.walktimer b.ud.dir b.ud.walk_count b.ud.walkpath tx ty
        b.ud.state.change_walk_target b.ud.state.walk_script b.ud.walk_done_event b.sd b.md
  unfold unit_walktobl
  repeat' first
    | split
    | dsimp only
    | with_reducible assumption
    | with_reducible apply World.Same.add_timer
    | with_reducible apply set_mobstate_same g hmd
    | with_reducible apply unit_walktoxy_sub_same_of g hw
    | with_reducible apply unit_can_move_same g hmd
    | with_reducible apply confuse_target_same g hxy
    | with_reducible apply unit_stop_attack_same g ha
    | with_reducible refine World.Same.modUd _ _ ?_ (fun b =>
        hg b _ _ _ _ _ _ _ _ _ _ _ _ _ _ _ _ _ _ _ _ _ _ _ _)

/-! ## The chase target after an attack -/

theorem chase_target_in_same {w w1 : World} {id a b : Int}
    (h : World.Same (fun bl => bl.ud.target_to) w w1) (hk : chase_target_in w id a b) :
    chase_target_in w1 id a b := by
  unfold chase_target_in at hk ⊢
  rw [World.Same.UD (g := fun u => u.target_to) h id]
  exact hk

set_option maxHeartbeats 2000000 in
/-- After `unit_walktobl` the chase target is the one before, the block walked to or
cleared. -/
theorem unit_walktobl_target_to (E : Env) (w : World) (id tid range flag : Int) :
    chase_target_in (unit_walktobl E w id tid range flag).2 id (w.UD id).target_to tid := by
  have hk0 : chase_target_in w id (w.UD id).target_to tid := Or.inl rfl
  unfold unit_walktobl
  cases hsrc : w.units id with
  | none => exact hk0
  | some bl =>
    have hs : (w.units id).isSome := by rw [hsrc]; rfl
    cases htb : w.units tid with
    | none => exact hk0
    | some tbl =>
    dsimp only
    cases hr2 : (unit_can_reach_bl E w bl tbl (distance_bl E bl tbl + 1) (flagset flag 1)).2 <;>
    repeat' first
      | dsimp only
      | with_reducible exact hk0
      | with_reducible (refine chase_target_in_same (set_mobstate_same (fun bl => bl.ud.target_to) (fun _ _ => rfl) id _
          (World.Same.refl (fun bl => bl.ud.target_to) _)) ?_)
      | with_reducible (refine chase_target_in_same (unit_walktoxy_sub_same (fun bl => bl.ud.target_to)
          (fun _ _ _ _ _ _ _ _ _ _ _ _ _ _ => rfl) E _ id) ?_)
      | with_reducible (refine chase_target_in_same (unit_can_move_same (fun bl => bl.ud.target_to) (fun _ _ => rfl) E id
          (World.Same.refl (fun bl => bl.ud.target_to) _)) ?_)
      | with_reducible (refine chase_target_in_same (World.Same.add_timer _ _ _ _ (World.Same.refl (fun bl => bl.ud.target_to) _)) ?_)
      | with_reducible (refine chase_target_in_same (confuse_target_same (fun bl => bl.ud.target_to) (fun _ _ _ => rfl) E id
          (World.Same.refl (fun bl => bl.ud.target_to) _)) ?_)
      | with_reducible (refine chase_target_in_same (unit_stop_attack_same (fun bl => bl.ud.target_to) (fun _ _ _ _ => rfl) id
          (World.Same.refl (fun bl => bl.ud.target_to) _)) ?_)
      | with_reducible (refine chase_target_in_same (World.Same.modUd id
          (fun u => { u with state := { u.state with change_walk_target := true } })
          (World.Same.refl (fun bl => bl.ud.target_to) _) (fun _ => rfl)) ?_)
      | split
      | (refine Or.inr (Or.inl ?_); rw [UD_modUd _ (by simp [isSome_modUd, hs])]; done)
      | (refine Or.inr (Or.inr ?_); rw [UD_modUd _ (by simp [isSome_modUd, hs])]; done)

/-! ## What the attack timer leaves alone -/

theorem ite_snd_cases {c : Prop} [Decidable c] {a b : Int × World} {R : World → Prop}
    (ha : c → R a.2) (hb : ¬ c → R b.2) : R (if c then a else b).2 := by
  split
  · exact ha ‹_›
  · exact hb ‹_›

theorem ite_world_cases {c : Prop} [Decidable c] {a b : World} {R : World → Prop}
    (ha : c → R a) (hb : ¬ c → R b) : R (if c then a else b) := by
  split
  · exact ha ‹_›
  · exact hb ‹_›

theorem attack_rearm_stepLe (E : Env) (id : Int) {w0 w : World}
    (h : World.TimersLe is_step w0 w) :
    World.TimersLe is_step w0 (attack_rearm E w id).2 := by
  unfold attack_rearm
  repeat' first
    | split
    | dsimp only
    | with_reducible assumption
    | with_reducible apply World.TimersLe.tl_add_other _ _ _ _ (by decide)
    | with_reducible apply World.TimersLe.tl_modUd
    | with_reducible apply World.TimersLe.tl_modBlock

theorem attack_rearm_same {α : Type} (g : Block → α)
    (hg : ∀ b sd a, g { b with sd := sd, ud := { b.ud with attacktimer := a } } = g b)
    (E : Env) (id : Int) {w0 w : World} (h : World.Same g w0 w) :
    World.Same g w0 (attack_rearm E w id).2 := by
  unfold attack_rearm
  repeat' first
    | split
    | dsimp only
    | with_reducible assumption
    | with_reducible apply World.Same.add_timer
    | with_reducible refine World.Same.modUd _ _ ?_ (fun b => hg b b.sd _)
    | with_reducible refine World.Same.modBlock _ _ ?_ (fun b => hg b _ b.ud.attacktimer)

theorem attack_prepare_stepLe {E : Env} (hf : E.hooks_frame) (id target : Int) {w0 w : World}
    (h : World.TimersLe is_step w0 w) :
    World.TimersLe is_step w0 (attack_prepare E w id target) := by
  unfold attack_prepare
  repeat' first
    | split
    | dsimp only
    | with_reducible assumption
    | with_reducible apply unit_stop_walking_stepLe hf
    | with_reducible apply World.TimersLe.tl_modUd

theorem attack_mob_part_timersLe {P : TimerData → Prop} {E : Env} (hf : E.hooks_frame)
    (id target tick : Int) (md : Bool) {w0 w : World} (h : World.TimersLe P w0 w) :
    World.TimersLe P w0 (attack_mob_part E w id target tick md).world := by
  unfold attack_mob_part
  repeat' first
    | rw [apply_ite walk_result.world]
    | simp only [world_ret, world_go]
    | split
    | dsimp only
    | with_reducible assumption
    | with_reducible apply World.TimersLe.tl_hook hf
    | with_reducible apply World.TimersLe.tl_modBlock
    | (refine World.TimersLe.tl_andThen ?_ ?_)
    | intro w1 h1

theorem attack_pet_part_timersLe {P : TimerData → Prop} {E : Env} (hf : E.hooks_frame)
    (id target : Int) {w0 w : World} (h : World.TimersLe P w0 w) :
    World.TimersLe P w0 (attack_pet_part E w id target).world := by
  unfold attack_pet_part
  repeat' first
    | rw [apply_ite walk_result.world]
    | simp only [world_ret, world_go]
    | split
    | dsimp only
    | with_reducible assumption
    | with_reducible apply World.TimersLe.tl_hook hf

theorem attack_hit_part_stepLe {E : Env} (hf : E.hooks_frame)
    (id target tick : Int) (sd : Bool) {w0 w : World} (h : World.TimersLe is_step w0 w) :
    World.TimersLe is_step w0 (attack_hit_part E w id target tick sd).world := by
  unfold attack_hit_part
  repeat' first
    | rw [apply_ite walk_result.world]
    | simp only [world_ret, world_go]
    | split
    | dsimp only
    | with_reducible assumption
    | with_reducible apply World.TimersLe.tl_hook hf
    | with_reducible apply unit_set_walkdelay_stepLe hf
    | with_reducible apply World.TimersLe.tl_modUd

theorem attack_execute_stepLe {E : Env} (hf : E.hooks_frame)
    (id target tick : Int) (sd md : Bool) {w0 w : World} (h : World.TimersLe is_step w0 w) :
    World.TimersLe is_step w0 (attack_execute E w id target tick sd md).world := by
  unfold attack_execute
  refine World.TimersLe.tl_andThen (attack_mob_part_timersLe hf id target tick md
    (attack_prepare_stepLe hf id target h)) (fun w3 h3 => ?_)
  exact World.TimersLe.tl_andThen (attack_pet_part_timersLe hf id target h3)
    (fun w4 h4 => attack_hit_part_stepLe hf id target tick sd h4)

theorem unit_attack_timer_sub_stepLe {E : Env} (hf : E.hooks_frame) (id tid tick : Int)
    {w0 w : World} (h : World.TimersLe is_step w0 w) :
    World.TimersLe is_step w0 (unit_attack_timer_sub E w id tid tick).2 := by
  unfold unit_attack_timer_sub
  cases hsrc : w.units id with
  | none => exact h
  | some src =>
  dsimp only
  cases hud : unit_bl2ud src with
  | none => exact h
  | some ud =>
  dsimp only
  by_cases htid : ud.attacktimer ≠ tid
  · rw [if_pos htid]
    exact h
  rw [if_neg htid]
  have h1 : World.TimersLe is_step w0
      (w.modUd id (fun u => { u with attacktimer := INVALID_TIMER })) :=
    World.TimersLe.tl_modUd _ _ h
  generalize w.modUd id (fun u => { u with attacktimer := INVALID_TIMER }) = w1 at h1 ⊢
  cases htg : w1.units ud.target with
  | none => exact h1
  | some target =>
  repeat' first
    | with_reducible assumption
    | with_reducible apply World.TimersLe.tl_hook hf
    | with_reducible apply World.TimersLe.tl_add_other _ _ _ _ (by decide)
    | with_reducible apply unit_walktobl_stepLe
    | with_reducible apply attack_rearm_stepLe
    | with_reducible apply World.TimersLe.tl_modUd
    | (refine World.TimersLe.tl_finish (attack_execute_stepLe hf id _ tick _ _ ?_)
        (fun w2 h2 => attack_rearm_stepLe E id h2))
    | with_reducible (refine ite_snd_cases (fun _ => ?_) (fun _ => ?_))
    | with_reducible (refine ite_world_cases (fun _ => ?_) (fun _ => ?_))

theorem unit_attack_timer_stepLe {E : Env} (hf : E.hooks_frame) (tid tick id data : Int)
    {w0 w : World} (h : World.TimersLe is_step w0 w) :
    World.TimersLe is_step w0 (unit_attack_timer E tid tick id data w).2 := by
  unfold unit_attack_timer
  repeat' first
    | split
    | dsimp only
    | with_reducible assumption
    | with_reducible apply unit_unattackable_timersLe hf
    | with_reducible apply unit_attack_timer_sub_stepLe hf

/-- What `unit_attack_timer_sub` leaves alone: every view of a block that does not depend
on the fields the attack code writes. -/
theorem unit_attack_timer_sub_same {α : Type} (g : Block → α)
    (hg : ∀ b x y wt dir wc wp tx ty cwt ws wde sd md cm atk lv t c a tt ac sa cr we,
      g (b.fight_write x y wt dir wc wp tx ty cwt ws wde sd md cm atk lv t c a tt ac sa cr we)
        = g b)
    {E : Env} (hf : E.hooks_frame) (id tid tick : Int) {w0 w : World} (h : World.Same g w0 w) :
    World.Same g w0 (unit_attack_timer_sub E w id tid tick).2 := by
  have hx : ∀ b x y wt dir wc wp tx ty cwt ws wde sd md cm atk lv,
      g (b.attack_write x y wt dir wc wp tx ty cwt ws wde sd md cm atk lv) = g b :=
    fun b x y wt dir wc wp tx ty cwt ws wde sd md cm atk lv =>
      hg b x y wt dir wc wp tx ty cwt ws wde sd md cm atk lv b.ud.target b.ud.target_count
        b.ud.attacktimer b.ud.target_to b.ud.state.attack_continue b.ud.state.step_attack
        b.ud.chaserange b.ud.state.walk_easy
  have hr : ∀ b sd a, g { b with sd := sd, ud := { b.ud with attacktimer := a } } = g b :=
    fun b sd a =>
      hg b b.x b.y b.ud.walktimer b.ud.dir b.ud.walk_count b.ud.walkpath b.ud.to_x b.ud.to_y
        b.ud.state.change_walk_target b.ud.state.walk_script b.ud.walk_done_event sd b.md
        b.ud.canmove_tick b.ud.attackabletime b.ud.attacktarget_lv b.ud.target b.ud.target_count
        a b.ud.target_to b.ud.state.attack_continue b.ud.state.step_attack b.ud.chaserange
        b.ud.state.walk_easy
  unfold unit_attack_timer_sub
  cases hsrc : w.units id with
  | none => exact h
  | some src =>
  dsimp only
  cases hud : unit_bl2ud src with
  | none => exact h
  | some ud =>
  dsimp only
  by_cases htid : ud.attacktimer ≠ tid
  · rw [if_pos htid]
    exact h
  rw [if_neg htid]
  have h1 : World.Same g w0 (w.modUd id (fun u => { u with attacktimer := INVALID_TIMER })) :=
    World.Same.modUd _ _ h (fun b => hr b b.sd _)
  generalize w.modUd id (fun u => { u with attacktimer := INVALID_TIMER }) = w1 at h1 ⊢
  cases htg : w1.units ud.target with
  | none => exact h1
  | some target =>
  repeat' first
    | with_reducible assumption
    | with_reducible apply World.Same.hook hf
    | with_reducible apply World.Same.add_timer
    | with_reducible apply unit_walktobl_same g hg
    | with_reducible apply attack_rearm_same g hr
    | with_reducible refine World.Same.modUd _ _ ?_ (fun b =>
        hg b _ _ _ _ _ _ _ _ _ _ _ _ _ _ _ _ _ _ _ _ _ _ _ _)
    | (refine World.Same.finish (attack_execute_same g hx hf id _ tick _ _ ?_)
        (fun w2 h2 => attack_rearm_same g hr E id h2))
    | with_reducible (refine ite_snd_cases (fun _ => ?_) (fun _ => ?_))
    | with_reducible (refine ite_world_cases (fun _ => ?_) (fun _ => ?_))

/-- What `unit_attack_timer` leaves alone: every view of a block that does not depend on
the fields the attack code writes. -/
theorem unit_attack_timer_same {α : Type} (g : Block → α)
    (hg : ∀ b x y wt dir wc wp tx ty cwt ws wde sd md cm atk lv t c a tt ac sa cr we,
      g (b.fight_write x y wt dir wc wp tx ty cwt ws wde sd md cm atk lv t c a tt ac sa cr we)
        = g b)
    {E : Env} (hf : E.hooks_frame) (tid tick id data : Int) {w0 w : World}
    (h : World.Same g w0 w) :
    World.Same g w0 (unit_attack_timer E tid tick id data w).2 := by
  have ht : ∀ b t c a tt ac sa, g (b.target_write t c a tt ac sa) = g b :=
    fun b t c a tt ac sa =>
      hg b b.x b.y b.ud.walktimer b.ud.dir b.ud.walk_count b.ud.walkpath b.ud.to_x b.ud.to_y
        b.ud.state.change_walk_target b.ud.state.walk_script b.ud.walk_done_event b.sd b.md
        b.ud.canmove_tick b.ud.attackabletime b.ud.attacktarget_lv t c a tt ac sa b.ud.chaserange
        b.ud.state.walk_easy
  unfold unit_attack_timer
  repeat' first
    | split
    | dsimp only
    | with_reducible assumption
    | with_reducible apply unit_unattackable_same g (fun b t c tt ac sa => ht b t c b.ud.attacktimer tt ac sa) hf
    | with_reducible apply unit_attack_timer_sub_same g hg hf

/-! ## The chase target after the attack timer -/

theorem chase_target_in_walktobl (E : Env) {W : World} {id a b : Int} (range flag : Int)
    (hk : chase_target_in W id a b) :
    chase_target_in (unit_walktobl E W id b range flag).2 id a b := by
  rcases unit_walktobl_target_to E W id b range flag with h | h | h
  · unfold chase_target_in at hk ⊢
    rw [h]
    exact hk
  · exact Or.inr (Or.inl h)
  · exact Or.inr (Or.inr h)

theorem attack_strike_same {E : Env} (hf : E.hooks_frame) (id target tick : Int) (sd md : Bool)
    {w0 w : World} (h : World.Same (fun bl => bl.ud.target_to) w0 w) :
    World.Same (fun bl => bl.ud.target_to) w0
      ((attack_execute E w id target tick sd md).finish (fun w2 => attack_rearm E w2 id)).2 :=
  World.Same.finish
    (attack_execute_same (fun bl => bl.ud.target_to)
      (fun _ _ _ _ _ _ _ _ _ _ _ _ _ _ _ _ _ => rfl) hf id target tick sd md h)
    (fun _ h2 => attack_rearm_same (fun bl => bl.ud.target_to) (fun _ _ _ => rfl) E id h2)

/-- After `unit_attack_timer_sub` the chase target is the one before, the target of the
attack or cleared. -/
theorem unit_attack_timer_sub_target_to {E : Env} (hf : E.hooks_frame) (w : World)
    (id tid tick : Int) :
    chase_target_in (unit_attack_timer_sub E w id tid tick).2 id (w.UD id).target_to
      (w.UD id).target := by
  have h : chase_target_in w id (w.UD id).target_to (w.UD id).target := Or.inl rfl
  generalize (w.UD id).target_to = t0 at h ⊢
  unfold unit_attack_timer_sub
  cases hsrc : w.units id with
  | none => exact h
  | some src =>
  dsimp only
  cases hud : unit_bl2ud src with
  | none => exact h
  | some ud =>
  dsimp only
  rw [UD_of_bl2ud hsrc hud] at h ⊢
  by_cases htid : ud.attacktimer ≠ tid
  · rw [if_pos htid]
    exact h
  rw [if_neg htid]
  have h1 : chase_target_in (w.modUd id (fun u => { u with attacktimer := INVALID_TIMER })) id t0
      ud.target :=
    chase_target_in_same (World.Same.modUd id _ (World.Same.refl (fun bl => bl.ud.target_to) w)
      (fun _ => rfl)) h
  generalize w.modUd id (fun u => { u with attacktimer := INVALID_TIMER }) = w1 at h1 ⊢
  cases htg : w1.units ud.target with
  | none => exact h1
  | some target =>
  show chase_target_in (Prod.snd (ite _ _ _)) id t0 ud.target
  have k1 : ∀ (c : Prop) [Decidable c] (a b : Int × World),
      (c → chase_target_in a.2 id t0 ud.target) → (¬ c → chase_target_in b.2 id t0 ud.target) →
      chase_target_in (if c then a else b).2 id t0 ud.target :=
    fun c _ a b => ite_snd_cases (R := fun W => chase_target_in W id t0 ud.target)
  have k2 : ∀ (c : Prop) [Decidable c] (a b : World),
      (c → chase_target_in a id t0 ud.target) → (¬ c → chase_target_in b id t0 ud.target) →
      chase_target_in (if c then a else b) id t0 ud.target :=
    fun c _ a b => ite_world_cases (R := fun W => chase_target_in W id t0 ud.target)
  repeat' first
    | with_reducible assumption
    | with_reducible apply chase_target_in_walktobl
    | with_reducible (refine chase_target_in_same (World.Same.hook hf _
        (World.Same.refl (fun bl => bl.ud.target_to) _)) ?_)
    | with_reducible (refine chase_target_in_same (World.Same.add_timer _ _ _ _
        (World.Same.refl (fun bl => bl.ud.target_to) _)) ?_)
    | with_reducible (refine chase_target_in_same (attack_rearm_same (fun bl => bl.ud.target_to)
        (fun _ _ _ => rfl) E id (World.Same.refl (fun bl => bl.ud.target_to) _)) ?_)
    | with_reducible (refine chase_target_in_same (attack_strike_same hf id _ tick _ _
        (World.Same.refl (fun bl => bl.ud.target_to) _)) ?_)
    | with_reducible (refine chase_target_in_same (World.Same.modUd id _
        (World.Same.refl (fun bl => bl.ud.target_to) _) (fun _ => rfl)) ?_)
    | with_reducible (refine k1 _ _ _ (fun _ => ?_) (fun _ => ?_))
    | with_reducible (refine k2 _ _ _ (fun _ => ?_) (fun _ => ?_))

/-- After `unit_attack_timer` the chase target is the one before, the target of the attack
or cleared. -/
theorem unit_attack_timer_target_to {E : Env} (hf : E.hooks_frame) {w : World} {id : Int}
    (tid tick data : Int) (hs : (w.ud id).isSome) :
    chase_target_in (unit_attack_timer E tid tick id data w).2 id (w.UD id).target_to
      (w.UD id).target := by
  have hs1 : ((unit_attack_timer_sub E w id tid tick).2.ud id).isSome :=
    ud_isSome_of_same (unit_attack_timer_sub_same (fun b => b.type)
      (fun _ _ _ _ _ _ _ _ _ _ _ _ _ _ _ _ _ _ _ _ _ _ _ _ _ => rfl) hf id tid tick
      (World.Same.refl _ w)) hs
  unfold unit_attack_timer
  cases hsrc : w.units id with
  | none => exact Or.inl rfl
  | some src =>
  dsimp only
  split
  · exact Or.inr (Or.inl (unit_unattackable_resets hf hs1).2.1)
  · exact unit_attack_timer_sub_target_to hf w id tid tick

/-! ## A new request replaces the deferred one -/

theorem step_timer_gone_stop {w : World} {id : Int} (h : (w.ud id).isSome) :
    step_timer_gone w (unit_stop_stepaction w id) id
    ∧ step_buffer (unit_stop_stepaction w id) id = (false, 0, 0, 0) := by
  obtain ⟨p1, p2, p3, p4, p5, p6⟩ := unit_stop_stepaction_spec h
  refine ⟨⟨p5, fun hl td1 hg hfn td htd _ => p6 hl td1 hg hfn td htd⟩, ?_⟩
  unfold step_buffer
  rw [p1, p2, p3, p4]

/-- The step timer stays gone along a way on which the handle is not written and no step
timer is scheduled. -/
theorem step_timer_gone_trans {w w1 w2 : World} {id : Int} (h : step_timer_gone w w1 id)
    (hv : World.Same (fun b => b.ud.steptimer) w1 w2) (hle : World.TimersLe is_step w1 w2) :
    step_timer_gone w w2 id := by
  refine ⟨?_, fun hl td1 hg hfn td htd hst => ?_⟩
  · rw [World.Same.UD (g := fun u => u.steptimer) hv id]
    exact h.1
  · exact h.2 hl td1 hg hfn td (hle td htd hst) hst

theorem step_buffer_same {w w1 : World} {id : Int}
    (hv : World.Same (fun b => (b.ud.stepaction, b.ud.target_to, b.ud.stepskill_id,
      b.ud.stepskill_lv)) w w1) : step_buffer w1 id = step_buffer w id := by
  unfold step_buffer
  exact World.Same.UD (g := fun u => (u.stepaction, u.target_to, u.stepskill_id, u.stepskill_lv))
    hv id

/-- The deferral point of a cast request for an entity that holds a deferred request: the
step timer is gone, and either the new request is deferred (result 0) and the buffer holds
it, or the buffer is cleared. -/
theorem skilluse_queue_spec {w : World} {id : Int} (src : Block) (walkqueue : Bool)
    (near : World → Bool) (tt sk lv : Int) (hs : (w.ud id).isSome)
    (hheld : (w.UD id).stepaction = true ∨ (w.UD id).steptimer ≠ INVALID_TIMER) :
    step_timer_gone w (skilluse_queue w id src walkqueue near tt sk lv).world id
    ∧ ((skilluse_queue w id src walkqueue near tt sk lv
          = .ret 0 (skilluse_queue w id src walkqueue near tt sk lv).world
        ∧ step_buffer (skilluse_queue w id src walkqueue near tt sk lv).world id
            = (true, tt, sk, lv))
      ∨ ((skilluse_queue w id src walkqueue near tt sk lv).isGo = true
        ∧ step_buffer (skilluse_queue w id src walkqueue near tt sk lv).world id
            = (false, 0, 0, 0))) := by
  obtain ⟨g1, g2⟩ := step_timer_gone_stop hs
  have hs1 : ((unit_stop_stepaction w id).units id).isSome := by
    rw [World.Same.isSome (unit_stop_stepaction_same (fun b => b.type)
      (fun _ _ _ _ _ _ => rfl) id (World.Same.refl _ w)) id]
    exact ud_isSome_units hs
  unfold skilluse_queue
  dsimp only
  rw [if_pos hheld]
  split
  · refine ⟨?_, Or.inl ⟨rfl, ?_⟩⟩
    · rw [world_ret]
      exact step_timer_gone_trans g1
        (World.Same.modUd _ _ (World.Same.refl _ _) (fun _ => rfl))
        (World.TimersLe.tl_modUd _ _ (World.TimersLe.tl_refl _ _))
    · rw [world_ret]
      unfold step_buffer
      rw [UD_modUd _ hs1]
  · exact ⟨g1, Or.inr ⟨rfl, g2⟩⟩

theorem skilluse_id_checks_timers {E : Env} (hf : E.hooks_frame) (w : World) (id : Int)
    (src target : Block) (ud : unit_data) (tid skill_id skill_lv : Int) :
    (skilluse_id_checks E w id src target ud tid skill_id skill_lv).world.timers = w.timers := by
  unfold skilluse_id_checks
  repeat' first
    | rw [apply_ite walk_result.world]
    | simp only [world_ret, world_go]
    | dsimp only
    | rfl
    | rw [hook_timers hf]
    | rw [world_andThen_timers]
    | intro w1
    | split

theorem skilluse_pos_checks_timers {E : Env} (hf : E.hooks_frame) (w : World) (id : Int)
    (sd : Bool) (x y skill_id skill_lv : Int) :
    (skilluse_pos_checks E w id sd x y skill_id skill_lv).world.timers = w.timers := by
  unfold skilluse_pos_checks
  repeat' first
    | rw [apply_ite walk_result.world]
    | simp only [world_ret, world_go]
    | dsimp only
    | rfl
    | rw [hook_timers hf]
    | rw [world_andThen_timers]
    | intro w1
    | split

/-- The step timer is gone from `w0` on when it is gone from `w` on and `w` has the
timers and the handle of `w0`. -/
theorem step_timer_gone_from {w0 w w1 : World} {id : Int} (h : step_timer_gone w w1 id)
    (ht : w.timers = w0.timers) (hst : (w.UD id).steptimer = (w0.UD id).steptimer) :
    step_timer_gone w0 w1 id := by
  have hg : ∀ t, get_timer w t = get_timer w0 t := fun t => by unfold get_timer; rw [ht]
  refine ⟨h.1, fun hl td1 hg1 hfn td htd hs => ?_⟩
  rw [← hst] at hl hg1 ⊢
  rw [← hg] at hg1
  exact h.2 hl td1 hg1 hfn td htd hs

/-- The views of a block that hold the deferred-action buffer and the step timer
handle. -/
theorem cast_finish_id_same {α : Type} (g : Block → α)
    (hg : ∀ b st sd, g { b with sd := sd, ud := { b.ud with skilltimer := st } } = g b)
    {E : Env} (hf : E.hooks_frame) (id skill_id tick : Int) {w0 : World} (s : cast_start)
    (h : World.Same g w0 s.world) :
    World.Same g w0
      (match s with
        | .refused r w1 => (r, w1)
        | .ready w6 sd c => skilluse_id_schedule E w6 id sd skill_id c tick).2 := by
  cases s with
  | refused r w1 => exact h
  | ready w6 sd c => exact skilluse_id_schedule_same g hg hf id sd skill_id c tick h

theorem cast_finish_id_stepLe {E : Env} (hf : E.hooks_frame) (id skill_id tick : Int)
    {w0 : World} (s : cast_start) (h : World.TimersLe is_step w0 s.world) :
    World.TimersLe is_step w0
      (match s with
        | .refused r w1 => (r, w1)
        | .ready w6 sd c => skilluse_id_schedule E w6 id sd skill_id c tick).2 := by
  cases s with
  | refused r w1 => exact h
  | ready w6 sd c =>
    exact skilluse_id_schedule_timersLe (fun td hp hfn => by
      unfold is_step at hp
      rw [hp] at hfn
      cases hfn) hf id sd skill_id c tick h

theorem cast_finish_pos_same {α : Type} (g : Block → α)
    (hg : ∀ b st sd, g { b with sd := sd, ud := { b.ud with skilltimer := st } } = g b)
    {E : Env} (hf : E.hooks_frame) (id skill_id tick : Int) {w0 : World} (s : cast_start)
    (h : World.Same g w0 s.world) :
    World.Same g w0
      (match s with
        | .refused r w1 => (r, w1)
        | .ready w7 sd c => skilluse_pos_schedule E w7 id sd skill_id c tick).2 := by
  cases s with
  | refused r w1 => exact h
  | ready w6 sd c => exact skilluse_pos_schedule_same g hg hf id sd skill_id c tick h

theorem cast_finish_pos_stepLe {E : Env} (hf : E.hooks_frame) (id skill_id tick : Int)
    {w0 : World} (s : cast_start) (h : World.TimersLe is_step w0 s.world) :
    World.TimersLe is_step w0
      (match s with
        | .refused r w1 => (r, w1)
        | .ready w7 sd c => skilluse_pos_schedule E w7 id sd skill_id c tick).2 := by
  cases s with
  | refused r w1 => exact h
  | ready w6 sd c =>
    exact skilluse_pos_schedule_timersLe (fun td hp hfn => by
      unfold is_step at hp
      rw [hp] at hfn
      cases hfn) hf id sd skill_id c tick h

/-- A request through `unit_skilluse_id2` that reaches the deferral point replaces the
deferred request: the step timer is gone and the buffer holds the new request or is
cleared. -/
theorem unit_skilluse_id2_replaces {E : Env} (hf : E.hooks_frame) {w : World}
    {id target_id skill_id skill_lv casttime tid ct : Int} (castcancel : Int)
    (walkqueue : Bool) {combo : Bool} {src target : Block} {ud : unit_data}
    (hheld : (w.UD id).stepaction = true ∨ (w.UD id).steptimer ≠ INVALID_TIMER)
    (hsrc : w.units id = some src) (halive : E.status_isdead w id = false)
    (hud : unit_bl2ud src = some ud) (hblk : ud.state.blockedskill = false)
    (hsel : E.skill_select w id target_id skill_id skill_lv casttime = some (tid, combo, ct))
    (htg : w.units tid = some target)
    (hchk : (skilluse_id_checks E w id src target ud tid skill_id skill_lv).isGo = true) :
    step_timer_gone w
        (unit_skilluse_id2 E w id target_id skill_id skill_lv casttime castcancel walkqueue).2 id
    ∧ (step_buffer
          (unit_skilluse_id2 E w id target_id skill_id skill_lv casttime castcancel walkqueue).2
          id = (true, tid, skill_id, skill_lv)
      ∨ step_buffer
          (unit_skilluse_id2 E w id target_id skill_id skill_lv casttime castcancel walkqueue).2
          id = (false, 0, 0, 0)) := by
  obtain ⟨w1, hw1⟩ : ∃ w1, w1 = (skilluse_id_checks E w id src target ud tid skill_id
    skill_lv).world := ⟨_, rfl⟩
  have hgo : skilluse_id_checks E w id src target ud tid skill_id skill_lv = .go w1 := by
    rw [hw1]; exact eq_go_of_isGo hchk
  have hs : (w.ud id).isSome := ud_isSome_of_bl2ud hsrc hud
  have v1 : ∀ {α : Type} (g : Block → α), World.Same g w w1 :=
    fun g => skilluse_id_checks_go_same g hf hgo
  have hs1 : (w1.ud id).isSome := ud_isSome_of_same (v1 (fun b => b.type)) hs
  have ht1 : w1.timers = w.timers := by
    rw [hw1]; exact skilluse_id_checks_timers hf w id src target ud tid skill_id skill_lv
  have hu1 := World.Same.UD (g := fun u => (u.stepaction, u.steptimer))
    (v1 (fun b => (b.ud.stepaction, b.ud.steptimer))) id
  simp only [Prod.mk.injEq] at hu1
  have hheld1 : (w1.UD id).stepaction = true ∨ (w1.UD id).steptimer ≠ INVALID_TIMER := by
    rw [hu1.1, hu1.2]; exact hheld
  obtain ⟨range, hrange⟩ : ∃ range, range = (if src.type = .BL_NPC then E.area_size
    else E.skill_get_range2 w1 id skill_id skill_lv) := ⟨_, rfl⟩
  obtain ⟨q1, q2⟩ := skilluse_queue_spec src walkqueue
    (fun v => E.battle_check_range v id tid (range - 1)) tid skill_id skill_lv hs1 hheld1
  have q1 := step_timer_gone_from q1 ht1 hu1.2
  have hres : unit_skilluse_id2 E w id target_id skill_id skill_lv casttime castcancel walkqueue
      = match (skilluse_queue w1 id src walkqueue
            (fun v => E.battle_check_range v id tid (range - 1)) tid skill_id skill_lv).start
          (fun w2 =>
            if skilluse_id_range E w2 id src tid skill_id combo range then .refused 0 w2
            else skilluse_id_cast E w2 id src tid skill_id skill_lv ct castcancel w.gettick
              combo) with
        | .refused r w1 => (r, w1)
        | .ready w6 sd c => skilluse_id_schedule E w6 id sd skill_id c w.gettick := by
    unfold unit_skilluse_id2 skilluse_id_start
    rw [hsrc]
    dsimp only
    rw [if_neg (by rw [halive]; simp), hud]
    dsimp only
    rw [if_neg (by rw [hblk]; simp), hsel]
    dsimp only
    rw [htg]
    dsimp only
    rw [hgo, hrange]
    rfl
  rw [hres]
  obtain ⟨wq, hwq⟩ : ∃ wq, wq = (skilluse_queue w1 id src walkqueue
    (fun v => E.battle_check_range v id tid (range - 1)) tid skill_id skill_lv).world :=
    ⟨_, rfl⟩
  rw [← hwq] at q1 q2
  rcases q2 with ⟨e, hb⟩ | ⟨e, hb⟩
  · rw [e]
    exact ⟨q1, Or.inl hb⟩
  · rw [eq_go_of_isGo e, ← hwq]
    have hsame : ∀ {α : Type} (g : Block → α),
        (∀ b x y wt dir wc wp tx ty cwt ws wde sd md,
          g (b.walk_write x y wt dir wc wp tx ty cwt ws wde sd md) = g b) →
        (∀ b t c a atk scc,
          g { b with ud := { b.ud with target := t, target_count := c, attacktimer := a,
                                       attackabletime := atk,
                                       state := { b.ud.state with skillcastcancel := scc } } }
            = g b) →
        (∀ b sd ca st sx sy si sl scc,
          g { b with sd := sd,
                     ud := { b.ud with canact_tick := ca, skilltarget := st, skillx := sx,
                                       skilly := sy, skill_id := si, skill_lv := sl,
                                       state := { b.ud.state with skillcastcancel := scc } } }
            = g b) →
        World.Same g wq (if skilluse_id_range E wq id src tid skill_id combo range then
            cast_start.refused 0 wq
          else skilluse_id_cast E wq id src tid skill_id skill_lv ct castcancel w.gettick
            combo).world := by
      intro α g hw ha hc
      split
      · exact World.Same.refl g wq
      · exact skilluse_id_cast_same g hw ha hc hf id src tid skill_id skill_lv ct castcancel
          w.gettick combo (World.Same.refl g wq)
    have hle : World.TimersLe is_step wq (if skilluse_id_range E wq id src tid skill_id combo
          range then cast_start.refused 0 wq
        else skilluse_id_cast E wq id src tid skill_id skill_lv ct castcancel w.gettick
          combo).world := by
      split
      · exact World.TimersLe.tl_refl _ wq
      · exact skilluse_id_cast_timersLe hf id src tid skill_id skill_lv ct castcancel
          w.gettick combo (World.TimersLe.tl_refl _ wq)
    have k1 := step_timer_gone_trans q1
      (cast_finish_id_same (fun b => b.ud.steptimer) (fun _ _ _ => rfl) hf id skill_id
        w.gettick _ (hsame (fun b => b.ud.steptimer)
          (fun _ _ _ _ _ _ _ _ _ _ _ _ _ _ => rfl)
          (fun _ _ _ _ _ _ => rfl) (fun _ _ _ _ _ _ _ _ _ => rfl)))
      (cast_finish_id_stepLe hf id skill_id w.gettick _ hle)
    have k2 := @step_buffer_same _ _ id (cast_finish_id_same
        (fun b => (b.ud.stepaction, b.ud.target_to, b.ud.stepskill_id, b.ud.stepskill_lv))
        (fun _ _ _ => rfl) hf id skill_id w.gettick _
        (hsame (fun b => (b.ud.stepaction, b.ud.target_to, b.ud.stepskill_id,
            b.ud.stepskill_lv))
          (fun _ _ _ _ _ _ _ _ _ _ _ _ _ _ => rfl) (fun _ _ _ _ _ _ => rfl)
          (fun _ _ _ _ _ _ _ _ _ => rfl)))
    exact ⟨k1, Or.inr (k2.trans hb)⟩

/-- A request through `unit_skilluse_pos2` that reaches the deferral point replaces the
deferred request: the step timer is gone and the buffer holds the new request or is
cleared. -/
theorem unit_skilluse_pos2_replaces {E : Env} (hf : E.hooks_frame) {w : World}
    {id x y skill_id skill_lv : Int} (casttime castcancel : Int)
    (walkqueue : Bool) {src : Block} {ud : unit_data}
    (hheld : (w.UD id).stepaction = true ∨ (w.UD id).steptimer ≠ INVALID_TIMER)
    (hsrc : w.units id = some src) (hprev : src.prev = true)
    (halive : E.status_isdead w id = false)
    (hud : unit_bl2ud src = some ud) (hblk : ud.state.blockedskill = false)
    (hidle : ud.skilltimer = INVALID_TIMER)
    (hchk : (skilluse_pos_checks E w id (decide (src.type = .BL_PC)) x y skill_id
      skill_lv).isGo = true) :
    step_timer_gone w
        (unit_skilluse_pos2 E w id x y skill_id skill_lv casttime castcancel walkqueue).2 id
    ∧ (step_buffer
          (unit_skilluse_pos2 E w id x y skill_id skill_lv casttime castcancel walkqueue).2
          id = (true, x + y * E.map_xs src.m, skill_id, skill_lv)
      ∨ step_buffer
          (unit_skilluse_pos2 E w id x y skill_id skill_lv casttime castcancel walkqueue).2
          id = (false, 0, 0, 0)) := by
  obtain ⟨w1, hw1⟩ : ∃ w1, w1 = (skilluse_pos_checks E w id (decide (src.type = .BL_PC)) x y
    skill_id skill_lv).world := ⟨_, rfl⟩
  have hgo : skilluse_pos_checks E w id (decide (src.type = .BL_PC)) x y skill_id skill_lv
      = .go w1 := by
    rw [hw1]; exact eq_go_of_isGo hchk
  have hs : (w.ud id).isSome := ud_isSome_of_bl2ud hsrc hud
  have v1 : ∀ {α : Type} (g : Block → α), World.Same g w w1 :=
    fun g => skilluse_pos_checks_go_same g hf hgo
  have hs1 : (w1.ud id).isSome := ud_isSome_of_same (v1 (fun b => b.type)) hs
  have ht1 : w1.timers = w.timers := by
    rw [hw1]
    exact skilluse_pos_checks_timers hf w id (decide (src.type = .BL_PC)) x y skill_id skill_lv
  have hu1 := World.Same.UD (g := fun u => (u.stepaction, u.steptimer))
    (v1 (fun b => (b.ud.stepaction, b.ud.steptimer))) id
  simp only [Prod.mk.injEq] at hu1
  have hheld1 : (w1.UD id).stepaction = true ∨ (w1.UD id).steptimer ≠ INVALID_TIMER := by
    rw [hu1.1, hu1.2]; exact hheld
  obtain ⟨range, hrange⟩ : ∃ range, range = (if src.type = .BL_NPC then E.area_size
    else E.skill_get_range2 w1 id skill_id skill_lv) := ⟨_, rfl⟩
  obtain ⟨q1, q2⟩ := skilluse_queue_spec src walkqueue
    (fun v => E.battle_check_range_pos v id x y (range - 1)) (x + y * E.map_xs src.m) skill_id
    skill_lv hs1 hheld1
  have q1 := step_timer_gone_from q1 ht1 hu1.2
  have hres : unit_skilluse_pos2 E w id x y skill_id skill_lv casttime castcancel walkqueue
      = match (skilluse_queue w1 id src walkqueue
            (fun v => E.battle_check_range_pos v id x y (range - 1))
            (x + y * E.map_xs src.m) skill_id skill_lv).start
          (fun w2 =>
            if skilluse_pos_range E w2 id src x y range then .refused 0 w2
            else skilluse_pos_cast E w2 id (decide (src.type = .BL_PC)) x y skill_id skill_lv
              casttime castcancel w.gettick) with
        | .refused r w1 => (r, w1)
        | .ready w7 sd c => skilluse_pos_schedule E w7 id sd skill_id c w.gettick := by
    unfold unit_skilluse_pos2 skilluse_pos_start
    rw [hsrc]
    dsimp only
    rw [if_neg (by rw [hprev]; simp), if_neg (by rw [halive]; simp), hud]
    dsimp only
    rw [if_neg (by rw [hblk]; simp), if_neg (by rw [hidle]; simp)]
    rw [hgo, hrange]
    rfl
  rw [hres]
  obtain ⟨wq, hwq⟩ : ∃ wq, wq = (skilluse_queue w1 id src walkqueue
    (fun v => E.battle_check_range_pos v id x y (range - 1)) (x + y * E.map_xs src.m) skill_id
    skill_lv).world := ⟨_, rfl⟩
  rw [← hwq] at q1 q2
  rcases q2 with ⟨e, hb⟩ | ⟨e, hb⟩
  · rw [e]
    exact ⟨q1, Or.inl hb⟩
  · rw [eq_go_of_isGo e, ← hwq]
    have hsame : ∀ {α : Type} (g : Block → α),
        (∀ b x y wt dir wc wp tx ty cwt ws wde sd md,
          g (b.walk_write x y wt dir wc wp tx ty cwt ws wde sd md) = g b) →
        (∀ b t c a,
          g { b with ud := { b.ud with target := t, target_count := c, attacktimer := a } }
            = g b) →
        (∀ b sd ca st sx sy si sl scc,
          g { b with sd := sd,
                     ud := { b.ud with canact_tick := ca, skilltarget := st, skillx := sx,
                                       skilly := sy, skill_id := si, skill_lv := sl,
                                       state := { b.ud.state with skillcastcancel := scc } } }
            = g b) →
        World.Same g wq (if skilluse_pos_range E wq id src x y range then
            cast_start.refused 0 wq
          else skilluse_pos_cast E wq id (decide (src.type = .BL_PC)) x y skill_id skill_lv
            casttime castcancel w.gettick).world := by
      intro α g hw ha hc
      split
      · exact World.Same.refl g wq
      · exact skilluse_pos_cast_same g hw ha hc hf id _ x y skill_id skill_lv casttime
          castcancel w.gettick (World.Same.refl g wq)
    have hle : World.TimersLe is_step wq (if skilluse_pos_range E wq id src x y range then
          cast_start.refused 0 wq
        else skilluse_pos_cast E wq id (decide (src.type = .BL_PC)) x y skill_id skill_lv
          casttime castcancel w.gettick).world := by
      split
      · exact World.TimersLe.tl_refl _ wq
      · exact skilluse_pos_cast_timersLe hf id _ x y skill_id skill_lv casttime castcancel
          w.gettick (World.TimersLe.tl_refl _ wq)
    have k1 := step_timer_gone_trans q1
      (cast_finish_pos_same (fun b => b.ud.steptimer) (fun _ _ _ => rfl) hf id skill_id
        w.gettick _ (hsame (fun b => b.ud.steptimer)
          (fun _ _ _ _ _ _ _ _ _ _ _ _ _ _ => rfl)
          (fun _ _ _ _ => rfl) (fun _ _ _ _ _ _ _ _ _ => rfl)))
      (cast_finish_pos_stepLe hf id skill_id w.gettick _ hle)
    have k2 := @step_buffer_same _ _ id (cast_finish_pos_same
        (fun b => (b.ud.stepaction, b.ud.target_to, b.ud.stepskill_id, b.ud.stepskill_lv))
        (fun _ _ _ => rfl) hf id skill_id w.gettick _
        (hsame (fun b => (b.ud.stepaction, b.ud.target_to, b.ud.stepskill_id,
            b.ud.stepskill_lv))
          (fun _ _ _ _ _ _ _ _ _ _ _ _ _ _ => rfl) (fun _ _ _ _ => rfl)
          (fun _ _ _ _ _ _ _ _ _ => rfl)))
    exact ⟨k1, Or.inr (k2.trans hb)⟩

/-- An attack request through `unit_attack` that reaches the deferral point (the target is
valid and no attack timer is pending) replaces the deferred request: the step timer is gone
and the buffer holds the new request or is cleared, up to the chase target of the attack. -/
theorem unit_attack_replaces {E : Env} (hf : E.hooks_frame) {w : World} {id target_id : Int}
    (continuous : Int) {src target : Block}
    (hheld : (w.UD id).stepaction = true ∨ (w.UD id).steptimer ≠ INVALID_TIMER)
    (hsrc : w.units id = some src) (hud : (unit_bl2ud src).isSome)
    (htg : w.units target_id = some target) (halive : E.status_isdead w target_id = false)
    (hnpc : ¬ (src.type = .BL_PC ∧ target.type = .BL_NPC))
    (hcan : unit_can_attack E w id target_id = true)
    (huse : E.battle_check_target w id target_id > 0
      ∧ E.status_check_skilluse w id target_id = true)
    (htimer : src.ud.attacktimer = INVALID_TIMER) :
    step_timer_gone w (unit_attack E w id target_id continuous).2 id
    ∧ (step_buffer (unit_attack E w id target_id continuous).2 id = (true, target_id, 0, 0)
      ∨ step_buffer (unit_attack E w id target_id continuous).2 id = (false, 0, 0, 0)
      ∨ step_buffer (unit_attack E w id target_id continuous).2 id
          = (false, target_id, 0, 0)) := by
  have hudw : (w.ud id).isSome := by rw [ud_of_units hsrc]; exact hud
  obtain ⟨ud0, hud0⟩ := Option.isSome_iff_exists.mp hud
  obtain ⟨hrt, -⟩ := unit_attack_record_target E target_id continuous hudw
  obtain ⟨ct, -, -⟩ := unit_attack_record_clock E w id target_id continuous
  have hsame := unit_attack_record_same
    (fun b => (b.type, b.ud.attacktimer, b.ud.stepaction, b.ud.steptimer))
    (fun _ _ _ _ _ _ => rfl) E w id target_id continuous
  have hview := hsame.BL id
  rw [BL_of_units hsrc] at hview
  simp only [Prod.mk.injEq] at hview
  obtain ⟨-, v2, v3, v4⟩ := hview
  rw [← UD_eq_BL] at v2 v3 v4
  have hU : w.UD id = src.ud := by rw [UD_eq_BL, BL_of_units hsrc]
  obtain ⟨w3, hw3⟩ : ∃ w3, w3 = unit_attack_record E w id target_id continuous := ⟨_, rfl⟩
  rw [← hw3] at hrt ct hsame v2 v3 v4
  have hs3 : (w3.ud id).isSome :=
    ud_isSome_of_same (World.Same.mono Prod.fst hsame) hudw
  have hheld3 : (w3.UD id).stepaction = true ∨ (w3.UD id).steptimer ≠ INVALID_TIMER := by
    rw [v3, v4, ← hU]; exact hheld
  obtain ⟨g1, g2⟩ := step_timer_gone_stop hs3
  have g1 := step_timer_gone_from g1 ct (v4.trans (congrArg unit_data.steptimer hU.symm))
  have hv4 : ∀ {α : Type} (g : Block → α), (∀ b sa tt si sl st,
      g { b with ud := { b.ud with stepaction := sa, target_to := tt, stepskill_id := si,
                                   stepskill_lv := sl, steptimer := st } } = g b) →
      World.Same g w3 (unit_stop_stepaction w3 id) :=
    fun g hg => unit_stop_stepaction_same g hg id (World.Same.refl g w3)
  obtain ⟨w4, hw4⟩ : ∃ w4, w4 = unit_stop_stepaction w3 id := ⟨_, rfl⟩
  rw [← hw4] at g1 g2 hv4
  have hs4 : (w4.ud id).isSome :=
    ud_isSome_of_same (hv4 (fun b => b.type) (fun _ _ _ _ _ _ => rfl)) hs3
  have hsu4 : (w4.units id).isSome := ud_isSome_units hs4
  have ht4 : (w4.UD id).target = target_id := by
    rw [World.Same.UD (g := fun u => u.target)
      (hv4 (fun b => b.ud.target) (fun _ _ _ _ _ _ => rfl)) id]
    exact hrt
  have hhead : unit_attack E w id target_id continuous
      = if src.type = .BL_PC ∧ (w4.UD id).walktimer ≠ INVALID_TIMER
            ∧ !E.battle_check_range w4 id target_id
                (unit_attack_range E w id target_id continuous - 1) then
          (0, w4.modUd id (fun u =>
            { u with stepaction := true, target_to := u.target, stepskill_id := 0,
                     stepskill_lv := 0 }))
        else if (w4.UD id).attackabletime - w4.gettick > 0 then
          (0, (add_timer w4 (w4.UD id).attackabletime .unit_attack_timer id 0).2.modUd id
            (fun u => { u with
              attacktimer := (add_timer w4 (w4.UD id).attackabletime .unit_attack_timer id 0).1 }))
        else (0, (unit_attack_timer E INVALID_TIMER w4.gettick id 0 w4).2) := by
    unfold unit_attack
    rw [hsrc]
    dsimp only
    rw [hud0]
    dsimp only
    rw [htg]
    dsimp only
    rw [if_neg (by simp [halive]), if_neg hnpc, if_neg (by simp [hcan]),
      if_neg (by simp [huse.2]; omega)]
    rw [← hw3]
    have g1 : ¬ (w3.UD id).attacktimer ≠ INVALID_TIMER := by rw [v2, htimer]; simp
    rw [if_neg g1, if_pos hheld3, ← hw4]
  rw [hhead]
  split
  · refine ⟨step_timer_gone_trans g1 (World.Same.modUd _ _ (World.Same.refl _ _)
      (fun _ => rfl)) (World.TimersLe.tl_modUd _ _ (World.TimersLe.tl_refl _ _)), Or.inl ?_⟩
    unfold step_buffer
    rw [UD_modUd _ hsu4, ht4]
  · split
    · refine ⟨step_timer_gone_trans g1 (World.Same.modUd _ _
        (World.Same.add_timer _ _ _ _ (World.Same.refl _ _)) (fun _ => rfl))
        (World.TimersLe.tl_modUd _ _ (World.TimersLe.tl_add_other _ _ _ _ (by decide)
          (World.TimersLe.tl_refl _ _))), Or.inr (Or.inl ?_)⟩
      rw [← g2]
      exact step_buffer_same (World.Same.modUd _ _
        (World.Same.add_timer _ _ _ _ (World.Same.refl _ _)) (fun _ => rfl))
    · have hk := unit_attack_timer_target_to hf INVALID_TIMER w4.gettick 0 hs4
      have hv := World.Same.UD (g := fun u => (u.stepaction, u.stepskill_id, u.stepskill_lv))
        (unit_attack_timer_same
          (fun b => (b.ud.stepaction, b.ud.stepskill_id, b.ud.stepskill_lv))
          (fun _ _ _ _ _ _ _ _ _ _ _ _ _ _ _ _ _ _ _ _ _ _ _ _ _ => rfl) hf INVALID_TIMER
          w4.gettick id 0 (World.Same.refl _ w4)) id
      unfold step_buffer at g2 ⊢
      simp only [Prod.mk.injEq] at g2 hv ⊢
      obtain ⟨b1, b2, b3, b4⟩ := g2
      rw [b1, b3, b4] at hv
      rw [b2, ht4] at hk
      refine ⟨step_timer_gone_trans g1
        (unit_attack_timer_same (fun b => b.ud.steptimer)
          (fun _ _ _ _ _ _ _ _ _ _ _ _ _ _ _ _ _ _ _ _ _ _ _ _ _ => rfl) hf INVALID_TIMER
          w4.gettick id 0 (World.Same.refl _ w4))
        (unit_attack_timer_stepLe hf INVALID_TIMER w4.gettick id 0
          (World.TimersLe.tl_refl _ w4)), ?_⟩
      rcases hk with hk | hk | hk
      · exact Or.inr (Or.inl ⟨hv.1, hk, hv.2.1, hv.2.2⟩)
      · exact Or.inr (Or.inl ⟨hv.1, hk, hv.2.1, hv.2.2⟩)
      · exact Or.inr (Or.inr ⟨hv.1, hk, hv.2.1, hv.2.2⟩)


theorem rangeEnv_frame : rangeEnv.hooks_frame :=
  fun _ _ => ⟨rfl, rfl, rfl, rfl⟩


/-! ## The deferred action and the step timer -/

/-- The trimming loop on a path prefix: from the length `n` with the destination at the
end of the first `n` steps, the loop ends at a length `L` between 1 and `n` with the
destination at the end of the first `L` steps; every removed step costs at least
`MOVE_COST` of the budget, and nothing is removed without budget. -/
theorem chase_trim_spec (p : List Nat) (x y : Int) :
    ∀ (n : Nat) (i tx ty : Int), n ≤ p.length → (tx, ty) = walk_pos x y (p.take n) →
      (chase_trim p n i tx ty).1 ≤ n
      ∧ (1 ≤ n → 1 ≤ (chase_trim p n i tx ty).1)
      ∧ ((chase_trim p n i tx ty).2.1, (chase_trim p n i tx ty).2.2)
          = walk_pos x y (p.take (chase_trim p n i tx ty).1)
      ∧ (i ≤ 0 → (chase_trim p n i tx ty).1 = n)
      ∧ (0 < i → MOVE_COST * ((n : Int) - (chase_trim p n i tx ty).1) < i + MOVE_COST)
  | 0, i, tx, ty, _, h => by
    unfold chase_trim
    exact ⟨le_refl _, fun h0 => absurd h0 (by decide), h, fun _ => rfl, fun hi => by
      simp only [MOVE_COST]; omega⟩
  | n + 1, i, tx, ty, hn, h => by
    unfold chase_trim
    by_cases hc : i > 0 ∧ n + 1 > 1
    · rw [if_pos hc]
      dsimp only
      have hstep := walk_pos_take_succ p x y n (by omega)
      rw [hstep] at h
      simp only [Prod.mk.injEq] at h
      have hji : (if direction_diagonal (p.getD n 0) then i - MOVE_COST * 20 else i - MOVE_COST)
          ≤ i - 10 := by
        split <;> simp only [MOVE_COST] <;> omega
      generalize (if direction_diagonal (p.getD n 0) then i - MOVE_COST * 20 else i - MOVE_COST)
        = j at hji ⊢
      have ih := chase_trim_spec p x y n j
        (tx - dirx (p.getD n 0)) (ty - diry (p.getD n 0)) (by omega)
        (by rw [h.1, h.2]; ext <;> simp)
      obtain ⟨a1, a2, a3, a4, a5⟩ := ih
      refine ⟨by omega, fun _ => a2 (by omega), a3, fun hi => absurd hc.1 (by omega), fun _ => ?_⟩
      simp only [MOVE_COST] at a5 ⊢
      by_cases hb : j ≤ 0
      · rw [a4 hb]
        push_cast
        omega
      · have := a5 (by omega)
        push_cast
        omega
    · rw [if_neg hc]
      refine ⟨le_refl _, fun _ => by omega, h, fun _ => rfl, fun hi => ?_⟩
      simp only [MOVE_COST]
      push_cast
      omega

/-- The path stored for a chase: the found path with the length and the destination the
trimming loop ends with. -/
theorem path_store_chase {w : World} {id : Int} {b : Block} (p : List Nat)
    (hb : w.units id = some b) (hchase : b.ud.target_to ≠ 0) (hrange : b.ud.chaserange > 1) :
    ((path_store w id b b.ud p).UD id).walkpath.path = p
    ∧ ((path_store w id b b.ud p).UD id).walkpath.path_pos = 0
    ∧ ((path_store w id b b.ud p).UD id).walkpath.path_len
        = (chase_trim p p.length (b.ud.chaserange * 10 - 10) b.ud.to_x b.ud.to_y).1
    ∧ ((path_store w id b b.ud p).UD id).to_x
        = (chase_trim p p.length (b.ud.chaserange * 10 - 10) b.ud.to_x b.ud.to_y).2.1
    ∧ ((path_store w id b b.ud p).UD id).to_y
        = (chase_trim p p.length (b.ud.chaserange * 10 - 10) b.ud.to_x b.ud.to_y).2.2 := by
  have hs : (w.units id).isSome = true := by rw [hb]; rfl
  have hB : w.BL id = b := BL_of_units hb
  unfold path_store
  simp only [UD_eq_BL]
  by_cases hp : b.type = .BL_PC <;>
    simp [hchase, hrange, hp, BL_modUd, BL_modBlock, hs, hB]


/-! ## The cell of a deferred ground skill -/

theorem cell_unpack (xs x y : Int) (hxs : 0 < xs) (hx0 : 0 ≤ x) (hx : x < xs) (hy : 0 ≤ y) :
    Int.tmod (x + y * xs) xs = x ∧ Int.tdiv (x + y * xs) xs = y := by
  have hn : 0 ≤ x + y * xs := by positivity
  constructor
  · rw [Int.tmod_eq_emod hn (le_of_lt hxs), Int.add_mul_emod_self, Int.emod_eq_of_lt hx0 hx]
  · rw [Int.tdiv_eq_ediv hn (le_of_lt hxs), Int.add_mul_ediv_right _ _ (ne_of_gt hxs),
      Int.ediv_eq_zero_of_lt hx0 hx, zero_add]

theorem cell_pack_ne_zero (xs x y : Int) (hxs : 0 < xs) (hx0 : 0 ≤ x) (hy : 0 ≤ y)
    (hne : (x, y) ≠ (0, 0)) : x + y * xs ≠ 0 := by
  intro h
  have h1 : 0 ≤ y * xs := by positivity
  have hx : x = 0 := by omega
  have hyx : y * xs = 0 := by omega
  rcases mul_eq_zero.mp hyx with h2 | h2
  · exact hne (by rw [hx, h2])
  · omega

/-- The deferral point of a cast request of a walking player out of reach: the request is
deferred with result 0 and stands in the buffer. -/
theorem skilluse_queue_defers {w : World} {id : Int} {src : Block} (near : World → Bool)
    (tt sk lv : Int) (hs : (w.ud id).isSome) (hpc : src.type = .BL_PC)
    (hwalk : (w.UD id).walktimer ≠ INVALID_TIMER) (hfar : ∀ v, near v = false) :
    ∃ wd, skilluse_queue w id src true near tt sk lv = .ret 0 wd
      ∧ step_buffer wd id = (true, tt, sk, lv) := by
  have v1 : ∀ {α : Type} (g : Block → α), (∀ b sa tt si sl st,
      g { b with ud := { b.ud with stepaction := sa, target_to := tt, stepskill_id := si,
                                   stepskill_lv := sl, steptimer := st } } = g b) →
      World.Same g w (unit_stop_stepaction w id) :=
    fun g hg => unit_stop_stepaction_same g hg id (World.Same.refl g w)
  have hsu : (w.units id).isSome := ud_isSome_units hs
  unfold skilluse_queue
  dsimp only
  split
  · have hw : ((unit_stop_stepaction w id).UD id).walktimer ≠ INVALID_TIMER := by
      rw [World.Same.UD (g := fun u => u.walktimer)
        (v1 (fun b => b.ud.walktimer) (fun _ _ _ _ _ _ => rfl)) id]
      exact hwalk
    rw [if_pos ⟨rfl, hpc, hw, by rw [hfar]; rfl⟩]
    refine ⟨_, rfl, ?_⟩
    unfold step_buffer
    rw [UD_modUd _ (by
      rw [World.Same.isSome (v1 (fun b => b.type) (fun _ _ _ _ _ _ => rfl)) id]; exact hsu)]
  · rw [if_pos ⟨rfl, hpc, hwalk, by rw [hfar]; rfl⟩]
    refine ⟨_, rfl, ?_⟩
    unfold step_buffer
    rw [UD_modUd _ hsu]

/-- A ground skill requested by a walking player for a cell out of reach is deferred:
`unit_skilluse_pos2` returns 0 and the buffer holds the cell as one number. -/
theorem unit_skilluse_pos2_defers {E : Env} (hf : E.hooks_frame) {w : World}
    {id x y skill_id skill_lv : Int} (casttime castcancel : Int) {src : Block} {ud : unit_data}
    (hsrc : w.units id = some src) (hprev : src.prev = true)
    (halive : E.status_isdead w id = false)
    (hud : unit_bl2ud src = some ud) (hblk : ud.state.blockedskill = false)
    (hidle : ud.skilltimer = INVALID_TIMER)
    (hchk : (skilluse_pos_checks E w id (decide (src.type = .BL_PC)) x y skill_id
      skill_lv).isGo = true)
    (hpc : src.type = .BL_PC) (hwalk : ud.walktimer ≠ INVALID_TIMER)
    (hfar : ∀ v r, E.battle_check_range_pos v id x y r = false) :
    (unit_skilluse_pos2 E w id x y skill_id skill_lv casttime castcancel true).1 = 0
    ∧ step_buffer (unit_skilluse_pos2 E w id x y skill_id skill_lv casttime castcancel true).2 id
        = (true, x + y * E.map_xs src.m, skill_id, skill_lv) := by
  obtain ⟨w1, hw1⟩ : ∃ w1, w1 = (skilluse_pos_checks E w id (decide (src.type = .BL_PC)) x y
    skill_id skill_lv).world := ⟨_, rfl⟩
  have hgo : skilluse_pos_checks E w id (decide (src.type = .BL_PC)) x y skill_id skill_lv
      = .go w1 := by
    rw [hw1]; exact eq_go_of_isGo hchk
  have hs : (w.ud id).isSome := ud_isSome_of_bl2ud hsrc hud
  have v1 : ∀ {α : Type} (g : Block → α), World.Same g w w1 :=
    fun g => skilluse_pos_checks_go_same g hf hgo
  have hs1 : (w1.ud id).isSome := ud_isSome_of_same (v1 (fun b => b.type)) hs
  have hU : w.UD id = ud := by
    rw [UD_eq_BL, BL_of_units hsrc]
    exact (unit_bl2ud_eq hud).symm
  have hw : (w1.UD id).walktimer ≠ INVALID_TIMER := by
    rw [World.Same.UD (g := fun u => u.walktimer) (v1 (fun b => b.ud.walktimer)) id, hU]
    exact hwalk
  obtain ⟨range, hrange⟩ : ∃ range, range = (if src.type = .BL_NPC then E.area_size
    else E.skill_get_range2 w1 id skill_id skill_lv) := ⟨_, rfl⟩
  obtain ⟨wd, q1, q2⟩ := @skilluse_queue_defers _ _ src
    (fun v => E.battle_check_range_pos v id x y (range - 1)) (x + y * E.map_xs src.m) skill_id
    skill_lv hs1 hpc hw (fun v => hfar v _)
  have hres : unit_skilluse_pos2 E w id x y skill_id skill_lv casttime castcancel true
      = (0, wd) := by
    unfold unit_skilluse_pos2 skilluse_pos_start
    rw [hsrc]
    dsimp only
    rw [if_neg (by rw [hprev]; simp), if_neg (by rw [halive]; simp), hud]
    dsimp only
    rw [if_neg (by rw [hblk]; simp), if_neg (by rw [hidle]; simp)]
    rw [hgo]
    unfold walk_result.start
    dsimp only
    rw [← hrange, q1]
  rw [hres]
  exact ⟨rfl, q2⟩

/-- The step timer of a deferred ground skill: the cell is taken out of `target_to` by
division and remainder, and the skill is requested for it in the world with the buffer
emptied. -/
theorem unit_step_timer_ground (E : Env) {w : World} {id : Int} {bl : Block}
    (tid tick data : Int)
    (hb : w.units id = some bl) (hprev : bl.prev = true) (hud : (unit_bl2ud bl).isSome = true)
    (hst : bl.ud.steptimer = tid) (hsa : bl.ud.stepaction = true)
    (htt : bl.ud.target_to ≠ 0) (hsk : bl.ud.stepskill_id ≠ 0)
    (hg : E.skill_ground bl.ud.stepskill_id = true) :
    unit_step_timer E tid tick id data w
      = (1, (unit_skilluse_pos E (step_cleared w id) id
              (Int.tmod bl.ud.target_to (E.map_xs bl.m))
              (Int.tdiv bl.ud.target_to (E.map_xs bl.m))
              bl.ud.stepskill_id bl.ud.stepskill_lv true).2) := by
  unfold unit_step_timer step_cleared
  rw [hb]
  dsimp only
  rw [if_neg (by rw [hprev]; simp), unit_bl2ud_of_isSome hud]
  dsimp only
  rw [if_neg (by rw [hst]; simp), if_neg (by rw [hsa]; simp), if_neg htt, if_pos ⟨hsk, hg⟩]


/-! ## The recall timer -/

/-- The recall timer check of a slave with a master, by cases: the function with the
block type resolved. -/
theorem unit_check_start_teleport_timer_slave (E : Env) {w : World} {sid : Int}
    {sbl msd : Block} {mid : Int}
    (hs : w.units sid = some sbl) (hk : is_slave sbl) (hm : sbl.master = some mid)
    (hmsd : w.units mid = some msd) :
    unit_check_start_teleport_timer E w sid
      = if slave_max_dist E sbl.type ≠ 0 then
          if !check_distance_bl E msd sbl (slave_max_dist E sbl.type) then
            if sbl.masterteleport_timer = INVALID_TIMER ∨ sbl.masterteleport_timer = 0 then
              (0, (add_timer w (w.gettick + 3000) .unit_teleport_timer sid
                    (slave_max_dist E sbl.type)).2.modBlock sid
                  (fun b => { b with masterteleport_timer := (w.next_tid : Int) }))
            else (0, w)
          else
            (0, (if sbl.masterteleport_timer ≠ 0 ∧ sbl.masterteleport_timer ≠ INVALID_TIMER then
                  (delete_timer w sbl.masterteleport_timer .unit_teleport_timer).2
                else w).modBlock sid (fun b => { b with masterteleport_timer := INVALID_TIMER }))
        else (0, w) := by
  have hmaster : (unit_get_master w sid).bind w.units = some msd := by
    unfold unit_get_master
    rw [hs]
    rcases hk with h | h | h | h <;> simp [h, hm, hmsd]
  unfold unit_check_start_teleport_timer
  rw [hs]
  rcases hk with h | h | h | h <;>
    simp only [h, hmaster, slave_max_dist] <;> rfl


/-! ## The position next to the master -/

/-- The last resort of `unit_calc_pos`: when neither the cell two steps behind the master,
nor the cell one step closer, nor any of the twelve random candidates is reachable, the
function tests the cell `(tx, tx)`: it returns 1 with the destination `(tx, ty)` stored at
line 2508 when that cell is not reachable, and 0 with the destination `(tx, tx)` when it
is. -/
theorem unit_calc_pos_last_resort (E : Env) {w : World} {id : Int} {bl : Block} (tx ty : Int)
    (dir : Nat) (rnd : Nat → Nat)
    (hb : w.units id = some bl) (hud : (unit_bl2ud bl).isSome = true) (hdir : dir ≤ 7)
    (h1 : unit_can_reach_pos E (w.modUd id (fun u => { u with to_x := tx, to_y := ty })) bl
      (tx + -dirx dir * 2) (ty + -diry dir * 2) false = false)
    (h2 : unit_can_reach_pos E (w.modUd id (fun u => { u with to_x := tx, to_y := ty })) bl
      (calc_pos_closer (-dirx dir * 2) (-diry dir * 2) (tx + -dirx dir * 2)
        (ty + -diry dir * 2)).1
      (calc_pos_closer (-dirx dir * 2) (-diry dir * 2) (tx + -dirx dir * 2)
        (ty + -diry dir * 2)).2 false = false)
    (h3 : (calc_pos_search E (w.modUd id (fun u => { u with to_x := tx, to_y := ty })) bl tx ty
      rnd 12 0
      (calc_pos_closer (-dirx dir * 2) (-diry dir * 2) (tx + -dirx dir * 2)
        (ty + -diry dir * 2)).1
      (calc_pos_closer (-dirx dir * 2) (-diry dir * 2) (tx + -dirx dir * 2)
        (ty + -diry dir * 2)).2).1 = 12) :
    unit_calc_pos E w id tx ty dir rnd
      = if unit_can_reach_pos E (w.modUd id (fun u => { u with to_x := tx, to_y := ty })) bl
            tx tx false then
          (0, (w.modUd id (fun u => { u with to_x := tx, to_y := ty })).modUd id
            (fun u => { u with to_x := tx, to_y := tx }))
        else (1, w.modUd id (fun u => { u with to_x := tx, to_y := ty })) := by
  unfold unit_calc_pos
  rw [hb]
  dsimp only
  rw [unit_bl2ud_of_isSome hud]
  dsimp only
  rw [if_neg (by omega), h1]
  simp only [Bool.not_false, if_true]
  rw [h2]
  simp only [Bool.not_false, if_true]
  rw [if_pos h3]
  cases unit_can_reach_pos E (w.modUd id (fun u => { u with to_x := tx, to_y := ty })) bl
    tx tx false <;> rfl


/-! ## The counter of targeters -/

theorem UD_modUd_ite (w : World) (a : Int) (f : unit_data → unit_data) (k : Int) :
    (w.modUd a f).UD k = if k = a ∧ (w.units a).isSome = true then f (w.UD k) else w.UD k := by
  unfold World.UD
  rw [modUd_units]
  by_cases h : k = a
  · subst h
    cases hb : w.units k <;> simp
  · simp [h]

theorem ud_modUd (w : World) (a : Int) (f : unit_data → unit_data) (k : Int) :
    ((w.modUd a f).ud k).isSome = (w.ud k).isSome :=
  World.Same.ud_isSome (World.Same.modUd a f (World.Same.refl (fun b => b.type) w)
    (fun _ => rfl)) k

theorem ud_eq_some_UD {w : World} {k : Int} (h : (w.ud k).isSome = true) :
    w.ud k = some (w.UD k) := by
  obtain ⟨u, hu⟩ := Option.isSome_iff_exists.mp h
  obtain ⟨bl, hb, -, rfl⟩ := ud_some hu
  rw [hu, UD_eq_BL, BL_of_units hb]

theorem unit_set_target_eq (w : World) (j t : Int) :
    unit_set_target w j t
      = match w.ud j with
        | none => (0, w)
        | some ud => (0, (target_recount w ud.target t).modUd j (fun u => { u with target := t })) := by
  unfold unit_set_target target_recount
  cases w.ud j <;> rfl

theorem target_recount_same {α : Type} (g : Block → α)
    (hg : ∀ b c, g { b with ud := { b.ud with target_count := c } } = g b)
    (w : World) (old t : Int) : World.Same g w (target_recount w old t) := by
  unfold target_recount
  repeat' first
    | split
    | dsimp only
    | exact World.Same.refl g w
    | with_reducible refine World.Same.modUd _ _ ?_ (fun b => hg b _)

theorem target_recount_count (w : World) (old t : Int) {k : Int} (hk : (w.ud k).isSome = true) :
    ((target_recount w old t).UD k).target_count
      = (w.UD k).target_count
        - (if old ≠ t ∧ old ≠ 0 ∧ k = old ∧ (w.UD k).target_count > 0 then 1 else 0)
        + (if old ≠ t ∧ t ≠ 0 ∧ k = t ∧ (w.UD k).target_count < 255 then 1 else 0) := by
  have hku : (w.units k).isSome = true := ud_isSome_units hk
  unfold target_recount
  by_cases hc : old = t
  · simp [hc]
  · rw [if_pos hc]
    dsimp only
    -- the world after the old target's counter
    obtain ⟨wa, hwa⟩ : ∃ wa : World, wa = (if old ≠ 0 then
        match w.ud old with
        | some ux =>
          if ux.target_count > 0 then
            w.modUd old (fun u => { u with target_count := u.target_count - 1 })
          else w
        | none => w
      else w) := ⟨_, rfl⟩
    rw [← hwa]
    have ha : (wa.UD k).target_count = (w.UD k).target_count
        - (if old ≠ 0 ∧ k = old ∧ (w.UD k).target_count > 0 then 1 else 0) := by
      rw [hwa]
      by_cases h0 : old = 0
      · simp [h0]
      · rw [if_pos h0]
        by_cases hko : k = old
        · subst hko
          rw [ud_eq_some_UD hk]
          dsimp only
          by_cases hp : (w.UD k).target_count > 0
          · rw [if_pos hp, UD_modUd _ hku]
            simp [h0, hp]
          · rw [if_neg hp]
            simp [hp]
        · cases ho : w.ud old with
          | none => simp [hko]
          | some ux =>
            dsimp only
            split
            · rw [UD_modUd_ite, if_neg (fun h => hko h.1)]
              simp [hko]
            · simp [hko]
    have hsa : (wa.ud k).isSome = true := by
      rw [hwa]
      repeat' first
        | split
        | exact hk
        | (rw [ud_modUd]; exact hk)
    have hsau : (wa.units k).isSome = true := ud_isSome_units hsa
    have hta : ∀ i, i ≠ old → (wa.UD i).target_count = (w.UD i).target_count := by
      intro i hi
      rw [hwa]
      repeat' first
        | split
        | rfl
        | (rw [UD_modUd_ite, if_neg (fun h => hi h.1)])
    by_cases h0 : t = 0
    · rw [if_neg (by simpa using h0), ha]
      simp [hc, h0]
    · rw [if_pos h0]
      by_cases hkt : k = t
      · subst hkt
        have hne : k ≠ old := fun h => hc h.symm
        rw [ud_eq_some_UD hsa]
        dsimp only
        rw [hta k hne]
        by_cases hp : (w.UD k).target_count < 255
        · rw [if_pos hp, UD_modUd _ hsau, hta k hne]
          simp [hc, h0, hne, hp]
        · rw [if_neg hp, hta k hne]
          simp [hne, hp]
      · cases ho : wa.ud t with
        | none =>
          dsimp only
          rw [ha]
          simp [hc, hkt]
        | some ux =>
          dsimp only
          split
          · rw [UD_modUd_ite, if_neg (fun h => hkt h.1), ha]
            simp [hc, hkt]
          · rw [ha]
            simp [hc, hkt]

/-- What `unit_set_target` does to the control blocks: the target of the block `j` becomes
`t`; when the target changes, the counter of the old target goes down by one unless it is
0 already, and the counter of the new target goes up by one unless it is 255. -/
theorem unit_set_target_effect {w : World} {j : Int} (t : Int) (hj : (w.ud j).isSome = true)
    (k : Int) :
    ((unit_set_target w j t).2.ud k).isSome = (w.ud k).isSome
    ∧ ((unit_set_target w j t).2.UD k).target = (if k = j then t else (w.UD k).target)
    ∧ ((w.ud k).isSome = true →
        ((unit_set_target w j t).2.UD k).target_count
          = (w.UD k).target_count
            - (if (w.UD j).target ≠ t ∧ (w.UD j).target ≠ 0 ∧ k = (w.UD j).target
                  ∧ (w.UD k).target_count > 0 then 1 else 0)
            + (if (w.UD j).target ≠ t ∧ t ≠ 0 ∧ k = t ∧ (w.UD k).target_count < 255
                then 1 else 0)) := by
  have hju : (w.units j).isSome = true := ud_isSome_units hj
  have hsame : ∀ {α : Type} (g : Block → α),
      (∀ b c, g { b with ud := { b.ud with target_count := c } } = g b) →
      World.Same g w (target_recount w (w.UD j).target t) :=
    fun g hg => target_recount_same g hg w _ t
  have hru : ((target_recount w (w.UD j).target t).units j).isSome = true := by
    rw [(hsame (fun _ => ()) (fun _ _ => rfl)).isSome j]; exact hju
  rw [unit_set_target_eq, ud_eq_some_UD hj]
  dsimp only
  refine ⟨?_, ?_, ?_⟩
  · rw [ud_modUd, World.Same.ud_isSome (hsame (fun b => b.type) (fun _ _ => rfl)) k]
  · rw [UD_modUd_ite]
    by_cases hk : k = j
    · subst hk
      rw [if_pos ⟨rfl, hru⟩, if_pos rfl]
    · rw [if_neg (fun h => hk h.1), if_neg hk]
      exact World.Same.UD (g := fun u => u.target)
        (hsame (fun b => b.ud.target) (fun _ _ => rfl)) k
  · intro hk
    rw [UD_modUd_ite]
    split
    · exact target_recount_count w _ t hk
    · exact target_recount_count w _ t hk

theorem countP_update : ∀ (l : List Int), l.Nodup → ∀ (j : Int), j ∈ l → ∀ (p q : Int → Bool),
    (∀ k, k ≠ j → q k = p k) →
    (l.countP q : Int) = l.countP p - (if p j then 1 else 0) + (if q j then 1 else 0)
  | [], _, _, hm, _, _, _ => by simp at hm
  | a :: l, hnd, j, hm, p, q, h => by
    rw [List.nodup_cons] at hnd
    by_cases ha : a = j
    · subst ha
      have hl : l.countP q = l.countP p := by
        apply List.countP_congr
        intro k hk
        have : k ≠ a := fun e => hnd.1 (e ▸ hk)
        rw [h k this]
      rw [List.countP_cons, List.countP_cons, hl]
      cases p a <;> cases q a <;> simp
    · have hm1 : j ∈ l := by
        rcases List.mem_cons.mp hm with e | e
        · exact absurd e.symm ha
        · exact e
      have ih := countP_update l hnd.2 j hm1 p q h
      rw [List.countP_cons, List.countP_cons, h a ha]
      push_cast
      rw [ih]
      ring

theorem counttargeted_eq {w : World} {i : Int} (h : (w.ud i).isSome = true) :
    unit_counttargeted w i = (w.UD i).target_count := by
  unfold unit_counttargeted
  rw [ud_eq_some_UD h]

/-- The targeters after `unit_set_target` on the block `j`, one of the entities: the old
target has one less, the new target one more. -/
theorem targeters_set_target {w : World} {j : Int} (t : Int) {ids : List Int}
    (hj : (w.ud j).isSome = true) (hmem : j ∈ ids) (hnd : ids.Nodup) (i : Int) :
    (targeters (unit_set_target w j t).2 ids i : Int)
      = targeters w ids i - (if (w.UD j).target = i then 1 else 0) + (if t = i then 1 else 0) := by
  unfold targeters
  have h := countP_update ids hnd j hmem
    (fun k => decide ((w.ud k).isSome = true ∧ (w.UD k).target = i))
    (fun k => decide (((unit_set_target w j t).2.ud k).isSome = true
      ∧ ((unit_set_target w j t).2.UD k).target = i))
    (by
      intro k hk
      obtain ⟨e1, e2, -⟩ := unit_set_target_effect t hj k
      dsimp only
      rw [e1, e2, if_neg hk])
  rw [h]
  obtain ⟨e1, e2, -⟩ := unit_set_target_effect t hj j
  dsimp only
  rw [e1, e2, if_pos rfl]
  simp [hj]

/-- One call of `unit_set_target` keeps the counters exact when no entity has more than
254 targeters before it. -/
theorem counts_exact_set {w : World} {ids : List Int} (j t : Int) (hnd : ids.Nodup)
    (h0 : (0 : Int) ∉ ids) (hdom : ∀ k, (w.ud k).isSome = true ↔ k ∈ ids)
    (hex : counts_exact w ids) (hb : ∀ i, targeters w ids i ≤ 254) :
    (∀ k, ((unit_set_target w j t).2.ud k).isSome = true ↔ k ∈ ids)
    ∧ counts_exact (unit_set_target w j t).2 ids := by
  by_cases hj : (w.ud j).isSome = true
  · have hmem : j ∈ ids := (hdom j).mp hj
    refine ⟨fun k => by rw [(unit_set_target_effect t hj k).1]; exact hdom k, ?_⟩
    intro i hi
    have hiu : (w.ud i).isSome = true := (hdom i).mpr hi
    have hi0 : i ≠ 0 := fun e => h0 (e ▸ hi)
    obtain ⟨e1, -, e3⟩ := unit_set_target_effect t hj i
    rw [counttargeted_eq (by rw [e1]; exact hiu), e3 hiu, targeters_set_target t hj hmem hnd i]
    have hc := hex i hi
    rw [counttargeted_eq hiu] at hc
    rw [hc]
    have hn1 : (targeters w ids i : Int) ≤ 254 := by exact_mod_cast hb i
    have hn0 : (w.UD j).target = i → (0 : Int) < targeters w ids i := by
      intro e
      have : 0 < targeters w ids i := by
        unfold targeters
        rw [List.countP_pos_iff]
        exact ⟨j, hmem, by simp [hj, e]⟩
      exact_mod_cast this
    generalize (targeters w ids i : Int) = n at hn0 hn1 ⊢
    generalize (w.UD j).target = old at hn0 ⊢
    by_cases ho : old = i
    · have := hn0 ho
      by_cases hn : t = i
      · split_ifs <;> omega
      · split_ifs <;> omega
    · by_cases hn : t = i
      · split_ifs <;> omega
      · split_ifs <;> omega
  · have hw : (unit_set_target w j t).2 = w := by
      rw [unit_set_target_eq]
      cases hu : w.ud j with
      | none => rfl
      | some u => rw [hu] at hj; simp at hj
    rw [hw]
    exact ⟨hdom, hex⟩

theorem targeters_same {w w1 : World}
    (h : World.Same (fun b => (b.type, b.ud.target, b.ud.target_count)) w w1) (ids : List Int)
    (i : Int) : targeters w1 ids i = targeters w ids i := by
  unfold targeters
  apply List.countP_congr
  intro k _
  rw [World.Same.ud_isSome (World.Same.mono (fun v => v.1) h) k,
    World.Same.UD (g := fun u => u.target) (World.Same.mono (fun v => v.2.1) h) k]

theorem counttargeted_same {w w1 : World}
    (h : World.Same (fun b => (b.type, b.ud.target, b.ud.target_count)) w w1) (i : Int) :
    unit_counttargeted w1 i = unit_counttargeted w i := by
  have e := World.Same.ud_isSome (World.Same.mono (fun v => v.1) h) i
  cases hw : w.ud i with
  | none =>
    rw [hw] at e
    have e1 : w1.ud i = none := by
      cases h1 : w1.ud i with
      | none => rfl
      | some u => rw [h1] at e; simp at e
    unfold unit_counttargeted
    rw [hw, e1]
  | some u =>
    have hs : (w.ud i).isSome = true := by rw [hw]; rfl
    rw [counttargeted_eq hs, counttargeted_eq (by rw [e]; exact hs)]
    exact World.Same.UD (g := fun u => u.target_count) (World.Same.mono (fun v => v.2.2) h) i

/-- The part of `unit_stop_attack` after the target is cleared touches the attack timer
only. -/
theorem unit_stop_attack_after {α : Type} (g : Block → α)
    (hg : ∀ b t, g { b with ud := { b.ud with attacktimer := t } } = g b) (w : World) (j : Int)
    (hj : (w.ud j).isSome = true) :
    World.Same g (unit_set_target w j 0).2 (unit_stop_attack w j) := by
  unfold unit_stop_attack
  rw [ud_eq_some_UD hj]
  dsimp only
  split
  · exact World.Same.refl _ _
  · exact World.Same.modUd _ _ (World.Same.delete_timer _ _ (World.Same.refl _ _))
      (fun b => hg b _)

/-- One call of the target bookkeeping keeps the counters exact when no entity has more
than 254 targeters before it. -/
theorem counts_exact_run {w : World} {ids : List Int} (c : target_call) (hnd : ids.Nodup)
    (h0 : (0 : Int) ∉ ids) (hdom : ∀ k, (w.ud k).isSome = true ↔ k ∈ ids)
    (hex : counts_exact w ids) (hb : ∀ i, targeters w ids i ≤ 254) :
    (∀ k, ((c.run w).ud k).isSome = true ↔ k ∈ ids) ∧ counts_exact (c.run w) ids := by
  cases c with
  | set j t => exact counts_exact_set j t hnd h0 hdom hex hb
  | stop j =>
    show (∀ k, ((unit_stop_attack w j).ud k).isSome = true ↔ k ∈ ids)
      ∧ counts_exact (unit_stop_attack w j) ids
    by_cases hj : (w.ud j).isSome = true
    · obtain ⟨a1, a2⟩ := counts_exact_set j 0 hnd h0 hdom hex hb
      have hv := unit_stop_attack_after (fun b => (b.type, b.ud.target, b.ud.target_count))
        (fun _ _ => rfl) w j hj
      refine ⟨fun k => ?_, fun i hi => ?_⟩
      · rw [World.Same.ud_isSome (World.Same.mono (fun v => v.1) hv) k]
        exact a1 k
      · rw [counttargeted_same hv, targeters_same hv]
        exact a2 i hi
    · have hw : unit_stop_attack w j = w := by
        unfold unit_stop_attack
        cases hu : w.ud j with
        | none => rfl
        | some u => rw [hu] at hj; simp at hj
      rw [hw]
      exact ⟨hdom, hex⟩

/-- A run of calls keeps the counters exact when no entity ever has more than 254
targeters. -/
theorem counts_exact_runs {ids : List Int} (hnd : ids.Nodup) (h0 : (0 : Int) ∉ ids) :
    ∀ (cs : List target_call) (w : World), (∀ k, (w.ud k).isSome = true ↔ k ∈ ids) →
      counts_exact w ids → targeters_bounded ids w cs →
      (∀ k, ((run_target_calls w cs).ud k).isSome = true ↔ k ∈ ids)
      ∧ counts_exact (run_target_calls w cs) ids
      ∧ ∀ i, targeters (run_target_calls w cs) ids i ≤ 254
  | [], w, hdom, hex, hb => ⟨hdom, hex, hb⟩
  | c :: cs, w, hdom, hex, hb => by
    obtain ⟨a1, a2⟩ := counts_exact_run c hnd h0 hdom hex hb.1
    exact counts_exact_runs hnd h0 cs (c.run w) a1 a2 hb.2

/-- Setting the target a block already has changes no counter. -/
theorem unit_set_target_again {w : World} {j t : Int} (ht : (w.UD j).target = t) (i : Int) :
    unit_counttargeted (unit_set_target w j t).2 i = unit_counttargeted w i := by
  by_cases hj : (w.ud j).isSome = true
  · obtain ⟨e1, -, e3⟩ := unit_set_target_effect t hj i
    by_cases hi : (w.ud i).isSome = true
    · rw [counttargeted_eq hi, counttargeted_eq (by rw [e1]; exact hi), e3 hi]
      simp [ht]
    · have n1 : w.ud i = none := by
        cases h : w.ud i with
        | none => rfl
        | some u => rw [h] at hi; simp at hi
      have n2 : (unit_set_target w j t).2.ud i = none := by
        cases h : (unit_set_target w j t).2.ud i with
        | none => rfl
        | some u => rw [h, n1] at e1; simp at e1
      unfold unit_counttargeted
      rw [n1, n2]
  · have hw : (unit_set_target w j t).2 = w := by
      rw [unit_set_target_eq]
      cases hu : w.ud j with
      | none => rfl
      | some u => rw [hu] at hj; simp at hj
    rw [hw]

theorem targeters_le_length (w : World) (ids : List Int) (i : Int) :
    targeters w ids i ≤ ids.length := by
  unfold targeters
  exact List.countP_le_length _

/-- With at most 254 entities no entity ever has more than 254 targeters. -/
theorem targeters_bounded_of_length {ids : List Int} (h : ids.length ≤ 254) :
    ∀ (cs : List target_call) (w : World), targeters_bounded ids w cs
  | [], w => fun i => le_trans (targeters_le_length w ids i) h
  | c :: cs, w =>
    ⟨fun i => le_trans (targeters_le_length w ids i) h,
      targeters_bounded_of_length h cs (c.run w)⟩

theorem trioWorld_entities (k : Int) : (trioWorld.ud k).isSome = true ↔ k ∈ [1, 2, 3] := by
  unfold trioWorld World.ud
  by_cases h1 : k = 1
  · subst h1; simp; rfl
  · by_cases h2 : k = 2
    · subst h2; simp; rfl
    · by_cases h3 : k = 3
      · subst h3; simp; rfl
      · simp [h1, h2, h3]


/-! ## The chase update of the walk timer -/

/-- One firing of the walk timer of a walking block whose next cell is free, with what the
step leaves alone: every view of a block that does not depend on the fields the walking
code writes is the same in the world the step ends in. -/
theorem fire_walktimer_moves_view {E : Env} {id : Int} (hu : undisturbed E id) {w : World} {b : Block}
    {td : TimerData}
    (hb : w.units id = some b) (hud : (unit_bl2ud b).isSome = true) (hprev : b.prev = true)
    (hget : get_timer w b.ud.walktimer = some td) (hfunc : td.func = .unit_walktoxy_timer)
    (hid : td.id = id)
    (hpos : b.ud.walkpath.path_pos < b.ud.walkpath.path_len)
    (hdir : b.ud.walkpath.at b.ud.walkpath.path_pos < DIR_MAX)
    (hpass : ∀ w1, E.map_getcell w1 b.m (b.x + dirx (b.ud.walkpath.at b.ud.walkpath.path_pos))
      (b.y + diry (b.ud.walkpath.at b.ud.walkpath.path_pos)) .CELL_CHKNOPASS = false) :
    ∃ W, fire_walktimer E w id
        = (unit_walktoxy_timer_rest E td.tid td.tick id
            (b.x + dirx (b.ud.walkpath.at b.ud.walkpath.path_pos))
            (b.y + diry (b.ud.walkpath.at b.ud.walkpath.path_pos)) W).2
      ∧ (W.units id).isSome = true
      ∧ (∀ (α : Type) (g : Block → α),
          (∀ b x y wt dir wc wp tx ty cwt ws wde sd md,
            g (b.walk_write x y wt dir wc wp tx ty cwt ws wde sd md) = g b) → World.Same g w W)
      ∧ pending_walktimers W id = (pending_walktimers w id).filter (fun t => t.tid != td.tid)
      ∧ ∀ (α : Type) (g : Block → α), (∀ b wc ws wde md, g (b.step_write wc ws wde md) = g b) →
          g (W.BL id) = g { b with
            x := b.x + dirx (b.ud.walkpath.at b.ud.walkpath.path_pos),
            y := b.y + diry (b.ud.walkpath.at b.ud.walkpath.path_pos),
            ud := { b.ud with walktimer := INVALID_TIMER,
                              dir := b.ud.walkpath.at b.ud.walkpath.path_pos } } := by
  have htid : td.tid = b.ud.walktimer := get_timer_tid hget
  have hUD : w.UD id = b.ud := by rw [UD_eq_BL, BL_of_units hb]
  obtain ⟨W1, hW1⟩ : ∃ W1 : World, W1
      = { w with timers := w.timers.filter (fun t => t.tid != td.tid), gettick := td.tick } :=
    ⟨_, rfl⟩
  have hfire : fire_walktimer E w id = (unit_walktoxy_timer E td.tid td.tick id td.data W1).2 := by
    unfold fire_walktimer
    rw [hUD, hget]
    dsimp only
    rw [if_pos hfunc, hid, hW1]
  have hu1 : W1.units = w.units := by rw [hW1]
  have hb1 : W1.units id = some b := by rw [hu1]; exact hb
  have hs1 : (W1.units id).isSome = true := by rw [hb1]; rfl
  have hp1 : pending_walktimers W1 id
      = (pending_walktimers w id).filter (fun t => t.tid != td.tid) := by
    rw [hW1]
    unfold pending_walktimers
    dsimp only
    rw [List.filter_filter, List.filter_filter]
    congr 1
    funext t
    exact Bool.and_comm _ _
  obtain ⟨W2, hW2⟩ : ∃ W2, W2 = (W1.modUd id (fun u => { u with walktimer := INVALID_TIMER })).modUd id
      (fun u => { u with dir := b.ud.walkpath.at b.ud.walkpath.path_pos }) := ⟨_, rfl⟩
  have hs2 : (W2.units id).isSome = true := by
    rw [hW2, isSome_modUd, isSome_modUd]; exact hs1
  have hB2 : W2.BL id = { b with
      ud := { b.ud with
        walktimer := INVALID_TIMER,
        dir := b.ud.walkpath.at b.ud.walkpath.path_pos } } := by
    rw [hW2, BL_modUd _ (by rw [isSome_modUd]; exact hs1), BL_modUd _ hs1, BL_of_units hb1]
  have ht2 : W2.timers = W1.timers := by rw [hW2, modUd_timers, modUd_timers]
  have hstep : unit_walktoxy_timer E td.tid td.tick id td.data W1
      = (walk_move_part E td.tid td.tick id b.x b.y
          (dirx (b.ud.walkpath.at b.ud.walkpath.path_pos))
          (diry (b.ud.walkpath.at b.ud.walkpath.path_pos)) W2).finish
          (unit_walktoxy_timer_rest E td.tid td.tick id
            (b.x + dirx (b.ud.walkpath.at b.ud.walkpath.path_pos))
            (b.y + diry (b.ud.walkpath.at b.ud.walkpath.path_pos))) := by
    unfold unit_walktoxy_timer unit_walktoxy_timer_step
    rw [hb1]
    dsimp only
    rw [unit_bl2ud_of_isSome hud]
    dsimp only
    rw [if_neg (by rw [htid]; simp), if_neg (by rw [hprev]; simp), if_neg (by omega),
      if_neg (by omega)]
    simp only [hpass, hu.no_icewall, Bool.false_and, Bool.and_false, Bool.false_eq_true, if_false]
    rw [hW2]
  obtain ⟨hgo, hpend, hsome, hview⟩ := walk_move_part_go hu td.tid td.tick b.x b.y
    (dirx (b.ud.walkpath.at b.ud.walkpath.path_pos))
    (diry (b.ud.walkpath.at b.ud.walkpath.path_pos)) hs2
    (by rw [UD_eq_BL, hB2]) (by rw [hB2]; exact hprev)
  refine ⟨_, ?_, hsome, ?_, ?_, ?_⟩
  · rw [hfire, hstep, finish_of_isGo _ hgo]
  · intro α g hg
    refine walk_move_part_same g hg hu.frame _ _ _ _ _ _ _ ?_
    rw [hW2]
    refine World.Same.modUd _ _ (World.Same.modUd _ _ ?_ (fun b => ?_)) (fun b => ?_)
    · intro i
      rw [hu1]
    · exact hg b b.x b.y _ b.ud.dir b.ud.walk_count b.ud.walkpath b.ud.to_x b.ud.to_y
        b.ud.state.change_walk_target b.ud.state.walk_script b.ud.walk_done_event b.sd b.md
    · exact hg b b.x b.y b.ud.walktimer _ b.ud.walk_count b.ud.walkpath b.ud.to_x b.ud.to_y
        b.ud.state.change_walk_target b.ud.state.walk_script b.ud.walk_done_event b.sd b.md
  · rw [hpend, pending_walktimers_congr id ht2, hp1]
  · intro α g hg
    rw [hview α g hg, hB2]

/-- The remainder of the walk timer on the last step of a chase: with the path exhausted,
no deferred action and the entity not running, control reaches the chase update of lines
534-560. -/
theorem unit_walktoxy_timer_rest_chase (E : Env) {tid : Int} (htid : tid ≠ INVALID_TIMER)
    (tick x y : Int) {w : World} {id : Int} (hs : (w.units id).isSome = true)
    (hsa : (w.UD id).stepaction = false)
    (hcwt : (w.UD id).state.change_walk_target = false)
    (hlast : (w.UD id).walkpath.path_len ≤ (w.UD id).walkpath.path_pos + 1)
    (hrun : (w.UD id).state.running = false) (htt : (w.UD id).target_to ≠ 0) :
    unit_walktoxy_timer_rest E tid tick id x y w
      = walk_chase_part E id (w.modUd id (fun u =>
          { u with walkpath := { u.walkpath with path_pos := u.walkpath.path_pos + 1 } })) := by
  have hst : walk_stepaction_part E tick id w = w := by
    unfold walk_stepaction_part
    rw [if_neg (by rw [hsa]; simp)]
  unfold unit_walktoxy_timer_rest
  rw [if_neg htid]
  dsimp only
  rw [hst, if_neg (by rw [hcwt]; simp)]
  have hd : step_delay ((w.modUd id (fun u =>
      { u with walkpath := { u.walkpath with path_pos := u.walkpath.path_pos + 1 } })).UD
        id).walkpath
      (E.status_get_speed (w.modUd id (fun u =>
        { u with walkpath := { u.walkpath with path_pos := u.walkpath.path_pos + 1 } })) id)
      = -1 := by
    unfold step_delay
    rw [UD_modUd _ hs, if_pos (by dsimp only; omega)]
  rw [hd, if_neg (by decide), UD_modUd _ hs]
  dsimp only
  rw [if_neg (by rw [hrun]; simp), if_pos ⟨by rw [hsa]; rfl, htt⟩]

/-- The chase update when the chase is cancelled: the target is gone; or it is not visible
and no warp chase of a monster takes over; or it is visible on another map and the
chaser can move. Then the chase target is cleared and the destination is the chaser's own
cell; cells, maps and types are as before. -/
theorem walk_chase_part_cancel {E : Env} (hf : E.hooks_frame) {v : World} {id : Int}
    (hs : (v.ud id).isSome = true)
    (hcase : v.units (v.UD id).target_to = none
      ∨ ((v.units (v.UD id).target_to).isSome = true
          ∧ E.status_check_visibility v id (v.UD id).target_to = false
          ∧ ((v.BL id).type ≠ .BL_MOB
              ∨ ∀ W, (E.hook (.mob_warpchase id (v.UD id).target_to) W).1 = 0))
      ∨ ((v.units (v.UD id).target_to).isSome = true
          ∧ E.status_check_visibility v id (v.UD id).target_to = true
          ∧ (v.BL (v.UD id).target_to).m ≠ (v.BL id).m
          ∧ E.status_has_mode v id .MD_CANMOVE = true)) :
    World.Same (fun b => (b.type, b.m, b.x, b.y, b.prev)) v (walk_chase_part E id v).2
    ∧ ((walk_chase_part E id v).2.UD id).target_to = 0
    ∧ ((walk_chase_part E id v).2.UD id).to_x = (v.BL id).x
    ∧ ((walk_chase_part E id v).2.UD id).to_y = (v.BL id).y := by
  have hsu : (v.units id).isSome = true := ud_isSome_units hs
  obtain ⟨T, hT⟩ : ∃ T, T = (v.UD id).target_to := ⟨_, rfl⟩
  rw [← hT] at hcase
  obtain ⟨v1, hv1⟩ : ∃ v1, v1 = v.modUd id (fun u =>
    { u with to_x := (v.BL id).x, to_y := (v.BL id).y }) := ⟨_, rfl⟩
  have hs1 : (v1.units id).isSome = true := by rw [hv1, isSome_modUd]; exact hsu
  have hsame1 : World.Same (fun b => (b.type, b.m, b.x, b.y, b.prev)) v v1 := by
    rw [hv1]
    exact World.Same.modUd _ _ (World.Same.refl _ v) (fun _ => rfl)
  have hto1 : (v1.UD id).to_x = (v.BL id).x ∧ (v1.UD id).to_y = (v.BL id).y := by
    rw [hv1, UD_modUd _ hsu]
    exact ⟨rfl, rfl⟩
  -- the result of the branch that clears the chase target in `v1`
  have hclear : ∀ W : World, World.Same (fun b => (b.type, b.m, b.x, b.y, b.prev)) v W →
      (W.units id).isSome = true → (W.UD id).to_x = (v.BL id).x → (W.UD id).to_y = (v.BL id).y →
      World.Same (fun b => (b.type, b.m, b.x, b.y, b.prev)) v
        (W.modUd id (fun u => { u with target_to := 0 }))
      ∧ ((W.modUd id (fun u => { u with target_to := 0 })).UD id).target_to = 0
      ∧ ((W.modUd id (fun u => { u with target_to := 0 })).UD id).to_x = (v.BL id).x
      ∧ ((W.modUd id (fun u => { u with target_to := 0 })).UD id).to_y = (v.BL id).y := by
    intro W hW hWs hx hy
    rw [UD_modUd _ hWs]
    exact ⟨World.Same.modUd _ _ hW (fun _ => rfl), rfl, hx, hy⟩
  unfold walk_chase_part
  dsimp only
  rw [← hT]
  rcases hcase with hnone | ⟨hsome, hvis, hwarp⟩ | ⟨hsome, hvis, hmap, hmode⟩
  · rw [hnone]
    dsimp only
    rw [if_pos (by simp), ← hv1, if_neg (by
      intro h
      have h1 := h.1
      rw [hv1, isSome_modUd, hnone] at h1
      simp at h1)]
    exact hclear v1 hsame1 hs1 hto1.1 hto1.2
  · obtain ⟨tb, htb⟩ := Option.isSome_iff_exists.mp hsome
    rw [htb]
    dsimp only
    rw [hvis, if_pos (by simp), ← hv1]
    split
    · rename_i hmob
      have h0 : (E.hook (.mob_warpchase id T) v1).1 = 0 := by
        rcases hwarp with h | h
        · exfalso
          apply h
          have := hsame1.BL id
          simp only [Prod.mk.injEq] at this
          rw [← this.1]
          exact hmob.2
        · exact h v1
      rw [if_neg (by rw [h0]; simp)]
      refine hclear _ (World.Same.hook hf _ hsame1) (by rw [hook_units hf]; exact hs1) ?_ ?_
      · rw [UD_hook hf]; exact hto1.1
      · rw [UD_hook hf]; exact hto1.2
    · exact hclear v1 hsame1 hs1 hto1.1 hto1.2
  · obtain ⟨tb, htb⟩ := Option.isSome_iff_exists.mp hsome
    obtain ⟨bl, hbl⟩ := Option.isSome_iff_exists.mp hsu
    have hB : v.BL id = bl := BL_of_units hbl
    have hTB : v.BL T = tb := BL_of_units htb
    rw [htb]
    dsimp only
    rw [hvis, if_neg (by simp), if_neg (fun h => hmap h.1)]
    have hud : (unit_bl2ud bl).isSome = true := by
      rw [ud_of_units hbl] at hs; exact hs
    have hreach : unit_can_reach_bl E v bl tb (distance_bl E bl tb + 1)
        (flagset (if (v.UD id).state.attack_continue then 2 else 0) 1) = (false, none) := by
      unfold unit_can_reach_bl
      rw [if_pos (by rw [← hB, ← hTB]; exact fun h => hmap h.symm)]
    have hres : unit_walktobl E v id T (v.UD id).chaserange
        (if (v.UD id).state.attack_continue then 2 else 0)
        = (0, v.modUd id (fun u => { u with to_x := bl.x, to_y := bl.y, target_to := 0 })) := by
      unfold unit_walktobl
      rw [hbl]
      dsimp only
      rw [htb]
      dsimp only
      rw [unit_bl2ud_of_isSome hud]
      dsimp only
      rw [if_neg (by rw [hmode]; simp), hreach]
      rfl
    rw [hres, UD_modUd _ hsu, hB]
    exact ⟨World.Same.modUd _ _ (World.Same.refl _ v) (fun _ => rfl), rfl, rfl, rfl⟩

/-! ## Removal from the map -/

theorem stop_walking_step_zero (E : Env) (w : World) (id : Int) (ud : unit_data)
    (td : Option TimerData) : stop_walking_step E w id 0 ud td = w := by
  unfold stop_walking_step
  have h1 : flagset 0 USW_MOVE_ONCE = false := by decide
  have h2 : flagset 0 USW_MOVE_FULL_CELL = false := by decide
  simp only [h1, h2, Bool.false_and, Bool.or_self, Bool.false_eq_true, if_false]

/-- The clock after `unit_stop_walking(bl, 0)`. -/
theorem unit_stop_walking_zero_clock {E : Env} (hf : E.hooks_frame) (w : World) (id : Int) :
    (unit_stop_walking E w id 0).2.gettick = w.gettick := by
  unfold unit_stop_walking
  simp only [stop_walking_step_zero]
  unfold stop_walking_reset stop_walking_cancel
  repeat' first
    | split
    | dsimp only
    | rfl
    | rw [hook_gettick hf]
    | rw [modUd_gettick]
    | rw [delete_timer_gettick]

/-- After `unit_stop_walking(bl, 0)` no walk timer handle is stored. -/
theorem unit_stop_walking_zero_idle {E : Env} (hf : E.hooks_frame) {w : World} {id : Int}
    (h : (w.ud id).isSome) : ((unit_stop_walking E w id 0).2.UD id).walktimer = INVALID_TIMER := by
  have hs : (w.units id).isSome := ud_isSome_units h
  obtain ⟨bl, hb⟩ := Option.isSome_iff_exists.mp hs
  have hu : (unit_bl2ud bl).isSome := by rw [ud_of_units hb] at h; exact h
  obtain ⟨ud, hud⟩ := Option.isSome_iff_exists.mp hu
  have hude := unit_bl2ud_eq hud
  subst hude
  unfold unit_stop_walking
  rw [hb]
  dsimp only
  rw [hud]
  dsimp only
  simp only [stop_walking_step_zero]
  split
  · rename_i h0
    simp only [Bool.and_eq_true, beq_iff_eq] at h0
    rw [UD_eq_BL, BL_of_units hb]
    exact h0.2
  · have hc : ((stop_walking_cancel w id bl.ud).UD id).walktimer = INVALID_TIMER := by
      unfold stop_walking_cancel
      dsimp only
      split
      · rename_i hl
        rw [UD_modUd _ (by rw [isSome_modUd, delete_timer_units]; exact hs),
          UD_modUd _ (by rw [delete_timer_units]; exact hs)]
      · rename_i hl
        rw [UD_modUd _ hs, UD_eq_BL, BL_of_units hb]
        simpa using hl
    have hr : World.Same (fun b => b.ud.walktimer) (stop_walking_cancel w id bl.ud)
        (stop_walking_reset E (stop_walking_cancel w id bl.ud) id 0).2 := by
      unfold stop_walking_reset
      repeat' first
        | split
        | dsimp only
        | with_reducible exact World.Same.refl _ _
        | with_reducible apply World.Same.hook hf
        | with_reducible refine World.Same.modUd _ _ ?_ (fun b => rfl)
    have := World.Same.UD (g := fun u => u.walktimer) hr id
    exact this.trans hc

/-- What `unit_skillcastcancel` leaves alone: every view of a block that does not depend
on `canact_tick`, the cast timer handle and the player and monster data. -/
theorem unit_skillcastcancel_same {α : Type} (g : Block → α)
    (hg : ∀ b ca st sd md,
      g { b with sd := sd, md := md, ud := { b.ud with canact_tick := ca, skilltimer := st } } = g b)
    {E : Env} (hf : E.hooks_frame) (id type : Int) {w0 w : World} (h : World.Same g w0 w) :
    World.Same g w0 (unit_skillcastcancel E w id type).2 := by
  unfold unit_skillcastcancel
  repeat' first
    | split
    | dsimp only
    | with_reducible assumption
    | with_reducible apply World.Same.hook hf
    | with_reducible apply World.Same.delete_timer
    | with_reducible refine World.Same.modUd _ _ ?_ (fun b => hg b _ b.ud.skilltimer b.sd b.md)
    | with_reducible refine World.Same.modUd _ _ ?_ (fun b => hg b b.ud.canact_tick _ b.sd b.md)
    | with_reducible refine World.Same.modBlock _ _ ?_ (fun b => hg b b.ud.canact_tick b.ud.skilltimer _ b.md)
    | with_reducible refine World.Same.modBlock _ _ ?_ (fun b => hg b b.ud.canact_tick b.ud.skilltimer b.sd _)

/-- The clock after `unit_skillcastcancel`. -/
theorem unit_skillcastcancel_clock {E : Env} (hf : E.hooks_frame) (w : World) (id type : Int) :
    (unit_skillcastcancel E w id type).2.gettick = w.gettick := by
  unfold unit_skillcastcancel
  repeat' first
    | split
    | dsimp only
    | rfl
    | rw [hook_gettick hf]
    | rw [modUd_gettick]
    | rw [modBlock_gettick]
    | rw [delete_timer_gettick]

/-- The clock after `unit_stop_attack`. -/
theorem unit_stop_attack_clock (w : World) (id : Int) :
    (unit_stop_attack w id).gettick = w.gettick := by
  unfold unit_stop_attack
  repeat' first
    | split
    | dsimp only
    | rfl
    | rw [modUd_gettick]
    | rw [delete_timer_gettick]
    | rw [unit_set_target_gettick]

/-- The clock after `unit_stop_stepaction`. -/
theorem unit_stop_stepaction_clock (w : World) (id : Int) :
    (unit_stop_stepaction w id).gettick = w.gettick := by
  unfold unit_stop_stepaction
  repeat' first
    | split
    | dsimp only
    | rfl
    | rw [modUd_gettick]
    | rw [delete_timer_gettick]

/-- Collaborator calls that respect the frame leave every view of every block alone. -/
theorem World.Same.calls {α : Type} {g : Block → α} {E : Env} (hf : E.hooks_frame)
    (cs : List ext_call) {w0 w : World} (h : World.Same g w0 w) :
    World.Same g w0 (run_calls E cs w) := by
  unfold run_calls
  induction cs generalizing w with
  | nil => exact h
  | cons c cs ih => exact ih (World.Same.hook hf c h)

/-- What the dispels of `unit_remove_map_` leave alone: every view of a block. -/
theorem remove_map_dispels_same {α : Type} (g : Block → α) {E : Env} (hf : E.hooks_frame)
    (id : Int) (type : bl_type) {w0 w : World} (h : World.Same g w0 w) :
    World.Same g w0 (remove_map_dispels E w id type) := by
  unfold remove_map_dispels
  repeat' first
    | split
    | dsimp only
    | with_reducible assumption
    | with_reducible apply World.Same.hook hf
    | with_reducible apply World.Same.calls hf

theorem World.Same.steps_nil {α : Type} {g : Block → α} {w0 w : World} (h : World.Same g w0 w) :
    World.Same g w0 (run_steps [] w) := h

theorem World.Same.steps_cons {α : Type} {g : Block → α} {w0 w : World} {f : World → World}
    {fs : List (World → World)} (h1 : ∀ w1, World.Same g w0 w1 → World.Same g w0 (f w1))
    (h2 : ∀ w1, World.Same g w0 w1 → World.Same g w0 (run_steps fs w1))
    (h : World.Same g w0 w) : World.Same g w0 (run_steps (f :: fs) w) :=
  h2 _ (h1 _ h)

theorem remove_map_pc_leave_same {α : Type} (g : Block → α)
    (hg : ∀ b sd, g { b with sd := sd } = g b) {E : Env} (hf : E.hooks_frame)
    (id : Int) {w0 w : World} (h : World.Same g w0 w) :
    World.Same g w0 (remove_map_pc_leave E w id) := by
  unfold remove_map_pc_leave
  repeat' first
    | split
    | dsimp only
    | with_reducible assumption
    | with_reducible apply World.Same.steps_nil
    | with_reducible refine World.Same.steps_cons (fun w1 h1 => ?_) (fun w1 h1 => ?_) ?_
    | with_reducible apply World.Same.hook hf
    | with_reducible refine World.Same.modBlock _ _ ?_ (fun b => hg b _)

theorem remove_map_pc_reset_same {α : Type} (g : Block → α)
    (hg : ∀ b sd, g { b with sd := sd } = g b) {E : Env} (hf : E.hooks_frame)
    (id : Int) {w0 w : World} (h : World.Same g w0 w) :
    World.Same g w0 (remove_map_pc_reset E w id) := by
  unfold remove_map_pc_reset
  repeat' first
    | split
    | dsimp only
    | with_reducible assumption
    | with_reducible apply World.Same.steps_nil
    | with_reducible refine World.Same.steps_cons (fun w1 h1 => ?_) (fun w1 h1 => ?_) ?_
    | with_reducible apply World.Same.hook hf
    | with_reducible apply World.Same.calls hf
    | with_reducible apply World.Same.delete_timer
    | with_reducible refine World.Same.modBlock _ _ ?_ (fun b => hg b _)

theorem remove_map_pc_users_same {α : Type} (g : Block → α)
    (hg : ∀ b sd, g { b with sd := sd } = g b) {E : Env} (hf : E.hooks_frame)
    (id : Int) {w0 : World} {s : MapState} (h : World.Same g w0 s.world) :
    World.Same g w0 (remove_map_pc_users E s id).world := by
  unfold remove_map_pc_users MapState.onWorld
  repeat' first
    | split
    | dsimp only
    | with_reducible assumption
    | with_reducible apply World.Same.hook hf
    | with_reducible refine World.Same.modBlock _ _ ?_ (fun b => hg b _)

theorem remove_map_pc_pvp_world (E : Env) (s : MapState) (id : Int) :
    (remove_map_pc_pvp E s id).world = s.world := by
  unfold remove_map_pc_pvp
  dsimp only
  split <;> rfl

theorem remove_map_pc_hpmeter_same {α : Type} (g : Block → α)
    (hg : ∀ b sd, g { b with sd := sd } = g b)
    (id : Int) {w0 : World} {s : MapState} (h : World.Same g w0 s.world) :
    World.Same g w0 (remove_map_pc_hpmeter s id).world := by
  unfold remove_map_pc_hpmeter
  repeat' first
    | split
    | dsimp only
    | with_reducible assumption
    | with_reducible refine World.Same.modBlock _ _ ?_ (fun b => hg b _)

/-- What the case BL_PC of `unit_remove_map_` leaves alone: every view of a block that
does not depend on the player data. -/
theorem remove_map_pc_same {α : Type} (g : Block → α)
    (hg : ∀ b sd, g { b with sd := sd } = g b) {E : Env} (hf : E.hooks_frame)
    (id : Int) (file : String) (line : Int) (func : String) {w0 : World} {s : MapState}
    (h : World.Same g w0 s.world) :
    World.Same g w0 (remove_map_pc E s id file line func).world := by
  unfold remove_map_pc remove_map_pc_record MapState.onWorld
  dsimp only
  refine World.Same.modBlock _ _ ?_ (fun b => hg b _)
  apply remove_map_pc_hpmeter_same g hg
  rw [remove_map_pc_pvp_world]
  apply remove_map_pc_users_same g hg hf
  exact remove_map_pc_reset_same g hg hf id (remove_map_pc_leave_same g hg hf id h)

/-- What the case BL_MOB of `unit_remove_map_` leaves alone: every view of a block that
does not depend on the monster data. -/
theorem remove_map_mob_same {α : Type} (g : Block → α)
    (hg : ∀ b md, g { b with md := md } = g b) (E : Env)
    (id : Int) {w0 w : World} (h : World.Same g w0 w) :
    World.Same g w0 (remove_map_mob E w id) := by
  unfold remove_map_mob
  repeat' first
    | split
    | dsimp only
    | with_reducible assumption
    | with_reducible refine World.Same.modBlock _ _ ?_ (fun b => hg b _)

theorem remove_map_canact_same {α : Type} (g : Block → α)
    (hg : ∀ b c, g { b with ud := { b.ud with canact_tick := c } } = g b)
    (id : Int) (type : bl_type) {w0 w : World} (h : World.Same g w0 w) :
    World.Same g w0 (remove_map_canact w id type) := by
  unfold remove_map_canact
  repeat' first
    | split
    | dsimp only
    | with_reducible assumption
    | with_reducible refine World.Same.modUd _ _ ?_ (fun b => hg b _)


/-- The tail of `unit_remove_map_` on a block that is not an NPC ends in `map_delblock`. -/
theorem remove_map_delblock_same {α : Type} (g : Block → α) {E : Env} (hf : E.hooks_frame)
    (id : Int) {type : bl_type} (ht : type ≠ .BL_NPC) {w0 w : World} (h : World.Same g w0 w) :
    ∃ wm, World.Same g w0 wm ∧ remove_map_delblock E w id type = map_delblock wm id := by
  cases type
  case BL_NPC => exact absurd rfl ht
  all_goals
    unfold remove_map_delblock
    dsimp only
    split
    · exact ⟨_, World.Same.calls hf _ h, rfl⟩
    · exact ⟨_, h, rfl⟩

theorem remove_map_delblock_npc (E : Env) (w : World) (id : Int) :
    remove_map_delblock E w id .BL_NPC = w := by
  unfold remove_map_delblock
  have h : flagset (bl_type.mask .BL_NPC) (BL_CHAR + bl_type.mask .BL_PET) = false := by decide
  simp only [h, Bool.false_eq_true, if_false]

/-! ### Idempotence of the removal -/

theorem unit_remove_map_body_off (E : Env)
    (free : MapState → Int → Int → Option (Int × MapState)) (s : MapState) (id clrtype : Int)
    (file : String) (line : Int) (func : String) (h : off_map s.world id) :
    unit_remove_map_body E free s id clrtype file line func = some (0, s) := by
  unfold unit_remove_map_body
  cases hb : s.world.units id with
  | none => rfl
  | some bl =>
    dsimp only
    cases hu : unit_bl2ud bl with
    | none => rfl
    | some ud =>
      dsimp only
      rcases h bl hb with h1 | h1
      · rw [hu] at h1; cases h1
      · rw [if_pos h1]

theorem off_map_delblock (w : World) (id : Int) : off_map (map_delblock w id) id := by
  intro b hb
  unfold map_delblock at hb
  rw [modBlock_units, if_pos rfl] at hb
  cases hw : w.units id with
  | none => rw [hw] at hb; cases hb
  | some b0 =>
    rw [hw] at hb
    simp only [Option.map_some', Option.some.injEq] at hb
    subst hb
    exact Or.inr rfl

theorem off_map_deliddb (w : World) (id : Int) : off_map (map_deliddb w id) id := by
  intro b hb
  unfold map_deliddb at hb
  simp at hb

theorem unit_free_body_off (E : Env) (rm : MapState → Int → Int → Option (Int × MapState))
    (s : MapState) (id clrtype : Int) (h : off_map s.world id) :
    ∃ s1, unit_free_body E rm s id clrtype = some (0, s1) ∧ off_map s1.world id := by
  unfold unit_free_body
  cases hb : s.world.units id with
  | none => exact ⟨s, rfl, h⟩
  | some bl =>
    dsimp only
    cases hu : unit_bl2ud bl with
    | none => exact ⟨s, rfl, h⟩
    | some ud =>
      dsimp only
      have hp : bl.prev = false := by
        rcases h bl hb with h1 | h1
        · rw [hu] at h1; cases h1
        · exact h1
      rw [hp]
      simp only [Bool.false_eq_true, if_false]
      exact ⟨_, rfl, off_map_deliddb _ _⟩

theorem remove_map_delblock_off (E : Env) (w : World) (id : Int) {type : bl_type}
    (ht : type ≠ .BL_NPC) : off_map (remove_map_delblock E w id type) id := by
  cases type
  case BL_NPC => exact absurd rfl ht
  all_goals
    unfold remove_map_delblock
    dsimp only
    exact off_map_delblock _ _

theorem remove_map_tail_off (E : Env) (s : MapState) (id : Int) {type : bl_type}
    (ht : type ≠ .BL_NPC) :
    ∃ r s1, remove_map_tail E s id type = some (r, s1) ∧ off_map s1.world id :=
  ⟨1, _, rfl, remove_map_delblock_off E _ id ht⟩

theorem dismissed_off (E : Env) (rm : MapState → Int → Int → Option (Int × MapState))
    (s : MapState) (id : Int) (h : off_map s.world id) :
    ∃ r s1, (unit_free_body E rm s id CLR_OUTSIGHT).map
        (fun r => ((0 : Int), map_freeblock_unlock r.2)) = some (r, s1)
      ∧ off_map s1.world id := by
  obtain ⟨s1, h1, h2⟩ := unit_free_body_off E rm s id CLR_OUTSIGHT h
  rw [h1]
  exact ⟨0, _, rfl, h2⟩

/-- Every call of `unit_remove_map_` returns, whatever the nested `unit_free` would call,
and leaves the entity off the map. -/
theorem unit_remove_map_body_total (E : Env)
    (rm : MapState → Int → Int → Option (Int × MapState)) (s : MapState) (id clrtype : Int)
    (file : String) (line : Int) (func : String) :
    ∃ r s1, unit_remove_map_body E (unit_free_body E rm) s id clrtype file line func = some (r, s1)
      ∧ off_map s1.world id := by
  by_cases hoff : off_map s.world id
  · exact ⟨0, s, unit_remove_map_body_off E _ s id clrtype file line func hoff, hoff⟩
  unfold unit_remove_map_body
  cases hb : s.world.units id with
  | none => exact absurd (fun b h => by rw [hb] at h; cases h) hoff
  | some bl =>
    dsimp only
    cases hu : unit_bl2ud bl with
    | none =>
      exact absurd (fun b h => by rw [hb] at h; cases h; exact Or.inl hu) hoff
    | some ud =>
      dsimp only
      have hp : ¬ bl.prev = false := by
        intro hp
        exact hoff (fun b h => by rw [hb] at h; cases h; exact Or.inr hp)
      rw [if_neg hp]
      unfold unit_bl2ud at hu
      cases hty : bl.type with
      | BL_PC => exact remove_map_tail_off E _ id (by decide)
      | BL_MOB => exact remove_map_tail_off E _ id (by decide)
      | BL_NPC =>
        dsimp only
        split
        · exact ⟨0, _, rfl, off_map_delblock _ _⟩
        · refine ⟨1, _, rfl, ?_⟩
          show off_map (remove_map_delblock E _ id .BL_NPC) id
          rw [remove_map_delblock_npc]
          exact off_map_delblock _ _
      | BL_PET =>
        dsimp only
        split
        · exact dismissed_off E rm _ id (off_map_delblock _ _)
        · exact remove_map_tail_off E _ id (by decide)
      | BL_HOM =>
        dsimp only
        split
        · exact dismissed_off E rm _ id (off_map_delblock _ _)
        · exact remove_map_tail_off E _ id (by decide)
      | BL_MER =>
        dsimp only
        split
        · exact dismissed_off E rm _ id (off_map_delblock _ _)
        · exact remove_map_tail_off E _ id (by decide)
      | BL_ELEM =>
        dsimp only
        split
        · exact dismissed_off E rm _ id (off_map_delblock _ _)
        · exact remove_map_tail_off E _ id (by decide)
      | BL_NUL => rw [hty] at hu; simp at hu
      | BL_ITEM => rw [hty] at hu; simp at hu
      | BL_SKILL => rw [hty] at hu; simp at hu
      | BL_CHAT => rw [hty] at hu; simp at hu

/-- A call of `unit_remove_map_` that returns 1 went through the four stops and ended in
`map_delblock`; between the two, every view of a block that does not depend on the player
data, the monster data and `canact_tick` stayed as it was. -/
theorem unit_remove_map_body_done {α : Type} (g : Block → α)
    (hg : ∀ b sd md c,
      g { b with sd := sd, md := md, ud := { b.ud with canact_tick := c } } = g b)
    {E : Env} (hf : E.hooks_frame) (free : MapState → Int → Int → Option (Int × MapState))
    {s s1 : MapState} {id clrtype : Int} {file : String} {line : Int} {func : String}
    (h : unit_remove_map_body E free s id clrtype file line func = some (1, s1)) :
    ∃ wm, World.Same g (remove_map_stop E s.world id) wm ∧ s1.world = map_delblock wm id := by
  have hd : World.Same g (remove_map_stop E s.world id)
      (remove_map_dispels E (remove_map_stop E s.world id) id (s.world.BL id).type) :=
    remove_map_dispels_same g hf id _ (World.Same.refl _ _)
  have tail : ∀ (X : MapState) (type : bl_type), type ≠ .BL_NPC →
      World.Same g (remove_map_stop E s.world id) X.world →
      remove_map_tail E X id type = some (1, s1) →
      ∃ wm, World.Same g (remove_map_stop E s.world id) wm ∧ s1.world = map_delblock wm id := by
    intro X type ht hX hr
    obtain ⟨wm, h1, h2⟩ := remove_map_delblock_same g hf id ht hX
    refine ⟨wm, h1, ?_⟩
    unfold remove_map_tail at hr
    simp only [Option.some.injEq, Prod.mk.injEq, true_and] at hr
    rw [← hr]
    exact h2
  unfold unit_remove_map_body at h
  cases hb : s.world.units id with
  | none => rw [hb] at h; simp at h
  | some bl =>
    rw [hb] at h
    dsimp only at h
    have hB : s.world.BL id = bl := BL_of_units hb
    rw [hB] at hd
    cases hu : unit_bl2ud bl with
    | none => rw [hu] at h; simp at h
    | some ud =>
      rw [hu] at h
      dsimp only at h
      by_cases hp : bl.prev = false
      · rw [if_pos hp] at h; simp at h
      rw [if_neg hp] at h
      cases hty : bl.type with
      | BL_PC =>
        rw [hty] at h hd
        exact tail _ _ (by decide) (remove_map_pc_same g (fun b sd => hg b sd b.md b.ud.canact_tick)
          hf id file line func hd) h
      | BL_MOB =>
        rw [hty] at h hd
        exact tail _ _ (by decide) (remove_map_mob_same g (fun b md => hg b b.sd md b.ud.canact_tick)
          E id hd) h
      | BL_NPC =>
        rw [hty] at h hd
        dsimp only at h
        split at h
        · simp at h
        · unfold remove_map_tail at h
          simp only [Option.some.injEq, Prod.mk.injEq, true_and] at h
          refine ⟨_, World.Same.hook hf (.npc_remove_map id) hd, ?_⟩
          rw [← h]
          show remove_map_delblock E _ id .BL_NPC = _
          rw [remove_map_delblock_npc]
          rfl
      | BL_PET =>
        rw [hty] at h hd
        dsimp only at h
        split at h
        · cases hfr : free _ id CLR_OUTSIGHT <;> rw [hfr] at h <;> simp at h
        · exact tail _ _ (by decide) (remove_map_canact_same g (fun b c => hg b b.sd b.md c)
            id _ hd) h
      | BL_HOM =>
        rw [hty] at h hd
        dsimp only at h
        split at h
        · cases hfr : free _ id CLR_OUTSIGHT <;> rw [hfr] at h <;> simp at h
        · exact tail _ _ (by decide) (remove_map_canact_same g (fun b c => hg b b.sd b.md c)
            id _ hd) h
      | BL_MER =>
        rw [hty] at h hd
        dsimp only at h
        split at h
        · cases hfr : free _ id CLR_OUTSIGHT <;> rw [hfr] at h <;> simp at h
        · exact tail _ _ (by decide) (remove_map_canact_same g (fun b c => hg b b.sd b.md c)
            id _ hd) h
      | BL_ELEM =>
        rw [hty] at h hd
        dsimp only at h
        split at h
        · cases hfr : free _ id CLR_OUTSIGHT <;> rw [hfr] at h <;> simp at h
        · exact tail _ _ (by decide) (remove_map_canact_same g (fun b c => hg b b.sd b.md c)
            id _ hd) h
      | BL_NUL => simp [unit_bl2ud, hty] at hu
      | BL_ITEM => simp [unit_bl2ud, hty] at hu
      | BL_SKILL => simp [unit_bl2ud, hty] at hu
      | BL_CHAT => simp [unit_bl2ud, hty] at hu

/-- A call of `unit_remove_map_` that returns 1 was made on an entity with a control
block that was on the map. -/
theorem unit_remove_map_body_on {E : Env}
    {free : MapState → Int → Int → Option (Int × MapState)}
    {s s1 : MapState} {id clrtype : Int} {file : String} {line : Int} {func : String}
    (h : unit_remove_map_body E free s id clrtype file line func = some (1, s1)) :
    ∃ bl, s.world.units id = some bl ∧ (unit_bl2ud bl).isSome = true ∧ bl.prev = true := by
  unfold unit_remove_map_body at h
  cases hb : s.world.units id with
  | none => rw [hb] at h; simp at h
  | some bl =>
    rw [hb] at h
    dsimp only at h
    cases hu : unit_bl2ud bl with
    | none => rw [hu] at h; simp at h
    | some ud =>
      rw [hu] at h
      dsimp only at h
      by_cases hp : bl.prev = false
      · rw [if_pos hp] at h; simp at h
      · exact ⟨bl, rfl, by rw [hu]; rfl, by simpa using hp⟩

/-! ## The step index stays within the path -/

section path_inv
variable {Q : Int → walkpath_data → Prop}

end path_inv

/-! ### Code that writes a path -/

/-- With one level of calls between `unit_free` and `unit_remove_map_` every call of
`unit_free` returns. -/
theorem unit_free_total (E : Env) (s : MapState) (id clrtype : Int) :
    (unit_free E 1 s id clrtype).isSome = true := by
  unfold unit_free unit_free_body
  cases hb : s.world.units id with
  | none => rfl
  | some bl =>
    dsimp only
    cases hu : unit_bl2ud bl with
    | none => rfl
    | some ud =>
      dsimp only
      split
      · obtain ⟨r, s1, hrs, -⟩ := unit_remove_map_body_total E
          (fun s id clrtype => unit_remove_map_ E 0 s id clrtype "unit.cpp" 3252 "unit_free")
          (map_freeblock_lock s) id clrtype "unit.cpp" 3252 "unit_free"
        have : unit_remove_map_ E 1 (map_freeblock_lock s) id clrtype "unit.cpp" 3252 "unit_free"
            = some (r, s1) := hrs
        rw [this]
        rfl
      · rfl

theorem reentrant_hook_eq (E : Env) (c : ext_call) (w : World) (hc : c.reenters = false) :
    E.reentrant.hook c w = E.hook c w := by
  cases c
  case unit_free id => exact Bool.noConfusion hc
  all_goals rfl

/-- C1: for every entity, destination and flag, when the pathfinder finds no path from
the entity's cell to the destination (or, with flag&8, no free cell is found), or the
found path is longer than `max_walk_path` and the entity is not an NPC, `unit_walktoxy`
returns 0 and changes nothing: the control block, and the whole world, stay as they
were. -/
theorem unit_walktoxy_rejected (E : Env) (w : World) (id x y flag : Int) (bl : Block)
    (hbl : w.units id = some bl)
    (h : (flagset flag 8 = true ∧ E.map_closest_freecell w bl.m x y = none)
      ∨ ∃ c, (if flagset flag 8 then E.map_closest_freecell w bl.m x y else some (x, y)) = some c
          ∧ (E.path_search w bl.m bl.x bl.y c.1 c.2 (flagset flag 1) .CELL_CHKNOPASS = none
            ∨ ∃ p, E.path_search w bl.m bl.x bl.y c.1 c.2 (flagset flag 1) .CELL_CHKNOPASS = some p
                ∧ (p.length : Int) > E.max_walk_path ∧ bl.type ≠ .BL_NPC)) :
    unit_walktoxy E w id x y flag = (0, w) := by
  unfold unit_walktoxy
  rw [hbl]
  dsimp only
  cases hud : unit_bl2ud bl with
  | none => rfl
  | some ud =>
    rcases h with ⟨h8, hnone⟩ | ⟨c, hc, hp⟩
    · simp [h8, hnone]
    · obtain ⟨cx, cy⟩ := c
      simp only [hc]
      rcases hp with hp | ⟨p, hp, hlen, hnpc⟩
      · simp [hp]
      · simp [hp, hlen, hnpc]

/-- Witness for C1: the player of the example world asks for (13, 11), off the row the toy
pathfinder can walk; the request is rejected and the world is unchanged. -/
theorem unit_walktoxy_rejected_witness :
    unit_walktoxy exampleEnv exampleWorld 1 13 11 0 = (0, exampleWorld) :=
  unit_walktoxy_rejected exampleEnv exampleWorld 1 13 11 0 { type := .BL_PC, x := 10, y := 10 } rfl
    (Or.inr ⟨(13, 11), rfl, Or.inl rfl⟩)

/-! ### Walking a path (C2, C3) -/

/-- C2 (amended): for every entity that is idle (no walk timer pending) and on the map,
with positive movement speed, no chase target, no deferred action and not running, and
every path `p` of n >= 1 steps over cells that stay passable, the path the pathfinder
gives to the stored destination `dst` (`walk_dest`: the requested cell or, with flag 8,
the free cell, randomised while the entity is confused): when nothing interrupts the
walk (`undisturbed`: the entity stays alive, no NPC area or monster skill stops a
monster, no icewall holds it back, no cell is stacked over the limit, and the
collaborators leave the scheduling state alone), an accepted `unit_walktoxy` returns 1
and makes the walk timer fire exactly n times. Before each of the n firings exactly one
walk timer is pending, the one whose handle `walktimer` holds, and the entity stands on
the cell that the steps made so far lead to; after the n-th firing the entity stands on
the path's end cell, `walktimer` is INVALID_TIMER and no walk timer is pending. -/
theorem walk_fires_n_times (E : Env) (w : World) (id x y flag : Int) (bl : Block)
    (c dst : Int × Int) (p0 p : List Nat) (speed : Int)
    (hu : undisturbed E id) (ha : walk_accepted E w id x y flag bl c p0)
    (hidle : bl.ud.walktimer = INVALID_TIMER) (hnone : pending_walktimers w id = [])
    (honmap : bl.prev = true) (hchase : bl.ud.target_to = 0)
    (_hstep : bl.ud.stepaction = false) (hrun : bl.ud.state.running = false)
    (hdst : ∀ w1, walk_dest E id bl c w1 = dst)
    (hspeed : ∀ w1, E.status_get_speed w1 id = speed) (hpos : 0 < speed)
    (hpath : ∀ w1, E.path_search w1 bl.m bl.x bl.y dst.1 dst.2 (flagset flag 1) .CELL_CHKNOPASS
      = some p)
    (hdirect : ∀ w1, E.OFFICIAL_WALKPATH = false
      ∨ E.path_search_long w1 bl.m bl.x bl.y dst.1 dst.2 .CELL_CHKNOPASS = true
      ∨ p.length ≤ 14 ∨ bl.type = .BL_NPC)
    (hn : 1 ≤ p.length) (hclear : path_clear E bl.m bl.x bl.y p) :
    (unit_walktoxy E w id x y flag).1 = 1
    ∧ (∀ k, k < p.length →
        ((walk_fired E id k (unit_walktoxy E w id x y flag).2).UD id).walktimer ≠ INVALID_TIMER
        ∧ (∃ td, get_timer (walk_fired E id k (unit_walktoxy E w id x y flag).2)
                ((walk_fired E id k (unit_walktoxy E w id x y flag).2).UD id).walktimer = some td
            ∧ td.func = .unit_walktoxy_timer
            ∧ pending_walktimers (walk_fired E id k (unit_walktoxy E w id x y flag).2) id = [td])
        ∧ (((walk_fired E id k (unit_walktoxy E w id x y flag).2).BL id).x,
            ((walk_fired E id k (unit_walktoxy E w id x y flag).2).BL id).y)
            = walk_pos bl.x bl.y (p.take k))
    ∧ (((walk_fired E id p.length (unit_walktoxy E w id x y flag).2).BL id).x,
        ((walk_fired E id p.length (unit_walktoxy E w id x y flag).2).BL id).y)
        = walk_pos bl.x bl.y p
    ∧ ((walk_fired E id p.length (unit_walktoxy E w id x y flag).2).UD id).walktimer = INVALID_TIMER
    ∧ pending_walktimers (walk_fired E id p.length (unit_walktoxy E w id x y flag).2) id = [] := by
  obtain ⟨h1, h0⟩ := walk_starts hu.frame ha hidle hnone honmap hchase hrun hdst hspeed hpos hpath
    hdirect hn
  obtain ⟨hmid, hover⟩ := walk_runs hu h0 ha.has_ud hclear hspeed hpos
  refine ⟨h1, fun k hk => ?_, (hover hn).cell, (hover hn).idle, (hover hn).no_timer⟩
  obtain ⟨td, hg, hfn, -, hp⟩ := (hmid k hk).timer
  exact ⟨(hmid k hk).live, ⟨td, hg, hfn, hp⟩, (hmid k hk).cell⟩

/-- Witness for C2: the player of the example world walks from (10, 10) to (13, 10) at 200
ms per cell; the walk timer fires three times. -/
theorem walk_fires_n_times_witness :
    (unit_walktoxy exampleEnv exampleWorld 1 13 10 0).1 = 1
    ∧ (((walk_fired exampleEnv 1 3 (unit_walktoxy exampleEnv exampleWorld 1 13 10 0).2).BL 1).x,
        ((walk_fired exampleEnv 1 3 (unit_walktoxy exampleEnv exampleWorld 1 13 10 0).2).BL 1).y)
        = (13, 10)
    ∧ ((walk_fired exampleEnv 1 3 (unit_walktoxy exampleEnv exampleWorld 1 13 10 0).2).UD 1).walktimer
        = INVALID_TIMER
    ∧ pending_walktimers (walk_fired exampleEnv 1 3 (unit_walktoxy exampleEnv exampleWorld 1 13 10 0).2) 1
        = [] :=
  have h := walk_fires_n_times exampleEnv exampleWorld 1 13 10 0 { type := .BL_PC, x := 10, y := 10 }
    (13, 10) (13, 10) [6, 6, 6] [6, 6, 6] 200 (exampleEnv_undisturbed 1) exampleWorld_accepted
    rfl rfl rfl rfl rfl rfl
    (fun _ => rfl) (fun _ => rfl) (by decide) (fun _ => rfl) (fun _ => Or.inr (Or.inl rfl))
    (by decide) exampleWorld_clear
  ⟨h.1, h.2.2.1, h.2.2.2.1, h.2.2.2.2⟩

/-- Counterexample to C2 as stated: in the crowded environment every condition of the
claim holds for the walk of the player from (10, 10) to (13, 10) along three passable
cells, but the end cell is stacked over the limit, so the third firing starts a walk to
the free cell (14, 10): after three firings a walk timer is pending again, and a fourth
firing takes the entity off the path's end cell. -/
theorem walk_fires_n_times_counterexample :
    crowdedEnv.status_get_speed exampleWorld 1 = 200
    ∧ (exampleWorld.UD 1).target_to = 0 ∧ (exampleWorld.UD 1).stepaction = false
    ∧ (exampleWorld.UD 1).state.running = false
    ∧ path_clear crowdedEnv 0 10 10 [6, 6, 6]
    ∧ (unit_walktoxy crowdedEnv exampleWorld 1 13 10 0).1 = 1
    ∧ ((unit_walktoxy crowdedEnv exampleWorld 1 13 10 0).2.UD 1).walkpath
        = { path_len := 3, path_pos := 0, path := [6, 6, 6] }
    ∧ ((walk_fired crowdedEnv 1 3 (unit_walktoxy crowdedEnv exampleWorld 1 13 10 0).2).UD 1).walktimer
        ≠ INVALID_TIMER
    ∧ pending_walktimers (walk_fired crowdedEnv 1 3 (unit_walktoxy crowdedEnv exampleWorld 1 13 10 0).2) 1
        ≠ []
    ∧ (((walk_fired crowdedEnv 1 4 (unit_walktoxy crowdedEnv exampleWorld 1 13 10 0).2).BL 1).x,
        ((walk_fired crowdedEnv 1 4 (unit_walktoxy crowdedEnv exampleWorld 1 13 10 0).2).BL 1).y)
        = (14, 10) :=
  ⟨rfl, rfl, rfl, rfl,
    ⟨by decide, fun _ => rfl, by decide, fun _ => rfl, by decide, fun _ => rfl, trivial⟩,
    by decide⟩

/-- C3 (amended): for every idle entity on the map with positive movement speed, no chase
target and not running, and every destination reached by a path of n >= 1 steps over
cells that stay passable, an accepted `unit_walktoxy` followed by the uninterrupted
execution (`undisturbed`) of all n scheduled walk-timer firings leaves the entity at the
stored destination `dst` (`walk_dest`: the requested cell or, with flag 8, the free
cell, randomised while the entity is confused) with `walktimer` = INVALID_TIMER and
`to_x`/`to_y` equal to that cell. The path is exhausted, not emptied:
`walkpath.path_pos` = `walkpath.path_len` = n and the stored path stays. -/
theorem walk_ends_exhausted (E : Env) (w : World) (id x y flag : Int) (bl : Block)
    (c dst : Int × Int) (p0 p : List Nat) (speed : Int)
    (hu : undisturbed E id) (ha : walk_accepted E w id x y flag bl c p0)
    (hidle : bl.ud.walktimer = INVALID_TIMER) (hnone : pending_walktimers w id = [])
    (honmap : bl.prev = true) (hchase : bl.ud.target_to = 0)
    (hrun : bl.ud.state.running = false)
    (hdst : ∀ w1, walk_dest E id bl c w1 = dst)
    (hspeed : ∀ w1, E.status_get_speed w1 id = speed) (hpos : 0 < speed)
    (hpath : ∀ w1, E.path_search w1 bl.m bl.x bl.y dst.1 dst.2 (flagset flag 1) .CELL_CHKNOPASS
      = some p)
    (hdirect : ∀ w1, E.OFFICIAL_WALKPATH = false
      ∨ E.path_search_long w1 bl.m bl.x bl.y dst.1 dst.2 .CELL_CHKNOPASS = true
      ∨ p.length ≤ 14 ∨ bl.type = .BL_NPC)
    (hn : 1 ≤ p.length) (hclear : path_clear E bl.m bl.x bl.y p)
    (hgoal : walk_pos bl.x bl.y p = dst) :
    (((walk_fired E id p.length (unit_walktoxy E w id x y flag).2).BL id).x,
        ((walk_fired E id p.length (unit_walktoxy E w id x y flag).2).BL id).y) = dst
    ∧ (((walk_fired E id p.length (unit_walktoxy E w id x y flag).2).UD id).to_x,
        ((walk_fired E id p.length (unit_walktoxy E w id x y flag).2).UD id).to_y) = dst
    ∧ ((walk_fired E id p.length (unit_walktoxy E w id x y flag).2).UD id).walktimer = INVALID_TIMER
    ∧ pending_walktimers (walk_fired E id p.length (unit_walktoxy E w id x y flag).2) id = []
    ∧ ((walk_fired E id p.length (unit_walktoxy E w id x y flag).2).UD id).walkpath
        = { path_len := p.length, path_pos := p.length, path := p } := by
  obtain ⟨-, h0⟩ := walk_starts hu.frame ha hidle hnone honmap hchase hrun hdst hspeed hpos hpath
    hdirect hn
  have hover := (walk_runs hu h0 ha.has_ud hclear hspeed hpos).2 hn
  exact ⟨hover.cell.trans hgoal, hover.dest.trans hgoal, hover.idle, hover.no_timer, hover.path⟩

/-- Witness for C3: the player of the example world walks from (10, 10) to (13, 10); after
the three firings it stands on (13, 10) with the path exhausted at step 3 of 3. -/
theorem walk_ends_exhausted_witness :
    (((walk_fired exampleEnv 1 3 (unit_walktoxy exampleEnv exampleWorld 1 13 10 0).2).BL 1).x,
        ((walk_fired exampleEnv 1 3 (unit_walktoxy exampleEnv exampleWorld 1 13 10 0).2).BL 1).y)
        = (13, 10)
    ∧ ((walk_fired exampleEnv 1 3 (unit_walktoxy exampleEnv exampleWorld 1 13 10 0).2).UD 1).walkpath
        = { path_len := 3, path_pos := 3, path := [6, 6, 6] } :=
  have h := walk_ends_exhausted exampleEnv exampleWorld 1 13 10 0 { type := .BL_PC, x := 10, y := 10 }
    (13, 10) (13, 10) [6, 6, 6] [6, 6, 6] 200 (exampleEnv_undisturbed 1) exampleWorld_accepted
    rfl rfl rfl rfl rfl
    (fun _ => rfl) (fun _ => rfl) (by decide) (fun _ => rfl) (fun _ => Or.inr (Or.inl rfl))
    (by decide) exampleWorld_clear rfl
  ⟨h.1, h.2.2.2.2⟩

/-- Counterexample to C3 as stated: the player of the example world walks from (10, 10) to
the reachable cell (13, 10); after all three firings (no walk timer is left) it stands
on (13, 10), but the path is not empty and the step index is not 0: both are 3. -/
theorem walk_ends_exhausted_counterexample :
    (unit_walktoxy exampleEnv exampleWorld 1 13 10 0).1 = 1
    ∧ pending_walktimers (walk_fired exampleEnv 1 3 (unit_walktoxy exampleEnv exampleWorld 1 13 10 0).2) 1
        = []
    ∧ (((walk_fired exampleEnv 1 3 (unit_walktoxy exampleEnv exampleWorld 1 13 10 0).2).BL 1).x,
        ((walk_fired exampleEnv 1 3 (unit_walktoxy exampleEnv exampleWorld 1 13 10 0).2).BL 1).y)
        = (13, 10)
    ∧ ((walk_fired exampleEnv 1 3 (unit_walktoxy exampleEnv exampleWorld 1 13 10 0).2).UD 1).walkpath.path_len
        ≠ 0
    ∧ ((walk_fired exampleEnv 1 3 (unit_walktoxy exampleEnv exampleWorld 1 13 10 0).2).UD 1).walkpath.path_pos
        ≠ 0 := by
  decide

/-! ### Stopping a walk (C4) -/

theorem walk_icewall_part_keeps {α : Type} (g : Block → α)
    (hg : ∀ b wc ws wde md, g (b.step_write wc ws wde md) = g b)
    {E : Env} (hf : E.hooks_frame) (tick id : Int) {w0 w : World} (h : World.Same g w0 w) :
    World.Same g w0 (walk_icewall_part E tick id w) := by
  unfold walk_icewall_part
  repeat' first
    | split
    | dsimp only
    | with_reducible assumption
    | with_reducible apply World.Same.hook hf
    | with_reducible refine World.Same.modUd _ _ ?_ (fun b => hg b _ _ _ _)
    | with_reducible refine World.Same.modBlock _ _ ?_ (fun b => hg b _ _ _ _)

/-- What a step leaves alone: every view of a block that depends neither on the cell and
the walk timer handle nor on the fields the arrival handling writes. -/
theorem walk_move_part_keeps {α : Type} (g : Block → α)
    (hg : ∀ b wc ws wde md, g (b.step_write wc ws wde md) = g b)
    (hm : ∀ b x y wt, g { b with x := x, y := y, ud := { b.ud with walktimer := wt } } = g b)
    {E : Env} (hf : E.hooks_frame) (tid tick id x y dx dy : Int) {w0 w : World}
    (h : World.Same g w0 w) :
    World.Same g w0 (walk_move_part E tid tick id x y dx dy w).world := by
  unfold walk_move_part
  repeat' first
    | rw [apply_ite walk_result.world]
    | simp only [world_ret, world_go]
    | split
    | dsimp only
    | with_reducible assumption
    | with_reducible apply World.Same.hook hf
    | with_reducible apply World.Same.add_timer
    | with_reducible refine World.Same.modUd _ _ ?_ (fun b => hg b _ _ _ _)
    | with_reducible refine World.Same.modUd _ _ ?_ (fun b => hm b _ _ _)
    | with_reducible refine World.Same.modBlock _ _ ?_ (fun b => hm b _ _ _)
    | (refine World.Same.andThen (walk_done_event_part_keeps g hg hf id ?_)
        (fun w1 h1 => walk_touch_part_keeps g hg hf tid tick id _ _ h1))

theorem unit_walktoxy_sub_cwt (E : Env) {w : World} {id : Int}
    (h : (w.UD id).state.change_walk_target = false) :
    ((unit_walktoxy_sub E w id).2.UD id).state.change_walk_target = false := by
  unfold unit_walktoxy_sub
  cases hb : w.units id with
  | none => exact h
  | some bl =>
    dsimp only
    repeat' first
      | split
      | dsimp only
      | with_reducible exact h
    rw [UD_eq_BL, (walk_arm_same (fun b => b.ud.state.change_walk_target) (fun _ _ => rfl) E id
      (World.Same.refl _ _)).BL id, ← UD_eq_BL]
    exact (path_store_path bl _ _ (by rw [hb]; rfl)).1

theorem finish_zero_world (a : walk_result) : (a.finish (fun w1 => ((0 : Int), w1))).2 = a.world := by
  cases a <;> rfl

/-- The direct call of the walk timer callback does not set `change_walk_target`. -/
theorem unit_walktoxy_timer_direct_cwt {E : Env} (hf : E.hooks_frame) (tick id : Int) {w : World}
    (h : (w.UD id).state.change_walk_target = false) :
    ((unit_walktoxy_timer_direct E tick id w).2.UD id).state.change_walk_target = false := by
  have key : ∀ W, World.Same (fun b => b.ud.state.change_walk_target) w W →
      (W.UD id).state.change_walk_target = false := fun W hW => by
    rw [UD_eq_BL, hW.BL id, ← UD_eq_BL]; exact h
  unfold unit_walktoxy_timer_direct unit_walktoxy_timer_step
  repeat' first
    | split
    | dsimp only
    | with_reducible exact h
    | exact key _ (World.Same.modUd _ _ (World.Same.refl _ w) (fun b => rfl))
    | exact unit_walktoxy_sub_cwt E (key _ (World.Same.modUd _ _
        (World.Same.modUd _ _ (World.Same.refl _ w) (fun b => rfl)) (fun b => rfl)))
    | exact key _ (walk_icewall_part_keeps (fun b => b.ud.state.change_walk_target)
        (fun _ _ _ _ _ => rfl) hf tick id (World.Same.modUd _ _
          (World.Same.modUd _ _ (World.Same.refl _ w) (fun b => rfl)) (fun b => rfl)))
    | (rw [finish_zero_world]
       exact key _ (walk_move_part_keeps (fun b => b.ud.state.change_walk_target)
         (fun _ _ _ _ _ => rfl) (fun _ _ _ _ => rfl) hf _ tick id _ _ _ _ (World.Same.modUd _ _
           (World.Same.modUd _ _ (World.Same.refl _ w) (fun b => rfl)) (fun b => rfl))))

theorem stop_walking_cancel_spec {w : World} {id : Int} (ud : unit_data)
    (hs : (w.units id).isSome = true) :
    ((stop_walking_cancel w id ud).units id).isSome = true
    ∧ ((stop_walking_cancel w id ud).UD id).state.change_walk_target = false := by
  unfold stop_walking_cancel
  dsimp only
  have hs1 : ((if ud.walktimer ≠ INVALID_TIMER then
      (delete_timer w ud.walktimer .unit_walktoxy_timer).2.modUd id
        (fun u => { u with walktimer := INVALID_TIMER })
    else w).units id).isSome = true := by
    split
    · rw [isSome_modUd, delete_timer_units]; exact hs
    · exact hs
  exact ⟨by rw [isSome_modUd]; exact hs1, by rw [UD_modUd _ hs1]⟩

theorem stop_walking_step_spec {E : Env} (hf : E.hooks_frame) {w : World} {id : Int} (type : Int)
    (ud : unit_data) (td : Option TimerData) (hs : (w.units id).isSome = true)
    (hc : (w.UD id).state.change_walk_target = false) :
    ((stop_walking_step E w id type ud td).units id).isSome = true
    ∧ ((stop_walking_step E w id type ud td).UD id).state.change_walk_target = false := by
  unfold stop_walking_step
  dsimp only
  split
  · refine ⟨?_, unit_walktoxy_timer_direct_cwt hf _ id (by rw [UD_modUd _ hs]; exact hc)⟩
    rw [(unit_walktoxy_timer_direct_same (fun _ => ()) (fun _ _ _ _ _ _ _ _ _ _ _ _ _ _ => rfl)
      hf _ id (World.Same.refl _ _)).isSome id, isSome_modUd]
    exact hs
  · exact ⟨hs, hc⟩

theorem stop_walking_reset_spec {E : Env} (hf : E.hooks_frame) {w : World} {id : Int} (type : Int)
    (hs : (w.units id).isSome = true) (hc : (w.UD id).state.change_walk_target = false) :
    (stop_walking_reset E w id type).1 = 1
    ∧ ((stop_walking_reset E w id type).2.UD id).state.change_walk_target = false
    ∧ ((stop_walking_reset E w id type).2.UD id).walkpath.path_len = 0
    ∧ ((stop_walking_reset E w id type).2.UD id).walkpath.path_pos = 0
    ∧ ((stop_walking_reset E w id type).2.UD id).to_x = ((stop_walking_reset E w id type).2.BL id).x
    ∧ ((stop_walking_reset E w id type).2.UD id).to_y
        = ((stop_walking_reset E w id type).2.BL id).y := by
  unfold stop_walking_reset
  dsimp only
  generalize hW4 : w.modUd id (fun u =>
      { u with walkpath := { u.walkpath with path_len := 0, path_pos := 0 },
               to_x := (w.BL id).x, to_y := (w.BL id).y }) = W4
  have hs4 : (W4.units id).isSome = true := by rw [← hW4, isSome_modUd]; exact hs
  have hB4 : W4.BL id = { (w.BL id) with
      ud := { (w.BL id).ud with
        walkpath := { (w.BL id).ud.walkpath with path_len := 0, path_pos := 0 },
        to_x := (w.BL id).x, to_y := (w.BL id).y } } := by
    rw [← hW4, BL_modUd _ hs]
  generalize hW5 : (if (W4.BL id).type = .BL_PET ∧ above_usw_all type = true then
      W4.modUd id (fun u => { u with canmove_tick := W4.gettick + Int.shiftRight type 8 })
    else W4) = W5
  have hg5 : (W5.UD id).state.change_walk_target = false
      ∧ (W5.UD id).walkpath.path_len = 0 ∧ (W5.UD id).walkpath.path_pos = 0
      ∧ (W5.UD id).to_x = (W5.BL id).x ∧ (W5.UD id).to_y = (W5.BL id).y := by
    rw [UD_eq_BL] at hc
    rw [← hW5]
    split
    · rw [UD_eq_BL, BL_modUd _ hs4, hB4]
      exact ⟨hc, rfl, rfl, rfl, rfl⟩
    · rw [UD_eq_BL, hB4]
      exact ⟨hc, rfl, rfl, rfl, rfl⟩
  split
  · refine ⟨rfl, ?_⟩
    dsimp only
    rw [UD_hook hf, UD_hook hf, BL_hook hf, BL_hook hf]
    exact hg5
  · exact ⟨rfl, hg5⟩

/-- What `unit_stop_walking` establishes whenever the collaborators leave the scheduling
state alone: a return of 0 leaves the world as it was, and after any other return
`change_walk_target` is 0, `path_len` and `path_pos` are 0 and `to_x`/`to_y` are the
entity's cell. -/
theorem unit_stop_walking_resets {E : Env} (hf : E.hooks_frame) (w : World) (id type : Int) :
    ((unit_stop_walking E w id type).1 = 0 → (unit_stop_walking E w id type).2 = w)
    ∧ ((unit_stop_walking E w id type).1 ≠ 0 →
        ((unit_stop_walking E w id type).2.UD id).state.change_walk_target = false
        ∧ ((unit_stop_walking E w id type).2.UD id).walkpath.path_len = 0
        ∧ ((unit_stop_walking E w id type).2.UD id).walkpath.path_pos = 0
        ∧ ((unit_stop_walking E w id type).2.UD id).to_x = ((unit_stop_walking E w id type).2.BL id).x
        ∧ ((unit_stop_walking E w id type).2.UD id).to_y
            = ((unit_stop_walking E w id type).2.BL id).y) := by
  suffices H : ∀ Q : Int × World → Prop, Q (0, w) →
      (∀ r : Int × World, r.1 = 1 → ((r.2.UD id).state.change_walk_target = false
        ∧ (r.2.UD id).walkpath.path_len = 0 ∧ (r.2.UD id).walkpath.path_pos = 0
        ∧ (r.2.UD id).to_x = (r.2.BL id).x ∧ (r.2.UD id).to_y = (r.2.BL id).y) → Q r) →
      Q (unit_stop_walking E w id type) from
    H (fun r => (r.1 = 0 → r.2 = w) ∧ (r.1 ≠ 0 →
        (r.2.UD id).state.change_walk_target = false
        ∧ (r.2.UD id).walkpath.path_len = 0 ∧ (r.2.UD id).walkpath.path_pos = 0
        ∧ (r.2.UD id).to_x = (r.2.BL id).x ∧ (r.2.UD id).to_y = (r.2.BL id).y))
      ⟨fun _ => rfl, fun h => absurd rfl h⟩
      (fun r hr hW => ⟨fun h => by rw [hr] at h; exact absurd h (by decide), fun _ => hW⟩)
  intro Q h0 h1
  unfold unit_stop_walking
  cases hb : w.units id with
  | none => exact h0
  | some bl =>
    dsimp only
    cases hud : unit_bl2ud bl with
    | none => exact h0
    | some ud =>
      dsimp only
      split
      · exact h0
      · have hs : (w.units id).isSome = true := by rw [hb]; rfl
        obtain ⟨hs2, hc2⟩ := stop_walking_cancel_spec ud hs
        obtain ⟨hs3, hc3⟩ := stop_walking_step_spec hf type ud
          (if ud.walktimer ≠ INVALID_TIMER then get_timer w ud.walktimer else none) hs2 hc2
        obtain ⟨hr, hg⟩ := stop_walking_reset_spec hf type hs3 hc3
        exact h1 _ hr hg

/-- C4, the code at the failing input: the player is half-way into its first step when
the next cell has become impassable. `unit_stop_walking` with USW_MOVE_FULL_CELL deletes
the walk timer and calls the walk timer callback directly; the callback finds the cell
blocked and calls `unit_walktoxy_sub`, which finds the detour and arms a new walk timer.
The function then returns 1 with `walktimer` live (handle 1, pending in the timer
service), while the path is reset to length 0. -/
theorem unit_stop_walking_rearms_timer :
    (unit_stop_walking detourEnv walkingWorld 1 USW_MOVE_FULL_CELL).1 = 1
    ∧ ((unit_stop_walking detourEnv walkingWorld 1 USW_MOVE_FULL_CELL).2.UD 1).walktimer = 1
    ∧ ((unit_stop_walking detourEnv walkingWorld 1 USW_MOVE_FULL_CELL).2.UD 1).walktimer
        ≠ INVALID_TIMER
    ∧ (get_timer (unit_stop_walking detourEnv walkingWorld 1 USW_MOVE_FULL_CELL).2 1).isSome = true
    ∧ ((unit_stop_walking detourEnv walkingWorld 1 USW_MOVE_FULL_CELL).2.UD 1).walkpath.path_len = 0 := by
  decide

/-! ### Changing the destination of a walk (C5) -/

/-- C5 (amended): for every entity that is walking (its walk timer is pending, a valid step
is left on its path and the cell of that step stays passable) and on the map, an
accepted `unit_walktoxy` (the entity is allowed to move, or flag 2 waives it) returns 1,
stores the destination `dst` in `to_x`/`to_y` (`walk_dest`: the requested cell or, with
flag 8, the free cell, randomised while the entity is confused) and sets
`change_walk_target`, but leaves `walkpath` and `walktimer` unchanged. The next
walk-timer firing, when
nothing interrupts the step (`undisturbed`), first makes the step of the old path and
then asks the pathfinder for a path from the cell the entity occupies after that step:
if a path is found that passes the OFFICIAL_WALKPATH check, it replaces the walk path
(step index 0) and `change_walk_target` is reset to 0; if no path is found,
`change_walk_target` stays 1 and the walk ends there (`walktimer` = INVALID_TIMER, the
old path kept). -/
theorem walk_retargets (E : Env) (w : World) (id x y flag : Int) (bl : Block)
    (c dst : Int × Int) (p : List Nat) (td : TimerData)
    (hu : undisturbed E id) (ha : walk_accepted E w id x y flag bl c p)
    (honmap : bl.prev = true) (hlive : bl.ud.walktimer ≠ INVALID_TIMER)
    (htimer : get_timer w bl.ud.walktimer = some td) (hfunc : td.func = .unit_walktoxy_timer)
    (hid : td.id = id)
    (hleft : bl.ud.walkpath.path_pos < bl.ud.walkpath.path_len)
    (hdir : bl.ud.walkpath.at bl.ud.walkpath.path_pos < DIR_MAX)
    (hpass : ∀ w1, E.map_getcell w1 bl.m (bl.x + dirx (bl.ud.walkpath.at bl.ud.walkpath.path_pos))
      (bl.y + diry (bl.ud.walkpath.at bl.ud.walkpath.path_pos)) .CELL_CHKNOPASS = false)
    (hdst : ∀ w1, walk_dest E id bl c w1 = dst) :
    (unit_walktoxy E w id x y flag).1 = 1
    ∧ ((unit_walktoxy E w id x y flag).2.UD id).to_x = dst.1
    ∧ ((unit_walktoxy E w id x y flag).2.UD id).to_y = dst.2
    ∧ ((unit_walktoxy E w id x y flag).2.UD id).state.change_walk_target = true
    ∧ ((unit_walktoxy E w id x y flag).2.UD id).walkpath = bl.ud.walkpath
    ∧ ((unit_walktoxy E w id x y flag).2.UD id).walktimer = bl.ud.walktimer
    ∧ (∀ p1,
        (∀ w1, E.path_search w1 bl.m (bl.x + dirx (bl.ud.walkpath.at bl.ud.walkpath.path_pos))
          (bl.y + diry (bl.ud.walkpath.at bl.ud.walkpath.path_pos)) dst.1 dst.2 (flagset flag 1)
          .CELL_CHKNOPASS = some p1) →
        (∀ w1, E.OFFICIAL_WALKPATH = false
          ∨ E.path_search_long w1 bl.m (bl.x + dirx (bl.ud.walkpath.at bl.ud.walkpath.path_pos))
              (bl.y + diry (bl.ud.walkpath.at bl.ud.walkpath.path_pos)) dst.1 dst.2 .CELL_CHKNOPASS = true
          ∨ p1.length ≤ 14 ∨ bl.type = .BL_NPC) →
        (((fire_walktimer E (unit_walktoxy E w id x y flag).2 id).BL id).x,
            ((fire_walktimer E (unit_walktoxy E w id x y flag).2 id).BL id).y)
          = (bl.x + dirx (bl.ud.walkpath.at bl.ud.walkpath.path_pos),
              bl.y + diry (bl.ud.walkpath.at bl.ud.walkpath.path_pos))
        ∧ ((fire_walktimer E (unit_walktoxy E w id x y flag).2 id).UD id).state.change_walk_target
            = false
        ∧ ((fire_walktimer E (unit_walktoxy E w id x y flag).2 id).UD id).walkpath.path = p1
        ∧ ((fire_walktimer E (unit_walktoxy E w id x y flag).2 id).UD id).walkpath.path_pos = 0)
    ∧ ((∀ w1, E.path_search w1 bl.m (bl.x + dirx (bl.ud.walkpath.at bl.ud.walkpath.path_pos))
          (bl.y + diry (bl.ud.walkpath.at bl.ud.walkpath.path_pos)) dst.1 dst.2 (flagset flag 1)
          .CELL_CHKNOPASS = none) →
        (((fire_walktimer E (unit_walktoxy E w id x y flag).2 id).BL id).x,
            ((fire_walktimer E (unit_walktoxy E w id x y flag).2 id).BL id).y)
          = (bl.x + dirx (bl.ud.walkpath.at bl.ud.walkpath.path_pos),
              bl.y + diry (bl.ud.walkpath.at bl.ud.walkpath.path_pos))
        ∧ ((fire_walktimer E (unit_walktoxy E w id x y flag).2 id).UD id).state.change_walk_target
            = true
        ∧ ((fire_walktimer E (unit_walktoxy E w id x y flag).2 id).UD id).walktimer = INVALID_TIMER
        ∧ ((fire_walktimer E (unit_walktoxy E w id x y flag).2 id).UD id).walkpath
            = bl.ud.walkpath) := by
  obtain ⟨h1, hsA, hgA, hdA, hvA⟩ := unit_walktoxy_retarget hu.frame ha hlive htimer hfunc hdst
  obtain ⟨WA, hWA⟩ : ∃ WA, WA = (unit_walktoxy E w id x y flag).2 := ⟨_, rfl⟩
  rw [← hWA] at hsA hgA hdA hvA ⊢
  obtain ⟨bA, hbA⟩ := Option.isSome_iff_exists.mp hsA
  have hBA : WA.BL id = bA := BL_of_units hbA
  rw [hBA] at hvA
  rw [UD_eq_BL, hBA] at hdA
  have a_type : bA.type = bl.type :=
    hvA _ (fun b => b.type) (fun _ _ _ _ _ _ _ => rfl) (fun _ _ _ => rfl)
  have a_m : bA.m = bl.m :=
    hvA _ (fun b => b.m) (fun _ _ _ _ _ _ _ => rfl) (fun _ _ _ => rfl)
  have a_x : bA.x = bl.x :=
    hvA _ (fun b => b.x) (fun _ _ _ _ _ _ _ => rfl) (fun _ _ _ => rfl)
  have a_y : bA.y = bl.y :=
    hvA _ (fun b => b.y) (fun _ _ _ _ _ _ _ => rfl) (fun _ _ _ => rfl)
  have a_prev : bA.prev = true :=
    (hvA _ (fun b => b.prev) (fun _ _ _ _ _ _ _ => rfl) (fun _ _ _ => rfl)).trans honmap
  have a_wt : bA.ud.walktimer = bl.ud.walktimer :=
    hvA _ (fun b => b.ud.walktimer) (fun _ _ _ _ _ _ _ => rfl) (fun _ _ _ => rfl)
  have a_wp : bA.ud.walkpath = bl.ud.walkpath :=
    hvA _ (fun b => b.ud.walkpath) (fun _ _ _ _ _ _ _ => rfl) (fun _ _ _ => rfl)
  have a_cwt : bA.ud.state.change_walk_target = true :=
    hvA _ (fun b => b.ud.state.change_walk_target) (fun _ _ _ _ _ _ _ => rfl) (fun _ _ _ => rfl)
  have a_tox : bA.ud.to_x = dst.1 := congrArg Prod.fst hdA
  have a_toy : bA.ud.to_y = dst.2 := congrArg Prod.snd hdA
  have a_easy : bA.ud.state.walk_easy = flagset flag 1 :=
    hvA _ (fun b => b.ud.state.walk_easy) (fun _ _ _ _ _ _ _ => rfl) (fun _ _ _ => rfl)
  have hudA : (unit_bl2ud bA).isSome = true := by rw [unit_bl2ud_congr a_type]; exact ha.has_ud
  obtain ⟨W, hfire, hsW, hvW⟩ := fire_walktimer_recomputes hu hbA hudA a_prev
    (by rw [a_wt]; exact hlive) (by rw [a_wt]; exact hgA) hfunc hid
    (by rw [a_wp]; exact hleft) (by rw [a_wp]; exact hdir)
    (by intro w1; rw [a_wp, a_m, a_x, a_y]; exact hpass w1) a_cwt
  rw [a_wp, a_x, a_y] at hvW
  obtain ⟨bW, hbW⟩ := Option.isSome_iff_exists.mp hsW
  have hBW : W.BL id = bW := BL_of_units hbW
  rw [hBW] at hvW
  have w_type : bW.type = bl.type :=
    (hvW _ (fun b => b.type) (fun _ _ _ _ _ => rfl) (fun _ _ => rfl)).trans a_type
  have w_m : bW.m = bl.m :=
    (hvW _ (fun b => b.m) (fun _ _ _ _ _ => rfl) (fun _ _ => rfl)).trans a_m
  have w_x : bW.x = bl.x + dirx (bl.ud.walkpath.at bl.ud.walkpath.path_pos) :=
    hvW _ (fun b => b.x) (fun _ _ _ _ _ => rfl) (fun _ _ => rfl)
  have w_y : bW.y = bl.y + diry (bl.ud.walkpath.at bl.ud.walkpath.path_pos) :=
    hvW _ (fun b => b.y) (fun _ _ _ _ _ => rfl) (fun _ _ => rfl)
  have w_wt : bW.ud.walktimer = INVALID_TIMER :=
    hvW _ (fun b => b.ud.walktimer) (fun _ _ _ _ _ => rfl) (fun _ _ => rfl)
  have w_wp : bW.ud.walkpath = bl.ud.walkpath :=
    (hvW _ (fun b => b.ud.walkpath) (fun _ _ _ _ _ => rfl) (fun _ _ => rfl)).trans a_wp
  have w_cwt : bW.ud.state.change_walk_target = true :=
    (hvW _ (fun b => b.ud.state.change_walk_target) (fun _ _ _ _ _ => rfl) (fun _ _ => rfl)).trans
      a_cwt
  have w_tox : bW.ud.to_x = dst.1 :=
    (hvW _ (fun b => b.ud.to_x) (fun _ _ _ _ _ => rfl) (fun _ _ => rfl)).trans a_tox
  have w_toy : bW.ud.to_y = dst.2 :=
    (hvW _ (fun b => b.ud.to_y) (fun _ _ _ _ _ => rfl) (fun _ _ => rfl)).trans a_toy
  have w_easy : bW.ud.state.walk_easy = flagset flag 1 :=
    (hvW _ (fun b => b.ud.state.walk_easy) (fun _ _ _ _ _ => rfl) (fun _ _ => rfl)).trans a_easy
  have hudW : (unit_bl2ud bW).isSome = true := by rw [unit_bl2ud_congr w_type]; exact ha.has_ud
  refine ⟨h1, ?_, ?_, ?_, ?_, ?_, ?_, ?_⟩
  · rw [UD_eq_BL, hBA]; exact a_tox
  · rw [UD_eq_BL, hBA]; exact a_toy
  · rw [UD_eq_BL, hBA]; exact a_cwt
  · rw [UD_eq_BL, hBA]; exact a_wp
  · rw [UD_eq_BL, hBA]; exact a_wt
  · intro p1 hp1 hd1
    rw [hfire, unit_walktoxy_sub_found hbW hudW
      (by rw [w_m, w_x, w_y, w_tox, w_toy, w_easy]; exact hp1 W)
      (by rw [w_m, w_x, w_y, w_tox, w_toy, w_type]; exact hd1 W)]
    obtain ⟨hcwt, hpp, hpos0, -⟩ := path_store_path bW bW.ud p1 hsW
    have hS : ∀ (α : Type) (g : Block → α),
        (∀ b wp tx ty wt cwt sd, g (b.path_write wp tx ty wt cwt sd) = g b) →
        g ((walk_arm E (path_store W id bW bW.ud p1) id).2.BL id) = g bW := fun α g hg => by
      rw [(walk_arm_keeps g hg E id (path_store_keeps g hg id bW bW.ud p1
        (World.Same.refl g W))).BL id, hBW]
    have hA : ∀ (α : Type) (g : Block → α),
        (∀ b wt, g { b with ud := { b.ud with walktimer := wt } } = g b) →
        g ((walk_arm E (path_store W id bW bW.ud p1) id).2.BL id)
          = g ((path_store W id bW bW.ud p1).BL id) := fun α g hg =>
      (walk_arm_same g hg E id (World.Same.refl g _)).BL id
    refine ⟨?_, ?_, ?_, ?_⟩
    · have := hS _ (fun b => (b.x, b.y)) (fun _ _ _ _ _ _ _ => rfl)
      dsimp only at this
      rw [this, w_x, w_y]
    · rw [UD_eq_BL, hA _ (fun b => b.ud.state.change_walk_target) (fun _ _ => rfl), ← UD_eq_BL]
      exact hcwt
    · rw [UD_eq_BL, hA _ (fun b => b.ud.walkpath.path) (fun _ _ => rfl), ← UD_eq_BL]
      exact hpp
    · rw [UD_eq_BL, hA _ (fun b => b.ud.walkpath.path_pos) (fun _ _ => rfl), ← UD_eq_BL]
      exact hpos0
  · intro hnone
    rw [hfire, unit_walktoxy_sub_none hbW
      (by rw [w_m, w_x, w_y, w_tox, w_toy, w_easy]; exact hnone W)]
    dsimp only
    rw [UD_eq_BL, hBW]
    exact ⟨by rw [w_x, w_y], w_cwt, w_wt, w_wp⟩

theorem walkingWorld_accepted :
    walk_accepted exampleEnv walkingWorld 1 14 10 0 walkingBlock (14, 10) [6, 6, 6, 6] where
  src_at := rfl
  has_ud := rfl
  cell := rfl
  found := rfl
  direct := Or.inr (Or.inl rfl)
  short := Or.inl (by decide)
  no_delay := by decide
  may_move := Or.inr ⟨rfl, by decide⟩

/-- Witness for C5: the player of the walking world, on its way from (10, 10) to (13, 10),
asks for (14, 10). The request is accepted and flags the change; the next firing moves
the player to (11, 10), stores the path of three east steps from there and clears the
flag. -/
theorem walk_retargets_witness :
    (unit_walktoxy exampleEnv walkingWorld 1 14 10 0).1 = 1
    ∧ ((unit_walktoxy exampleEnv walkingWorld 1 14 10 0).2.UD 1).state.change_walk_target = true
    ∧ (((fire_walktimer exampleEnv (unit_walktoxy exampleEnv walkingWorld 1 14 10 0).2 1).BL 1).x,
        ((fire_walktimer exampleEnv (unit_walktoxy exampleEnv walkingWorld 1 14 10 0).2 1).BL 1).y)
        = (11, 10)
    ∧ ((fire_walktimer exampleEnv (unit_walktoxy exampleEnv walkingWorld 1 14 10 0).2 1).UD 1).state.change_walk_target
        = false
    ∧ ((fire_walktimer exampleEnv (unit_walktoxy exampleEnv walkingWorld 1 14 10 0).2 1).UD 1).walkpath.path
        = [6, 6, 6] :=
  have h := walk_retargets exampleEnv walkingWorld 1 14 10 0 walkingBlock (14, 10) (14, 10)
    [6, 6, 6, 6] { tid := 0, tick := 200, func := .unit_walktoxy_timer, id := 1, data := 200 }
    (exampleEnv_undisturbed 1) walkingWorld_accepted rfl (by decide) rfl rfl rfl (by decide)
    (by decide) (fun _ => rfl) (fun _ => rfl)
  have h2 := h.2.2.2.2.2.2.1 [6, 6, 6] (fun _ => rfl) (fun _ => Or.inr (Or.inl rfl))
  ⟨h.1, h.2.2.2.1, h2.1, h2.2.1, h2.2.2.1⟩

/-- Counterexample to C5 as stated: in the environment with a way north from (10, 10)
only, the walking player, allowed to move, asks for (10, 13). The request is accepted
(it returns 1 and sets `change_walk_target`), but the next firing takes the player to
(11, 10), from where no path leads to (10, 13): the flag is not reset, it stays 1, and
the walk ends. -/
theorem walk_retargets_counterexample :
    (walkingWorld.UD 1).walktimer ≠ INVALID_TIMER
    ∧ (unit_can_move cornerEnv walkingWorld 1).1 = 1
    ∧ (unit_walktoxy cornerEnv walkingWorld 1 10 13 1).1 = 1
    ∧ ((unit_walktoxy cornerEnv walkingWorld 1 10 13 1).2.UD 1).state.change_walk_target = true
    ∧ (((fire_walktimer cornerEnv (unit_walktoxy cornerEnv walkingWorld 1 10 13 1).2 1).BL 1).x,
        ((fire_walktimer cornerEnv (unit_walktoxy cornerEnv walkingWorld 1 10 13 1).2 1).BL 1).y)
        = (11, 10)
    ∧ ((fire_walktimer cornerEnv
          (unit_walktoxy cornerEnv walkingWorld 1 10 13 1).2 1).UD 1).state.change_walk_target ≠ false
    ∧ ((fire_walktimer cornerEnv
          (unit_walktoxy cornerEnv walkingWorld 1 10 13 1).2 1).UD 1).walktimer = INVALID_TIMER := by
  decide

/-! ### Walk delay (C6, C7) -/

theorem ud_eq_UD {w : World} {id : Int} {ud : unit_data} (h : w.ud id = some ud) : w.UD id = ud := by
  obtain ⟨bl, hb, -, he⟩ := ud_some h
  unfold World.UD
  rw [hb]
  exact he

theorem unit_set_walkdelay_apply_fst (E : Env) (w : World) (id tick delay : Int) :
    (unit_set_walkdelay_apply E w id tick delay).1 = 1 := by
  unfold unit_set_walkdelay_apply
  dsimp only
  split_ifs <;> rfl

theorem unit_set_walkdelay_apply_canmove {E : Env} (hf : E.hooks_frame) {w : World} {id : Int}
    (tick delay : Int) (h : (w.units id).isSome) :
    ((unit_set_walkdelay_apply E w id tick delay).2.UD id).canmove_tick = tick + delay := by
  have h1 : ((w.modUd id (fun u => { u with canmove_tick := tick + delay })).UD id).canmove_tick
      = tick + delay := by
    rw [UD_modUd _ h]
  have hsw0 : ∀ W, World.Same (fun b => b.ud.canmove_tick) W (unit_stop_walking E W id 0).2 :=
    fun W => unit_stop_walking_same (fun b => b.ud.canmove_tick)
      (fun _ _ _ _ _ _ _ _ _ _ _ _ _ _ => rfl) hf _ 0 (fun _ _ h0 => absurd h0 (by decide))
      (World.Same.refl _ _)
  have hsw4 : ∀ W, World.Same (fun b => b.ud.canmove_tick) W (unit_stop_walking E W id 4).2 :=
    fun W => unit_stop_walking_same (fun b => b.ud.canmove_tick)
      (fun _ _ _ _ _ _ _ _ _ _ _ _ _ _ => rfl) hf _ 4 (fun _ _ h0 => absurd h0 (by decide))
      (World.Same.refl _ _)
  have hs : World.Same (fun b => b.ud.canmove_tick)
      (w.modUd id (fun u => { u with canmove_tick := tick + delay }))
      (unit_set_walkdelay_apply E w id tick delay).2 := by
    unfold unit_set_walkdelay_apply
    repeat' first
      | split
      | dsimp only
      | with_reducible exact World.Same.refl _ _
      | with_reducible apply World.Same.add_timer
      | with_reducible exact hsw0 _
      | with_reducible exact hsw4 _
  have := World.Same.UD (g := fun u => u.canmove_tick) hs id
  rw [this, h1]

/-- C6, as amended: for every entity, tick, delay and previous `canmove_tick`, a
skill-induced walk delay (`unit_set_walkdelay` with `type != 0`) never shortens the
movement lock: afterwards `canmove_tick` is at least its previous value; when the call
returns 1 it is `tick + delay`, and when the call returns 0 it is unchanged. (The
collaborators called on the way leave the scheduling state alone.) -/
theorem unit_set_walkdelay_skill (E : Env) (hf : E.hooks_frame) (w : World)
    (id tick delay type : Int) (htype : type ≠ 0) :
    ((unit_set_walkdelay E w id tick delay type).2.UD id).canmove_tick ≥ (w.UD id).canmove_tick
    ∧ ((unit_set_walkdelay E w id tick delay type).1 = 1 →
        ((unit_set_walkdelay E w id tick delay type).2.UD id).canmove_tick = tick + delay)
    ∧ ((unit_set_walkdelay E w id tick delay type).1 ≠ 1 →
        ((unit_set_walkdelay E w id tick delay type).2.UD id).canmove_tick = (w.UD id).canmove_tick) := by
  unfold unit_set_walkdelay
  cases hud : w.ud id with
  | none => simp
  | some ud =>
    have hUD := ud_eq_UD hud
    have hsome : (w.units id).isSome := ud_isSome_units (by rw [hud]; rfl)
    dsimp only
    by_cases hd : delay ≤ 0
    · simp [hd]
    rw [if_neg hd, if_pos htype]
    by_cases hboss : (w.BL id).type = .BL_MOB ∧ E.status_has_mode w id .MD_STATUS_IMMUNE
    · simp [hboss]
    rw [if_neg hboss]
    by_cases hlock : ud.canmove_tick - (tick + delay) > 0
    · simp [hlock]
    rw [if_neg hlock, unit_set_walkdelay_apply_fst, unit_set_walkdelay_apply_canmove hf _ _ hsome, hUD]
    refine ⟨by omega, fun _ => rfl, fun h => absurd rfl h⟩

/-- Witness for C6: a skill delay of 300 at tick 1000 on the standing player. -/
theorem unit_set_walkdelay_skill_witness :
    (1 : Int) ≠ 0
    ∧ ((unit_set_walkdelay exampleEnv exampleWorld 1 1000 300 1).2.UD 1).canmove_tick
        ≥ (exampleWorld.UD 1).canmove_tick
    ∧ ((unit_set_walkdelay exampleEnv exampleWorld 1 1000 300 1).1 = 1 →
        ((unit_set_walkdelay exampleEnv exampleWorld 1 1000 300 1).2.UD 1).canmove_tick = 1000 + 300)
    ∧ ((unit_set_walkdelay exampleEnv exampleWorld 1 1000 300 1).1 ≠ 1 →
        ((unit_set_walkdelay exampleEnv exampleWorld 1 1000 300 1).2.UD 1).canmove_tick
          = (exampleWorld.UD 1).canmove_tick) :=
  ⟨by decide, unit_set_walkdelay_skill exampleEnv (fun _ _ => ⟨rfl, rfl, rfl, rfl⟩) exampleWorld
    1 1000 300 1 (by decide)⟩

/-- Counterexample to C6 as stated: with delay 0 at tick 0 the call returns 0 although
`canmove_tick` (0) equals `tick + delay`; the lock equals `tick + delay` without the call
returning 1. -/
theorem unit_set_walkdelay_skill_counterexample :
    ¬ (((unit_set_walkdelay exampleEnv exampleWorld 1 0 0 1).2.UD 1).canmove_tick = 0 + 0
        ↔ (unit_set_walkdelay exampleEnv exampleWorld 1 0 0 1).1 = 1) := by
  decide

theorem unit_can_move_canmove (E : Env) (w : World) (id : Int) :
    ((unit_can_move E w id).2.UD id).canmove_tick = (w.UD id).canmove_tick :=
  World.Same.UD (g := fun u => u.canmove_tick)
    (unit_can_move_same (fun b => b.ud.canmove_tick) (fun _ _ => rfl) E id (World.Same.refl _ w)) id

theorem unit_can_move_isSome (E : Env) (w : World) (id : Int) :
    ((unit_can_move E w id).2.units id).isSome = (w.units id).isSome :=
  (unit_can_move_same (fun _ => ()) (fun _ _ => rfl) E id (World.Same.refl _ w)).isSome id

/-- C7, as amended: for every entity, tick, delay > 0 and previous `canmove_tick`, a
damage-induced walk delay (`unit_set_walkdelay` with `type = 0`) overwrites the movement
lock only when the entity can move now and its lock ended at least `delay` before `tick`
(`canmove_tick <= tick - delay`): exactly then the call returns 1, and afterwards
`canmove_tick = tick + delay`; otherwise it returns 0 and `canmove_tick` is unchanged.
(The collaborators called on the way leave the scheduling state alone.) -/
theorem unit_set_walkdelay_damage (E : Env) (hf : E.hooks_frame) (w : World)
    (id tick delay : Int) (hd : delay > 0) :
    ((unit_set_walkdelay E w id tick delay 0).1 = 1
      ↔ (w.ud id).isSome ∧ (unit_can_move E w id).1 ≠ 0 ∧ (w.UD id).canmove_tick ≤ tick - delay)
    ∧ ((unit_set_walkdelay E w id tick delay 0).1 = 1 →
        ((unit_set_walkdelay E w id tick delay 0).2.UD id).canmove_tick = tick + delay)
    ∧ ((unit_set_walkdelay E w id tick delay 0).1 ≠ 1 →
        (unit_set_walkdelay E w id tick delay 0).1 = 0
        ∧ ((unit_set_walkdelay E w id tick delay 0).2.UD id).canmove_tick
            = (w.UD id).canmove_tick) := by
  have hsw4 : ∀ W, World.Same (fun b => b.ud.canmove_tick) W (unit_stop_walking E W id 4).2 :=
    fun W => unit_stop_walking_same (fun b => b.ud.canmove_tick)
      (fun _ _ _ _ _ _ _ _ _ _ _ _ _ _ => rfl) hf _ 4 (fun _ _ h0 => absurd h0 (by decide))
      (World.Same.refl _ _)
  unfold unit_set_walkdelay
  cases hud : w.ud id with
  | none => simp
  | some ud =>
    have hsome : (w.units id).isSome := ud_isSome_units (by rw [hud]; rfl)
    dsimp only
    rw [if_neg (by omega : ¬ delay ≤ 0), if_neg (by simp : ¬ (0 : Int) ≠ 0)]
    by_cases hc : (unit_can_move E w id).1 = 0
    · rw [if_pos hc]
      have := World.Same.UD (g := fun u => u.canmove_tick) (hsw4 (unit_can_move E w id).2) id
      simp only at this
      simp [hc, this, unit_can_move_canmove]
    rw [if_neg hc, unit_can_move_canmove]
    by_cases hlock : (w.UD id).canmove_tick - (tick - delay) > 0
    · rw [if_pos hlock]
      have : ¬ (w.UD id).canmove_tick ≤ tick - delay := by omega
      simp [this, unit_can_move_canmove]
    rw [if_neg hlock, unit_set_walkdelay_apply_fst,
      unit_set_walkdelay_apply_canmove hf _ _ (by rw [unit_can_move_isSome]; exact hsome)]
    have : (w.UD id).canmove_tick ≤ tick - delay := by omega
    simp [hc, this]

/-- Witness for C7: a flinch of 100 at tick 1000 on the standing player, whose lock ended
at 0. -/
theorem unit_set_walkdelay_damage_witness :
    (100 : Int) > 0
    ∧ (unit_set_walkdelay exampleEnv exampleWorld 1 1000 100 0).1 = 1
    ∧ ((unit_set_walkdelay exampleEnv exampleWorld 1 1000 100 0).2.UD 1).canmove_tick = 1000 + 100 :=
  ⟨by decide,
   ((unit_set_walkdelay_damage exampleEnv (fun _ _ => ⟨rfl, rfl, rfl, rfl⟩) exampleWorld
      1 1000 100 (by decide)).1).2 (by decide),
   (unit_set_walkdelay_damage exampleEnv (fun _ _ => ⟨rfl, rfl, rfl, rfl⟩) exampleWorld
      1 1000 100 (by decide)).2.1 (by decide)⟩

/-- Counterexample to C7 as stated: a flinch of 100 at tick 0 on the standing player,
whose lock ended at 0, less than 100 before; the call returns 0 and `canmove_tick` stays
0 instead of becoming `tick + delay`. -/
theorem unit_set_walkdelay_damage_counterexample :
    (100 : Int) > 0
    ∧ ((unit_set_walkdelay exampleEnv exampleWorld 1 0 100 0).2.UD 1).canmove_tick ≠ 0 + 100 := by
  decide

/-- C8: for every entity in every state, after `unit_stop_attack` the attack target is
cleared (`target = 0`) and the attack timer handle is cleared (`attacktimer =
INVALID_TIMER`); a live attack timer is deleted from the timer service: no timer with the
old handle stays pending. -/
theorem unit_stop_attack_clears (w : World) (id : Int) (ud : unit_data) (h : w.ud id = some ud) :
    ((unit_stop_attack w id).UD id).target = 0
    ∧ ((unit_stop_attack w id).UD id).attacktimer = INVALID_TIMER
    ∧ (ud.attacktimer ≠ INVALID_TIMER →
        ∀ td, get_timer w ud.attacktimer = some td → td.func = .unit_attack_timer →
          get_timer (unit_stop_attack w id) ud.attacktimer = none) := by
  have hsome : (w.ud id).isSome := by rw [h]; rfl
  have hun : (w.units id).isSome := ud_isSome_units hsome
  obtain ⟨bl, hb, -, he⟩ := ud_some h
  have ht : ((unit_set_target w id 0).2.UD id).target = 0 := unit_set_target_target 0 hsome
  have ha : ((unit_set_target w id 0).2.UD id).attacktimer = ud.attacktimer := by
    have := (unit_set_target_same (fun b => b.ud.attacktimer) (fun _ _ _ => rfl) w id 0).BL id
    rw [UD_eq_BL, this, BL_of_units hb, he]
  have hu1 : ((unit_set_target w id 0).2.units id).isSome := by
    rw [unit_set_target_isSome]; exact hun
  unfold unit_stop_attack
  rw [h]
  dsimp only
  by_cases hinv : ud.attacktimer = INVALID_TIMER
  · rw [if_pos (by rw [ha]; exact hinv)]
    exact ⟨ht, by rw [ha]; exact hinv, fun hne => absurd hinv hne⟩
  · rw [if_neg (by rw [ha]; exact hinv)]
    have hu2 : ((delete_timer (unit_set_target w id 0).2 ud.attacktimer .unit_attack_timer).2.units
        id).isSome := by
      rw [delete_timer_units]; exact hu1
    rw [ha, UD_modUd _ hu2]
    refine ⟨?_, rfl, ?_⟩
    · show ((delete_timer _ _ _).2.UD id).target = 0
      rw [UD_eq_BL, BL_def, delete_timer_units, ← BL_def, ← UD_eq_BL]
      exact ht
    · intro _ td htd hf
      have hg : get_timer (unit_set_target w id 0).2 ud.attacktimer = some td := by
        unfold get_timer
        rw [unit_set_target_timers]
        exact htd
      have := get_timer_delete hg hf
      unfold get_timer at this ⊢
      rw [modUd_timers]
      exact this

/-- Witness for C8: an attacker with target 2 and the pending attack timer 0. -/
theorem unit_stop_attack_clears_witness :
    ((unit_stop_attack attackWorld 1).UD 1).target = 0
    ∧ ((unit_stop_attack attackWorld 1).UD 1).attacktimer = INVALID_TIMER
    ∧ ((0 : Int) ≠ INVALID_TIMER →
        ∀ td, get_timer attackWorld 0 = some td → td.func = .unit_attack_timer →
          get_timer (unit_stop_attack attackWorld 1) 0 = none) :=
  unit_stop_attack_clears attackWorld 1 attackerBlock.ud rfl

/-! ### Attack request (C9) -/

/-- C9, as amended: for every entity with no pending attack timer and no deferral, and
every valid target (exists, alive, not an NPC clicked by a player, attackable by the
entity, hostile, usable), `unit_attack` first records the request (`target` is the
requested id, `attack_continue` is bit 0 of `continuous`). If `attackabletime` is later
than now, it performs no attack during the call: it schedules exactly one attack timer at
`attackabletime`, stores its handle, and `target` and `attack_continue` keep the recorded
values. Otherwise it runs the attack routine `unit_attack_timer` at once on the recorded
state; that routine may keep the target or tear the attack down. -/
theorem unit_attack_request (E : Env) (w : World) (id target_id continuous : Int)
    (src target : Block)
    (hsrc : w.units id = some src) (hud : (unit_bl2ud src).isSome = true)
    (htg : w.units target_id = some target)
    (halive : E.status_isdead w target_id = false)
    (hnpc : ¬ (src.type = .BL_PC ∧ target.type = .BL_NPC))
    (hcan : unit_can_attack E w id target_id = true)
    (hhostile : E.battle_check_target w id target_id > 0)
    (huse : E.status_check_skilluse w id target_id = true)
    (htimer : src.ud.attacktimer = INVALID_TIMER)
    (hstep : src.ud.stepaction = false ∧ src.ud.steptimer = INVALID_TIMER)
    (hdefer : ¬ (src.type = .BL_PC ∧ src.ud.walktimer ≠ INVALID_TIMER
        ∧ E.battle_check_range (unit_attack_record E w id target_id continuous) id target_id
            (unit_attack_range E w id target_id continuous - 1) = false)) :
    ((unit_attack_record E w id target_id continuous).UD id).target = target_id
    ∧ ((unit_attack_record E w id target_id continuous).UD id).state.attack_continue
        = flagset continuous 1
    ∧ (src.ud.attackabletime > w.gettick →
        unit_attack E w id target_id continuous
          = (0, (add_timer (unit_attack_record E w id target_id continuous) src.ud.attackabletime
                  .unit_attack_timer id 0).2.modUd id
                  (fun u => { u with attacktimer := (w.next_tid : Int) }))
        ∧ ((unit_attack E w id target_id continuous).2.UD id).target = target_id
        ∧ ((unit_attack E w id target_id continuous).2.UD id).state.attack_continue
            = flagset continuous 1
        ∧ ((unit_attack E w id target_id continuous).2.UD id).attacktimer = (w.next_tid : Int)
        ∧ (unit_attack E w id target_id continuous).2.timers
            = { tid := w.next_tid, tick := src.ud.attackabletime, func := .unit_attack_timer,
                id := id, data := 0 } :: w.timers)
    ∧ (¬ src.ud.attackabletime > w.gettick →
        unit_attack E w id target_id continuous
          = (0, (unit_attack_timer E INVALID_TIMER w.gettick id 0
                  (unit_attack_record E w id target_id continuous)).2)) := by
  have hudw : (w.ud id).isSome := by rw [ud_of_units hsrc]; exact hud
  obtain ⟨hrt, hrc⟩ := unit_attack_record_target E target_id continuous hudw
  obtain ⟨ct, cn, cg⟩ := unit_attack_record_clock E w id target_id continuous
  have hsame := unit_attack_record_same
    (fun b => (b.type, b.ud.attacktimer, b.ud.stepaction, b.ud.steptimer, b.ud.walktimer,
      b.ud.attackabletime))
    (fun _ _ _ _ _ _ => rfl) E w id target_id continuous
  have hview := hsame.BL id
  have hsr : ((unit_attack_record E w id target_id continuous).units id).isSome := by
    rw [hsame.isSome id, hsrc]; rfl
  rw [BL_of_units hsrc] at hview
  simp only [Prod.mk.injEq] at hview
  obtain ⟨-, v2, v3, v4, v5, v6⟩ := hview
  rw [← UD_eq_BL] at v2 v3 v4 v5 v6
  obtain ⟨ud0, hud0⟩ := Option.isSome_iff_exists.mp hud
  have hhead : unit_attack E w id target_id continuous
      = if (unit_attack_record E w id target_id continuous).UD id |>.attackabletime
            |> fun a => a - (unit_attack_record E w id target_id continuous).gettick > 0 then
          (0, (add_timer (unit_attack_record E w id target_id continuous)
                ((unit_attack_record E w id target_id continuous).UD id).attackabletime
                .unit_attack_timer id 0).2.modUd id
                (fun u => { u with attacktimer :=
                  ((unit_attack_record E w id target_id continuous).next_tid : Int) }))
        else (0, (unit_attack_timer E INVALID_TIMER
                (unit_attack_record E w id target_id continuous).gettick id 0
                (unit_attack_record E w id target_id continuous)).2) := by
    unfold unit_attack
    rw [hsrc]
    dsimp only
    rw [hud0]
    dsimp only
    rw [htg]
    dsimp only
    rw [if_neg (by simp [halive]), if_neg hnpc, if_neg (by simp [hcan]),
      if_neg (by simp [huse]; omega)]
    have g1 : ¬ ((unit_attack_record E w id target_id continuous).UD id).attacktimer
        ≠ INVALID_TIMER := by rw [v2, htimer]; simp
    have g2 : (if ((unit_attack_record E w id target_id continuous).UD id).stepaction = true
          ∨ ((unit_attack_record E w id target_id continuous).UD id).steptimer ≠ INVALID_TIMER
        then unit_stop_stepaction (unit_attack_record E w id target_id continuous) id
        else unit_attack_record E w id target_id continuous)
        = unit_attack_record E w id target_id continuous :=
      if_neg (by rw [v3, v4, hstep.1, hstep.2]; simp)
    rw [if_neg g1, g2]
    have g3 : ¬ (src.type = .BL_PC
        ∧ ((unit_attack_record E w id target_id continuous).UD id).walktimer ≠ INVALID_TIMER
        ∧ (!E.battle_check_range (unit_attack_record E w id target_id continuous) id target_id
            (unit_attack_range E w id target_id continuous - 1)) = true) := by
      intro ⟨h1, h2, h3⟩
      rw [v5] at h2
      exact hdefer ⟨h1, h2, by simpa using h3⟩
    rw [if_neg g3]
    rfl
  rw [v6, cg, cn] at hhead
  refine ⟨hrt, hrc, fun hlt => ?_, fun hge => ?_⟩
  · have hpos : src.ud.attackabletime - w.gettick > 0 := by omega
    rw [hhead, if_pos hpos]
    refine ⟨rfl, ?_, ?_, ?_, ?_⟩
    · rw [UD_modUd _ (by rw [add_timer_units]; exact hsr)]
      exact hrt
    · rw [UD_modUd _ (by rw [add_timer_units]; exact hsr)]
      exact hrc
    · rw [UD_modUd _ (by rw [add_timer_units]; exact hsr)]
    · rw [modUd_timers, add_timer_timers, ct, cn]
  · have hneg : ¬ src.ud.attackabletime - w.gettick > 0 := by omega
    rw [hhead, if_neg hneg]

/-- Witness for C9: the resting player asks for a continuous attack on the monster 2 at
tick 0; it may attack at 1000, so one attack timer is scheduled there and nothing else
happens. -/
theorem unit_attack_request_witness :
    ((unit_attack exampleEnv restingWorld 1 2 1).2.UD 1).target = 2
    ∧ ((unit_attack exampleEnv restingWorld 1 2 1).2.UD 1).state.attack_continue = flagset 1 1
    ∧ ((unit_attack exampleEnv restingWorld 1 2 1).2.UD 1).attacktimer = 0
    ∧ (unit_attack exampleEnv restingWorld 1 2 1).2.timers
        = [{ tid := 0, tick := 1000, func := .unit_attack_timer, id := 1, data := 0 }] :=
  ((unit_attack_request exampleEnv restingWorld 1 2 1 restingBlock { targetBlock with ud := {} }
      rfl rfl rfl rfl (by decide) rfl (by decide) rfl rfl ⟨rfl, rfl⟩
      (fun h => h.2.1 rfl)).2.2.1 (by decide)).2

/-- Counterexample to C9 as stated: the player of `castingWorld` has no pending attack
timer and no deferred action, the monster 2 is a valid target and the player is off
cooldown, so the attack routine runs at once; it finds the cast in progress and tears the
attack down: afterwards `target` is 0, not the requested id 2, and `attack_continue` is
unset although bit 0 of `continuous` is set. -/
theorem unit_attack_request_counterexample :
    (castingWorld.UD 1).attacktimer = INVALID_TIMER
    ∧ (castingWorld.UD 1).stepaction = false
    ∧ (castingWorld.UD 1).steptimer = INVALID_TIMER
    ∧ (castingWorld.units 2).isSome = true
    ∧ exampleEnv.status_isdead castingWorld 2 = false
    ∧ exampleEnv.battle_check_target castingWorld 1 2 > 0
    ∧ exampleEnv.status_check_skilluse castingWorld 1 2 = true
    ∧ ¬ (castingWorld.UD 1).attackabletime > castingWorld.gettick
    ∧ ((unit_attack exampleEnv castingWorld 1 2 1).2.UD 1).target ≠ 2
    ∧ ((unit_attack exampleEnv castingWorld 1 2 1).2.UD 1).state.attack_continue ≠ flagset 1 1 := by
  decide

/-! ### Attack timer (C10) -/

theorem attack_range_ge (E : Env) (w : World) (id tg : Int) (sa : Bool) :
    E.rhw_range w id ≤ attack_range E w id tg sa := by
  unfold attack_range
  split <;> omega

theorem unit_attack_timer_sub_ready {E : Env} {w : World} {id tick : Int} {src target : Block}
    {rng : Int} (h : attack_ready E w id tick src target rng) :
    unit_attack_timer_sub E w id src.ud.attacktimer tick
      = (attack_execute E (w.modUd id (fun u => { u with attacktimer := INVALID_TIMER })) id
          src.ud.target tick (decide (src.type = .BL_PC)) (decide (src.type = .BL_MOB))).finish
          (fun w2 => attack_rearm E w2 id) := by
  obtain ⟨ud, hud⟩ := Option.isSome_iff_exists.mp h.has_ud
  have hude := unit_bl2ud_eq hud
  subst hude
  unfold unit_attack_timer_sub
  rw [h.src_at]
  dsimp only
  rw [hud]
  dsimp only
  have ht : (w.modUd id (fun u => { u with attacktimer := INVALID_TIMER })).units src.ud.target
      = some target := by
    rw [modUd_units, if_neg h.other, h.target_at]
  generalize w.modUd id (fun u => { u with attacktimer := INVALID_TIMER }) = w1 at ht ⊢
  rw [if_neg (by simp), ht]
  dsimp only
  have hrg := attack_range_ge E w1 id src.ud.target src.ud.state.step_attack
  rw [h.range] at hrg
  have hbt := h.hostile w1
  have g1 : ¬ (src.prev = false ∨ target.prev = false) := by simp [h.on_map.1, h.on_map.2]
  have g2 : (E.status_isdead w1 id || E.status_isdead w1 src.ud.target
      || decide (E.battle_check_target w1 id src.ud.target ≤ 0)
      || !E.status_check_skilluse w1 id src.ud.target
      || (E.OFFICIAL_WALKPATH
          && !E.path_search_long w1 src.m src.x src.y target.x target.y .CELL_CHKWALL)
      || (decide (src.type = .BL_PC) && !E.pc_can_attack w1 id src.ud.target)) = false := by
    have hs := h.sight
    have ha := h.allowed
    have hle : ¬ E.battle_check_target w1 id src.ud.target ≤ 0 := by omega
    simp only [(h.alive w1).1, (h.alive w1).2, h.usable w1, hle, decide_False, Bool.or_self,
      Bool.not_true, Bool.false_or]
    by_cases ho : E.OFFICIAL_WALKPATH = true <;> by_cases hp : src.type = .BL_PC
    · simp [ho, hp, hs ho w1, ha hp w1]
    · simp [ho, hp, hs ho w1]
    · simp [ho, hp, ha hp w1]
    · simp [ho, hp]
  rw [if_neg g1, g2]
  simp only [Bool.false_eq_true, if_false]
  rw [if_neg (by simp [h.same_map])]
  have g3 : ¬ (src.ud.skilltimer ≠ INVALID_TIMER
      ∧ ¬ (decide (src.type = .BL_PC) = true ∧ E.pc_checkskill w1 id SA_FREECAST > 0)) := by
    rcases h.not_casting with hc | ⟨hp, hc⟩
    · simp [hc]
    · simp [hp, hc w1]
  have g4 : ¬ (¬ E.sdelay_attack_enable = true ∧ src.ud.canact_tick - tick > 0
      ∧ ¬ (decide (src.type = .BL_PC) = true ∧ E.pc_checkskill w1 id SA_FREECAST > 0)) := by
    rcases h.no_delay with hc | hc | ⟨hp, hc⟩
    · simp [hc]
    · intro ⟨_, h2, _⟩
      omega
    · simp [hp, hc w1]
  rw [if_neg g3, if_neg g4]
  have g5 : (decide (src.type = .BL_PC)
      && !check_distance_client_bl E src target
          (attack_range E w1 id src.ud.target src.ud.state.step_attack)) = false := by
    by_cases hp : src.type = .BL_PC
    · simp [hp, h.near_pc hp _ hrg]
    · simp [hp]
  have g6 : (decide (src.type = .BL_MOB)
      && !check_distance_bl E src target
          (attack_range E w1 id src.ud.target src.ud.state.step_attack)) = false := by
    by_cases hp : src.type = .BL_MOB
    · simp [hp, h.near_mob hp _ hrg]
    · simp [hp]
  rw [g5, g6]
  simp only [Bool.false_eq_true, if_false, h.line w1 _ hrg, Bool.not_true]
  rw [if_pos (by have := h.off_cooldown; omega)]

theorem attack_execute_go {E : Env} (hf : E.hooks_frame) {w : World} {id target tick : Int}
    (sd md : Bool) {ad : Int} (hs : (w.units id).isSome)
    (hmob : ∀ w1, (E.hook (.mobskill_use id tick (-1)) w1).1 = 0)
    (hpet : ∀ w1, (E.hook (.pet_attackskill id target) w1).1 = 0)
    (hhit : ∀ w1, (E.hook (.battle_weapon_attack id target tick 0) w1).1 ≠ ATK_NONE)
    (had : ∀ w1, E.adelay w1 id = ad) :
    (attack_execute E w id target tick sd md).isGo = true
    ∧ ((attack_execute E w id target tick sd md).world.UD id).attackabletime = tick + ad := by
  have h1 := attack_mob_part_isGo (attack_prepare E w id target) target md hmob
  have h2 := attack_pet_part_isGo
    (attack_mob_part E (attack_prepare E w id target) id target tick md).world hpet
  have hs2 : ((attack_pet_part E
      (attack_mob_part E (attack_prepare E w id target) id target tick md).world id
        target).world.units id).isSome := by
    have := World.Same.isSome (attack_pet_part_same (fun _ => ()) hf id target
      (attack_mob_part_same (fun _ => ()) (fun _ _ _ _ _ _ _ _ _ _ _ _ _ _ _ _ _ => rfl) hf id target
        tick md (attack_prepare_same (fun _ => ())
          (fun _ _ _ _ _ _ _ _ _ _ _ _ _ _ _ _ _ => rfl) hf id target (World.Same.refl _ w)))) id
    rw [this]
    exact hs
  have h3 := attack_hit_part_go hf sd hs2 hhit had
  unfold attack_execute
  rw [isGo_andThen, h1, world_andThen _ _ h1, isGo_andThen, h2, world_andThen _ _ h2]
  exact ⟨by simp [h3.1], h3.2⟩

/-- C10: for every firing of the attack timer at tick `t` in which the attack is
executed (`attack_ready`: target valid, in range with a line of attack, attackabletime <=
t, combat result not ATK_NONE), afterwards `attackabletime = t + adelay`; when
`attack_continue` is set a new attack timer, whose handle is stored in `attacktimer`, is
scheduled at that time, and otherwise `attacktimer` is INVALID_TIMER. (The collaborators
leave the scheduling state alone.) -/
theorem unit_attack_timer_executed (E : Env) (hf : E.hooks_frame) (w : World) (id tick : Int)
    (src target : Block) (rng ad : Int) (h : attack_ready E w id tick src target rng)
    (had : ∀ w1, E.adelay w1 id = ad) :
    ((unit_attack_timer E src.ud.attacktimer tick id 0 w).2.UD id).attackabletime = tick + ad
    ∧ (src.ud.state.attack_continue = true →
        ((unit_attack_timer E src.ud.attacktimer tick id 0 w).2.UD id).attacktimer ≠ INVALID_TIMER
        ∧ ∃ td, (unit_attack_timer E src.ud.attacktimer tick id 0 w).2.timers.head? = some td
          ∧ td.tid = ((unit_attack_timer E src.ud.attacktimer tick id 0 w).2.UD id).attacktimer
          ∧ td.tick = tick + ad ∧ td.func = .unit_attack_timer ∧ td.id = id)
    ∧ (src.ud.state.attack_continue = false →
        ((unit_attack_timer E src.ud.attacktimer tick id 0 w).2.UD id).attacktimer
          = INVALID_TIMER) := by
  have hs : (w.units id).isSome := by rw [h.src_at]; rfl
  have hs1 : ((w.modUd id (fun u => { u with attacktimer := INVALID_TIMER })).units id).isSome := by
    rw [isSome_modUd]; exact hs
  obtain ⟨hgo, hat⟩ := attack_execute_go hf (decide (src.type = .BL_PC))
    (decide (src.type = .BL_MOB)) hs1 h.no_mob_skill h.no_pet_skill h.hit had
  have hsame := attack_execute_same (fun b => (b.ud.attacktimer, b.ud.state.attack_continue))
    (fun _ _ _ _ _ _ _ _ _ _ _ _ _ _ _ _ _ => rfl) hf id src.ud.target tick
    (decide (src.type = .BL_PC)) (decide (src.type = .BL_MOB))
    (World.Same.refl _ (w.modUd id (fun u => { u with attacktimer := INVALID_TIMER })))
  have hview := hsame.BL id
  have hsW := hsame.isSome id
  rw [hs1] at hsW
  rw [BL_modUd _ hs, BL_of_units h.src_at] at hview
  simp only [Prod.mk.injEq] at hview
  obtain ⟨hv1, hv2⟩ := hview
  unfold unit_attack_timer
  rw [h.src_at]
  dsimp only
  rw [unit_attack_timer_sub_ready h, eq_go_of_isGo hgo, finish_go]
  generalize (attack_execute E (w.modUd id (fun u => { u with attacktimer := INVALID_TIMER })) id
    src.ud.target tick (decide (src.type = .BL_PC)) (decide (src.type = .BL_MOB))).world = W
    at hat hv1 hv2 hsW
  obtain ⟨r1, r2, r3, r4⟩ := attack_rearm_spec E hsW
  rw [if_neg (by rw [r1]; decide)]
  dsimp only
  rw [← UD_eq_BL] at hv1 hv2
  refine ⟨by rw [r2, hat], fun hc => ?_, fun hc => ?_⟩
  · obtain ⟨t1, t2⟩ := r3 (by rw [hv2]; exact hc)
    refine ⟨by rw [t1]; unfold INVALID_TIMER; omega, ?_⟩
    rw [t2]
    exact ⟨_, rfl, t1.symm, hat, rfl, rfl⟩
  · obtain ⟨t1, -⟩ := r4 (by rw [hv2]; exact hc)
    rw [t1, hv1]

theorem attackWorld_ready : attack_ready exampleEnv attackWorld 1 500 attackerBlock targetBlock 1 where
  src_at := rfl
  has_ud := rfl
  other := by decide
  target_at := rfl
  on_map := ⟨rfl, rfl⟩
  alive := fun _ => ⟨rfl, rfl⟩
  hostile := fun _ => by simp [exampleEnv]
  usable := fun _ => rfl
  sight := fun _ _ => rfl
  allowed := fun _ _ => rfl
  same_map := rfl
  not_casting := Or.inl rfl
  no_delay := Or.inr (Or.inl (by decide))
  range := fun _ => rfl
  near_pc := fun _ r hr => by
    simp only [check_distance_client_bl, exampleEnv, attackerBlock, targetBlock]
    simp
    omega
  near_mob := fun hm => by simp [attackerBlock] at hm
  line := fun _ _ _ => rfl
  off_cooldown := by decide
  no_mob_skill := fun _ => rfl
  no_pet_skill := fun _ => rfl
  hit := fun _ => by simp [exampleEnv]

/-- Witness for C10: the attack timer of the player of `attackWorld` fires at tick 500;
the attack delay is 500 and the attack is continuous, so the next attack is scheduled at
1000. -/
theorem unit_attack_timer_executed_witness :
    ((unit_attack_timer exampleEnv 0 500 1 0 attackWorld).2.UD 1).attackabletime = 500 + 500
    ∧ (attackerBlock.ud.state.attack_continue = true →
        ((unit_attack_timer exampleEnv 0 500 1 0 attackWorld).2.UD 1).attacktimer ≠ INVALID_TIMER
        ∧ ∃ td, (unit_attack_timer exampleEnv 0 500 1 0 attackWorld).2.timers.head? = some td
          ∧ td.tid = ((unit_attack_timer exampleEnv 0 500 1 0 attackWorld).2.UD 1).attacktimer
          ∧ td.tick = 500 + 500 ∧ td.func = .unit_attack_timer ∧ td.id = 1)
    ∧ (attackerBlock.ud.state.attack_continue = false →
        ((unit_attack_timer exampleEnv 0 500 1 0 attackWorld).2.UD 1).attacktimer
          = INVALID_TIMER) :=
  unit_attack_timer_executed exampleEnv exampleEnv_frame attackWorld 1 500 attackerBlock
    targetBlock 1 500 attackWorld_ready (fun _ => rfl)

/-! ### Chase of a target out of range (C11) -/

theorem unit_attack_timer_sub_far {E : Env} {w : World} {id tick : Int} {src target : Block}
    (h : attack_far E w id tick src target) :
    unit_attack_timer_sub E w id src.ud.attacktimer tick
      = (1, (unit_walktobl E (attack_chase_state w id src) id src.ud.target
              ((attack_chase_state w id src).UD id).chaserange
              (Int.lor (b2i src.ud.state.walk_easy) 2)).2) := by
  obtain ⟨ud, hud⟩ := Option.isSome_iff_exists.mp h.has_ud
  have hude := unit_bl2ud_eq hud
  subst hude
  have hs : (w.units id).isSome := by rw [h.src_at]; rfl
  have hcr : ((attack_timer_cleared w id).UD id).chaserange = src.ud.chaserange := by
    unfold attack_timer_cleared
    rw [UD_modUd _ hs, UD_eq_BL, BL_of_units h.src_at]
  unfold unit_attack_timer_sub attack_chase_state
  rw [h.src_at]
  dsimp only
  rw [hud]
  dsimp only
  have ht : (attack_timer_cleared w id).units src.ud.target = some target := by
    unfold attack_timer_cleared
    rw [modUd_units, if_neg h.other, h.target_at]
  have hfar := h.far (attack_timer_cleared w id)
  unfold attack_timer_cleared at ht hfar hcr ⊢
  generalize w.modUd id (fun u => { u with attacktimer := INVALID_TIMER }) = w1 at ht hfar hcr ⊢
  rw [if_neg (by simp), ht]
  dsimp only
  have hbt := h.hostile w1
  have g1 : ¬ (src.prev = false ∨ target.prev = false) := by simp [h.on_map.1, h.on_map.2]
  have g2 : (E.status_isdead w1 id || E.status_isdead w1 src.ud.target
      || decide (E.battle_check_target w1 id src.ud.target ≤ 0)
      || !E.status_check_skilluse w1 id src.ud.target
      || (E.OFFICIAL_WALKPATH
          && !E.path_search_long w1 src.m src.x src.y target.x target.y .CELL_CHKWALL)
      || (decide (src.type = .BL_PC) && !E.pc_can_attack w1 id src.ud.target)) = false := by
    have hs := h.sight
    have hle : ¬ E.battle_check_target w1 id src.ud.target ≤ 0 := by omega
    simp only [(h.alive w1).1, (h.alive w1).2, h.usable w1, hle, decide_False, Bool.or_self,
      Bool.not_true, Bool.false_or, h.no_player]
    by_cases ho : E.OFFICIAL_WALKPATH = true
    · simp [ho, hs ho w1]
    · simp [ho]
  rw [if_neg g1, g2]
  simp only [Bool.false_eq_true, if_false]
  rw [if_neg (by simp [h.same_map])]
  have g3 : ¬ (src.ud.skilltimer ≠ INVALID_TIMER
      ∧ ¬ (decide (src.type = .BL_PC) = true ∧ E.pc_checkskill w1 id SA_FREECAST > 0)) := by
    simp [h.not_casting]
  have g4 : ¬ (¬ E.sdelay_attack_enable = true ∧ src.ud.canact_tick - tick > 0
      ∧ ¬ (decide (src.type = .BL_PC) = true ∧ E.pc_checkskill w1 id SA_FREECAST > 0)) := by
    rcases h.no_delay with hc | hc
    · simp [hc]
    · intro ⟨_, h2, _⟩
      omega
  rw [if_neg g3, if_neg g4]
  simp only [h.no_player, decide_False, Bool.false_and, Bool.false_eq_true, if_false]
  by_cases hm : src.type = .BL_MOB
  · rw [if_pos hm] at hfar
    simp only [hm, decide_True, Bool.true_and, hfar, Bool.not_false, if_true, ne_eq,
      not_true_eq_false, false_and, if_false, hcr]
  · rw [if_neg hm] at hfar
    simp only [hm, decide_False, Bool.false_and, Bool.false_eq_true, if_false, hfar,
      Bool.not_false, if_true, h.continuous, ne_eq, not_false_eq_true, true_and]

/-- C11, as amended: for every entity other than a player in a continuous attack on a
target T on the same map: when the attack timer fires and T is farther than the attack
range (`attack_far`), the combat scheduler delegates to chase mode: it calls
`unit_walktobl` toward T with the standoff range `chaserange` (lowered by 2 first when it
is above 2 and the entity is no monster) and the attack-on-arrival flag 2, and it does not
terminate the attack sequence: `unit_attack_timer_sub` returns 1, so the firing ends in
the state `unit_walktobl` leaves, without `unit_unattackable`. -/
theorem unit_attack_timer_chases (E : Env) (w : World) (id tick data : Int) (src target : Block)
    (h : attack_far E w id tick src target) :
    (unit_attack_timer_sub E w id src.ud.attacktimer tick).1 = 1
    ∧ unit_attack_timer E src.ud.attacktimer tick id data w
        = (0, (unit_walktobl E (attack_chase_state w id src) id src.ud.target
                ((attack_chase_state w id src).UD id).chaserange
                (Int.lor (b2i src.ud.state.walk_easy) 2)).2)
    ∧ flagset (Int.lor (b2i src.ud.state.walk_easy) 2) 2 = true := by
  refine ⟨by rw [unit_attack_timer_sub_far h], ?_, ?_⟩
  · unfold unit_attack_timer
    rw [h.src_at]
    dsimp only
    rw [unit_attack_timer_sub_far h]
    rfl
  · cases src.ud.state.walk_easy <;> decide

theorem chaserWorld_far :
    attack_far exampleEnv chaserWorld 1 500 chaserBlock
      { type := .BL_PC, x := 13, y := 10, ud := { target_count := 1 } } where
  src_at := rfl
  has_ud := rfl
  other := by decide
  target_at := rfl
  on_map := ⟨rfl, rfl⟩
  alive := fun _ => ⟨rfl, rfl⟩
  hostile := fun _ => Int.one_pos
  usable := fun _ => rfl
  sight := fun _ _ => rfl
  same_map := rfl
  not_casting := rfl
  no_delay := Or.inr (by decide)
  continuous := rfl
  no_player := by decide
  far := fun w1 => by
    rw [if_pos (by decide)]
    unfold attack_range
    split <;> rfl

/-- Witness for C11: the monster of `chaserWorld`, whose target has moved three cells away,
starts to chase it when its attack timer fires: `target_to` is the target, and a walk
timer is scheduled. -/
theorem unit_attack_timer_chases_witness :
    (unit_attack_timer_sub exampleEnv chaserWorld 1 0 500).1 = 1
    ∧ unit_attack_timer exampleEnv 0 500 1 0 chaserWorld
        = (0, (unit_walktobl exampleEnv (attack_chase_state chaserWorld 1 chaserBlock) 1 2
                ((attack_chase_state chaserWorld 1 chaserBlock).UD 1).chaserange
                (Int.lor (b2i false) 2)).2)
    ∧ ((unit_attack_timer exampleEnv 0 500 1 0 chaserWorld).2.UD 1).target_to = 2
    ∧ ((unit_attack_timer exampleEnv 0 500 1 0 chaserWorld).2.UD 1).walktimer ≠ INVALID_TIMER :=
  have h := unit_attack_timer_chases exampleEnv chaserWorld 1 500 0 chaserBlock _ chaserWorld_far
  ⟨h.1, h.2.1, by decide, by decide⟩

/-- Counterexample to C11 as stated: the player of `farWorld` is in a continuous attack on
the monster 2, which is on the same map and three cells away, beyond the attack range
(1, or 2 with the extra cell). When the attack timer fires the scheduler returns 1 at
line 2652 and starts no chase: afterwards there is no chase target, no walk timer and no
pending timer; `unit_walktobl`, had it been called in that state, would have set the
chase target and scheduled a walk timer. -/
theorem unit_attack_timer_chases_counterexample :
    (farWorld.BL 1).type = .BL_PC
    ∧ (farWorld.UD 1).target = 2 ∧ (farWorld.UD 1).state.attack_continue = true
    ∧ (farWorld.BL 1).m = (farWorld.BL 2).m
    ∧ check_distance_client_bl exampleEnv (farWorld.BL 1) (farWorld.BL 2)
        (exampleEnv.rhw_range farWorld 1 + 1) = false
    ∧ (unit_attack_timer_sub exampleEnv farWorld 1 0 500).1 = 1
    ∧ ((unit_attack_timer exampleEnv 0 500 1 0 farWorld).2.UD 1).target_to = 0
    ∧ ((unit_attack_timer exampleEnv 0 500 1 0 farWorld).2.UD 1).walktimer = INVALID_TIMER
    ∧ (unit_attack_timer exampleEnv 0 500 1 0 farWorld).2.timers = []
    ∧ ((unit_walktobl exampleEnv (attack_timer_cleared farWorld 1) 1 2 0 2).2.UD 1).target_to = 2
    ∧ ((unit_walktobl exampleEnv (attack_timer_cleared farWorld 1) 1 2 0 2).2.UD 1).walktimer
        ≠ INVALID_TIMER := by
  decide

/-! ### Attack of a casting entity (C12) -/

theorem unit_attack_timer_sub_casting {E : Env} {w : World} {id : Int} (tick : Int) {src : Block}
    (hsrc : w.units id = some src) (hud : (unit_bl2ud src).isSome = true)
    (hcast : src.ud.skilltimer ≠ INVALID_TIMER)
    (hexempt : ¬ (src.type = .BL_PC
      ∧ E.pc_checkskill (attack_timer_cleared w id) id SA_FREECAST > 0))
    (hwarp : attack_off_map E w id src = true →
      (E.hook (.mob_warpchase id src.ud.target) (attack_timer_cleared w id)).1 = 0) :
    unit_attack_timer_sub E w id src.ud.attacktimer tick = (0, attack_preempted E w id src) := by
  obtain ⟨ud, hud0⟩ := Option.isSome_iff_exists.mp hud
  have hude := unit_bl2ud_eq hud0
  subst hude
  unfold unit_attack_timer_sub attack_preempted
  rw [hsrc]
  dsimp only
  rw [hud0]
  dsimp only
  rw [if_neg (by simp)]
  unfold attack_off_map at hwarp ⊢
  unfold attack_timer_cleared at hexempt hwarp ⊢
  generalize w.modUd id (fun u => { u with attacktimer := INVALID_TIMER }) = w1 at hexempt hwarp ⊢
  cases ht : w1.units src.ud.target with
  | none => simp
  | some target =>
    rw [ht] at hwarp
    dsimp only at hwarp ⊢
    by_cases g1 : src.prev = false ∨ target.prev = false
    · rw [if_pos g1]
      rcases g1 with g1 | g1 <;> simp [g1]
    · rw [if_neg g1]
      have hp1 : src.prev = true := by
        cases hp : src.prev
        · exact absurd (Or.inl hp) g1
        · rfl
      have hp2 : target.prev = true := by
        cases hp : target.prev
        · exact absurd (Or.inr hp) g1
        · rfl
      rw [hp1, hp2] at hwarp ⊢
      generalize (E.status_isdead w1 id || E.status_isdead w1 src.ud.target
        || decide (E.battle_check_target w1 id src.ud.target ≤ 0)
        || !E.status_check_skilluse w1 id src.ud.target
        || (E.OFFICIAL_WALKPATH
            && !E.path_search_long w1 src.m src.x src.y target.x target.y .CELL_CHKWALL)
        || (decide (src.type = .BL_PC) && !E.pc_can_attack w1 id src.ud.target)) = bad at hwarp ⊢
      cases bad
      · simp only [Bool.false_eq_true, if_false, Bool.not_false, Bool.and_self, Bool.true_and,
          Bool.and_eq_true, decide_eq_true_eq] at hwarp ⊢
        by_cases hm : src.m = target.m
        · rw [if_neg (by simp [hm]), if_pos ⟨hcast, hexempt⟩, if_neg (by simp [hm])]
        · rw [if_pos hm]
          by_cases hb : src.type = .BL_MOB
          · rw [if_pos hb, hwarp ⟨hm, hb⟩]
            simp [hm, hb]
          · rw [if_neg hb]
            simp [hb]
      · simp

theorem attack_preempted_spec {E : Env} (hf : E.hooks_frame) {w : World} {id : Int} (src : Block)
    (hs : (w.units id).isSome) :
    ((attack_preempted E w id src).UD id).attacktimer = INVALID_TIMER
    ∧ World.Same (fun b => b.type) w (attack_preempted E w id src)
    ∧ (attack_preempted E w id src).timers = w.timers
    ∧ (attack_preempted E w id src).next_tid = w.next_tid := by
  have h1 : ((attack_timer_cleared w id).UD id).attacktimer = INVALID_TIMER := by
    unfold attack_timer_cleared
    rw [UD_modUd _ hs]
  have h2 : World.Same (fun b => b.type) w (attack_timer_cleared w id) :=
    World.Same.modUd _ _ (World.Same.refl _ w) (fun _ => rfl)
  have h3 : (attack_timer_cleared w id).timers = w.timers := modUd_timers _ _ _
  have h4 : (attack_timer_cleared w id).next_tid = w.next_tid := modUd_next_tid _ _ _
  unfold attack_preempted
  split
  · exact ⟨by rw [UD_hook hf]; exact h1, World.Same.hook hf _ h2, by rw [hook_timers hf]; exact h3,
      by rw [hook_next_tid hf]; exact h4⟩
  · exact ⟨h1, h2, h3, h4⟩

/-- C12, as amended: for every entity whose cast timer is live and that is not exempt (not
a player with the Free Cast skill), except a monster that follows its target to another
map (its target is valid, stands on another map and `mob_warpchase` succeeds): the attack
routine `unit_attack_timer`, run by a firing of the attack timer or by an immediate attack
request (the handle passed is the stored one), performs no attack (its outcome does not
depend on the combat routine), schedules no timer, and ends with the attack sequence torn
down (`attacktimer = INVALID_TIMER`, `target = 0`, `attack_continue = 0`). (The
collaborators leave the scheduling state alone.) -/
theorem unit_attack_timer_preempted (E : Env) (hf : E.hooks_frame) (w : World)
    (id tick data : Int) (src : Block)
    (hsrc : w.units id = some src) (hud : (unit_bl2ud src).isSome = true)
    (hcast : src.ud.skilltimer ≠ INVALID_TIMER)
    (hexempt : ¬ (src.type = .BL_PC
      ∧ E.pc_checkskill (attack_timer_cleared w id) id SA_FREECAST > 0))
    (hwarp : attack_off_map E w id src = true →
      (E.hook (.mob_warpchase id src.ud.target) (attack_timer_cleared w id)).1 = 0) :
    ((unit_attack_timer E src.ud.attacktimer tick id data w).2.UD id).attacktimer = INVALID_TIMER
    ∧ ((unit_attack_timer E src.ud.attacktimer tick id data w).2.UD id).target = 0
    ∧ ((unit_attack_timer E src.ud.attacktimer tick id data w).2.UD id).state.attack_continue
        = false
    ∧ (unit_attack_timer E src.ud.attacktimer tick id data w).2.timers = w.timers
    ∧ (unit_attack_timer E src.ud.attacktimer tick id data w).2.next_tid = w.next_tid
    ∧ ∀ f, unit_attack_timer (E.with_attack f) src.ud.attacktimer tick id data w
        = unit_attack_timer E src.ud.attacktimer tick id data w := by
  have hs : (w.units id).isSome := by rw [hsrc]; rfl
  have key : ∀ E1 : Env, ¬ (src.type = .BL_PC
        ∧ E1.pc_checkskill (attack_timer_cleared w id) id SA_FREECAST > 0) →
      (attack_off_map E1 w id src = true →
        (E1.hook (.mob_warpchase id src.ud.target) (attack_timer_cleared w id)).1 = 0) →
      unit_attack_timer E1 src.ud.attacktimer tick id data w
        = (0, (unit_unattackable E1 (attack_preempted E1 w id src) id).2) := by
    intro E1 he hw
    unfold unit_attack_timer
    rw [hsrc]
    dsimp only
    rw [unit_attack_timer_sub_casting tick hsrc hud hcast he hw]
    rfl
  obtain ⟨p1, p2, p3, p4⟩ := attack_preempted_spec hf src hs
  have hudp : ((attack_preempted E w id src).ud id).isSome := by
    rw [World.Same.ud_isSome p2, ud_of_units hsrc]
    exact hud
  obtain ⟨r1, -, r3, -⟩ := unit_unattackable_resets hf hudp
  obtain ⟨c1, c2, -⟩ := unit_unattackable_clock hf (attack_preempted E w id src) id
  have hv := World.Same.UD (g := fun u => u.attacktimer)
    (unit_unattackable_same (fun b => b.ud.attacktimer) (fun _ _ _ _ _ _ => rfl) hf id
      (World.Same.refl _ (attack_preempted E w id src))) id
  refine ⟨?_, ?_, ?_, ?_, ?_, fun f => ?_⟩
  · rw [key E hexempt hwarp]
    exact hv.trans p1
  · rw [key E hexempt hwarp]
    exact r1
  · rw [key E hexempt hwarp]
    exact r3
  · rw [key E hexempt hwarp]
    exact c1.trans p3
  · rw [key E hexempt hwarp]
    exact c2.trans p4
  · exact (key (E.with_attack f) hexempt hwarp).trans (key E hexempt hwarp).symm

/-- Witness for C12: the casting player of `castingWorld` asks for an immediate attack on
the monster 2. -/
theorem unit_attack_timer_preempted_witness :
    ((unit_attack_timer exampleEnv INVALID_TIMER 0 1 0 castingWorld).2.UD 1).attacktimer
      = INVALID_TIMER
    ∧ ((unit_attack_timer exampleEnv INVALID_TIMER 0 1 0 castingWorld).2.UD 1).target = 0
    ∧ (unit_attack_timer exampleEnv INVALID_TIMER 0 1 0 castingWorld).2.timers
        = castingWorld.timers :=
  have h := unit_attack_timer_preempted exampleEnv exampleEnv_frame castingWorld 1 0 0 casterBlock
    rfl rfl (by decide) (fun h => absurd h.2 (by decide)) (fun h => absurd h (by decide))
  ⟨h.1, h.2.1, h.2.2.2.1⟩

/-- Counterexample to C12 as stated: the monster of `strandedWorld` casts (its cast timer
5 is live; it is no player, so not exempt) and its attack timer 0 fires at tick 500. Its
target stands on another map and the warp chase succeeds, so the firing ends at line 2614
with the result 1, before the cast check: the attack sequence is not torn down, `target`
is still 2 and `attack_continue` is still set. -/
theorem unit_attack_timer_preempted_counterexample :
    (strandedWorld.UD 1).skilltimer ≠ INVALID_TIMER
    ∧ (strandedWorld.BL 1).type ≠ .BL_PC
    ∧ (unit_attack_timer_sub warpEnv strandedWorld 1 0 500).1 = 1
    ∧ ((unit_attack_timer warpEnv 0 500 1 0 strandedWorld).2.UD 1).target = 2
    ∧ ((unit_attack_timer warpEnv 0 500 1 0 strandedWorld).2.UD 1).state.attack_continue = true := by
  decide

/-! ### Attack request on an invalid target (C13) -/

theorem unit_attack_invalid_eq {E : Env} {w : World} {id target_id : Int} (continuous : Int)
    {src : Block} (hsrc : w.units id = some src) (hud : (unit_bl2ud src).isSome = true)
    (hrej : w.units target_id = none ∨ E.status_isdead w target_id = true
      ∨ ∃ target, w.units target_id = some target
          ∧ ¬ (src.type = .BL_PC ∧ target.type = .BL_NPC)
          ∧ unit_can_attack E w id target_id = true
          ∧ (E.battle_check_target w id target_id ≤ 0
              ∨ E.status_check_skilluse w id target_id = false)) :
    unit_attack E w id target_id continuous = (1, (unit_unattackable E w id).2) := by
  obtain ⟨ud0, hud0⟩ := Option.isSome_iff_exists.mp hud
  unfold unit_attack
  rw [hsrc]
  dsimp only
  rw [hud0]
  dsimp only
  cases htg : w.units target_id with
  | none => rfl
  | some target =>
    dsimp only
    by_cases hd : E.status_isdead w target_id = true
    · rw [if_pos hd]
    · rcases hrej with h | h | ⟨t2, h1, h2, h3, h4⟩
      · rw [htg] at h; cases h
      · exact absurd h hd
      · rw [htg] at h1
        cases h1
        rw [if_neg hd, if_neg h2, if_neg (by simp [h3]), if_pos (by
          rcases h4 with h4 | h4
          · exact Or.inl h4
          · exact Or.inr (by simp [h4]))]

/-- C13, as amended: for every entity with a control block and every attack request that
is rejected because the target is invalid (the target id resolves to no entity, the target
is dead, or the target is not hostile or not a legal target), `unit_attack` returns the
failure result (1). It does not leave the control block unchanged: it resets the attack
request (`target`, `target_to`, `attack_continue` and `step_attack` are 0 in the world
`w1` it leaves) and then, for a monster or a pet, calls `mob_unlocktarget` or
`pet_unlocktarget` on `w1`; for every other entity `w1` is the result. `unit_attack`
itself leaves the timers alone: in `w1` the four timer handles of the entity, the pending
timers, the handle counter and the clock are those of the call. Nothing is assumed of the
collaborators. -/
theorem unit_attack_invalid_target (E : Env) (w : World)
    (id target_id continuous : Int) (src : Block)
    (hsrc : w.units id = some src) (hud : (unit_bl2ud src).isSome = true)
    (hrej : w.units target_id = none ∨ E.status_isdead w target_id = true
      ∨ ∃ target, w.units target_id = some target
          ∧ ¬ (src.type = .BL_PC ∧ target.type = .BL_NPC)
          ∧ unit_can_attack E w id target_id = true
          ∧ (E.battle_check_target w id target_id ≤ 0
              ∨ E.status_check_skilluse w id target_id = false)) :
    ∃ w1 : World,
      unit_attack E w id target_id continuous
        = (1, if src.type = .BL_MOB then (E.hook (.mob_unlocktarget id w1.gettick) w1).2
              else if src.type = .BL_PET then (E.hook (.pet_unlocktarget id) w1).2
              else w1)
      ∧ (w1.UD id).target = 0
      ∧ (w1.UD id).target_to = 0
      ∧ (w1.UD id).state.attack_continue = false
      ∧ (w1.UD id).state.step_attack = false
      ∧ (w1.UD id).walktimer = src.ud.walktimer
      ∧ (w1.UD id).attacktimer = src.ud.attacktimer
      ∧ (w1.UD id).skilltimer = src.ud.skilltimer
      ∧ (w1.UD id).steptimer = src.ud.steptimer
      ∧ w1.timers = w.timers ∧ w1.next_tid = w.next_tid ∧ w1.gettick = w.gettick := by
  have hs : (w.units id).isSome := by rw [hsrc]; rfl
  have hudw : (w.ud id).isSome := by rw [ud_of_units hsrc]; exact hud
  obtain ⟨ud, hud0⟩ := Option.isSome_iff_exists.mp hud
  obtain ⟨wa, hwa⟩ : ∃ wa, wa = w.modUd id (fun u =>
      { u with state := { u.state with attack_continue := false, step_attack := false },
               target_to := 0 }) := ⟨_, rfl⟩
  have huda : (wa.ud id).isSome := by
    rw [World.Same.ud_isSome (w := w)]
    · exact hudw
    · rw [hwa]; exact World.Same.modUd _ _ (World.Same.refl _ w) (fun _ => rfl)
  have h1 : ((unit_set_target wa id 0).2.UD id).target = 0 := unit_set_target_target 0 huda
  have h2 := World.Same.UD
    (g := fun u => (u.target_to, u.state.attack_continue, u.state.step_attack,
      u.walktimer, u.attacktimer, u.skilltimer, u.steptimer))
    (unit_set_target_same (fun b => (b.ud.target_to, b.ud.state.attack_continue,
        b.ud.state.step_attack, b.ud.walktimer, b.ud.attacktimer, b.ud.skilltimer,
        b.ud.steptimer))
      (fun _ _ _ => rfl) wa id 0) id
  have h3 : ((wa.UD id).target_to, (wa.UD id).state.attack_continue,
      (wa.UD id).state.step_attack, (wa.UD id).walktimer, (wa.UD id).attacktimer,
      (wa.UD id).skilltimer, (wa.UD id).steptimer)
      = (0, false, false, src.ud.walktimer, src.ud.attacktimer, src.ud.skilltimer,
          src.ud.steptimer) := by
    rw [hwa, UD_modUd _ hs, UD_eq_BL, BL_of_units hsrc]
  rw [h3] at h2
  simp only [Prod.mk.injEq] at h2
  obtain ⟨a1, a2, a3, a4, a5, a6, a7⟩ := h2
  refine ⟨(unit_set_target wa id 0).2, ?_, h1, a1, a2, a3, a4, a5, a6, a7, ?_, ?_, ?_⟩
  · rw [unit_attack_invalid_eq continuous hsrc hud hrej]
    unfold unit_unattackable
    rw [hsrc]
    dsimp only
    rw [hud0]
    dsimp only
    rw [← hwa]
    split
    · rfl
    · split <;> rfl
  · rw [unit_set_target_timers, hwa, modUd_timers]
  · rw [unit_set_target_next_tid, hwa, modUd_next_tid]
  · rw [unit_set_target_gettick, hwa, modUd_gettick]

/-- Witness for C13: the attacker of `attackWorld`, a player, asks to attack the block 9,
which does not exist; the chasing monster of `huntWorld` does the same, and
`mob_unlocktarget` is called on the world with the request reset. -/
theorem unit_attack_invalid_target_witness :
    (∃ w1 : World, unit_attack exampleEnv attackWorld 1 9 1 = (1, w1)
      ∧ (w1.UD 1).target = 0 ∧ (w1.UD 1).attacktimer = 0 ∧ w1.timers = attackWorld.timers)
    ∧ (∃ w1 : World, unit_attack exampleEnv huntWorld 1 9 1
          = (1, (exampleEnv.hook (.mob_unlocktarget 1 w1.gettick) w1).2)
      ∧ (w1.UD 1).target_to = 0 ∧ w1.timers = huntWorld.timers) :=
  have ⟨w1, e, h⟩ := unit_attack_invalid_target exampleEnv attackWorld 1 9 1 attackerBlock
    rfl rfl (Or.inl rfl)
  have ⟨w2, e2, h2⟩ := unit_attack_invalid_target exampleEnv huntWorld 1 9 1 huntBlock
    rfl rfl (Or.inl rfl)
  ⟨⟨w1, e, h.1, h.2.2.2.2.2.1, h.2.2.2.2.2.2.2.2.1⟩,
    ⟨w2, e2, h2.2.1, h2.2.2.2.2.2.2.2.2.1⟩⟩

/-- Counterexample to C13 as stated: the attacker of `attackWorld`, a player, is in a
continuous attack on the monster 2; its request to attack the block 9, which does not
exist, is rejected with the result 1, and the control block is changed: `target` is 0
instead of 2, and `attack_continue` is unset. The monster of `huntWorld` chases the
block 2; its request to attack the block 9 is rejected with the result 1, and `target_to`
is 0 instead of 2. -/
theorem unit_attack_invalid_target_counterexample :
    attackWorld.units 9 = none
    ∧ (attackWorld.UD 1).target = 2
    ∧ (attackWorld.UD 1).state.attack_continue = true
    ∧ (unit_attack exampleEnv attackWorld 1 9 1).1 = 1
    ∧ ((unit_attack exampleEnv attackWorld 1 9 1).2.UD 1).target ≠ (attackWorld.UD 1).target
    ∧ ((unit_attack exampleEnv attackWorld 1 9 1).2.UD 1).state.attack_continue
        ≠ (attackWorld.UD 1).state.attack_continue
    ∧ huntWorld.units 9 = none
    ∧ (huntWorld.BL 1).type = .BL_MOB
    ∧ (unit_attack exampleEnv huntWorld 1 9 1).1 = 1
    ∧ ((unit_attack exampleEnv huntWorld 1 9 1).2.UD 1).target_to ≠ (huntWorld.UD 1).target_to := by
  decide


/-! ## C14: an attack requested in mid-step is deferred to the step -/

/-- C15, amended: for every entity that holds a deferred request (the flag `stepaction` is
set or a step timer handle is stored) and every later request that reaches the deferral
point (an attack through `unit_attack` on a valid target while no attack timer is
pending; a skill through `unit_skilluse_id2` or `unit_skilluse_pos2` that passes the
checks made before the deferral point), afterwards the step timer handle is cleared, no
pending step timer has the handle of the old step timer, and the buffer holds the new
request or is cleared: `stepaction`, `target_to`, `stepskill_id`, `stepskill_lv` are
`(1, target, skill, level)` of the new request or `(0, 0, 0, 0)`, or, after an attack that
starts a chase, `(0, target, 0, 0)`. (The collaborators leave the scheduling state
alone.) -/
theorem deferred_request_replaced (E : Env) (hf : E.hooks_frame) (w : World) (id : Int)
    (hheld : (w.UD id).stepaction = true ∨ (w.UD id).steptimer ≠ INVALID_TIMER) :
    (∀ target_id continuous src target,
      w.units id = some src → (unit_bl2ud src).isSome = true →
      w.units target_id = some target → E.status_isdead w target_id = false →
      ¬ (src.type = .BL_PC ∧ target.type = .BL_NPC) →
      unit_can_attack E w id target_id = true →
      E.battle_check_target w id target_id > 0 →
      E.status_check_skilluse w id target_id = true →
      src.ud.attacktimer = INVALID_TIMER →
      step_timer_gone w (unit_attack E w id target_id continuous).2 id
      ∧ (step_buffer (unit_attack E w id target_id continuous).2 id = (true, target_id, 0, 0)
        ∨ step_buffer (unit_attack E w id target_id continuous).2 id = (false, 0, 0, 0)
        ∨ step_buffer (unit_attack E w id target_id continuous).2 id
            = (false, target_id, 0, 0)))
    ∧ (∀ target_id skill_id skill_lv casttime castcancel walkqueue src ud tid combo ct target,
      w.units id = some src → E.status_isdead w id = false →
      unit_bl2ud src = some ud → ud.state.blockedskill = false →
      E.skill_select w id target_id skill_id skill_lv casttime = some (tid, combo, ct) →
      w.units tid = some target →
      (skilluse_id_checks E w id src target ud tid skill_id skill_lv).isGo = true →
      step_timer_gone w
          (unit_skilluse_id2 E w id target_id skill_id skill_lv casttime castcancel
            walkqueue).2 id
      ∧ (step_buffer
            (unit_skilluse_id2 E w id target_id skill_id skill_lv casttime castcancel
              walkqueue).2 id = (true, tid, skill_id, skill_lv)
        ∨ step_buffer
            (unit_skilluse_id2 E w id target_id skill_id skill_lv casttime castcancel
              walkqueue).2 id = (false, 0, 0, 0)))
    ∧ (∀ x y skill_id skill_lv casttime castcancel walkqueue src ud,
      w.units id = some src → src.prev = true → E.status_isdead w id = false →
      unit_bl2ud src = some ud → ud.state.blockedskill = false →
      ud.skilltimer = INVALID_TIMER →
      (skilluse_pos_checks E w id (decide (src.type = .BL_PC)) x y skill_id skill_lv).isGo
        = true →
      step_timer_gone w
          (unit_skilluse_pos2 E w id x y skill_id skill_lv casttime castcancel walkqueue).2 id
      ∧ (step_buffer
            (unit_skilluse_pos2 E w id x y skill_id skill_lv casttime castcancel walkqueue).2
            id = (true, x + y * E.map_xs src.m, skill_id, skill_lv)
        ∨ step_buffer
            (unit_skilluse_pos2 E w id x y skill_id skill_lv casttime castcancel walkqueue).2
            id = (false, 0, 0, 0))) :=
  ⟨fun _ continuous _ _ hsrc hud htg halive hnpc hcan hhost huse htimer =>
      unit_attack_replaces hf continuous hheld hsrc hud htg halive hnpc hcan ⟨hhost, huse⟩
        htimer,
   fun _ _ _ _ castcancel walkqueue _ _ _ _ _ _ hsrc halive hud hblk hsel htg hchk =>
      unit_skilluse_id2_replaces hf castcancel walkqueue hheld hsrc halive hud hblk hsel htg
        hchk,
   fun _ _ _ _ casttime castcancel walkqueue _ _ hsrc hprev halive hud hblk hidle hchk =>
      unit_skilluse_pos2_replaces hf casttime castcancel walkqueue hheld hsrc hprev halive hud
        hblk hidle hchk⟩

/-- Witness for C15, amended: the walking player of `queuedWorld` holds the deferred skill
5 on the monster 2, with the step timer 7 pending. It asks for an attack on the monster 3,
out of reach: the buffer holds the attack on 3. It asks for the skill 9 at level 2 on the
monster 3: the buffer holds that skill. It asks for a ground skill within reach: the buffer
is cleared. Each time the step timer 7 is gone. -/
theorem deferred_request_replaced_witness :
    step_buffer queuedWorld 1 = (true, 2, 5, 1)
    ∧ get_timer queuedWorld 7 = some ⟨7, 300, .unit_step_timer, 1, 0⟩
    ∧ step_buffer (unit_attack rangeEnv queuedWorld 1 3 1).2 1 = (true, 3, 0, 0)
    ∧ step_timer_gone queuedWorld (unit_attack rangeEnv queuedWorld 1 3 1).2 1
    ∧ get_timer (unit_attack rangeEnv queuedWorld 1 3 1).2 7 = none
    ∧ step_buffer (unit_skilluse_id2 rangeEnv queuedWorld 1 3 9 2 300 1 true).2 1
        = (true, 3, 9, 2)
    ∧ step_timer_gone queuedWorld (unit_skilluse_id2 rangeEnv queuedWorld 1 3 9 2 300 1 true).2 1
    ∧ step_buffer (unit_skilluse_pos2 rangeEnv queuedWorld 1 12 10 9 2 300 1 true).2 1
        = (false, 0, 0, 0)
    ∧ step_timer_gone queuedWorld
        (unit_skilluse_pos2 rangeEnv queuedWorld 1 12 10 9 2 300 1 true).2 1 :=
  have h := deferred_request_replaced rangeEnv rangeEnv_frame queuedWorld 1 (Or.inl rfl)
  ⟨by decide, by decide, by decide,
    (h.1 3 1 queuedBlock { targetBlock with x := 15, ud := {} } rfl rfl rfl rfl (by decide)
      (by decide) (by decide) rfl rfl).1,
    by decide, by decide,
    (h.2.1 3 9 2 300 1 true queuedBlock queuedBlock.ud 3 false 300
      { targetBlock with x := 15, ud := {} } rfl rfl rfl rfl rfl rfl (by decide)).1,
    by decide,
    (h.2.2 12 10 9 2 300 1 true queuedBlock queuedBlock.ud rfl rfl rfl rfl rfl rfl
      (by decide)).1⟩

/-- Counterexample for C15: in `busyWorld` the walking player holds the deferred skill 5
on the monster 2 while its attack timer is pending. A request to attack the monster 3
only changes the target (`unit_attack` returns at line 2358): the buffer still holds the
skill on 2 and the step timer 7 is still pending. In `queuedWorld` a request for the skill
9 whose conditions are not met (`exampleEnv` refuses every cast at lines 1747-1748) is
refused before the deferral point: the buffer still holds the skill on 2. -/
theorem deferred_request_replaced_counterexample :
    step_buffer busyWorld 1 = (true, 2, 5, 1)
    ∧ (busyWorld.UD 1).walktimer ≠ INVALID_TIMER
    ∧ ((unit_attack exampleEnv busyWorld 1 3 1).2.UD 1).target = 3
    ∧ step_buffer (unit_attack exampleEnv busyWorld 1 3 1).2 1 = (true, 2, 5, 1)
    ∧ ((unit_attack exampleEnv busyWorld 1 3 1).2.UD 1).steptimer = 7
    ∧ get_timer (unit_attack exampleEnv busyWorld 1 3 1).2 7
        = some ⟨7, 300, .unit_step_timer, 1, 0⟩
    ∧ (unit_skilluse_id2 exampleEnv queuedWorld 1 3 9 2 300 1 true).1 = 0
    ∧ step_buffer (unit_skilluse_id2 exampleEnv queuedWorld 1 3 9 2 300 1 true).2 1
        = (true, 2, 5, 1) := by
  decide

/-! ## C16: entering a cast stops walk and attack -/

/-- Scheduling a cast leaves the walk timer handle, the attack timer handle and the target
alone. -/
theorem skilluse_schedule_keeps {E : Env} (hf : E.hooks_frame) (W : World) (id : Int)
    (sd : Option Int) (skill_id c tick : Int) :
    (((skilluse_id_schedule E W id sd skill_id c tick).2.UD id).walktimer = (W.UD id).walktimer
      ∧ ((skilluse_id_schedule E W id sd skill_id c tick).2.UD id).attacktimer
          = (W.UD id).attacktimer
      ∧ ((skilluse_id_schedule E W id sd skill_id c tick).2.UD id).target = (W.UD id).target)
    ∧ (((skilluse_pos_schedule E W id sd skill_id c tick).2.UD id).walktimer
          = (W.UD id).walktimer
      ∧ ((skilluse_pos_schedule E W id sd skill_id c tick).2.UD id).attacktimer
          = (W.UD id).attacktimer
      ∧ ((skilluse_pos_schedule E W id sd skill_id c tick).2.UD id).target = (W.UD id).target) := by
  have h1 := World.Same.UD (g := fun u => (u.walktimer, u.attacktimer, u.target))
    (skilluse_id_schedule_same (fun b => (b.ud.walktimer, b.ud.attacktimer, b.ud.target))
      (fun _ _ _ => rfl) hf id sd skill_id c tick (World.Same.refl _ W)) id
  have h2 := World.Same.UD (g := fun u => (u.walktimer, u.attacktimer, u.target))
    (skilluse_pos_schedule_same (fun b => (b.ud.walktimer, b.ud.attacktimer, b.ud.target))
      (fun _ _ _ => rfl) hf id sd skill_id c tick (World.Same.refl _ W)) id
  simp only [Prod.mk.injEq] at h1 h2
  exact ⟨h1, h2⟩

/-- C16: for every cast accepted by `unit_skilluse_pos2`, and for every cast accepted by
`unit_skilluse_id2` that is no combo (`skill_select` reports no combo) for an entity that
does not run, the cast is ready to be scheduled in a state `W` (the state in which the
cast timer is scheduled and stored) with `walktimer = INVALID_TIMER`,
`attacktimer = INVALID_TIMER` and `target = 0`, and the state the call returns has them as
well, whatever the cast time. (The collaborators leave the scheduling state alone.) -/
theorem cast_stops_walk_and_attack (E : Env) (hf : E.hooks_frame) (w : World)
    (id skill_id skill_lv casttime castcancel : Int) (walkqueue : Bool) :
    (∀ x y,
      (unit_skilluse_pos2 E w id x y skill_id skill_lv casttime castcancel walkqueue).1 = 1 →
      ∃ W sd c,
        skilluse_pos_start E w id x y skill_id skill_lv casttime castcancel walkqueue
          = .ready W sd c
        ∧ (W.UD id).walktimer = INVALID_TIMER ∧ (W.UD id).attacktimer = INVALID_TIMER
        ∧ (W.UD id).target = 0
        ∧ ((unit_skilluse_pos2 E w id x y skill_id skill_lv casttime castcancel walkqueue).2.UD
            id).walktimer = INVALID_TIMER
        ∧ ((unit_skilluse_pos2 E w id x y skill_id skill_lv casttime castcancel walkqueue).2.UD
            id).attacktimer = INVALID_TIMER
        ∧ ((unit_skilluse_pos2 E w id x y skill_id skill_lv casttime castcancel walkqueue).2.UD
            id).target = 0)
    ∧ (∀ target_id tid ct,
      E.skill_select w id target_id skill_id skill_lv casttime = some (tid, false, ct) →
      (w.UD id).state.running = false →
      (unit_skilluse_id2 E w id target_id skill_id skill_lv casttime castcancel walkqueue).1 = 1 →
      ∃ W sd c,
        skilluse_id_start E w id target_id skill_id skill_lv casttime castcancel walkqueue
          = .ready W sd c
        ∧ (W.UD id).walktimer = INVALID_TIMER ∧ (W.UD id).attacktimer = INVALID_TIMER
        ∧ (W.UD id).target = 0
        ∧ ((unit_skilluse_id2 E w id target_id skill_id skill_lv casttime castcancel
            walkqueue).2.UD id).walktimer = INVALID_TIMER
        ∧ ((unit_skilluse_id2 E w id target_id skill_id skill_lv casttime castcancel
            walkqueue).2.UD id).attacktimer = INVALID_TIMER
        ∧ ((unit_skilluse_id2 E w id target_id skill_id skill_lv casttime castcancel
            walkqueue).2.UD id).target = 0) := by
  refine ⟨fun x y hacc => ?_, fun target_id tid ct hsel hrun hacc => ?_⟩
  · obtain ⟨W, sd, c, hst⟩ := (unit_skilluse_pos2_accepted E w id x y skill_id skill_lv casttime
      castcancel walkqueue).mp hacc
    obtain ⟨-, -, ⟨ha, ht⟩, hw, -, -⟩ := skilluse_pos_start_facts hf hst
    obtain ⟨-, k1, k2, k3⟩ := skilluse_schedule_keeps hf W id sd skill_id c w.gettick
    have hres : unit_skilluse_pos2 E w id x y skill_id skill_lv casttime castcancel walkqueue
        = skilluse_pos_schedule E W id sd skill_id c w.gettick := by
      unfold unit_skilluse_pos2
      rw [hst]
    refine ⟨W, sd, c, hst, hw, ha, ht, ?_, ?_, ?_⟩
    · rw [hres, k1, hw]
    · rw [hres, k2, ha]
    · rw [hres, k3, ht]
  · obtain ⟨W, sd, c, hst⟩ := (unit_skilluse_id2_accepted E w id target_id skill_id skill_lv
      casttime castcancel walkqueue).mp hacc
    obtain ⟨-, ⟨tid1, combo1, ct1, hsel1, -, hatk⟩, hw, -, -⟩ := skilluse_id_start_facts hf hst
    rw [hsel] at hsel1
    simp only [Option.some.injEq, Prod.mk.injEq] at hsel1
    obtain ⟨ha, ht⟩ := hatk hsel1.2.1.symm
    have hw := hw hrun
    obtain ⟨⟨k1, k2, k3⟩, -⟩ := skilluse_schedule_keeps hf W id sd skill_id c w.gettick
    have hres : unit_skilluse_id2 E w id target_id skill_id skill_lv casttime castcancel
        walkqueue = skilluse_id_schedule E W id sd skill_id c w.gettick := by
      unfold unit_skilluse_id2
      rw [hst]
    refine ⟨W, sd, c, hst, hw, ha, ht, ?_, ?_, ?_⟩
    · rw [hres, k1, hw]
    · rw [hres, k2, ha]
    · rw [hres, k3, ht]

/-- Witness for C16: in `attackWorld` the player 1, in mid-attack on the monster 2, casts
the skill 5 on it with a cast time of 300 ms: the attack timer handle and the target are
cleared; in `walkingWorld` the walking player casts a ground skill: the walk timer handle
is cleared. -/
theorem cast_stops_walk_and_attack_witness :
    (attackWorld.UD 1).attacktimer = 0 ∧ (attackWorld.UD 1).target = 2
    ∧ ((unit_skilluse_id2 skillEnv attackWorld 1 2 5 1 300 1 true).2.UD 1).attacktimer
        = INVALID_TIMER
    ∧ ((unit_skilluse_id2 skillEnv attackWorld 1 2 5 1 300 1 true).2.UD 1).target = 0
    ∧ (walkingWorld.UD 1).walktimer = 0
    ∧ ((unit_skilluse_pos2 skillEnv walkingWorld 1 12 10 5 1 300 1 false).2.UD 1).walktimer
        = INVALID_TIMER :=
  have h1 := (cast_stops_walk_and_attack skillEnv skillEnv_frame attackWorld 1 5 1 300 1 true).2
    2 2 300 rfl rfl (by decide)
  have h2 := (cast_stops_walk_and_attack skillEnv skillEnv_frame walkingWorld 1 5 1 300 1
    false).1 12 10 (by decide)
  match h1, h2 with
  | ⟨_, _, _, _, _, _, _, _, a, t⟩, ⟨_, _, _, _, _, _, _, wk, _, _⟩ =>
    ⟨rfl, rfl, a, t, rfl, wk⟩

/-! ## C17: the cast timer -/

/-- C17: every cast request that `unit_skilluse_id2` or `unit_skilluse_pos2` accepts
(result 1) is ready to be scheduled in a state `W`, which holds no timer the state of the
call does not hold, with an adjusted cast time `c`, the result of the cast time procedure
of the skill subsystem. If `c > 0`, the pending timers afterwards are those of `W` and one
cast timer, with the handle `W.next_tid`, due at the tick of the call plus `c`; that handle
is stored in `skilltimer`; and the call does not depend on the cast-end handlers: none is
invoked. If `c ≤ 0`, the pending timers afterwards are those of `W`, the flag
`skillcastcancel` is 0, and the call returns what one invocation of the cast-end handler
(`skill_castend_id`, or `skill_castend_pos` after the handle is cleared) at the tick of the
call makes of `W`, up to the logout lock. (The collaborators leave the scheduling state
alone.) -/
theorem cast_timer_scheduled (E : Env) (hf : E.hooks_frame) (w : World)
    (id skill_id skill_lv casttime castcancel : Int) (walkqueue : Bool) :
    (∀ target_id,
      (unit_skilluse_id2 E w id target_id skill_id skill_lv casttime castcancel walkqueue).1 = 1 →
      ∃ W sd c,
        skilluse_id_start E w id target_id skill_id skill_lv casttime castcancel walkqueue
          = .ready W sd c
        ∧ (∃ tid ct w3, c = (E.hook (.skill_casttime id tid skill_id skill_lv ct) w3).1)
        ∧ World.TimersLe (fun _ => True) w W
        ∧ (0 < c →
            (unit_skilluse_id2 E w id target_id skill_id skill_lv casttime castcancel
                walkqueue).2.timers
              = ⟨W.next_tid, w.gettick + c, .skill_castend_id, id, 0⟩ :: W.timers
            ∧ ((unit_skilluse_id2 E w id target_id skill_id skill_lv casttime castcancel
                walkqueue).2.UD id).skilltimer = W.next_tid
            ∧ ∀ f, unit_skilluse_id2 (E.with_castend f) w id target_id skill_id skill_lv casttime
                  castcancel walkqueue
                = unit_skilluse_id2 E w id target_id skill_id skill_lv casttime castcancel
                  walkqueue)
        ∧ (c ≤ 0 →
            (unit_skilluse_id2 E w id target_id skill_id skill_lv casttime castcancel
                walkqueue).2.timers = W.timers
            ∧ (W.UD id).state.skillcastcancel = false
            ∧ ((unit_skilluse_id2 E w id target_id skill_id skill_lv casttime castcancel
                walkqueue).2.UD id).state.skillcastcancel = false
            ∧ ∀ f, unit_skilluse_id2 (E.with_castend f) w id target_id skill_id skill_lv casttime
                  castcancel walkqueue
                = skilluse_canlog E
                    (f (.skill_castend_id (W.UD id).skilltimer w.gettick id 0) W).2 sd))
    ∧ (∀ x y,
      (unit_skilluse_pos2 E w id x y skill_id skill_lv casttime castcancel walkqueue).1 = 1 →
      ∃ W sd c,
        skilluse_pos_start E w id x y skill_id skill_lv casttime castcancel walkqueue
          = .ready W sd c
        ∧ (∃ w3, c = (E.hook (.skill_castfix_sc id skill_id skill_lv casttime) w3).1)
        ∧ World.TimersLe (fun _ => True) w W
        ∧ (0 < c →
            (unit_skilluse_pos2 E w id x y skill_id skill_lv casttime castcancel
                walkqueue).2.timers
              = ⟨W.next_tid, w.gettick + c, .skill_castend_pos, id, 0⟩ :: W.timers
            ∧ ((unit_skilluse_pos2 E w id x y skill_id skill_lv casttime castcancel
                walkqueue).2.UD id).skilltimer = W.next_tid
            ∧ ∀ f, unit_skilluse_pos2 (E.with_castend f) w id x y skill_id skill_lv casttime
                  castcancel walkqueue
                = unit_skilluse_pos2 E w id x y skill_id skill_lv casttime castcancel walkqueue)
        ∧ (c ≤ 0 →
            (unit_skilluse_pos2 E w id x y skill_id skill_lv casttime castcancel
                walkqueue).2.timers = W.timers
            ∧ (W.UD id).state.skillcastcancel = false
            ∧ ((unit_skilluse_pos2 E w id x y skill_id skill_lv casttime castcancel
                walkqueue).2.UD id).state.skillcastcancel = false
            ∧ ∀ f, unit_skilluse_pos2 (E.with_castend f) w id x y skill_id skill_lv casttime
                  castcancel walkqueue
                = skilluse_canlog E
                    (f (.skill_castend_pos INVALID_TIMER w.gettick id 0)
                      (W.modUd id (fun u => { u with skilltimer := INVALID_TIMER }))).2 sd)) := by
  refine ⟨fun target_id hacc => ?_, fun x y hacc => ?_⟩
  · obtain ⟨W, sd, c, hst⟩ := (unit_skilluse_id2_accepted E w id target_id skill_id skill_lv
      casttime castcancel walkqueue).mp hacc
    obtain ⟨hs, ⟨tid, combo, ct, -, ⟨w3, hc3⟩, -⟩, -, hflag, -⟩ := skilluse_id_start_facts hf hst
    obtain ⟨hsW, hle, -⟩ := skilluse_id_start_ready_world hf hst
    rw [hs] at hsW
    have hres : ∀ E1 : Env, skilluse_id_start E1 w id target_id skill_id skill_lv casttime
        castcancel walkqueue = .ready W sd c →
        unit_skilluse_id2 E1 w id target_id skill_id skill_lv casttime castcancel walkqueue
          = skilluse_id_schedule E1 W id sd skill_id c w.gettick := by
      intro E1 h1
      unfold unit_skilluse_id2
      rw [h1]
    have hresf : ∀ f, unit_skilluse_id2 (E.with_castend f) w id target_id skill_id skill_lv
        casttime castcancel walkqueue
          = skilluse_id_schedule (E.with_castend f) W id sd skill_id c w.gettick :=
      fun f => hres _ ((skilluse_id_start_castend E f w id target_id skill_id skill_lv casttime
        castcancel walkqueue).trans hst)
    refine ⟨W, sd, c, hst, ⟨tid, ct, w3, hc3⟩, hle, fun hc => ?_, fun hc => ?_⟩
    · obtain ⟨t1, t2, t3⟩ := skilluse_id_schedule_timed hf sd skill_id w.gettick hsW hc
      rw [hres E hst]
      exact ⟨t1, t2, fun f => (hresf f).trans (t3 f)⟩
    · obtain ⟨t1, t2⟩ := @skilluse_id_schedule_instant E hf W id sd skill_id c w.gettick hc
      rw [hres E hst]
      refine ⟨t1, hflag hc, ?_, fun f => (hresf f).trans (t2 f)⟩
      rw [(skilluse_schedule_flag hf W id sd skill_id c w.gettick).1]
      exact hflag hc
  · obtain ⟨W, sd, c, hst⟩ := (unit_skilluse_pos2_accepted E w id x y skill_id skill_lv
      casttime castcancel walkqueue).mp hacc
    obtain ⟨hs, ⟨w3, hc3⟩, -, -, hflag, -⟩ := skilluse_pos_start_facts hf hst
    obtain ⟨hsW, hle, -⟩ := skilluse_pos_start_ready_world hf hst
    rw [hs] at hsW
    have hres : ∀ E1 : Env, skilluse_pos_start E1 w id x y skill_id skill_lv casttime
        castcancel walkqueue = .ready W sd c →
        unit_skilluse_pos2 E1 w id x y skill_id skill_lv casttime castcancel walkqueue
          = skilluse_pos_schedule E1 W id sd skill_id c w.gettick := by
      intro E1 h1
      unfold unit_skilluse_pos2
      rw [h1]
    have hresf : ∀ f, unit_skilluse_pos2 (E.with_castend f) w id x y skill_id skill_lv
        casttime castcancel walkqueue
          = skilluse_pos_schedule (E.with_castend f) W id sd skill_id c w.gettick :=
      fun f => hres _ ((skilluse_pos_start_castend E f w id x y skill_id skill_lv casttime
        castcancel walkqueue).trans hst)
    refine ⟨W, sd, c, hst, ⟨w3, hc3⟩, hle, fun hc => ?_, fun hc => ?_⟩
    · obtain ⟨t1, t2, t3⟩ := skilluse_pos_schedule_timed hf sd skill_id w.gettick hsW hc
      rw [hres E hst]
      exact ⟨t1, t2, fun f => (hresf f).trans (t3 f)⟩
    · obtain ⟨t1, t2⟩ := @skilluse_pos_schedule_instant E hf W id sd skill_id c w.gettick hc
      rw [hres E hst]
      refine ⟨t1, hflag hc, ?_, fun f => ?_⟩
      · rw [(skilluse_schedule_flag hf W id sd skill_id c w.gettick).2]
        exact hflag hc
      · rw [hresf f, t2 f, UD_modUd _ (ud_isSome_units hsW)]

/-- Witness for C17: in `attackWorld`, at tick 0, the player 1 casts the skill 5 on the
monster 2 with a cast time of 300 ms: the attack timer is gone and the one pending timer is
the cast timer, due at tick 300, whose handle is stored; in `walkingWorld` the walking
player casts a ground skill without cast time: no timer is pending afterwards and the flag
`skillcastcancel` is 0. -/
theorem cast_timer_scheduled_witness :
    (unit_skilluse_id2 skillEnv attackWorld 1 2 5 1 300 1 true).2.timers
        = [⟨1, 300, .skill_castend_id, 1, 0⟩]
    ∧ ((unit_skilluse_id2 skillEnv attackWorld 1 2 5 1 300 1 true).2.UD 1).skilltimer = 1
    ∧ (∀ f, unit_skilluse_id2 (skillEnv.with_castend f) attackWorld 1 2 5 1 300 1 true
          = unit_skilluse_id2 skillEnv attackWorld 1 2 5 1 300 1 true)
    ∧ (unit_skilluse_pos2 skillEnv walkingWorld 1 12 10 5 1 0 1 false).2.timers = []
    ∧ ((unit_skilluse_pos2 skillEnv walkingWorld 1 12 10 5 1 0 1 false).2.UD
        1).state.skillcastcancel = false :=
  match (cast_timer_scheduled skillEnv skillEnv_frame attackWorld 1 5 1 300 1 true).1 2
      (by decide),
    (cast_timer_scheduled skillEnv skillEnv_frame walkingWorld 1 5 1 0 1 false).2 12 10
      (by decide) with
  | ⟨_, _, c, hst, _, _, hpos, _⟩, ⟨_, _, c2, hst2, _, _, _, hneg⟩ =>
    have hc : c = 300 := (congrArg cast_start.casttime hst).symm.trans (by decide)
    have hc2 : c2 = 0 := (congrArg cast_start.casttime hst2).symm.trans (by decide)
    ⟨by decide, by decide, (hpos (by rw [hc]; decide)).2.2, by decide,
      (hneg (by rw [hc2])).2.2.1⟩


/-! ### Cancelling a cast (C18) -/

theorem unit_skillcastcancel_done {E : Env} (hf : E.hooks_frame) {w : World} {id type : Int}
    {bl : Block} (hbl : w.units id = some bl) (hud : (unit_bl2ud bl).isSome = true)
    (h : bl.ud.skilltimer ≠ INVALID_TIMER
      ∧ (flagset type 2 = true → bl.ud.state.skillcastcancel = true
          ∧ ¬ (bl.type = .BL_PC ∧ E.no_castcancel w id = true))) :
    (unit_skillcastcancel E w id type).1 = 1
    ∧ ((unit_skillcastcancel E w id type).2.UD id).skilltimer = INVALID_TIMER
    ∧ ((unit_skillcastcancel E w id type).2.UD id).canact_tick = w.gettick
    ∧ (unit_skillcastcancel E w id type).2.next_tid = w.next_tid
    ∧ ∀ td, get_timer w bl.ud.skilltimer = some td →
        td.func = castend_func E (castcancel_skill E w id type bl) →
        get_timer (unit_skillcastcancel E w id type).2 bl.ud.skilltimer = none := by
  obtain ⟨ud, hud0⟩ := Option.isSome_iff_exists.mp hud
  have hude := unit_bl2ud_eq hud0
  subst hude
  have hs : (w.units id).isSome := by rw [hbl]; rfl
  obtain ⟨h1, h2⟩ := h
  have hg : ¬ (flagset type 2 = true ∧ (bl.ud.state.skillcastcancel = false
      ∨ (decide (bl.type = .BL_PC) = true ∧ E.no_castcancel w id = true))) := by
    intro ⟨a, b⟩
    obtain ⟨c, d⟩ := h2 a
    rcases b with b | ⟨b1, b2⟩
    · rw [c] at b; cases b
    · exact d ⟨by simpa using b1, b2⟩
  obtain ⟨w1, hw1⟩ : ∃ w1, w1 = w.modUd id (fun u => { u with canact_tick := w.gettick }) :=
    ⟨_, rfl⟩
  have hs1 : (w1.units id).isSome := by rw [hw1, isSome_modUd]; exact hs
  have hc1 : (w1.UD id).canact_tick = w.gettick := by rw [hw1, UD_modUd _ hs]
  have ht1 : w1.timers = w.timers := by rw [hw1, modUd_timers]
  have hn1 : w1.next_tid = w.next_tid := by rw [hw1, modUd_next_tid]
  have hsk : castcancel_skill E w id type bl
      = if flagset type 1 = true ∧ decide (bl.type = .BL_PC) = true then E.skill_id_old w1 id
        else bl.ud.skill_id := by
    unfold castcancel_skill
    rw [hw1]
    simp only [decide_eq_true_eq]
  generalize castcancel_skill E w id type bl = sk at hsk
  -- the state after the timer is deleted and the handle cleared
  obtain ⟨w2, hw2⟩ : ∃ w2, w2 = (delete_timer w1 bl.ud.skilltimer (castend_func E sk)).2.modUd id
      (fun u => { u with skilltimer := INVALID_TIMER }) := ⟨_, rfl⟩
  have hs2 : (w2.units id).isSome := by
    rw [hw2, isSome_modUd, delete_timer_units]; exact hs1
  have hk2 : (w2.UD id).skilltimer = INVALID_TIMER := by
    rw [hw2, UD_modUd _ (by rw [delete_timer_units]; exact hs1)]
  have hc2 : (w2.UD id).canact_tick = w.gettick := by
    rw [hw2, UD_modUd _ (by rw [delete_timer_units]; exact hs1)]
    show ((delete_timer w1 _ _).2.UD id).canact_tick = w.gettick
    rw [UD_eq_BL, BL_def, delete_timer_units, ← BL_def, ← UD_eq_BL]
    exact hc1
  have hn2 : w2.next_tid = w.next_tid := by
    rw [hw2, modUd_next_tid, delete_timer_next_tid]; exact hn1
  have hd2 : ∀ td, get_timer w bl.ud.skilltimer = some td → td.func = castend_func E sk →
      get_timer w2 bl.ud.skilltimer = none := by
    intro td htd hfn
    have hg1 : get_timer w1 bl.ud.skilltimer = some td := by
      unfold get_timer; rw [ht1]; exact htd
    have := get_timer_delete hg1 hfn
    unfold get_timer at this ⊢
    rw [hw2, modUd_timers]
    exact this
  have key : ∀ W : World, (W.units id).isSome → (W.UD id).skilltimer = INVALID_TIMER →
      (W.UD id).canact_tick = w.gettick → W.next_tid = w.next_tid →
      (∀ td, get_timer w bl.ud.skilltimer = some td → td.func = castend_func E sk →
        get_timer W bl.ud.skilltimer = none) →
      ∀ (c1 c2 c3 : Prop) [Decidable c1] [Decidable c2] [Decidable c3],
      let r : Int × World :=
        if c3 then
          (1, (if c2 then
                (if c1 then (E.hook (.status_calc_bl id) W).2 else W).modBlock id
                  (fun b => { b with sd := { b.sd with canequip_tick := w.gettick } })
              else (if c1 then (E.hook (.status_calc_bl id) W).2 else W)).modBlock id
                (fun b => { b with md := { b.md with skill_idx := -1 } }))
        else
          (1, if c2 then
                (if c1 then (E.hook (.status_calc_bl id) W).2 else W).modBlock id
                  (fun b => { b with sd := { b.sd with canequip_tick := w.gettick } })
              else (if c1 then (E.hook (.status_calc_bl id) W).2 else W))
      r.1 = 1 ∧ (r.2.UD id).skilltimer = INVALID_TIMER ∧ (r.2.UD id).canact_tick = w.gettick
        ∧ r.2.next_tid = w.next_tid
        ∧ ∀ td, get_timer w bl.ud.skilltimer = some td → td.func = castend_func E sk →
            get_timer r.2 bl.ud.skilltimer = none := by
    intro W a1 a2 a3 a4 a5 c1 c2 c3 _ _ _
    have b0 : ((if c1 then (E.hook (.status_calc_bl id) W).2 else W).units id).isSome
        ∧ ((if c1 then (E.hook (.status_calc_bl id) W).2 else W).UD id).skilltimer = INVALID_TIMER
        ∧ ((if c1 then (E.hook (.status_calc_bl id) W).2 else W).UD id).canact_tick = w.gettick
        ∧ (if c1 then (E.hook (.status_calc_bl id) W).2 else W).next_tid = w.next_tid
        ∧ (if c1 then (E.hook (.status_calc_bl id) W).2 else W).timers = W.timers := by
      split
      · exact ⟨by rw [hook_units hf]; exact a1, by rw [UD_hook hf]; exact a2,
          by rw [UD_hook hf]; exact a3, by rw [hook_next_tid hf]; exact a4, hook_timers hf _ _⟩
      · exact ⟨a1, a2, a3, a4, rfl⟩
    generalize (if c1 then (E.hook (.status_calc_bl id) W).2 else W) = W1 at b0 ⊢
    obtain ⟨b1, b2, b3, b4, b5⟩ := b0
    have step : ∀ (V : World) (f : Block → Block), (∀ b, (f b).ud = b.ud) →
        (V.units id).isSome → (V.UD id).skilltimer = INVALID_TIMER →
        (V.UD id).canact_tick = w.gettick → V.next_tid = w.next_tid → V.timers = W.timers →
        ((V.modBlock id f).units id).isSome ∧ ((V.modBlock id f).UD id).skilltimer = INVALID_TIMER
        ∧ ((V.modBlock id f).UD id).canact_tick = w.gettick
        ∧ (V.modBlock id f).next_tid = w.next_tid ∧ (V.modBlock id f).timers = W.timers := by
      intro V f hfu v1 v2 v3 v4 v5
      refine ⟨by rw [isSome_modBlock]; exact v1, ?_, ?_, by rw [modBlock_next_tid]; exact v4,
        by rw [modBlock_timers]; exact v5⟩
      · rw [UD_eq_BL, BL_modBlock _ v1, hfu, ← UD_eq_BL]; exact v2
      · rw [UD_eq_BL, BL_modBlock _ v1, hfu, ← UD_eq_BL]; exact v3
    have fin : ∀ V : World, (V.units id).isSome ∧ (V.UD id).skilltimer = INVALID_TIMER
        ∧ (V.UD id).canact_tick = w.gettick ∧ V.next_tid = w.next_tid ∧ V.timers = W.timers →
        (V.UD id).skilltimer = INVALID_TIMER ∧ (V.UD id).canact_tick = w.gettick
        ∧ V.next_tid = w.next_tid
        ∧ ∀ td, get_timer w bl.ud.skilltimer = some td → td.func = castend_func E sk →
            get_timer V bl.ud.skilltimer = none := by
      intro V ⟨_, v2, v3, v4, v5⟩
      refine ⟨v2, v3, v4, fun td h1 h2 => ?_⟩
      rw [get_timer_congr _ v5]
      exact a5 td h1 h2
    dsimp only
    split
    · refine ⟨rfl, ?_⟩
      split
      · obtain ⟨x1, x2, x3, x4, x5⟩ := step W1
          (fun b => { b with sd := { b.sd with canequip_tick := w.gettick } }) (fun _ => rfl)
          b1 b2 b3 b4 b5
        exact fin _ (step _ (fun b => { b with md := { b.md with skill_idx := -1 } })
          (fun _ => rfl) x1 x2 x3 x4 x5)
      · exact fin _ (step W1 (fun b => { b with md := { b.md with skill_idx := -1 } })
          (fun _ => rfl) b1 b2 b3 b4 b5)
    · refine ⟨rfl, ?_⟩
      split
      · exact fin _ (step W1 (fun b => { b with sd := { b.sd with canequip_tick := w.gettick } })
          (fun _ => rfl) b1 b2 b3 b4 b5)
      · exact fin _ ⟨b1, b2, b3, b4, b5⟩
  have hres : unit_skillcastcancel E w id type
      = if bl.type = .BL_MOB then
          (1, (if decide (bl.type = .BL_PC) = true ∧ sk = CG_ARROWVULCAN then
                (if decide (bl.type = .BL_PC) = true
                    ∧ (E.pc_checkskill w2 id SA_FREECAST > 0 ∨ sk = LG_EXEEDBREAK) then
                  (E.hook (.status_calc_bl id) w2).2 else w2).modBlock id
                  (fun b => { b with sd := { b.sd with canequip_tick := w.gettick } })
              else (if decide (bl.type = .BL_PC) = true
                    ∧ (E.pc_checkskill w2 id SA_FREECAST > 0 ∨ sk = LG_EXEEDBREAK) then
                  (E.hook (.status_calc_bl id) w2).2 else w2)).modBlock id
                (fun b => { b with md := { b.md with skill_idx := -1 } }))
        else
          (1, if decide (bl.type = .BL_PC) = true ∧ sk = CG_ARROWVULCAN then
                (if decide (bl.type = .BL_PC) = true
                    ∧ (E.pc_checkskill w2 id SA_FREECAST > 0 ∨ sk = LG_EXEEDBREAK) then
                  (E.hook (.status_calc_bl id) w2).2 else w2).modBlock id
                  (fun b => { b with sd := { b.sd with canequip_tick := w.gettick } })
              else (if decide (bl.type = .BL_PC) = true
                    ∧ (E.pc_checkskill w2 id SA_FREECAST > 0 ∨ sk = LG_EXEEDBREAK) then
                  (E.hook (.status_calc_bl id) w2).2 else w2)) := by
    unfold unit_skillcastcancel
    rw [hbl]
    dsimp only
    rw [hud0]
    dsimp only
    rw [if_neg h1, if_neg hg, ← hw1, ← hsk]
    have hdel : (if E.skill_ground sk = true then
          delete_timer w1 bl.ud.skilltimer .skill_castend_pos
        else delete_timer w1 bl.ud.skilltimer .skill_castend_id)
        = delete_timer w1 bl.ud.skilltimer (castend_func E sk) := by
      unfold castend_func
      split <;> rfl
    rw [hdel, ← hw2]
  rw [hres]
  exact key w2 hs2 hk2 hc2 hn2 hd2 _ _ _

theorem skilluse_id_schedule_instant_eq (E : Env) (w : World) (id : Int) (sd : Option Int)
    (skill_id : Int) {c : Int} (tick : Int) (hc : c ≤ 0) :
    skilluse_id_schedule E w id sd skill_id c tick
      = skilluse_canlog E (E.hook (.skill_castend_id (w.UD id).skilltimer tick id 0) w).2 sd := by
  unfold skilluse_id_schedule
  dsimp only
  rw [if_neg (not_lt.mpr hc)]

/-- C19, amended: for every entity whose `skilltimer` is live, a request through
`unit_skilluse_pos2` returns 0 and leaves the state unchanged; so does a request through
`unit_skilluse_id2` for any skill but `SA_CASTCANCEL` and `SO_SPELLFIST`; and a request
through `unit_skilluse_id2` for one of these two skills whose adjusted cast time is not
positive schedules no timer and leaves the stored handle alone. (The collaborators leave
the scheduling state alone.) -/
theorem cast_request_while_casting (E : Env) (hf : E.hooks_frame) (w : World)
    (id skill_id skill_lv casttime castcancel : Int) (walkqueue : Bool)
    (hlive : (w.UD id).skilltimer ≠ INVALID_TIMER) :
    (∀ x y, unit_skilluse_pos2 E w id x y skill_id skill_lv casttime castcancel walkqueue
        = (0, w))
    ∧ (∀ target_id, skill_id ≠ SA_CASTCANCEL → skill_id ≠ SO_SPELLFIST →
        unit_skilluse_id2 E w id target_id skill_id skill_lv casttime castcancel walkqueue
          = (0, w))
    ∧ (∀ target_id,
        (∀ tid ct w3, (E.hook (.skill_casttime id tid skill_id skill_lv ct) w3).1 ≤ 0) →
        ((unit_skilluse_id2 E w id target_id skill_id skill_lv casttime castcancel
            walkqueue).2.UD id).skilltimer = (w.UD id).skilltimer
        ∧ World.TimersLe (fun _ => True) w
            (unit_skilluse_id2 E w id target_id skill_id skill_lv casttime castcancel
              walkqueue).2) := by
  refine ⟨fun x y => ?_, fun target_id h1 h2 => ?_, fun target_id hc => ?_⟩
  · unfold unit_skilluse_pos2
    rw [skilluse_pos_start_casting E w id x y skill_id skill_lv casttime castcancel walkqueue
      hlive]
  · unfold unit_skilluse_id2
    rw [skilluse_id_start_casting E w id target_id skill_id skill_lv casttime castcancel
      walkqueue hlive h1 h2]
  · have v1 := skilluse_id_start_same (fun b => b.ud.skilltimer)
      (fun _ _ _ _ _ _ _ _ _ _ _ _ _ _ => rfl) (fun _ _ _ _ _ _ => rfl)
      (fun _ _ _ _ _ _ _ _ _ => rfl) (fun _ _ _ _ _ _ => rfl) hf w id target_id skill_id
      skill_lv casttime castcancel walkqueue
    have v2 := skilluse_id_start_timersLe (P := fun _ => True) hf w id target_id skill_id
      skill_lv casttime castcancel walkqueue
    unfold unit_skilluse_id2
    cases hst : skilluse_id_start E w id target_id skill_id skill_lv casttime castcancel
        walkqueue with
    | refused r W =>
      rw [hst] at v1 v2
      exact ⟨World.Same.UD (g := fun u => u.skilltimer) v1 id, v2⟩
    | ready W sd c =>
      rw [hst] at v1 v2
      obtain ⟨-, ⟨tid, combo, ct, -, ⟨w3, hc3⟩, -⟩, -⟩ := skilluse_id_start_facts hf hst
      have hc0 : c ≤ 0 := by rw [hc3]; exact hc tid ct w3
      dsimp only
      rw [skilluse_id_schedule_instant_eq E W id sd skill_id w.gettick hc0]
      refine ⟨?_, ?_⟩
      · exact World.Same.UD (g := fun u => u.skilltimer)
          (skilluse_canlog_same (fun b => b.ud.skilltimer) (fun _ _ => rfl) E sd
            (World.Same.hook hf _ v1)) id
      · exact skilluse_canlog_timersLe E sd (World.TimersLe.tl_hook hf _ v2)

/-- Witness for C19, amended: the player of `castingWorld`, whose cast timer 5 is pending,
requests the skill 5 on the monster 2, a ground skill, and `SA_CASTCANCEL` on itself
without cast time: the first two are refused with the world unchanged, the third is
accepted and the stored handle stays 5. -/
theorem cast_request_while_casting_witness :
    unit_skilluse_pos2 skillEnv castingWorld 1 12 10 5 1 300 1 false = (0, castingWorld)
    ∧ unit_skilluse_id2 skillEnv castingWorld 1 2 5 1 300 1 false = (0, castingWorld)
    ∧ (unit_skilluse_id2 skillEnv castingWorld 1 1 SA_CASTCANCEL 1 0 1 false).1 = 1
    ∧ ((unit_skilluse_id2 skillEnv castingWorld 1 1 SA_CASTCANCEL 1 0 1 false).2.UD
        1).skilltimer = 5 :=
  have h := cast_request_while_casting skillEnv skillEnv_frame castingWorld 1 5 1 300 1 false
    (by decide)
  ⟨h.1 12 10, h.2.1 2 (by decide) (by decide), by decide, by decide⟩

/-- Counterexample for C19: the player of `castingWorld`, whose cast timer 5 is pending for
tick 500, requests `SA_CASTCANCEL` on itself with a cast time of 100 ms through
`unit_skilluse_id2`. The request is accepted: the stored handle is overwritten with 6, and
two cast timers are pending, the new one and the first. -/
theorem cast_request_while_casting_counterexample :
    (castingWorld.UD 1).skilltimer = 5
    ∧ castingWorld.timers = [⟨5, 500, .skill_castend_id, 1, 0⟩]
    ∧ (unit_skilluse_id2 skillEnv castingWorld 1 1 SA_CASTCANCEL 1 100 1 true).1 = 1
    ∧ ((unit_skilluse_id2 skillEnv castingWorld 1 1 SA_CASTCANCEL 1 100 1 true).2.UD
        1).skilltimer = 6
    ∧ (unit_skilluse_id2 skillEnv castingWorld 1 1 SA_CASTCANCEL 1 100 1 true).2.timers
        = [⟨6, 100, .skill_castend_id, 1, 0⟩, ⟨5, 500, .skill_castend_id, 1, 0⟩] := by
  decide


/-! ### Movement eligibility while casting or delayed (C20) -/

/-- C20: for every entity with a live cast timer that is not exempt (the skill being cast
is not LG_EXEEDBREAK, and the entity is not a player with Free Cast casting a non-guild
skill), and for every entity whose `canmove_tick` is later than the current tick,
`unit_can_move` returns 0 (and changes nothing). -/
theorem unit_can_move_blocked (E : Env) (w : World) (id : Int) (bl : Block)
    (hbl : w.units id = some bl)
    (h : (bl.ud.skilltimer ≠ INVALID_TIMER ∧ bl.ud.skill_id ≠ LG_EXEEDBREAK
          ∧ ¬ (bl.type = .BL_PC ∧ E.pc_checkskill w id SA_FREECAST ≠ 0
                ∧ E.skill_is_guild bl.ud.skill_id = false))
        ∨ bl.ud.canmove_tick > w.gettick) :
    unit_can_move E w id = (0, w) := by
  unfold unit_can_move
  rw [hbl]
  dsimp only
  cases hud : unit_bl2ud bl with
  | none => rfl
  | some ud =>
    have hude := unit_bl2ud_eq hud
    subst hude
    dsimp only
    rcases h with ⟨h1, h2, h3⟩ | h
    · have hc : (bl.ud.skilltimer != INVALID_TIMER && bl.ud.skill_id != LG_EXEEDBREAK
          && (!decide (bl.type = .BL_PC) || E.pc_checkskill w id SA_FREECAST == 0
              || E.skill_is_guild bl.ud.skill_id)) = true := by
        simp only [Bool.and_eq_true, bne_iff_ne, ne_eq, Bool.or_eq_true, Bool.not_eq_true',
          decide_eq_false_iff_not, beq_iff_eq]
        refine ⟨⟨h1, h2⟩, ?_⟩
        by_cases hp : bl.type = .BL_PC
        · by_cases hk : E.pc_checkskill w id SA_FREECAST = 0
          · exact Or.inl (Or.inr hk)
          · by_cases hg : E.skill_is_guild bl.ud.skill_id = true
            · exact Or.inr hg
            · exact absurd ⟨hp, hk, by simpa using hg⟩ h3
        · exact Or.inl (Or.inl hp)
      rw [if_pos hc]
    · split
      · rfl
      · rw [if_pos (by omega)]

/-- Witness for C20: the casting player of `castingWorld`, who has no Free Cast, and the
resting player under a walk delay until tick 5. -/
theorem unit_can_move_blocked_witness :
    unit_can_move exampleEnv castingWorld 1 = (0, castingWorld)
    ∧ unit_can_move exampleEnv
        (restingWorld.setBlock 1 { restingBlock with ud := { canmove_tick := 5 } }) 1
      = (0, restingWorld.setBlock 1 { restingBlock with ud := { canmove_tick := 5 } }) :=
  ⟨unit_can_move_blocked exampleEnv castingWorld 1 casterBlock rfl
      (Or.inl ⟨by decide, by decide, fun h => h.2.1 rfl⟩),
   unit_can_move_blocked exampleEnv _ 1 { restingBlock with ud := { canmove_tick := 5 } } rfl
      (Or.inr (by decide))⟩
/-! ### The step index never exceeds the path length (C21) -/

/-- C22: `unit_remove_map_` is idempotent. A call on an entity that is off the map
(`bl->prev == NULL`) returns 0 and changes nothing. Every call returns, and a second call
right after it returns 0 and changes nothing: the control block, the user counters of the
maps, the spatial index and the rest of the state are those the first call left. -/
theorem unit_remove_map_idempotent (E : Env) (n : Nat) (s : MapState) (id clrtype : Int)
    (file : String) (line : Int) (func : String) :
    (∀ b, s.world.units id = some b → b.prev = false →
        unit_remove_map_ E (n + 1) s id clrtype file line func = some (0, s))
    ∧ ∃ r s1, unit_remove_map_ E (n + 1) s id clrtype file line func = some (r, s1)
        ∧ ∀ m clrtype2 file2 line2 func2,
            unit_remove_map_ E (m + 1) s1 id clrtype2 file2 line2 func2 = some (0, s1) := by
  constructor
  · intro b hb hp
    exact unit_remove_map_body_off E _ s id clrtype file line func
      (fun b1 h1 => by rw [hb] at h1; cases h1; exact Or.inr hp)
  · obtain ⟨r, s1, h1, h2⟩ := unit_remove_map_body_total E
      (fun s id clrtype => unit_remove_map_ E n s id clrtype "unit.cpp" 3252 "unit_free")
      s id clrtype file line func
    exact ⟨r, s1, h1, fun m clrtype2 file2 line2 func2 =>
      unit_remove_map_body_off E _ s1 id clrtype2 file2 line2 func2 h2⟩

/-- Witness for C22: the removal of the player of `leftWorld`, who is off the map, returns
0 and changes nothing; the removal of the walking, attacking player of `busyWorld`
returns, and a second removal returns 0 and changes nothing. -/
theorem unit_remove_map_idempotent_witness :
    unit_remove_map_ exampleEnv 1 { world := leftWorld } 1 0 "pc.cpp" 1 "pc_setpos"
      = some (0, { world := leftWorld })
    ∧ ∃ r s1, unit_remove_map_ exampleEnv 1 { world := busyWorld } 1 0 "pc.cpp" 1 "pc_setpos"
          = some (r, s1)
        ∧ unit_remove_map_ exampleEnv 1 s1 1 0 "pc.cpp" 1 "pc_setpos" = some (0, s1) :=
  have h0 := unit_remove_map_idempotent exampleEnv 0 { world := leftWorld } 1 0 "pc.cpp" 1
    "pc_setpos"
  have h := unit_remove_map_idempotent exampleEnv 0 { world := busyWorld } 1 0 "pc.cpp" 1
    "pc_setpos"
  ⟨h0.1 leftBlock rfl rfl,
    h.2.elim (fun r hr => hr.elim (fun s1 hs => ⟨r, s1, hs.1, hs.2 0 0 "pc.cpp" 1 "pc_setpos"⟩))⟩

/-! ### What a removal from the map leaves behind (C23) -/

/-- What lines 2914-2929 of `unit_remove_map_` leave behind: no timer handle, no target,
no deferred action, and the attack and move times set to now. The chase target and the
deferred skill are cleared when an action was deferred or a step timer was pending, and
keep their values otherwise. -/
theorem remove_map_stop_spec {E : Env} (hf : E.hooks_frame) {w : World} {id : Int} {b : Block}
    (hb : w.units id = some b) (hu : (unit_bl2ud b).isSome = true) :
    ((remove_map_stop E w id).units id).isSome = true
    ∧ ((remove_map_stop E w id).UD id).walktimer = INVALID_TIMER
    ∧ ((remove_map_stop E w id).UD id).attacktimer = INVALID_TIMER
    ∧ ((remove_map_stop E w id).UD id).skilltimer = INVALID_TIMER
    ∧ ((remove_map_stop E w id).UD id).steptimer = INVALID_TIMER
    ∧ ((remove_map_stop E w id).UD id).target = 0
    ∧ ((remove_map_stop E w id).UD id).stepaction = false
    ∧ ((remove_map_stop E w id).UD id).attackabletime = w.gettick
    ∧ ((remove_map_stop E w id).UD id).canmove_tick = w.gettick
    ∧ (b.ud.stepaction = true ∨ b.ud.steptimer ≠ INVALID_TIMER →
        ((remove_map_stop E w id).UD id).target_to = 0
        ∧ ((remove_map_stop E w id).UD id).stepskill_id = 0
        ∧ ((remove_map_stop E w id).UD id).stepskill_lv = 0)
    ∧ (¬ (b.ud.stepaction = true ∨ b.ud.steptimer ≠ INVALID_TIMER) →
        ((remove_map_stop E w id).UD id).target_to = b.ud.target_to
        ∧ ((remove_map_stop E w id).UD id).stepskill_id = b.ud.stepskill_id
        ∧ ((remove_map_stop E w id).UD id).stepskill_lv = b.ud.stepskill_lv) := by
  have hud0 : (w.ud id).isSome := by rw [ud_of_units hb]; exact hu
  have hB0 : w.BL id = b := BL_of_units hb
  -- the walk
  obtain ⟨w1, hw1⟩ : ∃ w1, w1 = (if (w.UD id).walktimer ≠ INVALID_TIMER then
      (unit_stop_walking E w id 0).2 else w) := ⟨_, rfl⟩
  have a1 : (w1.BL id).ud.walktimer = INVALID_TIMER := by
    rw [← UD_eq_BL, hw1]
    split
    · exact unit_stop_walking_zero_idle hf hud0
    · rename_i h; exact not_not.mp h
  have s1 : World.Same (fun b : Block => (b.type, b.ud.skilltimer, b.ud.attacktimer, b.ud.target,
      b.ud.steptimer, b.ud.stepaction, b.ud.target_to, b.ud.stepskill_id, b.ud.stepskill_lv))
      w w1 := by
    rw [hw1]
    split
    · refine unit_stop_walking_same _ ?_ hf id 0 ?_ (World.Same.refl _ _)
      · intros; rfl
      · intros; rfl
    · exact World.Same.refl _ _
  have t1 : w1.gettick = w.gettick := by
    rw [hw1]
    split
    · exact unit_stop_walking_zero_clock hf w id
    · rfl
  have hud1 : (w1.ud id).isSome := ud_isSome_of_same (s1.mono (fun t => t.1)) hud0
  have e1 := s1.BL id
  simp only [Prod.mk.injEq] at e1
  obtain ⟨-, e1sk, e1at, e1tg, e1st, e1sa, e1tt, e1si, e1sl⟩ := e1
  -- the cast
  obtain ⟨w2, hw2⟩ : ∃ w2, w2 = (if (w1.UD id).skilltimer ≠ INVALID_TIMER then
      (unit_skillcastcancel E w1 id 0).2 else w1) := ⟨_, rfl⟩
  have a2 : (w2.BL id).ud.skilltimer = INVALID_TIMER := by
    rw [← UD_eq_BL, hw2]
    split
    · rename_i h
      obtain ⟨b1, hb1⟩ := Option.isSome_iff_exists.mp (ud_isSome_units hud1)
      have hu1 : (unit_bl2ud b1).isSome = true := by rw [ud_of_units hb1] at hud1; exact hud1
      have hsk : b1.ud.skilltimer ≠ INVALID_TIMER := by
        rw [UD_eq_BL, BL_of_units hb1] at h; exact h
      exact (unit_skillcastcancel_done hf hb1 hu1
        ⟨hsk, fun h2 => absurd h2 (by decide)⟩).2.1
    · rename_i h; exact not_not.mp h
  have s2 : World.Same (fun b : Block => (b.type, b.ud.walktimer, b.ud.attacktimer, b.ud.target,
      b.ud.steptimer, b.ud.stepaction, b.ud.target_to, b.ud.stepskill_id, b.ud.stepskill_lv))
      w1 w2 := by
    rw [hw2]
    split
    · refine unit_skillcastcancel_same _ ?_ hf id 0 (World.Same.refl _ _)
      intros; rfl
    · exact World.Same.refl _ _
  have t2 : w2.gettick = w.gettick := by
    rw [hw2, ← t1]
    split
    · exact unit_skillcastcancel_clock hf w1 id 0
    · rfl
  have hud2 : (w2.ud id).isSome := ud_isSome_of_same (s2.mono (fun t => t.1)) hud1
  have e2 := s2.BL id
  simp only [Prod.mk.injEq] at e2
  obtain ⟨-, e2wt, e2at, e2tg, e2st, e2sa, e2tt, e2si, e2sl⟩ := e2
  -- the attack
  obtain ⟨w3, hw3⟩ : ∃ w3, w3 = (if (w2.UD id).target ≠ 0 ∨ (w2.UD id).attacktimer ≠ INVALID_TIMER
      then unit_stop_attack w2 id else w2) := ⟨_, rfl⟩
  have a3 : (w3.BL id).ud.target = 0 ∧ (w3.BL id).ud.attacktimer = INVALID_TIMER := by
    rw [← UD_eq_BL, hw3]
    split
    · exact unit_stop_attack_spec hud2
    · rename_i h
      rw [not_or, not_not, not_not] at h
      exact h
  have s3 : World.Same (fun b : Block => (b.type, b.ud.walktimer, b.ud.skilltimer,
      b.ud.steptimer, b.ud.stepaction, b.ud.target_to, b.ud.stepskill_id, b.ud.stepskill_lv))
      w2 w3 := by
    rw [hw3]
    split
    · refine unit_stop_attack_same _ ?_ id (World.Same.refl _ _)
      intros; rfl
    · exact World.Same.refl _ _
  have t3 : w3.gettick = w.gettick := by
    rw [hw3, ← t2]
    split
    · exact unit_stop_attack_clock w2 id
    · rfl
  have hud3 : (w3.ud id).isSome := ud_isSome_of_same (s3.mono (fun t => t.1)) hud2
  have e3 := s3.BL id
  simp only [Prod.mk.injEq] at e3
  obtain ⟨-, e3wt, e3sk, e3st, e3sa, e3tt, e3si, e3sl⟩ := e3
  -- the deferred action
  obtain ⟨w4, hw4⟩ : ∃ w4, w4 = (if (w3.UD id).stepaction = true
      ∨ (w3.UD id).steptimer ≠ INVALID_TIMER then unit_stop_stepaction w3 id else w3) := ⟨_, rfl⟩
  have hsa3 : (w3.UD id).stepaction = b.ud.stepaction := by
    rw [UD_eq_BL, e3sa, e2sa, e1sa, hB0]
  have hst3 : (w3.UD id).steptimer = b.ud.steptimer := by
    rw [UD_eq_BL, e3st, e2st, e1st, hB0]
  have a4 : (w4.BL id).ud.stepaction = false ∧ (w4.BL id).ud.steptimer = INVALID_TIMER
      ∧ (b.ud.stepaction = true ∨ b.ud.steptimer ≠ INVALID_TIMER →
          (w4.BL id).ud.target_to = 0 ∧ (w4.BL id).ud.stepskill_id = 0
          ∧ (w4.BL id).ud.stepskill_lv = 0)
      ∧ (¬ (b.ud.stepaction = true ∨ b.ud.steptimer ≠ INVALID_TIMER) →
          (w4.BL id).ud.target_to = b.ud.target_to ∧ (w4.BL id).ud.stepskill_id = b.ud.stepskill_id
          ∧ (w4.BL id).ud.stepskill_lv = b.ud.stepskill_lv) := by
    rw [← UD_eq_BL, hw4, hsa3, hst3]
    split
    · rename_i h
      obtain ⟨p1, p2, p3, p4, p5, -⟩ := unit_stop_stepaction_spec hud3
      exact ⟨p1, p5, fun _ => ⟨p2, p3, p4⟩, fun hn => absurd h hn⟩
    · rename_i h
      have h' := h
      rw [not_or, not_not] at h'
      refine ⟨?_, ?_, fun hy => absurd hy h, fun _ => ?_⟩
      · rw [hsa3]; simpa using h'.1
      · rw [hst3]; exact h'.2
      · rw [UD_eq_BL, e3tt, e2tt, e1tt, e3si, e2si, e1si, e3sl, e2sl, e1sl, hB0]
        exact ⟨rfl, rfl, rfl⟩
  have s4 : World.Same (fun b : Block => (b.type, b.ud.walktimer, b.ud.skilltimer,
      b.ud.attacktimer, b.ud.target)) w3 w4 := by
    rw [hw4]
    split
    · refine unit_stop_stepaction_same _ ?_ id (World.Same.refl _ _)
      intros; rfl
    · exact World.Same.refl _ _
  have t4 : w4.gettick = w.gettick := by
    rw [hw4, ← t3]
    split
    · exact unit_stop_stepaction_clock w3 id
    · rfl
  have hud4 : (w4.ud id).isSome := ud_isSome_of_same (s4.mono (fun t => t.1)) hud3
  have hs4 : (w4.units id).isSome := ud_isSome_units hud4
  have e4 := s4.BL id
  simp only [Prod.mk.injEq] at e4
  obtain ⟨-, e4wt, e4sk, e4at, e4tg⟩ := e4
  have hW : remove_map_stop E w id = w4.modUd id (fun u =>
      { u with attackabletime := w4.gettick, canmove_tick := w4.gettick }) := by
    unfold remove_map_stop
    dsimp only
    rw [← hw1, ← hw2, ← hw3, ← hw4]
  rw [hW, UD_modUd _ hs4, isSome_modUd, UD_eq_BL]
  dsimp only
  refine ⟨hs4, ?_, ?_, ?_, a4.2.1, ?_, a4.1, t4, t4, a4.2.2.1, a4.2.2.2⟩
  · rw [e4wt, e3wt, e2wt]; exact a1
  · rw [e4at]; exact a3.2
  · rw [e4sk, e3sk]; exact a2
  · rw [e4tg]; exact a3.1

/-- C23, amended: for every entity of every kind, when `unit_remove_map_` returns 1 all four
timer handles are cancelled (`walktimer`, `attacktimer`, `skilltimer`, `steptimer` are
INVALID_TIMER), the attack target is 0, no action is deferred (`stepaction` is false),
`attackabletime` and `canmove_tick` are the current tick, and the entity has left the
spatial index. The rest of the deferred buffer, `target_to`, `stepskill_id` and
`stepskill_lv`, is 0 when on entry an action was deferred or a step timer was pending
(line 2925); otherwise `unit_stop_stepaction` is not called and the three members keep
their values. (The collaborators leave the scheduling state alone.) -/
theorem unit_remove_map_clears (E : Env) (hf : E.hooks_frame) (n : Nat) (s : MapState)
    (id clrtype : Int) (file : String) (line : Int) (func : String) (b : Block)
    (hb : s.world.units id = some b)
    (hr : (unit_remove_map_ E (n + 1) s id clrtype file line func).map (fun r => r.1) = some 1) :
    ∃ s1, unit_remove_map_ E (n + 1) s id clrtype file line func = some (1, s1)
      ∧ (s1.world.UD id).walktimer = INVALID_TIMER
      ∧ (s1.world.UD id).attacktimer = INVALID_TIMER
      ∧ (s1.world.UD id).skilltimer = INVALID_TIMER
      ∧ (s1.world.UD id).steptimer = INVALID_TIMER
      ∧ (s1.world.UD id).target = 0
      ∧ (s1.world.UD id).stepaction = false
      ∧ (s1.world.UD id).attackabletime = s.world.gettick
      ∧ (s1.world.UD id).canmove_tick = s.world.gettick
      ∧ (s1.world.BL id).prev = false
      ∧ (b.ud.stepaction = true ∨ b.ud.steptimer ≠ INVALID_TIMER →
          (s1.world.UD id).target_to = 0 ∧ (s1.world.UD id).stepskill_id = 0
          ∧ (s1.world.UD id).stepskill_lv = 0)
      ∧ (¬ (b.ud.stepaction = true ∨ b.ud.steptimer ≠ INVALID_TIMER) →
          (s1.world.UD id).target_to = b.ud.target_to
          ∧ (s1.world.UD id).stepskill_id = b.ud.stepskill_id
          ∧ (s1.world.UD id).stepskill_lv = b.ud.stepskill_lv) := by
  cases hres : unit_remove_map_ E (n + 1) s id clrtype file line func with
  | none => rw [hres] at hr; simp at hr
  | some r =>
    obtain ⟨r1, s1⟩ := r
    rw [hres] at hr
    simp only [Option.map_some', Option.some.injEq] at hr
    subst hr
    refine ⟨s1, rfl, ?_⟩
    have hbody : unit_remove_map_body E
        (unit_free_body E (fun s id clrtype =>
          unit_remove_map_ E n s id clrtype "unit.cpp" 3252 "unit_free"))
        s id clrtype file line func = some (1, s1) := hres
    obtain ⟨bl, hbl, hud, -⟩ := unit_remove_map_body_on hbody
    obtain ⟨wm, hsame, hworld⟩ :=
      unit_remove_map_body_done Block.settled (fun _ _ _ _ => rfl) hf _ hbody
    rw [hb] at hbl
    cases hbl
    obtain ⟨p0, p1, p2, p3, p4, p5, p6, p7, p8, p9, p10⟩ := remove_map_stop_spec hf hb hud
    have hsm : (wm.units id).isSome := by rw [hsame.isSome]; exact p0
    have e := hsame.BL id
    unfold Block.settled at e
    simp only [Prod.mk.injEq] at e
    obtain ⟨e1, e2, e3, e4, e5, e6, e7, e8, e9, e10, e11⟩ := e
    have hB : s1.world.BL id = { wm.BL id with prev := false } := by
      rw [hworld]
      unfold map_delblock
      rw [BL_modBlock _ hsm]
    simp only [UD_eq_BL] at p1 p2 p3 p4 p5 p6 p7 p8 p9 p10 ⊢
    rw [hB]
    dsimp only
    rw [e1, e2, e3, e4, e5, e6, e7, e8, e9, e10, e11]
    exact ⟨p1, p2, p3, p4, p5, p6, p7, p8, rfl, p9, p10⟩

/-- Witness for C23: the player of `busyWorld` walks, attacks and holds a deferred skill
request, with three timers pending; removed from the map it has no timer handle, no
target and an empty buffer, and it is off the spatial index. -/
theorem unit_remove_map_clears_witness :
    ∃ s1, unit_remove_map_ exampleEnv 1 { world := busyWorld } 1 0 "pc.cpp" 1 "pc_setpos"
        = some (1, s1)
      ∧ (s1.world.UD 1).walktimer = INVALID_TIMER
      ∧ (s1.world.UD 1).attacktimer = INVALID_TIMER
      ∧ (s1.world.UD 1).skilltimer = INVALID_TIMER
      ∧ (s1.world.UD 1).steptimer = INVALID_TIMER
      ∧ (s1.world.UD 1).target = 0
      ∧ (s1.world.UD 1).stepaction = false
      ∧ (s1.world.UD 1).attackabletime = 150
      ∧ (s1.world.UD 1).canmove_tick = 150
      ∧ (s1.world.BL 1).prev = false
      ∧ (s1.world.UD 1).target_to = 0 ∧ (s1.world.UD 1).stepskill_id = 0
      ∧ (s1.world.UD 1).stepskill_lv = 0 :=
  (unit_remove_map_clears exampleEnv exampleEnv_frame 0 { world := busyWorld } 1 0 "pc.cpp" 1
    "pc_setpos" (busyWorld.BL 1) rfl (by decide)).elim
    (fun s1 h => ⟨s1, h.1, h.2.1, h.2.2.1, h.2.2.2.1, h.2.2.2.2.1, h.2.2.2.2.2.1,
      h.2.2.2.2.2.2.1, h.2.2.2.2.2.2.2.1, h.2.2.2.2.2.2.2.2.1, h.2.2.2.2.2.2.2.2.2.1,
      h.2.2.2.2.2.2.2.2.2.2.1 (Or.inl rfl)⟩)

/-- Counterexample for C23 as stated: the monster of `trackWorld` chases the player 2
(`target_to = 2`) with no action deferred and no step timer pending. Its removal from the
map returns 1 and leaves `target_to = 2`: the test of line 2925 fails, so
`unit_stop_stepaction` is not called. -/
theorem unit_remove_map_clears_counterexample :
    (unit_remove_map_ exampleEnv 1 { world := trackWorld } 1 0 "mob.cpp" 1 "mob_warp").map
      (fun r => (r.1, (r.2.world.UD 1).stepaction, (r.2.world.UD 1).steptimer,
        (r.2.world.UD 1).target_to)) = some (1, false, INVALID_TIMER, 2) := by
  decide


/-! ## C24: the recall timer of a slave -/

/-- C24, amended: for every slave (homunculus, elemental, pet, mercenary) with a master
and a non-zero maximum distance for its kind, `unit_check_start_teleport_timer` returns 0
and: if the slave is farther than the maximum distance and no recall timer handle is
stored (`INVALID_TIMER` or 0), exactly one timer `unit_teleport_timer` is scheduled 3000 ms
ahead and its handle is stored; if it is farther and a handle is stored, nothing changes;
if it is within the maximum distance, the stored handle becomes `INVALID_TIMER` and a
pending recall timer under the stored handle is deleted from the timer service. Nothing
but the handle changes in any block. -/
theorem recall_timer_checked (E : Env) (w : World) (sid mid : Int) (sbl msd : Block)
    (hs : w.units sid = some sbl) (hk : is_slave sbl) (hm : sbl.master = some mid)
    (hmsd : w.units mid = some msd) (hdist : slave_max_dist E sbl.type ≠ 0) :
    (unit_check_start_teleport_timer E w sid).1 = 0
    ∧ World.Same (fun b => { b with masterteleport_timer := 0 }) w
        (unit_check_start_teleport_timer E w sid).2
    ∧ (check_distance_bl E msd sbl (slave_max_dist E sbl.type) = false →
        (sbl.masterteleport_timer = INVALID_TIMER ∨ sbl.masterteleport_timer = 0) →
        (unit_check_start_teleport_timer E w sid).2.timers
            = ⟨w.next_tid, w.gettick + 3000, .unit_teleport_timer, sid,
                slave_max_dist E sbl.type⟩ :: w.timers
          ∧ ((unit_check_start_teleport_timer E w sid).2.BL sid).masterteleport_timer
            = w.next_tid)
    ∧ (check_distance_bl E msd sbl (slave_max_dist E sbl.type) = false →
        sbl.masterteleport_timer ≠ INVALID_TIMER → sbl.masterteleport_timer ≠ 0 →
        unit_check_start_teleport_timer E w sid = (0, w))
    ∧ (check_distance_bl E msd sbl (slave_max_dist E sbl.type) = true →
        ((unit_check_start_teleport_timer E w sid).2.BL sid).masterteleport_timer
            = INVALID_TIMER
          ∧ (∀ td, sbl.masterteleport_timer ≠ INVALID_TIMER → sbl.masterteleport_timer ≠ 0 →
              get_timer w sbl.masterteleport_timer = some td →
              td.func = .unit_teleport_timer →
              get_timer (unit_check_start_teleport_timer E w sid).2 sbl.masterteleport_timer
                  = none
                ∧ (unit_check_start_teleport_timer E w sid).2.timers
                  = w.timers.filter (fun t => t.tid != sbl.masterteleport_timer))
          ∧ ((sbl.masterteleport_timer = INVALID_TIMER ∨ sbl.masterteleport_timer = 0) →
              (unit_check_start_teleport_timer E w sid).2.timers = w.timers)) := by
  have hsome : (w.units sid).isSome = true := by rw [hs]; rfl
  have hsame := unit_check_start_teleport_timer_keeps
    (fun b : Block => ({ b with masterteleport_timer := 0 } : Block)) (fun _ _ => rfl) E sid
    (World.Same.refl _ w)
  refine ⟨?_, hsame, ?_, ?_, ?_⟩
  · rw [unit_check_start_teleport_timer_slave E hs hk hm hmsd]
    repeat' first
      | split
      | rfl
  · intro hfar hno
    rw [unit_check_start_teleport_timer_slave E hs hk hm hmsd, if_pos hdist,
      if_pos (by rw [hfar]; rfl), if_pos hno]
    dsimp only
    refine ⟨by rw [modBlock_timers]; rfl, ?_⟩
    rw [BL_modBlock _ (by rw [add_timer_units]; exact hsome)]
  · intro hfar h1 h2
    rw [unit_check_start_teleport_timer_slave E hs hk hm hmsd, if_pos hdist,
      if_pos (by rw [hfar]; rfl), if_neg (by rintro (h | h); exact h1 h; exact h2 h)]
  · intro hnear
    rw [unit_check_start_teleport_timer_slave E hs hk hm hmsd, if_pos hdist,
      if_neg (by rw [hnear]; simp)]
    dsimp only
    refine ⟨?_, ?_, ?_⟩
    · rw [BL_modBlock _ (by split <;> simp [delete_timer_units, hsome])]
    · intro td h1 h2 hget hfunc
      rw [if_pos ⟨h2, h1⟩]
      refine ⟨?_, ?_⟩
      · rw [get_timer_congr _ (modBlock_timers _ _ _)]
        exact get_timer_delete hget hfunc
      · rw [modBlock_timers]
        unfold delete_timer
        rw [hget]
        dsimp only
        rw [if_pos hfunc]
    · intro hno
      rw [if_neg (by rintro ⟨a, b⟩; rcases hno with h | h; exact b h; exact a h), modBlock_timers]

/-- Witness for C24: in `leashWorld` the homunculus 5 is 20 cells from its master with no
recall timer, and the check schedules the timer 4 for tick 3500; in `recallWorld` it is
back within 14 cells and the check deletes the pending timer 4. -/
theorem recall_timer_checked_witness :
    (unit_check_start_teleport_timer exampleEnv leashWorld 5).2.timers
      = [⟨4, 3500, .unit_teleport_timer, 5, 14⟩]
    ∧ ((unit_check_start_teleport_timer exampleEnv leashWorld 5).2.BL 5).masterteleport_timer = 4
    ∧ ((unit_check_start_teleport_timer exampleEnv recallWorld 5).2.BL 5).masterteleport_timer
        = INVALID_TIMER
    ∧ (unit_check_start_teleport_timer exampleEnv recallWorld 5).2.timers = [] :=
  have h := (recall_timer_checked exampleEnv leashWorld 5 1
    { type := .BL_HOM, x := 30, y := 10, master := some 1 } { type := .BL_PC, x := 10, y := 10 }
    rfl (Or.inl rfl) rfl rfl (by decide)).2.2.1 (by decide) (Or.inl rfl)
  have k := (recall_timer_checked exampleEnv recallWorld 5 1
    { type := .BL_HOM, x := 12, y := 10, master := some 1, masterteleport_timer := 4 }
    { type := .BL_PC, x := 10, y := 10 } rfl (Or.inl rfl) rfl rfl (by decide)).2.2.2.2
    (by decide)
  ⟨h.1, h.2, k.1, (k.2.1 ⟨4, 3500, .unit_teleport_timer, 5, 14⟩ (by decide) (by decide) rfl
    rfl).2⟩

/-- Counterexample for C24: with `area_size` configured as 0 the maximum distance of a
homunculus is 0 and the guard of line 230 skips the check: in `leashWorld` the homunculus
is 20 cells from its master, no recall timer is pending, and none is scheduled. -/
theorem recall_timer_checked_counterexample :
    (leashWorld.BL 5).type = .BL_HOM
    ∧ (leashWorld.BL 5).master = some 1
    ∧ (leashWorld.units 1).isSome = true
    ∧ (leashWorld.BL 5).masterteleport_timer = INVALID_TIMER
    ∧ slave_max_dist { exampleEnv with area_size := 0 } .BL_HOM = 0
    ∧ check_distance_bl { exampleEnv with area_size := 0 } (leashWorld.BL 1) (leashWorld.BL 5) 0
        = false
    ∧ (unit_check_start_teleport_timer { exampleEnv with area_size := 0 } leashWorld 5).2.timers
        = []
    ∧ ((unit_check_start_teleport_timer { exampleEnv with area_size := 0 } leashWorld 5).2.BL
        5).masterteleport_timer = INVALID_TIMER := by
  decide


/-! ## C25: the chase is cancelled on the last step -/

/-- C25, amended: for a chasing entity of any kind with a control block, on the map
(`target_to = T`, not 0, no deferred action, not running, `change_walk_target` not set)
whose walk timer, pending under the handle stored in `walktimer`, fires on the last step
of the path, in a valid direction, onto a passable cell: when the target no longer exists,
or it is not visible and no warp chase of a monster takes over (`mob_warpchase` returns
0), or it is visible on another map and the chaser has the mode `MD_CANMOVE`, the firing
ends with `target_to = 0` and with `to_x`/`to_y` the cell the chaser stands on, the one it
has just entered. This holds when nothing interrupts the step (`undisturbed`): the
collaborators leave the scheduling state alone, the entity stays alive, no NPC area takes
a monster off its way, no monster skill is used on the way, no icewall holds a monster
back, and no cell is stacked beyond the limit. -/
theorem chase_cancelled_on_last_step (E : Env) (id : Int) (hu : undisturbed E id) (w : World)
    (b : Block) (td : TimerData) (T : Int)
    (hb : w.units id = some b) (hud : (unit_bl2ud b).isSome = true) (hprev : b.prev = true)
    (hget : get_timer w b.ud.walktimer = some td) (hfunc : td.func = .unit_walktoxy_timer)
    (hid : td.id = id)
    (hlast : b.ud.walkpath.path_pos + 1 = b.ud.walkpath.path_len)
    (hdir : b.ud.walkpath.at b.ud.walkpath.path_pos < DIR_MAX)
    (hpass : ∀ w1, E.map_getcell w1 b.m (b.x + dirx (b.ud.walkpath.at b.ud.walkpath.path_pos))
      (b.y + diry (b.ud.walkpath.at b.ud.walkpath.path_pos)) .CELL_CHKNOPASS = false)
    (hwalk : b.ud.walktimer ≠ INVALID_TIMER)
    (hT : b.ud.target_to = T) (hT0 : T ≠ 0) (hsa : b.ud.stepaction = false)
    (hrun : b.ud.state.running = false) (hcwt : b.ud.state.change_walk_target = false)
    (hcase : w.units T = none
      ∨ ((w.units T).isSome = true ∧ (∀ W, E.status_check_visibility W id T = false)
          ∧ (b.type ≠ .BL_MOB ∨ ∀ W, (E.hook (.mob_warpchase id T) W).1 = 0))
      ∨ ((w.units T).isSome = true ∧ (∀ W, E.status_check_visibility W id T = true)
          ∧ (w.BL T).m ≠ b.m ∧ ∀ W, E.status_has_mode W id .MD_CANMOVE = true)) :
    ((fire_walktimer E w id).UD id).target_to = 0
    ∧ (((fire_walktimer E w id).UD id).to_x, ((fire_walktimer E w id).UD id).to_y)
        = (((fire_walktimer E w id).BL id).x, ((fire_walktimer E w id).BL id).y)
    ∧ (((fire_walktimer E w id).BL id).x, ((fire_walktimer E w id).BL id).y)
        = (b.x + dirx (b.ud.walkpath.at b.ud.walkpath.path_pos),
           b.y + diry (b.ud.walkpath.at b.ud.walkpath.path_pos)) := by
  obtain ⟨W, hfire, hsome, hframe, -, hview⟩ :=
    fire_walktimer_moves_view hu hb hud hprev hget hfunc hid (by omega) hdir hpass
  have hv := hview _ (fun b : Block => (b.type, b.m, b.x, b.y, b.ud.stepaction, b.ud.target_to,
    b.ud.state.running, b.ud.state.change_walk_target, b.ud.walkpath))
    (fun _ _ _ _ _ => rfl)
  simp only [Prod.mk.injEq] at hv
  obtain ⟨v1, v2, v3, v4, v5, v6, v7, v8, v9⟩ := hv
  rw [← UD_eq_BL] at v5 v6 v7 v8 v9
  have htid : td.tid ≠ INVALID_TIMER := by rw [get_timer_tid hget]; exact hwalk
  obtain ⟨v, hv0⟩ : ∃ v, v = W.modUd id (fun u =>
    { u with walkpath := { u.walkpath with path_pos := u.walkpath.path_pos + 1 } }) := ⟨_, rfl⟩
  have hrest := unit_walktoxy_timer_rest_chase E htid td.tick
    (b.x + dirx (b.ud.walkpath.at b.ud.walkpath.path_pos))
    (b.y + diry (b.ud.walkpath.at b.ud.walkpath.path_pos)) hsome (v5.trans hsa)
    (v8.trans hcwt) (by rw [v9]; omega) (v7.trans hrun) (by rw [v6, hT]; exact hT0)
  rw [← hv0] at hrest
  rw [hfire, hrest]
  have hvs : (v.units id).isSome = true := by rw [hv0, isSome_modUd]; exact hsome
  have hWv : ∀ {α : Type} (g : Block → α),
      (∀ b wp, g { b with ud := { b.ud with walkpath := wp } } = g b) → World.Same g W v := by
    intro α g hg
    rw [hv0]
    exact World.Same.modUd _ _ (World.Same.refl g W) (fun b => hg b _)
  have hvB := (hWv (fun b => (b.type, b.m, b.x, b.y, b.ud.target_to)) (fun _ _ => rfl)).BL id
  simp only [Prod.mk.injEq] at hvB
  obtain ⟨u1, u2, u3, u4, u5⟩ := hvB
  rw [← UD_eq_BL, ← UD_eq_BL] at u5
  have hvT : (v.UD id).target_to = T := by rw [u5, v6, hT]
  have hvud : (v.ud id).isSome = true := by
    obtain ⟨vb, hvb⟩ := Option.isSome_iff_exists.mp hvs
    rw [ud_of_units hvb]
    have e : vb.type = b.type := by
      have := BL_of_units hvb
      rw [← this, u1, v1]
    rw [unit_bl2ud_congr e]
    exact hud
  -- the target's block in the world of the chase update
  have hwv : World.Same (fun b => b.m) w v :=
    (hframe _ (fun b => b.m) (fun _ _ _ _ _ _ _ _ _ _ _ _ _ _ => rfl)).trans
      (hWv (fun b => b.m) (fun _ _ => rfl))
  obtain ⟨c1, c2, c3, c4⟩ := walk_chase_part_cancel hu.frame hvud (by
    rw [hvT]
    rcases hcase with h | ⟨h1, h2, h3⟩ | ⟨h1, h2, h3, h4⟩
    · refine Or.inl ?_
      have := hwv.isSome T
      rw [h] at this
      cases hx : v.units T with
      | none => rfl
      | some x => rw [hx] at this; simp at this
    · refine Or.inr (Or.inl ⟨by rw [hwv.isSome T]; exact h1, h2 v, ?_⟩)
      rcases h3 with h | h
      · exact Or.inl (by rw [u1, v1]; exact h)
      · exact Or.inr h
    · refine Or.inr (Or.inr ⟨by rw [hwv.isSome T]; exact h1, h2 v, ?_, h4 v⟩)
      rw [hwv.BL T, u2, v2]
      exact h3)
  have hR := c1.BL id
  simp only [Prod.mk.injEq] at hR
  obtain ⟨-, -, r3, r4, -⟩ := hR
  refine ⟨c2, ?_, ?_⟩
  · rw [c3, c4, r3, r4]
  · rw [r3, r4, u3, u4, v3, v4]

/-- Witness for C25 on `strayWorld`: the monster 1 makes the last step of its chase to
(11, 10) while its target, the player 2, is on another map; the firing clears the chase
target and leaves the destination on (11, 10). -/
theorem chase_cancelled_on_last_step_witness :
    ((fire_walktimer exampleEnv strayWorld 1).UD 1).target_to = 0
    ∧ (((fire_walktimer exampleEnv strayWorld 1).UD 1).to_x,
        ((fire_walktimer exampleEnv strayWorld 1).UD 1).to_y) = (11, 10)
    ∧ (((fire_walktimer exampleEnv strayWorld 1).BL 1).x,
        ((fire_walktimer exampleEnv strayWorld 1).BL 1).y) = (11, 10) :=
  have h := chase_cancelled_on_last_step exampleEnv 1 (exampleEnv_undisturbed 1) strayWorld
    trackBlock ⟨0, 200, .unit_walktoxy_timer, 1, 200⟩ 2 rfl rfl rfl rfl rfl rfl rfl (by decide)
    (fun _ => rfl) (by decide) rfl (by decide) rfl rfl rfl
    (Or.inr (Or.inr ⟨rfl, fun _ => rfl, by decide, fun _ => rfl⟩))
  ⟨h.1, h.2.1.trans h.2.2, h.2.2⟩

/-- Counterexample for C25: in `trackWorld` the monster 1 makes the last step of its chase
while its target is not visible, and `mob_warpchase` finds a warp to follow (`blindWarpEnv`):
the firing returns at line 542 with the chase target still set. In `strayWorld` the target
is visible on another map and the chaser has lost the mode `MD_CANMOVE` (`rootedEnv`):
`unit_walktobl` returns at line 789 and the chase target is still set. In `lostWorld` the
target no longer exists, and the firing clears the chase target; but it does not reach the
chase update of lines 534-560, and the chase target is still set, when a new destination
has been requested during the step (`veerWorld`: `change_walk_target` is set and lines
509-516 return), when the next cell has become impassable (`detourEnv`: lines 380-382
return, the chaser has not moved) and when an NPC area takes the monster off its way
(`touchEnv`: line 468 returns). -/
theorem chase_cancelled_on_last_step_counterexample :
    (trackWorld.UD 1).target_to = 2
    ∧ (trackWorld.UD 1).stepaction = false
    ∧ (trackWorld.UD 1).state.running = false
    ∧ (trackWorld.UD 1).walkpath.path_pos + 1 = (trackWorld.UD 1).walkpath.path_len
    ∧ blindWarpEnv.status_check_visibility trackWorld 1 2 = false
    ∧ (((fire_walktimer blindWarpEnv trackWorld 1).BL 1).x,
        ((fire_walktimer blindWarpEnv trackWorld 1).BL 1).y) = (11, 10)
    ∧ ((fire_walktimer blindWarpEnv trackWorld 1).UD 1).target_to = 2
    ∧ (strayWorld.BL 2).m ≠ (strayWorld.BL 1).m
    ∧ (((fire_walktimer rootedEnv strayWorld 1).BL 1).x,
        ((fire_walktimer rootedEnv strayWorld 1).BL 1).y) = (11, 10)
    ∧ ((fire_walktimer rootedEnv strayWorld 1).UD 1).target_to = 2
    ∧ lostWorld.units 2 = none
    ∧ ((fire_walktimer exampleEnv lostWorld 1).UD 1).target_to = 0
    ∧ veerWorld.units 2 = none
    ∧ (veerWorld.UD 1).state.change_walk_target = true
    ∧ (((fire_walktimer exampleEnv veerWorld 1).BL 1).x,
        ((fire_walktimer exampleEnv veerWorld 1).BL 1).y) = (11, 10)
    ∧ ((fire_walktimer exampleEnv veerWorld 1).UD 1).target_to = 2
    ∧ detourEnv.map_getcell lostWorld 0 11 10 .CELL_CHKNOPASS = true
    ∧ (((fire_walktimer detourEnv lostWorld 1).BL 1).x,
        ((fire_walktimer detourEnv lostWorld 1).BL 1).y) = (10, 10)
    ∧ ((fire_walktimer detourEnv lostWorld 1).UD 1).target_to = 2
    ∧ (touchEnv.hook (.npc_touch_areanpc2 1) lostWorld).1 = 1
    ∧ (((fire_walktimer touchEnv lostWorld 1).BL 1).x,
        ((fire_walktimer touchEnv lostWorld 1).BL 1).y) = (11, 10)
    ∧ ((fire_walktimer touchEnv lostWorld 1).UD 1).target_to = 2 := by
  decide


/-! ## C26: the counter of targeters is exact -/

/-- C26: let `ids` be the entities with a control block (none has the id 0), freshly
initialised (every target and every counter 0). After any run of `unit_set_target` and
`unit_stop_attack` calls in which no entity ever has more than 254 targeters, for every
entity `unit_counttargeted` is the number of entities whose `target` is its id, and it
lies within 0..255; and a call of `unit_set_target` with the target a block already has
changes no counter. -/
theorem target_count_exact (w : World) (ids : List Int) (cs : List target_call)
    (hnd : ids.Nodup) (h0 : (0 : Int) ∉ ids)
    (hdom : ∀ k, (w.ud k).isSome = true ↔ k ∈ ids)
    (hfresh : ∀ j ∈ ids, (w.UD j).target = 0 ∧ (w.UD j).target_count = 0)
    (hb : targeters_bounded ids w cs) :
    (∀ i ∈ ids, unit_counttargeted (run_target_calls w cs) i
          = targeters (run_target_calls w cs) ids i
        ∧ 0 ≤ unit_counttargeted (run_target_calls w cs) i
        ∧ unit_counttargeted (run_target_calls w cs) i ≤ 255)
    ∧ ∀ j t, ((run_target_calls w cs).UD j).target = t →
        ∀ i, unit_counttargeted (unit_set_target (run_target_calls w cs) j t).2 i
          = unit_counttargeted (run_target_calls w cs) i := by
  have hex : counts_exact w ids := by
    intro i hi
    have hiu := (hdom i).mpr hi
    rw [counttargeted_eq hiu, (hfresh i hi).2]
    have : targeters w ids i = 0 := by
      unfold targeters
      rw [List.countP_eq_zero]
      intro k hk
      have hi0 : i ≠ 0 := fun e => h0 (e ▸ hi)
      simp [(hfresh k hk).1, Ne.symm hi0]
    rw [this]
    rfl
  obtain ⟨a1, a2, a3⟩ := counts_exact_runs hnd h0 cs w hdom hex hb
  refine ⟨fun i hi => ?_, ?_⟩
  · have e := a2 i hi
    have := a3 i
    rw [e]
    omega
  · intro j t ht i
    exact unit_set_target_again ht i

/-- Witness for C26 on `trioWorld`: the player 1 targets the monster 2, the monster 3
targets 2, the player sets the same target again, the monster 3 stops and then targets
the player: the monster 2 and the player have one targeter each. -/
theorem target_count_exact_witness :
    unit_counttargeted
        (run_target_calls trioWorld [.set 1 2, .set 3 2, .set 1 2, .stop 3, .set 3 1]) 2
      = targeters
          (run_target_calls trioWorld [.set 1 2, .set 3 2, .set 1 2, .stop 3, .set 3 1])
          [1, 2, 3] 2
    ∧ unit_counttargeted
        (run_target_calls trioWorld [.set 1 2, .set 3 2, .set 1 2, .stop 3, .set 3 1]) 2 = 1
    ∧ unit_counttargeted
        (run_target_calls trioWorld [.set 1 2, .set 3 2, .set 1 2, .stop 3, .set 3 1]) 1 = 1
    ∧ unit_counttargeted (run_target_calls trioWorld [.set 1 2, .set 3 2]) 2 = 2
    ∧ unit_counttargeted (run_target_calls trioWorld [.set 1 2, .set 3 2, .set 1 2]) 2 = 2 :=
  have h := target_count_exact trioWorld [1, 2, 3]
    [.set 1 2, .set 3 2, .set 1 2, .stop 3, .set 3 1] (by decide) (by decide)
    trioWorld_entities (by decide) (targeters_bounded_of_length (by decide) _ _)
  ⟨(h.1 2 (by decide)).1, by decide, by decide, by decide, by decide⟩


/-! ## C27: the last resort of `unit_calc_pos` -/

/-- C27, the code at the failing input: the homunculus 5 on (10, 10) is to follow its
master on (20, 30) and no candidate cell around the master is reachable. When the master's
cell (20, 30) itself is the one reachable cell, `unit_calc_pos` returns 1: line 2558 tests
the cell (20, 20), `y = tx`. When the cell (20, 20) is the one reachable cell, it returns 0
with the destination (20, 20), which is not the master's cell. -/
theorem unit_calc_pos_wrong_cell :
    unit_can_reach_pos (onlyEnv 20 30) followWorld (followWorld.BL 5) 20 30 false = true
    ∧ (unit_calc_pos (onlyEnv 20 30) followWorld 5 20 30 0 (fun i => i)).1 = 1
    ∧ unit_can_reach_pos (onlyEnv 20 20) followWorld (followWorld.BL 5) 20 30 false = false
    ∧ (unit_calc_pos (onlyEnv 20 20) followWorld 5 20 30 0 (fun i => i)).1 = 0
    ∧ ((unit_calc_pos (onlyEnv 20 20) followWorld 5 20 30 0 (fun i => i)).2.UD 5).to_x = 20
    ∧ ((unit_calc_pos (onlyEnv 20 20) followWorld 5 20 30 0 (fun i => i)).2.UD 5).to_y = 20 := by
  decide


/-! ## C28: chase trimming keeps the destination on the path -/

/-- C28: for a chasing entity (`target_to` set) with `chaserange > 1` whose pathfinder
finds a path of `n >= 1` steps that ends at `(to_x, to_y)`, `unit_walktoxy_sub` stores
the path with a length between 1 and `n` that is at most `chaserange - 1` steps shorter,
and the stored destination is the cell reached from the entity's cell by the first
`path_len` steps of the path. -/
theorem chase_trim_keeps_destination (E : Env) (w : World) (id : Int) (b : Block)
    (p : List Nat)
    (hb : w.units id = some b) (hud : (unit_bl2ud b).isSome = true)
    (hfound : E.path_search w b.m b.x b.y b.ud.to_x b.ud.to_y b.ud.state.walk_easy
      .CELL_CHKNOPASS = some p)
    (hdirect : E.OFFICIAL_WALKPATH = false
      ∨ E.path_search_long w b.m b.x b.y b.ud.to_x b.ud.to_y .CELL_CHKNOPASS = true
      ∨ p.length ≤ 14 ∨ b.type = .BL_NPC)
    (hchase : b.ud.target_to ≠ 0) (hrange : b.ud.chaserange > 1) (hn : 1 ≤ p.length)
    (hend : walk_pos b.x b.y p = (b.ud.to_x, b.ud.to_y)) :
    (unit_walktoxy_sub E w id).1 = 1
    ∧ ((unit_walktoxy_sub E w id).2.UD id).walkpath.path = p
    ∧ 1 ≤ ((unit_walktoxy_sub E w id).2.UD id).walkpath.path_len
    ∧ ((unit_walktoxy_sub E w id).2.UD id).walkpath.path_len ≤ p.length
    ∧ (p.length : Int) - ((unit_walktoxy_sub E w id).2.UD id).walkpath.path_len
        ≤ b.ud.chaserange - 1
    ∧ (((unit_walktoxy_sub E w id).2.UD id).to_x, ((unit_walktoxy_sub E w id).2.UD id).to_y)
        = walk_pos b.x b.y (p.take ((unit_walktoxy_sub E w id).2.UD id).walkpath.path_len) := by
  rw [unit_walktoxy_sub_found hb hud hfound hdirect]
  obtain ⟨s1, -, s3, s4, s5⟩ := path_store_chase p hb hchase hrange
  have hv := (walk_arm_same (fun b => (b.ud.walkpath, b.ud.to_x, b.ud.to_y))
    (fun _ _ => rfl) E id (World.Same.refl _ (path_store w id b b.ud p))).BL id
  simp only [Prod.mk.injEq] at hv
  obtain ⟨v1, v2, v3⟩ := hv
  rw [← UD_eq_BL, ← UD_eq_BL] at v1 v2 v3
  rw [v1, v2, v3, s1, s3, s4, s5]
  obtain ⟨a1, a2, a3, -, a5⟩ := chase_trim_spec p b.x b.y p.length (b.ud.chaserange * 10 - 10)
    b.ud.to_x b.ud.to_y (le_refl _) (by rw [List.take_length, hend])
  refine ⟨walk_arm_fst E _ id, rfl, a2 hn, a1, ?_, a3⟩
  have := a5 (by omega)
  simp only [MOVE_COST] at this
  omega

/-- Witness for C28 on `huntWorld`: the path of four steps east to (14, 10) is trimmed by
two steps for the chase range 3, and the destination becomes (12, 10). -/
theorem chase_trim_keeps_destination_witness :
    ((unit_walktoxy_sub exampleEnv huntWorld 1).2.UD 1).walkpath.path = [6, 6, 6, 6]
    ∧ ((unit_walktoxy_sub exampleEnv huntWorld 1).2.UD 1).walkpath.path_len = 2
    ∧ (((unit_walktoxy_sub exampleEnv huntWorld 1).2.UD 1).to_x,
        ((unit_walktoxy_sub exampleEnv huntWorld 1).2.UD 1).to_y)
        = walk_pos 10 10
            ([6, 6, 6, 6].take ((unit_walktoxy_sub exampleEnv huntWorld 1).2.UD 1).walkpath.path_len)
    ∧ walk_pos 10 10 [6, 6] = (12, 10) :=
  have h := chase_trim_keeps_destination exampleEnv huntWorld 1 huntBlock [6, 6, 6, 6] rfl rfl
    (by decide) (Or.inr (Or.inl rfl)) (by decide) (by decide) (by decide) (by decide)
  ⟨h.2.1, by decide, h.2.2.2.2.2, by decide⟩


/-! ## C29: the cell of a deferred ground skill round-trips -/

/-- C29: on a map of width `xs > 0`, for every cell `(x, y)` with `0 <= x < xs` and
`y >= 0` other than `(0, 0)`: a ground skill that `unit_skilluse_pos2` defers for a walking
player is stored with `target_to = x + y * xs`, and `unit_step_timer`, finding that buffer
on the same map, requests the skill again through `unit_skilluse_pos` for exactly the cell
`(x, y)`, with the stored skill id and level. -/
theorem ground_cell_roundtrip (E : Env) (hf : E.hooks_frame) (w : World)
    (id x y skill_id skill_lv casttime castcancel : Int) (src : Block) (ud : unit_data)
    (hsrc : w.units id = some src) (hprev : src.prev = true)
    (halive : E.status_isdead w id = false)
    (hud : unit_bl2ud src = some ud) (hblk : ud.state.blockedskill = false)
    (hidle : ud.skilltimer = INVALID_TIMER)
    (hchk : (skilluse_pos_checks E w id (decide (src.type = .BL_PC)) x y skill_id
      skill_lv).isGo = true)
    (hpc : src.type = .BL_PC) (hwalk : ud.walktimer ≠ INVALID_TIMER)
    (hfar : ∀ v r, E.battle_check_range_pos v id x y r = false)
    (hxs : 0 < E.map_xs src.m) (hx0 : 0 ≤ x) (hx : x < E.map_xs src.m) (hy : 0 ≤ y)
    (hne : (x, y) ≠ (0, 0)) :
    (unit_skilluse_pos2 E w id x y skill_id skill_lv casttime castcancel true).1 = 0
    ∧ step_buffer (unit_skilluse_pos2 E w id x y skill_id skill_lv casttime castcancel true).2 id
        = (true, x + y * E.map_xs src.m, skill_id, skill_lv)
    ∧ ∀ (W : World) (bl : Block) (tid tick data : Int),
        W.units id = some bl → bl.prev = true → (unit_bl2ud bl).isSome = true →
        bl.m = src.m → bl.ud.steptimer = tid →
        step_buffer W id = (true, x + y * E.map_xs src.m, skill_id, skill_lv) →
        skill_id ≠ 0 → E.skill_ground skill_id = true →
        unit_step_timer E tid tick id data W
          = (1, (unit_skilluse_pos E (step_cleared W id) id x y skill_id skill_lv true).2) := by
  obtain ⟨a1, a2⟩ := unit_skilluse_pos2_defers hf casttime castcancel hsrc hprev halive hud hblk
    hidle hchk hpc hwalk hfar
  refine ⟨a1, a2, ?_⟩
  intro W bl tid tick data hb hp hu hm hst hbuf hsk hg
  have hU : W.UD id = bl.ud := by rw [UD_eq_BL, BL_of_units hb]
  unfold step_buffer at hbuf
  rw [hU] at hbuf
  simp only [Prod.mk.injEq] at hbuf
  obtain ⟨b1, b2, b3, b4⟩ := hbuf
  have hz := cell_pack_ne_zero _ x y hxs hx0 hy hne
  obtain ⟨u1, u2⟩ := cell_unpack _ x y hxs hx0 hx hy
  rw [unit_step_timer_ground E tid tick data hb hp hu hst b1 (by rw [b2]; exact hz)
    (by rw [b3]; exact hsk) (by rw [b3]; exact hg), b2, b3, b4, hm, u1, u2]

/-- Witness for C29 on `walkingWorld`: the walking player 1 asks for the ground skill 9 on
the cell (12, 10) of a map 512 cells wide; the buffer holds 12 + 10 * 512 = 5132, and the
step timer scheduled by the next firing of the walk timer asks for the skill on
(12, 10). -/
theorem ground_cell_roundtrip_witness :
    step_buffer (unit_skilluse_pos2 groundEnv walkingWorld 1 12 10 9 2 300 1 true).2 1
      = (true, 5132, 9, 2)
    ∧ unit_step_timer groundEnv 2 300 1 0
        (fire_walktimer groundEnv
          (unit_skilluse_pos2 groundEnv walkingWorld 1 12 10 9 2 300 1 true).2 1)
      = (1, (unit_skilluse_pos groundEnv
              (step_cleared (fire_walktimer groundEnv
                (unit_skilluse_pos2 groundEnv walkingWorld 1 12 10 9 2 300 1 true).2 1) 1)
              1 12 10 9 2 true).2) :=
  have h := ground_cell_roundtrip groundEnv (fun _ _ => ⟨rfl, rfl, rfl, rfl⟩) walkingWorld
    1 12 10 9 2 300 1 walkingBlock walkingBlock.ud rfl rfl rfl rfl rfl rfl (by decide) rfl
    (by decide) (fun _ _ => rfl) (by decide) (by decide) (by decide) (by decide) (by decide)
  ⟨h.2.1, h.2.2 _
    ((fire_walktimer groundEnv
      (unit_skilluse_pos2 groundEnv walkingWorld 1 12 10 9 2 300 1 true).2 1).BL 1)
    2 300 0 (by decide) (by decide) (by decide) (by decide) (by decide) (by decide) (by decide)
    (by decide)⟩

/-! ### The free-block lock on the return paths of the removal (C30) -/

/-- C30, the code at the failing input: the NPC 7 of `npcWorld` is removed while the NPC
subsystem reports a failure (`npc_remove_map` returns 2). `unit_remove_map_` takes the
lock at line 2912 and returns 0 at line 3152 without `map_freeblock_unlock`: the lock
depth, 0 before the call, is 1 after it. `unit_free` of this NPC calls the removal (line
3252) between its own lock and unlock and ends at depth 1 as well. The sibling early
return of a dismissed pet (lines 3092-3099), which unlocks before it returns 0, and the
regular removal of the NPC leave the depth at 0. -/
theorem unit_remove_map_leaves_lock_open :
    (unit_remove_map_ lostNpcEnv 1 { world := npcWorld } 7 0 "npc.cpp" 1 "npc_unload").map
      (fun r => (r.1, r.2.block_free_lock)) = some (0, 1)
    ∧ (unit_free lostNpcEnv 1 { world := npcWorld } 7 0).map
      (fun r => (r.1, r.2.block_free_lock)) = some (0, 1)
    ∧ (unit_remove_map_ exampleEnv 1 { world := petWorld } 4 0 "pet.cpp" 1 "pet_return").map
      (fun r => (r.1, r.2.block_free_lock)) = some (0, 0)
    ∧ (unit_remove_map_ exampleEnv 1 { world := npcWorld } 7 0 "npc.cpp" 1 "npc_unload").map
      (fun r => (r.1, r.2.block_free_lock)) = some (1, 0) := by
  decide


end Rathena
